import Mathlib

/-!
# System controller: regulator control and FRU EEPROM decoding

A shallow embedding of `Access_Regulator`, `Access_IO_Exp`, `FMC_Vadj_Range`,
`EEPROM_Common`, `EEPROM_Board` and `EEPROM_MultiRecord` of `src/sc_common.c`
and of `Voltage_Ops`, `SFP_Ops`, `QSFP_Ops`, `DDRi2c_read`, `DIMM_spd` and
`DIMM_temperature` of `src/sc_app.c`, with the properties established about
them.

Conventions of the embedding.

* The target is the AArch64 Linux system controller of the VCK190/VMK180
  boards.  Plain `char` is unsigned there (the comparisons of buffer bytes
  with `0xC1`, `0xD2`, `0xD3`, `0xFA` in the source rely on it), `int` is 32
  bits wide, and a floating value outside the range of `unsigned int`
  converts by saturation.
* The values `Access_Regulator` keeps in a `float` are modelled with the
  arithmetic of the target (IEEE 754 binary32 and binary64, round to nearest
  with ties to even, gradual underflow, overflow to infinity, every operation
  rounded on its own); no operation of the code makes a NaN out of the values
  modelled.  The floating values that are only printed (temperatures, supply
  voltages, the voltages of the FMC records) are exact rationals.
* `mktime` is the C library and a parameter of `EEPROM_Board`, which hands
  it the `struct tm` the code fills; `utcMktime` is its instance for a zone
  without offset.
* The bus is an environment: it decides whether `open` succeeds, which value
  every `I2C_READ` / `I2C_WRITE` leaves in `Ret`, and which bytes a read
  delivers.  Every interaction is appended to a trace, and so are `close`,
  `sleep` and the values the command layer prints.
* `long` and `unsigned long` are 64 bits wide and a multi-byte object is
  stored little-endian (LP64, AArch64).  The globals the command layer reads
  (`Command.CmdId`, `T_Flag`, `Target_Arg`, `V_Flag`, the tables of devices)
  are parameters, and so is the value `strtol` returns for `Value_Arg`.
* An EEPROM buffer is the list of the bytes of the array object behind the
  `char *` argument.  Every index read is recorded; a read outside the object
  ends the call as a fault.  The `printf` output is a list of labelled lines,
  the `ERROR:` messages left out.
-/

namespace SystemController

/-! ## Regulator access -/

/-- A cell of `Out_Buffer`.  The `PMBUS_*` command codes are macros of
`sc_app.h`; they are kept symbolic. -/
inductive OutByte where
  | uninit
  | lit (b : Nat)
  | PMBUS_VOUT_MODE
  | PMBUS_READ_VOUT
  | PMBUS_OPERATION
  | PMBUS_VOUT_COMMAND
  | PMBUS_VOUT_UV_FAULT_LIMIT
  | PMBUS_VOUT_UV_WARN_LIMIT
  | PMBUS_VOUT_OV_FAULT_LIMIT
  | PMBUS_VOUT_OV_WARN_LIMIT
  deriving DecidableEq, Repr

/-- The values the command layer prints on the standard output. -/
inductive Report where
  | Name
  | Manufacturer
  | PartNumber
  | SerialNumber
  | InternalTemperature
  | SupplyVoltage
  | Alarm
  | Alarms_3_4
  | Alarms_6_7
  | Alarms_9_12
  | PowerMode
  | PowerModeOverride
  | Temperature
  | DDR4_SDRAM
  | Size_Gb
  | Size_Mb
  | TempSensor
  deriving DecidableEq, Repr

/-- A value of a binary floating type (`float`, `double`) other than a NaN: a rational
or one of the two infinities. -/
inductive FloatVal where
  | finite (q : ℚ)
  | inf
  | negInf
  deriving DecidableEq, Repr

instance : Coe ℚ FloatVal := ⟨FloatVal.finite⟩

/-- What the program does to the bus device and to the standard output, in program
order: `open`, a bus transaction, `close`, `sleep(seconds)`, the platform calls around a
QSFP access, a number printed (the argument of the `printf` conversion, before
formatting), a string printed with `%s`, the removal of the line of a regulator from the
file of boot voltages (the `sed` command handed to `system`), and the line appended to
that file. -/
inductive Event where
  | opened
  | openFailed
  | i2c_write (Address : Nat) (bytes : List OutByte)
  | i2c_read (Address : Nat) (Len : Nat) (command : OutByte)
  | closed
  | ioctlFailed
  | sleep (seconds : Nat)
  | platInit
  | platReset
  | print (item : Report) (value : ℚ)
  | printText (item : Report) (chars : List Nat)
  | bootVoltageRemoved (Name : String)
  | bootVoltageAppended (Name : String) (Voltage : FloatVal)
  deriving DecidableEq, Repr

/-- The environment of one call: the outcome of `open`, the value the `k`-th
bus transaction leaves in `Ret`, and byte `j` delivered by the `k`-th
transaction when it is a read. -/
structure Bus where
  openOk : Bool
  Ret : Nat → Int
  In : Nat → Nat → Nat

/-- The fields of `Voltage_t` that `Access_Regulator` uses.  `Supported_Volt`
is the array of `ITEMS_MAX` floats, indexed from 0. -/
structure Voltage_t where
  I2C_Address : Nat
  Part_Name : String
  Page_Select : Int
  Supported_Volt : Nat → ℚ

/-- Number of transactions issued so far and the trace. -/
structure RegState where
  n : Nat
  trace : List Event
  deriving DecidableEq, Repr

/-- State-passing computations over `RegState`. -/
def RegM (α : Type) : Type := RegState → α × RegState

instance : Monad RegM where
  pure a := fun s => (a, s)
  bind m f := fun s => f (m s).1 (m s).2

/-- The first `Len` cells of an output buffer, as sent on the wire. -/
def sent (Out_Buffer : Nat → OutByte) (Len : Nat) : List OutByte :=
  (List.range Len).map Out_Buffer

/-- Modelled from the spec: the `I2C_WRITE` macro of `sc_app.h` (absent from
the sources at hand): one write transaction carrying the first `Len` bytes of
the buffer; the bus collaborator decides the value left in `Ret`. -/
def I2C_WRITE (bus : Bus) (Address Len : Nat) (Out_Buffer : Nat → OutByte) : RegM Int :=
  fun s => (bus.Ret s.n, ⟨s.n + 1, s.trace ++ [Event.i2c_write Address (sent Out_Buffer Len)]⟩)

/-- Modelled from the spec: the `I2C_READ` macro of `sc_app.h` (absent from
the sources at hand): one read transaction of `Len` bytes addressed by the
first byte of `Out_Buffer`; the result is `Ret` and the new `In_Buffer`
(zeroed by the preceding `memset`, then filled with `Len` unsigned bytes). -/
def I2C_READ (bus : Bus) (Address Len : Nat) (Out_Buffer : Nat → OutByte) :
    RegM (Int × (Nat → Nat)) :=
  fun s => ((bus.Ret s.n, fun j => if j < Len then bus.In s.n j % 256 else 0),
    ⟨s.n + 1, s.trace ++ [Event.i2c_read Address Len (Out_Buffer 0)]⟩)

/-- Appends one event to the trace. -/
def emit (e : Event) : RegM Unit :=
  fun s => ((), ⟨s.n, s.trace ++ [e]⟩)

/-- The byte stored in a `char` cell by an assignment of an integer. -/
def toChar (i : Int) : Nat := (i % 256).toNat

/-- C `round`: nearest integer, halfway cases away from zero. -/
def C_round (x : ℚ) : Int :=
  if 0 ≤ x then ⌊x + 1 / 2⌋ else -⌊-x + 1 / 2⌋

/-- Conversion of an integral floating value to `unsigned int` (32 bits),
saturating outside the range. -/
def toUInt (r : Int) : Nat :=
  if r < 0 then 0 else if 4294967296 ≤ r then 4294967295 else r.toNat

/-- `pow(2, Exponent)`. -/
def pow2 (Exponent : Int) : ℚ := (2 : ℚ) ^ Exponent

/-- Conversion of an `int` to `short`. -/
def toShort (i : Int) : Int :=
  if i % 65536 < 32768 then i % 65536 else i % 65536 - 65536

/-- The loop of lines 33-41 of `sc_common.c`: `remaining` is
`ITEMS_MAX - Index`; the result is the final value of `Supported`. -/
def Supported_scan (Supported_Volt : Nat → ℚ) (Voltage : FloatVal) : Nat → Nat → Bool
  | 0, _ => false
  | remaining + 1, Index =>
    if Supported_Volt Index = -1 then false
    else if Voltage = FloatVal.finite (Supported_Volt Index) then true
    else Supported_scan Supported_Volt Voltage remaining (Index + 1)

/-- The nearest integer, a tie going to the even one. -/
def roundEven (x : ℚ) : Int :=
  if x - ⌊x⌋ < 1 / 2 then ⌊x⌋
  else if 1 / 2 < x - ⌊x⌋ then ⌊x⌋ + 1
  else if ⌊x⌋ % 2 = 0 then ⌊x⌋ else ⌊x⌋ + 1

/-- Modelled from IEEE 754, which the C implementation of the target follows: the value
of the binary format with `p` bits of precision and the exponents `emin .. emax` that a
real converts to.  The real is rounded to the nearest point (ties to even) of the grid of
its binade, `2 ^ (e - (p - 1))` for `2 ^ e ≤ |x| < 2 ^ (e + 1)`, or of the grid of the
binade of `2 ^ emin` when it is below it (gradual underflow); the result is an infinity
when the rounded magnitude reaches `2 ^ (emax + 1)`. -/
def roundBinary (p : Nat) (emin emax : Int) (x : ℚ) : FloatVal :=
  let e := max (Int.log 2 |x|) emin
  let u : ℚ := (2 : ℚ) ^ (e - ((p : Int) - 1))
  let r : ℚ := (roundEven (x / u) : ℚ) * u
  if (2 : ℚ) ^ (emax + 1) ≤ r then FloatVal.inf
  else if r ≤ -(2 : ℚ) ^ (emax + 1) then FloatVal.negInf
  else FloatVal.finite r

/-- Conversion of a real to `float` (binary32). -/
def toFloat (x : ℚ) : FloatVal := roundBinary 24 (-126) 127 x

/-- Conversion of a real to `double` (binary64). -/
def toDouble (x : ℚ) : FloatVal := roundBinary 53 (-1022) 1023 x

/-- The result of an operation that keeps an infinite operand as it is (a product by a
positive value, a sum with a value of the same sign, a conversion) and is `f` on a finite
one. -/
def FloatVal.lift (f : ℚ → FloatVal) : FloatVal → FloatVal
  | FloatVal.finite q => f q
  | FloatVal.inf => FloatVal.inf
  | FloatVal.negInf => FloatVal.negInf

/-- `Vout = round(v / pow(2, Exponent))` as an `unsigned int`. -/
def Vout_of (v : ℚ) (Exponent : Int) : Nat :=
  toUInt (C_round (v / pow2 Exponent))

/-- `Vout = round(v / pow(2, Exponent))` as an `unsigned int`, for the value `v` of a
`float`: the division of a `float` by a power of two is exact in `double`, and an infinite
quotient converts by saturation. -/
def Vout_float (v : FloatVal) (Exponent : Int) : Nat :=
  match v with
  | FloatVal.finite q => Vout_of q Exponent
  | FloatVal.inf => 4294967295
  | FloatVal.negInf => 0

/-- The value of the `float` `Over_Voltage_Limit` after lines 134-135.  Line 134 stores
`*Voltage` (a `float`: its conversion to `double` and back is exact), or the `double`
constant `0.1` converted to `float` when `*Voltage` is 0.
Line 135 is `Over_Voltage_Limit += (Over_Voltage_Limit * 0.3)`: the operand is promoted
to `double`, the product by the `double` constant `0.3` and the sum are rounded to
`double` one after the other, and the sum is converted to `float` by the assignment. -/
def Over_Voltage_Limit (Voltage : FloatVal) : FloatVal :=
  let t := if Voltage ≠ FloatVal.finite 0 then Voltage else (toDouble (1 / 10)).lift toFloat
  t.lift fun a => (toDouble (3 / 10)).lift fun c =>
    (toDouble (a * c)).lift fun product => (toDouble (a + product)).lift toFloat

/-- Lines 103-104: the value of the expression `Mantissa * pow(2, Exponent)`, with
`Mantissa` the `short` made of the two bytes read from `PMBUS_READ_VOUT`.  The
expression is a `double`: for the exponents the code resolves (-32 to 223) the power and
the product by a 16-bit mantissa are exact.  The assignment to `*Voltage` converts it to
`float`. -/
def Decode_Vout (In_Buffer : Nat → Nat) (Exponent : Int) : ℚ :=
  (toShort ((In_Buffer 1 : Int) * 256 + In_Buffer 0) : ℚ) * pow2 Exponent

/-- `Access_Regulator(Regulator, Voltage, Access)`: the result is the returned
`int` and the final value of `*Voltage`. -/
def Access_Regulator (ITEMS_MAX : Nat) (bus : Bus) (Regulator : Voltage_t)
    (Voltage : FloatVal) (Access : Int) : RegM (Int × FloatVal) := do
  if Access = 1 ∧ Supported_scan Regulator.Supported_Volt Voltage ITEMS_MAX 0 = false then
    return (-1, Voltage)
  if bus.openOk = false then
    emit Event.openFailed
    return (-1, Voltage)
  emit Event.opened
  let mut Out_Buffer : Nat → OutByte := fun _ => OutByte.uninit
  if Regulator.Page_Select ≠ -1 then
    Out_Buffer := Function.update Out_Buffer 0 (OutByte.lit 0)
    Out_Buffer := Function.update Out_Buffer 1 (OutByte.lit (toChar Regulator.Page_Select))
    let Ret ← I2C_WRITE bus Regulator.I2C_Address 2 Out_Buffer
    if Ret ≠ 0 then
      emit Event.closed
      return (Ret, Voltage)
  let mut Exponent : Int := -8
  if ¬ (Regulator.Part_Name = "IR38164") then
    Out_Buffer := Function.update Out_Buffer 0 OutByte.PMBUS_VOUT_MODE
    let (Ret, In_Buffer) ← I2C_READ bus Regulator.I2C_Address 1 Out_Buffer
    if Ret ≠ 0 then
      emit Event.closed
      return (Ret, Voltage)
    Exponent := (In_Buffer 0 : Int) - 32
  if Access = 0 then
    Out_Buffer := Function.update Out_Buffer 0 OutByte.PMBUS_READ_VOUT
    let (Ret, In_Buffer) ← I2C_READ bus Regulator.I2C_Address 2 Out_Buffer
    if Ret ≠ 0 then
      emit Event.closed
      return (Ret, Voltage)
    emit Event.closed
    return (0, toFloat (Decode_Vout In_Buffer Exponent))
  else if Access = 1 then
    Out_Buffer := Function.update Out_Buffer 0 OutByte.PMBUS_OPERATION
    Out_Buffer := Function.update Out_Buffer 1 (OutByte.lit 0)
    let Ret ← I2C_WRITE bus Regulator.I2C_Address 2 Out_Buffer
    if Ret ≠ 0 then
      emit Event.closed
      return (Ret, Voltage)
    Out_Buffer := Function.update Out_Buffer 0 OutByte.PMBUS_VOUT_UV_FAULT_LIMIT
    Out_Buffer := Function.update Out_Buffer 1 (OutByte.lit 0)
    Out_Buffer := Function.update Out_Buffer 2 (OutByte.lit 0)
    let Ret ← I2C_WRITE bus Regulator.I2C_Address 3 Out_Buffer
    if Ret ≠ 0 then
      emit Event.closed
      return (Ret, Voltage)
    Out_Buffer := Function.update Out_Buffer 0 OutByte.PMBUS_VOUT_UV_WARN_LIMIT
    let Ret ← I2C_WRITE bus Regulator.I2C_Address 3 Out_Buffer
    if Ret ≠ 0 then
      emit Event.closed
      return (Ret, Voltage)
    let Vout := Vout_float (Over_Voltage_Limit Voltage) Exponent
    Out_Buffer := Function.update Out_Buffer 0 OutByte.PMBUS_VOUT_OV_FAULT_LIMIT
    Out_Buffer := Function.update Out_Buffer 1 (OutByte.lit (Vout % 256))
    Out_Buffer := Function.update Out_Buffer 2 (OutByte.lit (Vout / 256 % 256))
    let Ret ← I2C_WRITE bus Regulator.I2C_Address 3 Out_Buffer
    if Ret ≠ 0 then
      emit Event.closed
      return (Ret, Voltage)
    Out_Buffer := Function.update Out_Buffer 0 OutByte.PMBUS_VOUT_OV_WARN_LIMIT
    let Ret ← I2C_WRITE bus Regulator.I2C_Address 3 Out_Buffer
    if Ret ≠ 0 then
      emit Event.closed
      return (Ret, Voltage)
    let Vout := Vout_float Voltage Exponent
    Out_Buffer := Function.update Out_Buffer 0 OutByte.PMBUS_VOUT_COMMAND
    Out_Buffer := Function.update Out_Buffer 1 (OutByte.lit (Vout % 256))
    Out_Buffer := Function.update Out_Buffer 2 (OutByte.lit (Vout / 256 % 256))
    let Ret ← I2C_WRITE bus Regulator.I2C_Address 3 Out_Buffer
    if Ret ≠ 0 then
      emit Event.closed
      return (Ret, Voltage)
    Out_Buffer := fun _ => OutByte.lit 0
    Out_Buffer := Function.update Out_Buffer 0 OutByte.PMBUS_OPERATION
    Out_Buffer := Function.update Out_Buffer 1 (OutByte.lit 128)
    let Ret ← I2C_WRITE bus Regulator.I2C_Address 2 Out_Buffer
    if Ret ≠ 0 then
      emit Event.closed
      return (Ret, Voltage)
    emit Event.closed
    return (0, Voltage)
  else
    emit Event.closed
    return (-1, Voltage)

/-- The outcome of a call: returned value, final `*Voltage`, and trace. -/
structure RegResult where
  Ret : Int
  Voltage : FloatVal
  trace : List Event

/-- Runs `Access_Regulator` from the empty trace, with a finite value in `*Voltage`. -/
def runRegulator (ITEMS_MAX : Nat) (bus : Bus) (Regulator : Voltage_t) (Voltage : ℚ)
    (Access : Int) : RegResult :=
  let r := Access_Regulator ITEMS_MAX bus Regulator Voltage Access ⟨0, []⟩
  ⟨r.1.1, r.1.2, r.2.trace⟩

/-- The bus transactions of a trace (the `open` and `close` events removed). -/
def transactions (trace : List Event) : List Event :=
  trace.filter fun e =>
    match e with
    | Event.i2c_write _ _ => true
    | Event.i2c_read _ _ _ => true
    | _ => false

/-- The exponent a call resolves when its transactions succeed: `-8` for the
part `IR38164`, otherwise the first byte of the `PMBUS_VOUT_MODE` read (the
transaction after the page-select write, if there is one) minus 32. -/
def Exponent_of (bus : Bus) (Regulator : Voltage_t) : Int :=
  if Regulator.Part_Name = "IR38164" then -8
  else ((bus.In (if Regulator.Page_Select ≠ -1 then 1 else 0) 0 % 256 : Nat) : Int) - 32

/-- The transactions that precede the `switch`: the optional page-select
write and the optional `PMBUS_VOUT_MODE` read. -/
def prologue (Regulator : Voltage_t) : List Event :=
  (if Regulator.Page_Select ≠ -1 then
    [Event.i2c_write Regulator.I2C_Address
      [OutByte.lit 0, OutByte.lit (toChar Regulator.Page_Select)]]
   else []) ++
  (if Regulator.Part_Name = "IR38164" then []
   else [Event.i2c_read Regulator.I2C_Address 1 OutByte.PMBUS_VOUT_MODE])

/-- The seven register writes of a voltage change, for the encoded
over-voltage limit `L` and the encoded target `V`. -/
def setSequence (Address L V : Nat) : List Event :=
  [Event.i2c_write Address [OutByte.PMBUS_OPERATION, OutByte.lit 0],
   Event.i2c_write Address [OutByte.PMBUS_VOUT_UV_FAULT_LIMIT, OutByte.lit 0, OutByte.lit 0],
   Event.i2c_write Address [OutByte.PMBUS_VOUT_UV_WARN_LIMIT, OutByte.lit 0, OutByte.lit 0],
   Event.i2c_write Address
     [OutByte.PMBUS_VOUT_OV_FAULT_LIMIT, OutByte.lit (L % 256), OutByte.lit (L / 256 % 256)],
   Event.i2c_write Address
     [OutByte.PMBUS_VOUT_OV_WARN_LIMIT, OutByte.lit (L % 256), OutByte.lit (L / 256 % 256)],
   Event.i2c_write Address
     [OutByte.PMBUS_VOUT_COMMAND, OutByte.lit (V % 256), OutByte.lit (V / 256 % 256)],
   Event.i2c_write Address [OutByte.PMBUS_OPERATION, OutByte.lit 128]]

/-- The transactions of a voltage change in which nothing fails. -/
def fullSequence (bus : Bus) (Regulator : Voltage_t) (Voltage : ℚ) : List Event :=
  prologue Regulator ++ setSequence Regulator.I2C_Address
    (Vout_float (Over_Voltage_Limit Voltage) (Exponent_of bus Regulator))
    (Vout_of Voltage (Exponent_of bus Regulator))

/-- A bus on which `open` and every transaction succeed; every read
delivers `0x18` as its first byte and zero after it. -/
def quietBus : Bus := ⟨true, fun _ => 0, fun _ j => if j = 0 then 24 else 0⟩

/-- A regulator without page select whose only supported voltage is 1 V. -/
def plainRegulator : Voltage_t := ⟨32, "IR35215", -1, fun i => if i = 0 then 1 else -1⟩

/-- An `IR38164` (fixed exponent -8) whose only supported voltage is 1/16 V. -/
def lowRegulator : Voltage_t := ⟨32, "IR38164", -1, fun i => if i = 0 then 1 / 16 else -1⟩

/-- A regulator without page select whose only supported voltage is the `float` nearest
to 1.499 V, `12574523 / 2 ^ 23`. -/
def fineRegulator : Voltage_t :=
  ⟨32, "IR35215", -1, fun i => if i = 0 then 12574523 / 8388608 else -1⟩

/-- A bus on which `open` and every transaction succeed; every read delivers `0x12` as
its first byte (the exponent -14) and zero after it. -/
def fineBus : Bus := ⟨true, fun _ => 0, fun _ j => if j = 0 then 18 else 0⟩


/-! ## FRU EEPROM decoding -/

/-- How a call ends: a `return` statement with its value; the end of the function body
reached without a `return` statement (the value the caller receives is indeterminate); a
read outside the buffer object at the given index; or the fuel of a loop used up. -/
inductive Status where
  | returned (value : Int)
  | noReturn
  | fault (index : Nat)
  | outOfFuel
  deriving DecidableEq, Repr

/-- The labels of the lines the decoders print. -/
inductive Field where
  | Version | AreaLength | LanguageCode | ManufacturingDate | Manufacturer | ProductName
  | SerialNumber | PartNumber | FRU_ID | EoR | Revision | PCIeInfo | UUID | EoR_Checksum
  | EoR_Pad_Checksum
  | RecordType_DC_Output | RecordType_DC_Load | RecordType_Mac_ID | RecordType_Memory
  | RecordType_Vita_57_1
  | RecordFormat | Length | RecordChecksum | HeaderChecksum | Xilinx_IANA_ID
  | OutputNumber_PowerRail | OutputNumber_VoltageAdjust | NominalVoltage | MinVoltage
  | MaxVoltage | RippleNoise | MinCurrentLoad | MaxCurrentLoad
  | VersionNumber_SC_Mac_ID | VersionNumber_Versal_Mac_ID | Mac_ID_0 | Mac_ID_1
  | MemoryType | VoltageSupply
  | OUI | SubtypeVersion | ConnectorType | P1_Bank_A | P1_Bank_B | P2_Bank_A | P2_Bank_B
  | P1_GBT_B | MaxClockTCK
  | CommonVersion | InternalUseArea | ChassisInfoArea | BoardArea | ProductInfoArea
  | MultiRecordArea | Pad_Checksum
  deriving DecidableEq, Repr

/-- One printed item: a byte printed with `%.2x`, a character of a `%s` string, the `-`
of the UUID, an integer printed with `%d`, the integer `i` of a value `i / 100.0` printed
with `%.2f`, or the `time_t` handed to `ctime`. -/
inductive Tok where
  | hex (b : Nat)
  | chr (b : Nat)
  | dash
  | dec (i : Nat)
  | hundredths (i : Nat)
  | time (t : Int)
  deriving DecidableEq, Repr

/-- One line of output: the offset printed in front, the label, the items. -/
structure Line where
  off : Nat
  field : Field
  vals : List Tok
  deriving DecidableEq, Repr

/-- Outcome of a piece of decoder code: a value, or the reason the call ended. -/
inductive Res (α : Type) where
  | ok (a : α)
  | stop (s : Status)
  deriving Repr

/-- A piece of decoder code: its outcome, the buffer indices it read, the lines it
printed (statement order; within one statement each index once). -/
structure Dec (α : Type) where
  res : Res α
  reads : List Nat
  out : List Line

/-- The code `d` run after code that read `reads` and printed `out`. -/
def Dec.after {β : Type} (reads : List Nat) (out : List Line) (d : Dec β) : Dec β :=
  ⟨d.res, reads ++ d.reads, out ++ d.out⟩

/-- Sequencing: the second part runs only if the first produced a value. -/
def Dec.bind {α β : Type} (m : Dec α) (f : α → Dec β) : Dec β :=
  match m.res with
  | Res.ok a => Dec.after m.reads m.out (f a)
  | Res.stop s => ⟨Res.stop s, m.reads, m.out⟩

instance : Monad Dec where
  pure a := ⟨Res.ok a, [], []⟩
  bind := Dec.bind

/-- `Buffer[i]`: a read of the byte at index `i`; outside the object it is a fault. -/
def rd (Buffer : List Nat) (i : Nat) : Dec Nat :=
  match Buffer[i]? with
  | some b => ⟨Res.ok b, [i], []⟩
  | none => ⟨Res.stop (Status.fault i), [i], []⟩

/-- One `printf` of a labelled line. -/
def print (off : Nat) (field : Field) (vals : List Tok) : Dec Unit :=
  ⟨Res.ok (), [], [⟨off, field, vals⟩]⟩

/-- `return value;` -/
def ret {α : Type} (value : Int) : Dec α :=
  ⟨Res.stop (Status.returned value), [], []⟩

/-- The bytes `Buffer[i], Buffer[i+1], ...` of `n` consecutive reads. -/
def rdRange (Buffer : List Nat) : Nat → Nat → Dec (List Nat)
  | _, 0 => pure []
  | i, n + 1 => do
    let b ← rd Buffer i
    let rest ← rdRange Buffer (i + 1) n
    return b :: rest

/-- The characters of the NUL-terminated string in `rest`, the part of the buffer that
starts at index `i`; the terminating NUL is read, the end of the object is a fault. -/
def rdStringFrom : List Nat → Nat → Dec (List Nat)
  | [], i => ⟨Res.stop (Status.fault i), [i], []⟩
  | b :: rest, i =>
    if b = 0 then ⟨Res.ok [], [i], []⟩
    else Dec.bind ⟨Res.ok b, [i], []⟩ fun c =>
      Dec.bind (rdStringFrom rest (i + 1)) fun cs => pure (c :: cs)

/-- The argument `&Buffer[i]` of a `%s` conversion or of `strlen`. -/
def rdString (Buffer : List Nat) (i : Nat) : Dec (List Nat) :=
  rdStringFrom (Buffer.drop i) i

/-- `snprintf(Buf, Length + 1, "%s", &Buffer[i])`: the source string is traversed up to
its NUL and its first `Length` characters are stored. -/
def snprintf (Buffer : List Nat) (i Length : Nat) : Dec (List Nat) := do
  let s ← rdString Buffer i
  return s.take Length

/-- The outcome of a whole call. -/
structure Decoded where
  status : Status
  reads : List Nat
  out : List Line
  deriving DecidableEq, Repr

/-- The outcome of a call whose body is `body`: reaching the end of the body is reaching
the closing brace of the function. -/
def finish (body : Dec Unit) : Decoded :=
  match body.res with
  | Res.ok _ => ⟨Status.noReturn, body.reads, body.out⟩
  | Res.stop s => ⟨s, body.reads, body.out⟩

/-- The items of the UUID line: every byte in `%.2x`, a dash after the bytes at positions
3, 5, 7 and 9 (lines 465-470); the second argument is the position of the first byte of
the list. -/
def uuidToks : List Nat → Nat → List Tok
  | [], _ => []
  | b :: rest, i =>
    if i = 3 ∨ i = 5 ∨ i = 7 ∨ i = 9 then Tok.hex b :: Tok.dash :: uuidToks rest (i + 1)
    else Tok.hex b :: uuidToks rest (i + 1)

/-- The members of `struct tm` (`<time.h>`) that `mktime` reads. -/
structure tm where
  tm_sec : Int
  tm_min : Int
  tm_hour : Int
  tm_mday : Int
  tm_mon : Int
  tm_year : Int
  tm_isdst : Int
  deriving DecidableEq, Repr

/-- The object `BuildDate` when `mktime` is called at line 409, in the first call of the
process: it has static storage, so every member starts at zero, and lines 405-408 assign
`tm_year = 96`, `tm_mday = 1` and the three bytes of the buffer to `tm_min`. -/
def BuildDate (minutes : Nat) : tm := ⟨0, minutes, 0, 1, 0, 96, 0⟩

/-- `EEPROM_Board(Buffer, PCIe)`.  `mktime` is the C library: it maps the broken-down
time `BuildDate` to a `time_t`.  A line whose bytes are printed by a loop (PCIe Info,
UUID) is recorded once the loop has read all of them. -/
def EEPROM_Board (mktime : tm → Int) (Buffer : List Nat) (PCIe : Int) : Dec Unit := do
  print 0x8 Field.Version [Tok.hex (← rd Buffer 0x8)]
  print 0x9 Field.AreaLength [Tok.hex (← rd Buffer 0x9)]
  print 0xA Field.LanguageCode [Tok.hex (← rd Buffer 0xA)]
  let bB ← rd Buffer 0xB
  let bC ← rd Buffer 0xC
  let bD ← rd Buffer 0xD
  let Time := mktime (BuildDate (bD <<< 16 ||| bC <<< 8 ||| bB))
  if Time = -1 then
    ret (-1)
  print 0xB Field.ManufacturingDate [Tok.time Time]
  let mut Offset := 0xE
  let mut Length := (← rd Buffer Offset) &&& 0x3F
  print (Offset + 1) Field.Manufacturer ((← snprintf Buffer (Offset + 1) Length).map Tok.chr)
  Offset := Offset + Length + 1
  Length := (← rd Buffer Offset) &&& 0x3F
  print (Offset + 1) Field.ProductName ((← snprintf Buffer (Offset + 1) Length).map Tok.chr)
  Offset := Offset + Length + 1
  Length := (← rd Buffer Offset) &&& 0x3F
  print (Offset + 1) Field.SerialNumber ((← snprintf Buffer (Offset + 1) Length).map Tok.chr)
  Offset := Offset + Length + 1
  Length := (← rd Buffer Offset) &&& 0x3F
  print (Offset + 1) Field.PartNumber ((← snprintf Buffer (Offset + 1) Length).map Tok.chr)
  Offset := Offset + Length + 1
  Length := (← rd Buffer Offset) &&& 0x3F
  if Length = 1 then
    print Offset Field.FRU_ID [Tok.hex (← rd Buffer (Offset + 1))]
  else
    print (Offset + 1) Field.FRU_ID ((← snprintf Buffer (Offset + 1) Length).map Tok.chr)
    Offset := Offset + Length + 1
    if (← rd Buffer Offset) ≠ 0xC1 then
      ret (-1)
    else
      print Offset Field.EoR [Tok.hex (← rd Buffer Offset)]
      ret 0
  Offset := Offset + Length + 1
  Length := (← rd Buffer Offset) &&& 0x3F
  print (Offset + 1) Field.Revision ((← snprintf Buffer (Offset + 1) Length).map Tok.chr)
  Offset := Offset + Length + 1
  if PCIe = 1 then
    Length := (← rd Buffer Offset) &&& 0x3F
    print (Offset + 1) Field.PCIeInfo ((← rdRange Buffer (Offset + 1) Length).map Tok.hex)
    Offset := Offset + Length + 1
    Length := (← rd Buffer Offset) &&& 0x3F
    print (Offset + 1) Field.UUID (uuidToks (← rdRange Buffer (Offset + 1) Length) 0)
    Offset := Offset + Length + 1
    print Offset Field.EoR_Checksum ((← rdRange Buffer Offset 2).map Tok.hex)
  else
    print Offset Field.EoR_Pad_Checksum ((← rdRange Buffer Offset 4).map Tok.hex)
  ret 0

/-- The voltage and current lines shared by the DC Output and DC Load records
(lines 555-572 and 586-603). -/
def DC_fields (Buffer : List Nat) (Offset : Nat) : Dec Unit := do
  let b6 ← rd Buffer (Offset + 6)
  let b7 ← rd Buffer (Offset + 7)
  print (Offset + 6) Field.NominalVoltage [Tok.hex b6, Tok.hex b7, Tok.hundredths (b7 <<< 8 ||| b6)]
  let b8 ← rd Buffer (Offset + 8)
  let b9 ← rd Buffer (Offset + 9)
  print (Offset + 8) Field.MinVoltage [Tok.hex b8, Tok.hex b9, Tok.hundredths (b9 <<< 8 ||| b8)]
  let b10 ← rd Buffer (Offset + 10)
  let b11 ← rd Buffer (Offset + 11)
  print (Offset + 10) Field.MaxVoltage
    [Tok.hex b10, Tok.hex b11, Tok.hundredths (b11 <<< 8 ||| b10)]
  let b12 ← rd Buffer (Offset + 12)
  let b13 ← rd Buffer (Offset + 13)
  print (Offset + 12) Field.RippleNoise [Tok.hex b12, Tok.hex b13, Tok.dec (b13 <<< 8 ||| b12)]
  let b14 ← rd Buffer (Offset + 14)
  let b15 ← rd Buffer (Offset + 15)
  print (Offset + 14) Field.MinCurrentLoad
    [Tok.hex b14, Tok.hex b15, Tok.dec (b15 <<< 8 ||| b14)]
  let b16 ← rd Buffer (Offset + 16)
  let b17 ← rd Buffer (Offset + 17)
  print (Offset + 16) Field.MaxCurrentLoad
    [Tok.hex b16, Tok.hex b17, Tok.dec (b17 <<< 8 ||| b16)]

/-- The first `switch (Type)` of the loop body (lines 517-536): the `Record Type` line,
or `return -1` for a type that is not recognized. -/
def MultiRecord_type (Offset Type_ : Nat) : Dec Unit :=
  if Type_ = 0x1 then
    print Offset Field.RecordType_DC_Output [Tok.hex Type_]
  else if Type_ = 0x2 then
    print Offset Field.RecordType_DC_Load [Tok.hex Type_]
  else if Type_ = 0xD2 then
    print Offset Field.RecordType_Mac_ID [Tok.hex Type_]
  else if Type_ = 0xD3 then
    print Offset Field.RecordType_Memory [Tok.hex Type_]
  else if Type_ = 0xFA then
    print Offset Field.RecordType_Vita_57_1 [Tok.hex Type_]
  else
    ret (-1)

/-- The second `switch (Type)` of the loop body (lines 551-664): the payload. -/
def MultiRecord_payload (Buffer : List Nat) (Offset Type_ : Nat) : Dec Unit := do
  if Type_ = 0x1 then
    print (Offset + 5) Field.OutputNumber_PowerRail [Tok.hex (← rd Buffer (Offset + 5))]
    DC_fields Buffer Offset
  else if Type_ = 0x2 then
    let b5 ← rd Buffer (Offset + 5)
    if b5 = 0x0 then
      print (Offset + 5) Field.OutputNumber_VoltageAdjust [Tok.hex b5]
    else if b5 ≤ 0xF then
      print (Offset + 5) Field.OutputNumber_PowerRail [Tok.hex b5]
    else
      ret (-1)
    DC_fields Buffer Offset
  else if Type_ = 0xD2 then
    let b8 ← rd Buffer (Offset + 8)
    if b8 = 0x11 then
      print (Offset + 8) Field.VersionNumber_SC_Mac_ID [Tok.hex b8]
      print (Offset + 9) Field.Mac_ID_0 ((← rdRange Buffer (Offset + 9) 6).map Tok.hex)
    else if b8 = 0x31 then
      print (Offset + 8) Field.VersionNumber_Versal_Mac_ID [Tok.hex b8]
      print (Offset + 9) Field.Mac_ID_0 ((← rdRange Buffer (Offset + 9) 6).map Tok.hex)
      print (Offset + 15) Field.Mac_ID_1 ((← rdRange Buffer (Offset + 15) 6).map Tok.hex)
    else
      ret (-1)
  else if Type_ = 0xD3 then
    let s ← rdString Buffer (Offset + 8)
    print (Offset + 8) Field.MemoryType (s.map Tok.chr)
    let Length := s.length + 1
    print (Offset + 8 + Length) Field.VoltageSupply
      ((← rdString Buffer (Offset + 8 + Length)).map Tok.chr)
  else if Type_ = 0xFA then
    print (Offset + 5) Field.OUI ((← rdRange Buffer (Offset + 5) 3).map Tok.hex)
    print (Offset + 8) Field.SubtypeVersion [Tok.hex (← rd Buffer (Offset + 8))]
    print (Offset + 9) Field.ConnectorType [Tok.hex (← rd Buffer (Offset + 9))]
    print (Offset + 10) Field.P1_Bank_A [Tok.hex (← rd Buffer (Offset + 10))]
    print (Offset + 11) Field.P1_Bank_B [Tok.hex (← rd Buffer (Offset + 11))]
    print (Offset + 12) Field.P2_Bank_A [Tok.hex (← rd Buffer (Offset + 12))]
    print (Offset + 13) Field.P2_Bank_B [Tok.hex (← rd Buffer (Offset + 13))]
    print (Offset + 14) Field.P1_GBT_B [Tok.hex (← rd Buffer (Offset + 14))]
    let b15 ← rd Buffer (Offset + 15)
    print (Offset + 15) Field.MaxClockTCK [Tok.hex b15, Tok.dec b15]
  else
    ret (-1)

/-- The header lines printed between the two switches (lines 538-549). -/
def MultiRecord_header (Buffer : List Nat) (Offset Type_ : Nat) : Dec Unit := do
  print (Offset + 1) Field.RecordFormat [Tok.hex (← rd Buffer (Offset + 1))]
  print (Offset + 2) Field.Length [Tok.hex (← rd Buffer (Offset + 2))]
  print (Offset + 3) Field.RecordChecksum [Tok.hex (← rd Buffer (Offset + 3))]
  print (Offset + 4) Field.HeaderChecksum [Tok.hex (← rd Buffer (Offset + 4))]
  if Type_ = 0xD2 ∨ Type_ = 0xD3 then
    print (Offset + 5) Field.Xilinx_IANA_ID ((← rdRange Buffer (Offset + 5) 3).map Tok.hex)

/-- The last statement of the loop body (lines 666-673): the new `Offset`. -/
def MultiRecord_next (Buffer : List Nat) (Offset Last_Record : Nat) : Dec Nat := do
  if Last_Record = 0 then
    return Offset + (5 + (← rd Buffer (Offset + 2)))
  else
    return Offset

/-- One pass through the body of the `do ... while` loop of `EEPROM_MultiRecord`
(lines 515-673): the result is the new `Offset` and the value of `Last_Record`. -/
def MultiRecord_body (Buffer : List Nat) (Offset : Nat) : Dec (Nat × Nat) := do
  let Type_ ← rd Buffer Offset
  let Last_Record := (← rd Buffer (Offset + 1)) &&& 0x80
  MultiRecord_type Offset Type_
  MultiRecord_header Buffer Offset Type_
  MultiRecord_payload Buffer Offset Type_
  let Offset ← MultiRecord_next Buffer Offset Last_Record
  return (Offset, Last_Record)

/-- The `do ... while (!Last_Record)` loop of lines 514-674, started at `Offset`. -/
def MultiRecord_loop (Buffer : List Nat) : Nat → Nat → Dec Unit
  | 0, _ => ⟨Res.stop Status.outOfFuel, [], []⟩
  | fuel + 1, Offset => do
    let (Offset, Last_Record) ← MultiRecord_body Buffer Offset
    if Last_Record = 0 then
      MultiRecord_loop Buffer fuel Offset

/-- `EEPROM_MultiRecord(Buffer)`.  Every pass of the loop that is followed by another one
reads `Buffer[Offset]` inside the object and moves `Offset` forward by at least 5, so
`Buffer.length + 1` passes are never used up. -/
def EEPROM_MultiRecord (Buffer : List Nat) : Dec Unit := do
  let mut Offset := (← rd Buffer 5) * 8
  let Type_ ← rd Buffer Offset
  if ¬ (Type_ = 0x1 ∨ Type_ = 0x2 ∨ Type_ = 0xD2 ∨ Type_ = 0xD3 ∨ Type_ = 0xFA) then
    Offset := 0x68
  MultiRecord_loop Buffer (Buffer.length + 1) Offset

/-- The code does not end by exhausting the fuel of a loop. -/
def Dec.fuelFree {α : Type} (d : Dec α) : Prop := d.res ≠ Res.stop Status.outOfFuel

/-- The byte at index `i` of a buffer (0 outside it). -/
def byteAt (Buffer : List Nat) (i : Nat) : Nat := Buffer.getD i 0

/-- The five record types of lines 485-489. -/
def recognized (t : Nat) : Bool :=
  t = 0x1 || t = 0x2 || t = 0xD2 || t = 0xD3 || t = 0xFA

/-- The offset at which the walk of the multirecord area starts: `Buffer[5] * 8`, or
`0x68` when the byte there is not a recognized type (lines 499-512). -/
def startOffset (Buffer : List Nat) : Nat :=
  if recognized (byteAt Buffer (byteAt Buffer 5 * 8)) = true then byteAt Buffer 5 * 8 else 0x68

/-- The characters before the first NUL at or after index `i`. -/
def stringAt (Buffer : List Nat) (i : Nat) : List Nat :=
  (Buffer.drop i).takeWhile fun b => b ≠ 0

/-- A well-formed multirecord entry at offset `o`: a recognized type, header and payload
(`5 + Length` bytes) inside the buffer, and a payload that holds the fields of its type:
13 bytes for DC Output and DC Load (the output number of a DC Load at most `0xF`), the
IANA prefix, a version byte `0x11` with one MAC address or `0x31` with two for the MAC-ID
record, the IANA prefix and two NUL-terminated strings for the memory record, 11 bytes for
the VITA-57.1 record. -/
def wellFormedEntry (Buffer : List Nat) (o : Nat) : Bool :=
  let t := byteAt Buffer o
  let len := byteAt Buffer (o + 2)
  decide (o + 5 + len ≤ Buffer.length) &&
  (if t = 0x1 then decide (13 ≤ len)
   else if t = 0x2 then decide (13 ≤ len) && decide (byteAt Buffer (o + 5) ≤ 0xF)
   else if t = 0xD2 then
     (decide (byteAt Buffer (o + 8) = 0x11) && decide (10 ≤ len)) ||
     (decide (byteAt Buffer (o + 8) = 0x31) && decide (16 ≤ len))
   else if t = 0xD3 then
     decide (o + 8 + (stringAt Buffer (o + 8)).length + 1 +
       (stringAt Buffer (o + 8 + ((stringAt Buffer (o + 8)).length + 1))).length + 1 ≤
         o + 5 + len)
   else if t = 0xFA then decide (11 ≤ len)
   else false)

/-- A well-formed chain of `n + 1` entries starting at offset `o`: every entry is well
formed, the Format top bit is clear in the first `n` entries and set in the last one, and
every entry starts `5 + Length` bytes after its predecessor. -/
def wellFormedChain (Buffer : List Nat) : Nat → Nat → Bool
  | 0, o => wellFormedEntry Buffer o && decide (byteAt Buffer (o + 1) &&& 0x80 ≠ 0)
  | n + 1, o =>
    wellFormedEntry Buffer o && decide (byteAt Buffer (o + 1) &&& 0x80 = 0) &&
      wellFormedChain Buffer n (o + (5 + byteAt Buffer (o + 2)))

/-- The offsets of the `n + 1` entries of a chain starting at `o`, in byte order. -/
def chainOffsets (Buffer : List Nat) : Nat → Nat → List Nat
  | 0, o => [o]
  | n + 1, o => o :: chainOffsets Buffer n (o + (5 + byteAt Buffer (o + 2)))

/-- The label of the first line of an entry of type `t`. -/
def recordTypeField (t : Nat) : Field :=
  if t = 0x1 then Field.RecordType_DC_Output
  else if t = 0x2 then Field.RecordType_DC_Load
  else if t = 0xD2 then Field.RecordType_Mac_ID
  else if t = 0xD3 then Field.RecordType_Memory
  else Field.RecordType_Vita_57_1

/-- The offsets of the entries whose decoding a printed output contains: the offsets of
its `Record Type` lines, in order. -/
def decodedEntries (out : List Line) : List Nat :=
  (out.filter fun l =>
    l.field = Field.RecordType_DC_Output ∨ l.field = Field.RecordType_DC_Load ∨
    l.field = Field.RecordType_Mac_ID ∨ l.field = Field.RecordType_Memory ∨
    l.field = Field.RecordType_Vita_57_1).map Line.off

/-- Pads a list of bytes with zeros to `n` bytes. -/
def padTo (n : Nat) (bytes : List Nat) : List Nat :=
  bytes ++ List.replicate (n - bytes.length) 0

/-- A 256-byte image whose Common Header points the multirecord area at offset
`0x20 * 8 = 256`; every other byte is zero. -/
def imageOffsetOutside : List Nat := (List.replicate 256 0).set 5 0x20

/-- A 256-byte image with two DC Output entries, at `0x68` and at 236, neither of which
has the Format top bit set; each has Length `0x7F`. -/
def imageNoTerminal : List Nat :=
  ((((((List.replicate 256 0).set 5 13).set 104 1).set 105 2).set 106 127).set 236 1).set 237 2
    |>.set 238 127

/-- A 256-byte image whose multirecord area, at `13 * 8 = 0x68`, is one DC Output entry
flagged as the last record (Format `0x82`, Length 13). -/
def imageOneRecord : List Nat :=
  padTo 256 (List.replicate 5 0 ++ [13] ++ List.replicate 98 0 ++
    [0x01, 0x82, 13, 0, 0, 1, 0xB4, 0, 0xAA, 0, 0xBE, 0, 0, 0, 0, 0, 0xE8, 0x03])

/-- A 256-byte image whose multirecord area, at `2 * 8 = 16`, is a DC Load entry
(Format `0x02`, Length 13) followed by a MAC-ID entry flagged as the last record
(Format `0x82`, Length 10, version `0x11`). -/
def imageTwoRecords : List Nat :=
  padTo 256 ([1, 0, 0, 1, 0, 2, 0, 0] ++ List.replicate 8 0 ++
    [0x02, 0x02, 13, 0, 0, 0, 0xB4, 0, 0xAA, 0, 0xBE, 0, 0, 0, 0, 0, 0xA0, 0x0F] ++
    [0xD2, 0x82, 10, 0, 0, 0xDA, 0x10, 0x00, 0x11, 1, 2, 3, 4, 5, 6])

/-- A 256-byte image whose Common Header points at offset 16, where no record starts. -/
def imageErratum : List Nat :=
  padTo 256 ([1, 0, 0, 1, 0, 2, 0, 0] ++ List.replicate 96 0 ++
    [0x01, 0x82, 13, 0, 0, 1, 0xB4, 0, 0xAA, 0, 0xBE, 0, 0, 0, 0, 0, 0xE8, 0x03])

/-- A Board Info image: six fields of one byte each (the FRU File ID among them), a
one-byte PCIe field, a 16-byte UUID, and zeros where the End-of-Record byte is expected
(offset 45 with the PCIe fields, offset 26 without them, where the byte is `0x01`). -/
def imageBoard : List Nat :=
  padTo 64 ([1, 0, 0, 1, 0, 0, 0, 0, 1, 5, 0, 0, 0, 0] ++
    [0x01, 0x41, 0x01, 0x42, 0x01, 0x43, 0x01, 0x44, 0x01, 0x07, 0x01, 0x45] ++
    [0x01, 0x09, 0x10] ++ [1, 2, 3, 4, 5, 6, 7, 8, 9, 10, 11, 12, 13, 14, 15, 16])

/-- The number of days from 1970-01-01 to the day `d` of the month `m` (1 to 12) of the
year `y` of the Gregorian calendar; `d` need not be a day of that month.  The year is
counted from March, so that the leap day is its last day: `era` is the 400-year cycle,
`yoe` the year of the cycle, `doy` the day of the year counted from March 1. -/
def daysFromCivil (y m d : Int) : Int :=
  let y1 := if m ≤ 2 then y - 1 else y
  let era := y1 / 400
  let yoe := y1 - era * 400
  let doy := (153 * ((m + 9) % 12) + 2) / 5 + d - 1
  era * 146097 + (yoe * 365 + yoe / 4 - yoe / 100 + doy) - 719468

/-- Modelled from the C standard: `mktime` in a zone without offset from UTC and without
daylight saving time.  The members are taken as they are, outside their normal ranges
too (`tm_min` counts minutes beyond 59), and the result is the number of seconds from
1970-01-01 00:00:00 to the time they denote. -/
def utcMktime (t : tm) : Int :=
  daysFromCivil (1900 + t.tm_year + t.tm_mon / 12) (t.tm_mon % 12 + 1) t.tm_mday * 86400 +
    t.tm_hour * 3600 + t.tm_min * 60 + t.tm_sec

/-! ## Common Header, transceivers, DIMM sensor, IO expander, FMC -/

/-- `EEPROM_Common(Buffer)` (lines 379-390): eight bytes printed, then `return 0`. -/
def EEPROM_Common (Buffer : List Nat) : Dec Unit := do
  print 0x0 Field.CommonVersion [Tok.hex (← rd Buffer 0x0)]
  print 0x1 Field.InternalUseArea [Tok.hex (← rd Buffer 0x1)]
  print 0x2 Field.ChassisInfoArea [Tok.hex (← rd Buffer 0x2)]
  print 0x3 Field.BoardArea [Tok.hex (← rd Buffer 0x3)]
  print 0x4 Field.ProductInfoArea [Tok.hex (← rd Buffer 0x4)]
  print 0x5 Field.MultiRecordArea [Tok.hex (← rd Buffer 0x5)]
  print 0x6 Field.Pad_Checksum ((← rdRange Buffer 0x6 2).map Tok.hex)
  ret 0

/-- An `unsigned long` (64 bits) difference. -/
def subULong (a b : Nat) : Nat := (a % 18446744073709551616 + 18446744073709551616 -
  b % 18446744073709551616) % 18446744073709551616

/-- Conversion of a `long` to `unsigned long`. -/
def toULong (i : Int) : Nat := (i % 18446744073709551616).toNat

/-- The characters a `%s` conversion prints from an input buffer that was zeroed and then
filled with `Len` bytes: the bytes before the first NUL. -/
def textOf (In_Buffer : Nat → Nat) (Len : Nat) : List Nat :=
  ((List.range Len).map In_Buffer).takeWhile fun b => b ≠ 0

/-- The 16-bit word `(In_Buffer[0] << 8) | In_Buffer[1]`. -/
def wordOf (In_Buffer : Nat → Nat) : Nat := In_Buffer 0 <<< 8 ||| In_Buffer 1

/-- The value of `Value` after the two assignments of lines 1667-1668 (SFP) and
1845-1846 (QSFP); `Value` is an `unsigned long`. -/
def Temperature_Value (In_Buffer : Nat → Nat) : Nat :=
  subULong (wordOf In_Buffer &&& 0x7FFF) (wordOf In_Buffer &&& 0x8000)

/-- The command identifiers `SFP_Ops` distinguishes. -/
inductive SFP_Cmd where
  | LISTSFP
  | GETSFP
  | GETPWMSFP
  | SETPWMSFP
  | other
  deriving DecidableEq, Repr

/-- The fields of `SFP_t` and `QSFP_t` that the operations use. -/
structure SFP_t where
  Name : String
  I2C_Address : Nat

/-- An output buffer after `memset(Out_Buffer, 0, STRLEN_MAX)`. -/
def zeroed : Nat → OutByte := fun _ => OutByte.lit 0

/-- `SFP_Ops()` (lines 1591-1753).  The globals are parameters: the table `SFPs`, the
command, `T_Flag`, `Target_Arg`, `V_Flag`, and the `long` that
`strtol(Value_Arg, NULL, 16)` returns. -/
def SFP_Ops (bus : Bus) (SFPs : List SFP_t) (CmdId : SFP_Cmd) (T_Flag : Int)
    (Target_Arg : String) (V_Flag : Int) (Value_Arg : Int) : RegM Int := do
  if CmdId = SFP_Cmd.LISTSFP then
    for S in SFPs do
      emit (Event.printText Report.Name (S.Name.toList.map Char.toNat))
    return 0
  if T_Flag = 0 then
    return -1
  match SFPs.find? (fun S => decide (S.Name = Target_Arg)) with
  | none => return -1
  | some SFP =>
    if bus.openOk = false then
      emit Event.openFailed
      return -1
    emit Event.opened
    let mut Out_Buffer : Nat → OutByte := fun _ => OutByte.uninit
    match CmdId with
    | SFP_Cmd.GETSFP =>
      Out_Buffer := zeroed
      Out_Buffer := Function.update Out_Buffer 0 (OutByte.lit 0x14)
      let (Ret, In_Buffer) ← I2C_READ bus SFP.I2C_Address 16 Out_Buffer
      if Ret ≠ 0 then
        emit Event.closed
        return Ret
      emit (Event.printText Report.Manufacturer (textOf In_Buffer 16))
      Out_Buffer := zeroed
      Out_Buffer := Function.update Out_Buffer 0 (OutByte.lit 0x44)
      let (Ret, In_Buffer) ← I2C_READ bus SFP.I2C_Address 16 Out_Buffer
      if Ret ≠ 0 then
        emit Event.closed
        return Ret
      emit (Event.printText Report.SerialNumber (textOf In_Buffer 16))
      Out_Buffer := zeroed
      Out_Buffer := Function.update Out_Buffer 0 (OutByte.lit 0x60)
      let (Ret, In_Buffer) ← I2C_READ bus (SFP.I2C_Address + 1) 2 Out_Buffer
      if Ret ≠ 0 then
        emit Event.closed
        return Ret
      emit (Event.print Report.InternalTemperature ((Temperature_Value In_Buffer : ℚ) / 256))
      Out_Buffer := zeroed
      Out_Buffer := Function.update Out_Buffer 0 (OutByte.lit 0x62)
      let (Ret, In_Buffer) ← I2C_READ bus (SFP.I2C_Address + 1) 2 Out_Buffer
      if Ret ≠ 0 then
        emit Event.closed
        return Ret
      emit (Event.print Report.SupplyVoltage ((wordOf In_Buffer : ℚ) * (1 / 10000)))
      Out_Buffer := zeroed
      Out_Buffer := Function.update Out_Buffer 0 (OutByte.lit 0x70)
      let (Ret, In_Buffer) ← I2C_READ bus (SFP.I2C_Address + 1) 2 Out_Buffer
      if Ret ≠ 0 then
        emit Event.closed
        return Ret
      emit (Event.print Report.Alarm (wordOf In_Buffer))
    | SFP_Cmd.GETPWMSFP =>
      Out_Buffer := zeroed
      Out_Buffer := Function.update Out_Buffer 0 (OutByte.lit 0x80)
      let (Ret, In_Buffer) ← I2C_READ bus (SFP.I2C_Address + 1) 2 Out_Buffer
      if Ret ≠ 0 then
        emit Event.closed
        return Ret
      emit (Event.print Report.PowerMode (wordOf In_Buffer))
    | SFP_Cmd.SETPWMSFP =>
      if V_Flag = 0 then
        emit Event.closed
        return -1
      let Value := toULong Value_Arg
      if Value > 0xFF then
        emit Event.closed
        return -1
      Out_Buffer := zeroed
      Out_Buffer := Function.update Out_Buffer 0 (OutByte.lit 0x80)
      Out_Buffer := Function.update Out_Buffer 1 (OutByte.lit (Value &&& 0xFF))
      let Ret ← I2C_WRITE bus (SFP.I2C_Address + 1) 2 Out_Buffer
      if Ret ≠ 0 then
        emit Event.closed
        return Ret
      emit (Event.sleep 1)
      Out_Buffer := Function.update Out_Buffer 0 (OutByte.lit 0x81)
      Out_Buffer := Function.update Out_Buffer 1 (OutByte.lit (Value &&& 0xFF))
      let Ret ← I2C_WRITE bus (SFP.I2C_Address + 1) 2 Out_Buffer
      if Ret ≠ 0 then
        emit Event.closed
        return Ret
    | _ =>
      emit Event.closed
      return -1
    emit Event.closed
    return 0

/-- The outcome of a command: returned value and trace. -/
structure OpsResult where
  Ret : Int
  trace : List Event

/-- Runs a command from the empty trace. -/
def runOps (op : RegM Int) : OpsResult :=
  ⟨(op ⟨0, []⟩).1, (op ⟨0, []⟩).2.trace⟩

/-- The command identifiers `QSFP_Ops` distinguishes. -/
inductive QSFP_Cmd where
  | LISTQSFP
  | GETQSFP
  | GETPWMQSFP
  | SETPWMQSFP
  | GETPWMOQSFP
  | SETPWMOQSFP
  | other
  deriving DecidableEq, Repr

/-- The `switch (Command.CmdId)` of `QSFP_Ops` (lines 1806-1975); its result is the value
of `Ret` at the label `Out`, a `return` standing for `goto Out`. -/
def QSFP_switch (bus : Bus) (QSFP : SFP_t) (CmdId : QSFP_Cmd) (V_Flag : Int)
    (Value_Arg : Int) : RegM Int := do
  let mut Out_Buffer : Nat → OutByte := fun _ => OutByte.uninit
  match CmdId with
  | QSFP_Cmd.GETQSFP =>
    Out_Buffer := zeroed
    Out_Buffer := Function.update Out_Buffer 0 (OutByte.lit 0x94)
    let (Ret, In_Buffer) ← I2C_READ bus QSFP.I2C_Address 16 Out_Buffer
    if Ret ≠ 0 then
      return Ret
    emit (Event.printText Report.Manufacturer (textOf In_Buffer 16))
    Out_Buffer := zeroed
    Out_Buffer := Function.update Out_Buffer 0 (OutByte.lit 0xA8)
    let (Ret, In_Buffer) ← I2C_READ bus QSFP.I2C_Address 16 Out_Buffer
    if Ret ≠ 0 then
      return Ret
    emit (Event.printText Report.PartNumber (textOf In_Buffer 16))
    Out_Buffer := zeroed
    Out_Buffer := Function.update Out_Buffer 0 (OutByte.lit 0xC4)
    let (Ret, In_Buffer) ← I2C_READ bus QSFP.I2C_Address 16 Out_Buffer
    if Ret ≠ 0 then
      return Ret
    emit (Event.printText Report.SerialNumber (textOf In_Buffer 16))
    Out_Buffer := zeroed
    Out_Buffer := Function.update Out_Buffer 0 (OutByte.lit 0x16)
    let (Ret, In_Buffer) ← I2C_READ bus QSFP.I2C_Address 2 Out_Buffer
    if Ret ≠ 0 then
      return Ret
    emit (Event.print Report.InternalTemperature ((Temperature_Value In_Buffer : ℚ) / 256))
    Out_Buffer := zeroed
    Out_Buffer := Function.update Out_Buffer 0 (OutByte.lit 0x1A)
    let (Ret, In_Buffer) ← I2C_READ bus QSFP.I2C_Address 2 Out_Buffer
    if Ret ≠ 0 then
      return Ret
    emit (Event.print Report.SupplyVoltage ((wordOf In_Buffer : ℚ) * (1 / 10000)))
    Out_Buffer := zeroed
    Out_Buffer := Function.update Out_Buffer 0 (OutByte.lit 0x3)
    let (Ret, In_Buffer) ← I2C_READ bus QSFP.I2C_Address 2 Out_Buffer
    if Ret ≠ 0 then
      return Ret
    emit (Event.print Report.Alarms_3_4 (wordOf In_Buffer))
    Out_Buffer := zeroed
    Out_Buffer := Function.update Out_Buffer 0 (OutByte.lit 0x6)
    let (Ret, In_Buffer) ← I2C_READ bus QSFP.I2C_Address 2 Out_Buffer
    if Ret ≠ 0 then
      return Ret
    emit (Event.print Report.Alarms_6_7 (wordOf In_Buffer))
    Out_Buffer := zeroed
    Out_Buffer := Function.update Out_Buffer 0 (OutByte.lit 0x9)
    let (Ret, In_Buffer) ← I2C_READ bus QSFP.I2C_Address 4 Out_Buffer
    if Ret ≠ 0 then
      return Ret
    emit (Event.print Report.Alarms_9_12
      ((In_Buffer 0 <<< 24 ||| In_Buffer 1 <<< 16 ||| In_Buffer 2 <<< 8 ||| In_Buffer 3 : Nat)))
    return 0
  | QSFP_Cmd.GETPWMQSFP =>
    Out_Buffer := zeroed
    Out_Buffer := Function.update Out_Buffer 0 (OutByte.lit 0x62)
    let (Ret, In_Buffer) ← I2C_READ bus QSFP.I2C_Address 1 Out_Buffer
    if Ret ≠ 0 then
      return Ret
    emit (Event.print Report.PowerMode (In_Buffer 0))
    return 0
  | QSFP_Cmd.SETPWMQSFP =>
    if V_Flag = 0 then
      return -1
    let Value := toULong Value_Arg
    if Value > 0xFF then
      return -1
    Out_Buffer := zeroed
    Out_Buffer := Function.update Out_Buffer 0 (OutByte.lit 0x62)
    Out_Buffer := Function.update Out_Buffer 1 (OutByte.lit (Value &&& 0xFF))
    let Ret ← I2C_WRITE bus QSFP.I2C_Address 2 Out_Buffer
    if Ret ≠ 0 then
      return Ret
    return 0
  | QSFP_Cmd.GETPWMOQSFP =>
    Out_Buffer := zeroed
    Out_Buffer := Function.update Out_Buffer 0 (OutByte.lit 0x5D)
    let (Ret, In_Buffer) ← I2C_READ bus QSFP.I2C_Address 1 Out_Buffer
    if Ret ≠ 0 then
      return Ret
    emit (Event.print Report.PowerModeOverride (In_Buffer 0))
    return 0
  | QSFP_Cmd.SETPWMOQSFP =>
    if V_Flag = 0 then
      return -1
    let Value := toULong Value_Arg
    if Value ≠ 0x0 ∧ Value ≠ 0x1 ∧ Value ≠ 0x3 then
      return -1
    Out_Buffer := zeroed
    Out_Buffer := Function.update Out_Buffer 0 (OutByte.lit 0x5D)
    Out_Buffer := Function.update Out_Buffer 1 (OutByte.lit (Value &&& 0x3))
    let Ret ← I2C_WRITE bus QSFP.I2C_Address 2 Out_Buffer
    if Ret ≠ 0 then
      return Ret
    return 0
  | _ =>
    return -1

/-- `QSFP_Ops()` (lines 1757-1985).  `Plat_QSFP_Init` is the value the platform call
returns; after a failed `open` the code still goes to `Out`, where it calls
`Plat_Reset_Ops` and `close`. -/
def QSFP_Ops (bus : Bus) (Plat_QSFP_Init : Int) (QSFPs : List SFP_t) (CmdId : QSFP_Cmd)
    (T_Flag : Int) (Target_Arg : String) (V_Flag : Int) (Value_Arg : Int) : RegM Int := do
  if CmdId = QSFP_Cmd.LISTQSFP then
    for Q in QSFPs do
      emit (Event.printText Report.Name (Q.Name.toList.map Char.toNat))
    return 0
  if T_Flag = 0 then
    return -1
  match QSFPs.find? (fun Q => decide (Q.Name = Target_Arg)) with
  | none => return -1
  | some QSFP =>
    emit Event.platInit
    if Plat_QSFP_Init ≠ 0 then
      return -1
    let mut Ret : Int := 0
    if bus.openOk = false then
      emit Event.openFailed
      Ret := -1
    else
      emit Event.opened
      Ret ← QSFP_switch bus QSFP CmdId V_Flag Value_Arg
    emit Event.platReset
    emit Event.closed
    return Ret

/-- The fields of `struct i2c_info`. -/
structure i2c_info where
  Bus_addr : Nat
  Reg_addr : Nat
  Read_len : Nat

/-- `DDRi2c_read(fd, Buf, Iic)` (lines 1201-1211): the result is the returned value and
the buffer, which the callers have zeroed. -/
def DDRi2c_read (bus : Bus) (ioctlOk : Bool) (Iic : i2c_info) : RegM (Int × (Nat → Nat)) := do
  if ioctlOk = false then
    emit Event.ioctlFailed
    return (-1, fun _ => 0)
  I2C_READ bus Iic.Bus_addr Iic.Read_len (fun _ => OutByte.lit Iic.Reg_addr)

/-- The `__s16 t` of line 1276 for the two bytes stored in `Tbuf`, the first one at the
lower address (little-endian). -/
def Tbuf_t (Buf : Nat → Nat) : Int :=
  toShort ((((Buf 0 + 256 * Buf 1) <<< 8 ||| (Buf 0 + 256 * Buf 1) >>> 8) <<< 3 : Nat) : Int)

/-- `DIMM_temperature(fd)` (lines 1269-1280); `Therm` is `Dimm1.Therm`. -/
def DIMM_temperature (bus : Bus) (ioctlOk : Bool) (Therm : i2c_info) : RegM Int := do
  let (Ret, Buf) ← DDRi2c_read bus ioctlOk Therm
  if Ret = 0 then
    emit (Event.print Report.Temperature ((1 / 8 : ℚ) * (Tbuf_t Buf : ℚ) / 16))
  return Ret

/-- `Access_IO_Exp(IO_Exp, Op, Offset, Out, In)` (lines 196-241): the result is the
returned value and the final `*In`. -/
def Access_IO_Exp (bus : Bus) (I2C_Address : Nat) (Op : Int) (Offset : Int) (Out : Nat)
    (In : Nat) : RegM (Int × Nat) := do
  if bus.openOk = false then
    emit Event.openFailed
    return (-1, In)
  emit Event.opened
  let mut Out_Buffer : Nat → OutByte := zeroed
  if Op = 0 then
    Out_Buffer := Function.update Out_Buffer 0 (OutByte.lit (toChar Offset))
    let (Ret, In_Buffer) ← I2C_READ bus I2C_Address 2 Out_Buffer
    if Ret ≠ 0 then
      emit Event.closed
      return (Ret, In)
    emit Event.closed
    return (0, wordOf In_Buffer)
  else if Op = 1 then
    Out_Buffer := Function.update Out_Buffer 0 (OutByte.lit (toChar Offset))
    Out_Buffer := Function.update Out_Buffer 1 (OutByte.lit (Out >>> 8 &&& 0xFF))
    Out_Buffer := Function.update Out_Buffer 2 (OutByte.lit (Out &&& 0xFF))
    let Ret ← I2C_WRITE bus I2C_Address 3 Out_Buffer
    if Ret ≠ 0 then
      emit Event.closed
      return (Ret, In)
    emit Event.closed
    return (0, In)
  else
    emit Event.closed
    return (-1, In)

/-- The `while` loop of `FMC_Vadj_Range` (lines 277-295); the conditions are evaluated
left to right and the evaluation stops at the first false one.  The result is the final
`Offset` and `Found`. -/
def Vadj_loop (In_Buffer : List Nat) : Nat → Nat → Dec (Nat × Nat)
  | 0, _ => ⟨Res.stop Status.outOfFuel, [], []⟩
  | fuel + 1, Offset => do
    if (← rd In_Buffer Offset) = 0x2 then
      if (← rd In_Buffer (Offset + 1)) &&& 0x80 ≠ 0x80 then
        if Offset < 0xFF then
          if (← rd In_Buffer (Offset + 5)) = 0x0 then
            return (Offset, 1)
          Vadj_loop In_Buffer fuel (Offset + (5 + (← rd In_Buffer (Offset + 2))))
        else
          return (Offset, 0)
      else
        return (Offset, 0)
    else
      return (Offset, 0)

/-- Lines 269-305 of `FMC_Vadj_Range`: the walk over the bytes read from the EEPROM and
the two voltages it yields.  Every pass of the loop that is followed by another one has
`Offset < 0xFF` and moves `Offset` forward by at least 5. -/
def Vadj_walk (In_Buffer : List Nat) : Dec (ℚ × ℚ) := do
  let Offset := (← rd In_Buffer 5) * 8
  let (Offset, Found) ← Vadj_loop In_Buffer 256 Offset
  if Found = 1 then
    let b8 ← rd In_Buffer (Offset + 8)
    let b9 ← rd In_Buffer (Offset + 9)
    let b10 ← rd In_Buffer (Offset + 10)
    let b11 ← rd In_Buffer (Offset + 11)
    return (((b9 <<< 8 ||| b8 : Nat) : ℚ) / 100, ((b11 <<< 8 ||| b10 : Nat) : ℚ) / 100)
  else
    return (0, 0)

/-- The outcome of `FMC_Vadj_Range`: how the call ended, the final `*Min_Voltage` and
`*Max_Voltage`, and the indices of `In_Buffer` it read. -/
structure VadjResult where
  status : Status
  Min_Voltage : ℚ
  Max_Voltage : ℚ
  reads : List Nat

/-- `FMC_Vadj_Range(FMC, Min_Voltage, Max_Voltage)` (lines 243-308).  `In_Buffer` is an
array of `SYSCMD_MAX` bytes, zeroed and then filled with the `0xFF` bytes read. -/
def FMC_Vadj_Range (SYSCMD_MAX : Nat) (bus : Bus) (I2C_Address : Nat)
    (Min_Voltage Max_Voltage : ℚ) : RegM VadjResult := do
  if bus.openOk = false then
    emit Event.openFailed
    return ⟨Status.returned (-1), Min_Voltage, Max_Voltage, []⟩
  emit Event.opened
  let Out_Buffer := Function.update zeroed 0 (OutByte.lit 0x0)
  let (Ret, In) ← I2C_READ bus I2C_Address 0xFF Out_Buffer
  if Ret ≠ 0 then
    emit Event.closed
    return ⟨Status.returned Ret, Min_Voltage, Max_Voltage, []⟩
  let walk := Vadj_walk ((List.range SYSCMD_MAX).map In)
  match walk.res with
  | Res.ok (Min, Max) => return ⟨Status.returned 0, Min, Max, walk.reads⟩
  | Res.stop s => return ⟨s, Min_Voltage, Max_Voltage, walk.reads⟩

/-! ## SPD of the DIMM and the voltage commands -/

/-- The character codes of a string literal. -/
def text (s : String) : List Nat := s.toList.map Char.toNat

/-- `DIMM_spd(fd)` (lines 1229-1261); `Spd` is `Dimm1.Spd`.  `Spd_buf` is zeroed and then
filled by the read; the fields of `struct spd_ddr4` used are the bytes 2
(`spd_mem_type`), 4 (`spd_mem_size`) and 14 (`spd_tsensor`). -/
def DIMM_spd (bus : Bus) (ioctlOk : Bool) (Spd : i2c_info) : RegM Int := do
  let (Ret, Spd_buf) ← DDRi2c_read bus ioctlOk Spd
  if Ret < 0 then
    return Ret
  let Sz256 := 0xf &&& Spd_buf 4
  emit (Event.printText Report.DDR4_SDRAM (text (if Spd_buf 2 = 0xc then "Yes" else "No")))
  if Sz256 > 1 then
    emit (Event.print Report.Size_Gb ((1 <<< (Sz256 - 2) : Nat) : ℚ))
  else
    emit (Event.printText Report.Size_Mb (text (if Sz256 ≠ 0 then "512" else "0")))
  emit (Event.printText Report.TempSensor
    (text (if 0x80 &&& Spd_buf 14 ≠ 0 then "Yes" else "No")))
  return Ret

/-- The command identifiers `Voltage_Ops` distinguishes. -/
inductive Voltage_Cmd where
  | LISTVOLTAGE
  | GETVOLTAGE
  | SETVOLTAGE
  | SETBOOTVOLTAGE
  | RESTOREVOLTAGE
  | other
  deriving DecidableEq, Repr

/-- An element of the table `Voltages`: the fields `Name` and `Typical_Volt` of
`Voltage_t`, next to the fields that `Access_Regulator` uses. -/
structure Voltage_entry where
  Name : String
  Typical_Volt : ℚ
  Regulator : Voltage_t

/-- `Voltage_Ops()` (lines 798-903).  The globals are parameters: the table `Voltages`,
the command, `T_Flag`, `Target_Arg`, `V_Flag`, `Value_Arg` and the value `strtof` returns
for it; so are the outcome of `fopen` and the indeterminate initial value of the local
`Voltage`. -/
def Voltage_Ops (ITEMS_MAX : Nat) (bus : Bus) (fopenOk : Bool) (Voltages : List Voltage_entry)
    (CmdId : Voltage_Cmd) (T_Flag : Int) (Target_Arg : String) (V_Flag : Int)
    (Value_Arg : String) (strtof : ℚ) (Voltage0 : ℚ) : RegM Int := do
  if CmdId = Voltage_Cmd.LISTVOLTAGE then
    for V in Voltages do
      emit (Event.printText Report.Name (text V.Name))
    return 0
  if T_Flag = 0 then
    return -1
  match Voltages.find? (fun V => decide (V.Name = Target_Arg)) with
  | none => return -1
  | some Entry =>
    match CmdId with
    | Voltage_Cmd.GETVOLTAGE =>
      let (Ret, Voltage) ← Access_Regulator ITEMS_MAX bus Entry.Regulator Voltage0 0
      if Ret ≠ 0 then
        return -1
      if V_Flag ≠ 0 then
        if Value_Arg ≠ "all" then
          return -1
        let (Ret, _) ← Access_Regulator ITEMS_MAX bus Entry.Regulator Voltage 2
        return Ret
    | Voltage_Cmd.SETVOLTAGE =>
      if V_Flag = 0 then
        return -1
      let (Ret, _) ← Access_Regulator ITEMS_MAX bus Entry.Regulator strtof 1
      if Ret ≠ 0 then
        return -1
    | Voltage_Cmd.SETBOOTVOLTAGE =>
      if V_Flag = 0 then
        return -1
      let (Ret, Voltage) ← Access_Regulator ITEMS_MAX bus Entry.Regulator strtof 1
      if Ret ≠ 0 then
        return -1
      emit (Event.bootVoltageRemoved Entry.Name)
      if fopenOk = false then
        return -1
      emit (Event.bootVoltageAppended Entry.Name Voltage)
    | Voltage_Cmd.RESTOREVOLTAGE =>
      let (Ret, _) ← Access_Regulator ITEMS_MAX bus Entry.Regulator Entry.Typical_Volt 1
      if Ret ≠ 0 then
        return -1
      emit (Event.bootVoltageRemoved Entry.Name)
    | _ =>
      pure ()
    return 0

/-! ## Reference notions for the regulator read, the handle and the numeric formats -/

/-- The transactions of a voltage read in which nothing fails: the prologue, then the
2-byte `PMBUS_READ_VOUT` read. -/
def getSequence (Regulator : Voltage_t) : List Event :=
  prologue Regulator ++ [Event.i2c_read Regulator.I2C_Address 2 OutByte.PMBUS_READ_VOUT]

/-- The contents of `In_Buffer` after the `PMBUS_READ_VOUT` read, which is the
transaction that follows the prologue: two bytes, the rest zero. -/
def Vout_bytes (bus : Bus) (Regulator : Voltage_t) (j : Nat) : Nat :=
  if j < 2 then bus.In (prologue Regulator).length j % 256 else 0

/-- The transactions a call that opened the bus issues when none of them fails: those of
a read for `Access = 0`, those of a change for `Access = 1`, the prologue alone for any
other value (the `default` label of the `switch`). -/
def sequenceOf (bus : Bus) (Regulator : Voltage_t) (Voltage : ℚ) (Access : Int) : List Event :=
  if Access = 0 then getSequence Regulator
  else if Access = 1 then fullSequence bus Regulator Voltage
  else prologue Regulator

/-- The handle is released exactly once, by the last event of the trace. -/
def closedOnce (trace : List Event) : Prop :=
  trace.getLast? = some Event.closed ∧ trace.count Event.closed = 1

/-- The integer `r` is `x` rounded to the nearest integer, a tie going to the integer
that is further from zero. -/
def roundsTo (x : ℚ) (r : Int) : Prop :=
  |(r : ℚ) - x| < 1 / 2 ∨ (|(r : ℚ) - x| = 1 / 2 ∧ |x| < |(r : ℚ)|)

/-- The two's-complement value of the 16-bit word `w`. -/
def signed16 (w : Nat) : Int := if w < 32768 then (w : Int) else (w : Int) - 65536

/-- The two's-complement value of the 13-bit word `w`. -/
def signed13 (w : Nat) : Int := if w < 4096 then (w : Int) else (w : Int) - 8192

/-- A bus on which everything succeeds; the first transaction delivers the byte `0x18`
and every later one the bytes `0x64, 0x00`. -/
def voutBus : Bus :=
  ⟨true, fun _ => 0, fun k j => if j = 0 then (if k = 0 then 0x18 else 0x64) else 0⟩

/-- A bus on which everything succeeds; the first transaction delivers the byte `0xFF`
and every later one the bytes `0x01, 0x00`. -/
def overflowBus : Bus :=
  ⟨true, fun _ => 0, fun k j => if j = 0 then (if k = 0 then 0xFF else 0x01) else 0⟩

/-- A regulator behind page 1 of its device. -/
def pagedRegulator : Voltage_t := ⟨19, "IRPS5401", 1, fun i => if i = 0 then 1 else -1⟩

/-- A bus on which everything succeeds and every read delivers the bytes `hi, lo`. -/
def wordBus (hi lo : Nat) : Bus :=
  ⟨true, fun _ => 0, fun _ j => if j = 0 then hi else if j = 1 then lo else 0⟩

/-- A bus on which the first transaction fails with -2. -/
def failingBus : Bus := ⟨true, fun k => if k = 0 then -2 else 0, fun _ _ => 0⟩

/-- A table with one transceiver. -/
def oneSFP : List SFP_t := [⟨"SFP0", 0x50⟩]

/-- The offset of the entry that the pass number `k` (from 0) of the loop of
`EEPROM_MultiRecord` decodes when the loop starts at offset `s`: a pass is followed by
another one when it reaches the end of the loop body with `Last_Record` clear. -/
def passFrom (Buffer : List Nat) : Nat → Nat → Option Nat
  | 0, s => some s
  | k + 1, s =>
    match (MultiRecord_body Buffer s).res with
    | Res.ok (o, Last_Record) => if Last_Record = 0 then passFrom Buffer k o else none
    | Res.stop _ => none

/-- The lines printed by the first `k` passes of the loop started at offset `s`. -/
def outFrom (Buffer : List Nat) : Nat → Nat → List Line
  | 0, _ => []
  | k + 1, s =>
    (MultiRecord_body Buffer s).out ++
      (match (MultiRecord_body Buffer s).res with
       | Res.ok (o, _) => outFrom Buffer k o
       | Res.stop _ => [])

/-- A 256-byte image whose multirecord area, at `2 * 8 = 16`, is a DC Load entry
(Format `0x02`, Length 13) followed at offset 34 by the byte `0x55`, which is no record
type. -/
def imageUnknownSecond : List Nat :=
  padTo 256 ([1, 0, 0, 1, 0, 2, 0, 0] ++ List.replicate 8 0 ++
    [0x02, 0x02, 13, 0, 0, 0, 0xB4, 0, 0xAA, 0, 0xBE, 0, 0, 0, 0, 0, 0xA0, 0x0F] ++
    [0x55, 0x82, 10, 0, 0, 0xDA, 0x10, 0x00, 0x11, 1, 2, 3, 4, 5, 6])

/-- A 256-byte image whose Common Header has every area offset at `0x7F`, that is at
byte `0x7F * 8 = 1016`. -/
def imageWildOffsets : List Nat :=
  padTo 256 [1, 0x7F, 0x7F, 0x7F, 0x7F, 0x7F, 0, 0]

/-- The contents of `In_Buffer` after transaction `k` of the call read `Len` bytes into
the zeroed buffer. -/
def bytesRead (bus : Bus) (k Len : Nat) (j : Nat) : Nat :=
  if j < Len then bus.In k j % 256 else 0

/-- The `Internal Temperature(C)` values of a trace, in order. -/
def temperaturePrints (trace : List Event) : List Event :=
  trace.filter fun e =>
    match e with
    | Event.print Report.InternalTemperature _ => true
    | _ => false

/-! ## Reference notions for the Board Info area and the FMC walk -/

/-- The offset of the lead byte of Type-Length field number `k` (from 0) of a Board Info
area: `0x0E` plus, for every earlier field, 1 plus the low six bits of its lead byte. -/
def fieldOffset (Buffer : List Nat) : Nat → Nat
  | 0 => 0x0E
  | k + 1 => fieldOffset Buffer k + (1 + byteAt Buffer (fieldOffset Buffer k) % 64)

/-- The length of Type-Length field number `k`: the low six bits of its lead byte. -/
def fieldLength (Buffer : List Nat) (k : Nat) : Nat :=
  byteAt Buffer (fieldOffset Buffer k) % 64

/-- The bytes `Buffer[i], ..., Buffer[i + n - 1]`. -/
def bytesAt (Buffer : List Nat) (i n : Nat) : List Nat :=
  (List.range n).map fun k => byteAt Buffer (i + k)

/-- The text printed for field number `k`: of the `fieldLength` bytes that follow the
lead byte, those before the first NUL. -/
def fieldText (Buffer : List Nat) (k : Nat) : List Tok :=
  ((stringAt Buffer (fieldOffset Buffer k + 1)).take (fieldLength Buffer k)).map Tok.chr

/-- The string that starts at index `i` has its terminating NUL inside the buffer. -/
def terminatedAt (Buffer : List Nat) (i : Nat) : Prop :=
  i + (stringAt Buffer i).length < Buffer.length

/-- Modelled from the C standard: the conversion `%.2x` of an unsigned value: its digits
in base 16, lowercase, with zeros on the left up to two digits. -/
def hex2 (b : Nat) : List Char :=
  List.replicate (2 - (Nat.toDigits 16 b).length) '0' ++ Nat.toDigits 16 b

/-- The characters of a line whose items are bytes printed with `%.2x` and dashes. -/
def hexText : List Tok → List Char
  | [] => []
  | Tok.hex b :: rest => hex2 b ++ hexText rest
  | Tok.dash :: rest => '-' :: hexText rest
  | _ :: rest => hexText rest

/-- The sixteen digits of base 16, lowercase. -/
def hexDigits : List Char :=
  "0123456789abcdef".toList

/-- The array `In_Buffer` of `FMC_Vadj_Range` once the read has succeeded: `SYSCMD_MAX`
bytes, zero from index `0xFF` on. -/
def fmcImage (SYSCMD_MAX : Nat) (bus : Bus) : List Nat :=
  (List.range SYSCMD_MAX).map (bytesRead bus 0 0xFF)

/-- The offset of record number `i` (from 0) of the chain of multirecord entries that
starts at offset `o`: a record starts `5 + Length` bytes after its predecessor. -/
def entryOffset (Buffer : List Nat) : Nat → Nat → Nat
  | 0, o => o
  | i + 1, o => entryOffset Buffer i (o + (5 + byteAt Buffer (o + 2)))

/-- The little-endian 16-bit value at index `i`, divided by 100. -/
def centivolts (Buffer : List Nat) (i : Nat) : ℚ :=
  ((byteAt Buffer i + 256 * byteAt Buffer (i + 1) : Nat) : ℚ) / 100

/-- A bus on which everything succeeds and every read delivers the given bytes, then
zeros. -/
def busOf (bytes : List Nat) : Bus := ⟨true, fun _ => 0, fun _ j => bytes.getD j 0⟩

/-- The first bytes of an FMC EEPROM whose multirecord area, at `2 * 8 = 16`, is a single
DC Load record, flagged as the last record (Format `0x82`), with Output Number 0, minimum
voltage `0x0078` (1.20 V) and maximum voltage `0x00B4` (1.80 V). -/
def fmcLastVadj : List Nat :=
  [1, 0, 0, 0, 0, 2, 0, 0] ++ List.replicate 8 0 ++
    [0x02, 0x82, 13, 0, 0, 0, 0xB4, 0, 0x78, 0, 0xB4, 0, 0, 0, 0, 0, 0, 0]

/-- The first bytes of an FMC EEPROM whose multirecord area, at 16, is a DC Load record
with Output Number 1 followed by a DC Load record with Output Number 0 (minimum `0x0078`,
maximum `0x00B4`) and a terminal DC Load record with Output Number 2. -/
def fmcTwoLoads : List Nat :=
  [1, 0, 0, 0, 0, 2, 0, 0] ++ List.replicate 8 0 ++
    [0x02, 0x02, 13, 0, 0, 1, 0x4A, 0x01, 0x40, 0x01, 0x54, 0x01, 0, 0, 0, 0, 0, 0] ++
    [0x02, 0x02, 13, 0, 0, 0, 0xB4, 0, 0x78, 0, 0xB4, 0, 0, 0, 0, 0, 0, 0] ++
    [0x02, 0x82, 13, 0, 0, 2, 0xB0, 0x04, 0xB0, 0x04, 0xB0, 0x04, 0, 0, 0, 0, 0, 0]

/-- The first bytes of an FMC EEPROM whose Common Header points the multirecord area at
`0x20 * 8 = 256`. -/
def fmcFarOffset : List Nat := [1, 0, 0, 0, 0, 0x20, 0, 0]

/-- A Board Info image whose FRU File ID field has length 2 and is followed by the
End-of-Record byte `0xC1`. -/
def imageLegacyBoard : List Nat :=
  padTo 64 ([1, 0, 0, 1, 0, 0, 0, 0, 1, 5, 0, 0, 0, 0] ++
    [0xC1, 0x41, 0xC1, 0x42, 0xC1, 0x43, 0xC1, 0x44, 0xC2, 0x30, 0x31, 0xC1])

/-- A table of regulators with one entry that supports 1 V and one entry whose list of
supported voltages is empty. -/
def voltageTable : List Voltage_entry :=
  [⟨"VCCINT", 1, plainRegulator⟩, ⟨"VADJ", 1, ⟨33, "IR38164", -1, fun _ => -1⟩⟩]

/-- A DC Load record at offset `o` that the walk of `FMC_Vadj_Range` passes over: type
`0x02`, Format top bit clear, offset below `0xFF`, Output Number other than 0. -/
def passedOver (In_Buffer : List Nat) (o : Nat) : Bool :=
  decide (byteAt In_Buffer o = 0x2) && decide (byteAt In_Buffer (o + 1) &&& 0x80 = 0) &&
    decide (o < 0xFF) && decide (byteAt In_Buffer (o + 5) ≠ 0)

/-- The first bytes of an FMC EEPROM whose multirecord area, at `0x1F * 8 = 0xF8`, starts
with a DC Load record with Output Number 0; of this record only the first seven bytes are
among the `0xFF` bytes read. -/
def fmcEdgeRecord : List Nat :=
  [1, 0, 0, 0, 0, 0x1F, 0, 0] ++ List.replicate 240 0 ++
    [0x02, 0x02, 13, 0, 0, 0, 0xB4, 0, 0x78, 0, 0xB4, 0, 0, 0, 0, 0, 0, 0]

/-- A Board Info image with the PCIe fields in which the FRU File ID has length 2: four
one-byte text fields, the FRU File ID `01`, a one-byte revision whose lead byte is `0xC1`,
a one-byte PCIe field, a 16-byte UUID and the End-of-Record byte. -/
def imageLongFruPcie : List Nat :=
  padTo 64 ([1, 0, 0, 1, 0, 0, 0, 0, 1, 6, 0, 0, 0, 0] ++
    [0xC1, 0x41, 0xC1, 0x42, 0xC1, 0x43, 0xC1, 0x44, 0xC2, 0x30, 0x31, 0xC1, 0x45] ++
    [0x01, 0x09, 0x10] ++ [1, 2, 3, 4, 5, 6, 7, 8, 9, 10, 11, 12, 13, 14, 15, 16] ++ [0xC1])

/-- What the loop of `EEPROM_MultiRecord` does after the entry at offset `o`: it goes on
at the next entry, `5 + Length` bytes further, unless the entry at `o` is flagged as the
last one, in which case the loop has ended. -/
def walkAfter (Buffer : List Nat) (o : Nat) : Dec Unit :=
  if byteAt Buffer (o + 1) &&& 0x80 = 0 then
    MultiRecord_loop Buffer (Buffer.length + 1) (o + (5 + byteAt Buffer (o + 2)))
  else pure ()

/-! ## Properties of the floating formats -/

theorem roundEven_sub_le (x : ℚ) : |(roundEven x : ℚ) - x| ≤ 1 / 2 := by
  have h1 := Int.floor_le x
  have h2 := Int.lt_floor_add_one x
  unfold roundEven
  rw [abs_le]
  split_ifs with a b c
  · constructor <;> linarith
  · push_cast; constructor <;> linarith
  · push_cast at a b ⊢; constructor <;> linarith
  · push_cast at a b ⊢; constructor <;> linarith

theorem roundEven_intCast (n : Int) : roundEven (n : ℚ) = n := by
  unfold roundEven
  simp

theorem roundBinary_exact (p : Nat) (emin emax : Int) (m k : Int)
    (hm : |m| < 2 ^ p) (hk : emin - ((p : Int) - 1) ≤ k) :
    roundBinary p emin emax ((m : ℚ) * (2 : ℚ) ^ k) =
      if (2 : ℚ) ^ (emax + 1) ≤ (m : ℚ) * (2 : ℚ) ^ k then FloatVal.inf
      else if (m : ℚ) * (2 : ℚ) ^ k ≤ -(2 : ℚ) ^ (emax + 1) then FloatVal.negInf
      else FloatVal.finite ((m : ℚ) * (2 : ℚ) ^ k) := by
  have h2 : (0 : ℚ) < 2 := by norm_num
  have hr : ∀ e : Int, e - ((p : Int) - 1) ≤ k →
      ((roundEven ((m : ℚ) * (2 : ℚ) ^ k / (2 : ℚ) ^ (e - ((p : Int) - 1))) : Int) : ℚ) *
        (2 : ℚ) ^ (e - ((p : Int) - 1)) = (m : ℚ) * (2 : ℚ) ^ k := by
    intro e he
    obtain ⟨d, hd⟩ : ∃ d : Nat, k = e - ((p : Int) - 1) + d :=
      ⟨(k - (e - ((p : Int) - 1))).toNat, by omega⟩
    have hu : (2 : ℚ) ^ (e - ((p : Int) - 1)) ≠ 0 := zpow_ne_zero _ (by norm_num)
    have hx : (m : ℚ) * (2 : ℚ) ^ k / (2 : ℚ) ^ (e - ((p : Int) - 1)) =
        ((m * 2 ^ d : Int) : ℚ) := by
      rw [hd, zpow_add₀ (by norm_num : (2 : ℚ) ≠ 0), zpow_natCast]
      push_cast
      field_simp
      ring
    rw [hx, roundEven_intCast, hd, zpow_add₀ (by norm_num : (2 : ℚ) ≠ 0), zpow_natCast]
    push_cast
    ring
  by_cases hm0 : m = 0
  · subst hm0
    unfold roundBinary
    simp [roundEven]
  have he : max (Int.log 2 |(m : ℚ) * (2 : ℚ) ^ k|) emin - ((p : Int) - 1) ≤ k := by
    rcases le_total (Int.log 2 |(m : ℚ) * (2 : ℚ) ^ k|) emin with h | h
    · rw [max_eq_right h]; exact hk
    · rw [max_eq_left h]
      have hpos : (0 : ℚ) < |(m : ℚ) * (2 : ℚ) ^ k| := by
        apply abs_pos.mpr
        exact mul_ne_zero (by exact_mod_cast hm0) (zpow_ne_zero _ (by norm_num))
      have hlt : |(m : ℚ) * (2 : ℚ) ^ k| < ((2 : Nat) : ℚ) ^ ((p : Int) + k) := by
        rw [abs_mul, abs_of_pos (zpow_pos h2 k), Nat.cast_ofNat,
          zpow_add₀ (by norm_num : (2 : ℚ) ≠ 0), zpow_natCast]
        apply mul_lt_mul_of_pos_right _ (zpow_pos h2 k)
        have : ((|m| : Int) : ℚ) < ((2 ^ p : Int) : ℚ) := by exact_mod_cast hm
        simpa using this
      have := (Int.lt_zpow_iff_log_lt (by norm_num : 1 < 2) hpos).mp hlt
      omega
  unfold roundBinary
  simp only [hr _ he]

theorem roundEven_eq_of_lt (y : ℚ) (n : Int) (h : |(n : ℚ) - y| < 1 / 2) : roundEven y = n := by
  have h1 := roundEven_sub_le y
  rw [abs_le] at h1
  rw [abs_lt] at h
  have h2 : ((roundEven y - n : Int) : ℚ) < 1 := by push_cast; linarith
  have h3 : (-1 : ℚ) < ((roundEven y - n : Int) : ℚ) := by push_cast; linarith
  have h4 : roundEven y - n < 1 := by exact_mod_cast h2
  have h5 : -1 < roundEven y - n := by exact_mod_cast h3
  omega

theorem log_eq_of_bounds (x : ℚ) (e : Int) (h0 : (2 : ℚ) ^ e ≤ |x|)
    (h1 : |x| < (2 : ℚ) ^ (e + 1)) :
    Int.log 2 |x| = e := by
  have hpos : (0 : ℚ) < |x| := lt_of_lt_of_le (zpow_pos (by norm_num) e) h0
  have a := (Int.zpow_le_iff_le_log (by norm_num : 1 < 2) hpos).mp
    (by rw [Nat.cast_ofNat]; exact h0 : ((2 : Nat) : ℚ) ^ e ≤ |x|)
  have b := (Int.lt_zpow_iff_log_lt (by norm_num : 1 < 2) hpos).mp
    (by rw [Nat.cast_ofNat]; exact h1 : |x| < ((2 : Nat) : ℚ) ^ (e + 1))
  omega

/-- A certificate for one rounding: `x` lies in the binade of `2 ^ e` and the integer `n`
is strictly within half a unit of `x` on the grid of that binade. -/
theorem roundBinary_eq (p : Nat) (emin emax e n : Int) (x : ℚ) (hemin : emin ≤ e)
    (h0 : (2 : ℚ) ^ e ≤ |x|) (h1 : |x| < (2 : ℚ) ^ (e + 1))
    (hn : |(n : ℚ) - x / (2 : ℚ) ^ (e - ((p : Int) - 1))| < 1 / 2)
    (hov : |(n : ℚ) * (2 : ℚ) ^ (e - ((p : Int) - 1))| < (2 : ℚ) ^ (emax + 1)) :
    roundBinary p emin emax x =
      FloatVal.finite ((n : ℚ) * (2 : ℚ) ^ (e - ((p : Int) - 1))) := by
  unfold roundBinary
  rw [abs_lt] at hov
  simp only [log_eq_of_bounds x e h0 h1, max_eq_left hemin, roundEven_eq_of_lt _ n hn]
  rw [if_neg (by linarith), if_neg (by linarith)]

/-- The rounding of a value in the range of the normal numbers is finite and within the
relative distance `2 ^ (-p)` of the value. -/
theorem roundBinary_near (p : Nat) (emin emax : Int) (x : ℚ) (hp : 1 ≤ p)
    (h0 : (2 : ℚ) ^ emin ≤ |x|) (h1 : |x| ≤ (2 : ℚ) ^ emax) :
    ∃ q, roundBinary p emin emax x = FloatVal.finite q ∧ |q - x| ≤ |x| / 2 ^ p := by
  have hpos : (0 : ℚ) < |x| := lt_of_lt_of_le (zpow_pos (by norm_num) emin) h0
  have hemin : emin ≤ Int.log 2 |x| :=
    (Int.zpow_le_iff_le_log (by norm_num : 1 < 2) hpos).mp (by rw [Nat.cast_ofNat]; exact h0)
  have hle : (2 : ℚ) ^ Int.log 2 |x| ≤ |x| := by
    have := Int.zpow_log_le_self (by norm_num : 1 < 2) hpos
    rwa [Nat.cast_ofNat] at this
  have hu : (0 : ℚ) < (2 : ℚ) ^ (Int.log 2 |x| - ((p : Int) - 1)) := zpow_pos (by norm_num) _
  have hhalf : (2 : ℚ) ^ (Int.log 2 |x| - ((p : Int) - 1)) / 2 =
      (2 : ℚ) ^ Int.log 2 |x| / 2 ^ p := by
    rw [show Int.log 2 |x| - ((p : Int) - 1) = Int.log 2 |x| - p + 1 by ring,
      zpow_add₀ (by norm_num : (2 : ℚ) ≠ 0), zpow_sub₀ (by norm_num : (2 : ℚ) ≠ 0),
      zpow_natCast]
    field_simp
    ring
  have hp2 : (2 : ℚ) ≤ 2 ^ p := by
    calc (2 : ℚ) = 2 ^ 1 := by norm_num
      _ ≤ 2 ^ p := pow_le_pow_right₀ (by norm_num) hp
  have hdist : |((roundEven (x / (2 : ℚ) ^ (Int.log 2 |x| - ((p : Int) - 1))) : Int) : ℚ) *
      (2 : ℚ) ^ (Int.log 2 |x| - ((p : Int) - 1)) - x| ≤ |x| / 2 ^ p := by
    have h := roundEven_sub_le (x / (2 : ℚ) ^ (Int.log 2 |x| - ((p : Int) - 1)))
    have e1 : ((roundEven (x / (2 : ℚ) ^ (Int.log 2 |x| - ((p : Int) - 1))) : Int) : ℚ) *
        (2 : ℚ) ^ (Int.log 2 |x| - ((p : Int) - 1)) - x =
        (((roundEven (x / (2 : ℚ) ^ (Int.log 2 |x| - ((p : Int) - 1))) : Int) : ℚ) -
          x / (2 : ℚ) ^ (Int.log 2 |x| - ((p : Int) - 1))) *
          (2 : ℚ) ^ (Int.log 2 |x| - ((p : Int) - 1)) := by
      field_simp
    rw [e1, abs_mul, abs_of_pos hu]
    calc _ ≤ 1 / 2 * (2 : ℚ) ^ (Int.log 2 |x| - ((p : Int) - 1)) :=
          mul_le_mul_of_nonneg_right h hu.le
      _ = (2 : ℚ) ^ Int.log 2 |x| / 2 ^ p := by rw [← hhalf]; ring
      _ ≤ |x| / 2 ^ p := div_le_div_of_nonneg_right hle (by positivity)
  have hsmall : |x| / 2 ^ p ≤ |x| / 2 := div_le_div_of_nonneg_left hpos.le (by norm_num) hp2
  have hpow : (2 : ℚ) ^ (emax + 1) = 2 * (2 : ℚ) ^ emax := by
    rw [zpow_add₀ (by norm_num : (2 : ℚ) ≠ 0), zpow_one, mul_comm]
  refine ⟨_, ?_, hdist⟩
  unfold roundBinary
  simp only [max_eq_left hemin]
  have habs := abs_le.mp hdist
  have hx := abs_le.mp (le_refl |x|)
  have hxa : -|x| ≤ x := neg_abs_le x
  have hxb : x ≤ |x| := le_abs_self x
  rw [if_neg (by rw [hpow]; linarith), if_neg (by rw [hpow]; linarith)]


theorem roundBinary_pos (p : Nat) (emin emax : Int) (x : ℚ) (hp : 1 ≤ p)
    (h0 : (2 : ℚ) ^ emin ≤ x) (h1 : x ≤ (2 : ℚ) ^ emax) :
    ∃ q, roundBinary p emin emax x = FloatVal.finite q ∧
      x - x / 2 ^ p ≤ q ∧ q ≤ x + x / 2 ^ p := by
  have hpos : 0 < x := lt_of_lt_of_le (zpow_pos (by norm_num) emin) h0
  have ha : |x| = x := abs_of_pos hpos
  obtain ⟨q, hq, hd⟩ := roundBinary_near p emin emax x hp (by rw [ha]; exact h0)
    (by rw [ha]; exact h1)
  rw [ha, abs_le] at hd
  exact ⟨q, hq, by linarith, by linarith⟩

theorem toDouble_three_tenths :
    toDouble (3 / 10) = FloatVal.finite (5404319552844595 / 18014398509481984) := by
  unfold toDouble
  rw [roundBinary_eq 53 (-1022) 1023 (-2) 5404319552844595 (3 / 10) (by norm_num)
    (by norm_num [le_abs]) (by norm_num [abs_lt]) (by norm_num [abs_lt])
    (by norm_num [abs_lt])]
  norm_num

theorem toFloat_one_tenth :
    (toDouble (1 / 10)).lift toFloat = FloatVal.finite (13421773 / 134217728) := by
  have h1 : toDouble (1 / 10) = FloatVal.finite (3602879701896397 / 36028797018963968) := by
    unfold toDouble
    rw [roundBinary_eq 53 (-1022) 1023 (-4) 7205759403792794 (1 / 10) (by norm_num)
      (by norm_num [le_abs]) (by norm_num [abs_lt]) (by norm_num [abs_lt])
      (by norm_num [abs_lt])]
    norm_num
  rw [h1]
  show roundBinary 24 (-126) 127 (3602879701896397 / 36028797018963968) = _
  rw [roundBinary_eq 24 (-126) 127 (-4) 13421773 (3602879701896397 / 36028797018963968)
    (by norm_num) (by norm_num [le_abs]) (by norm_num [abs_lt]) (by norm_num [abs_lt])
    (by norm_num [abs_lt])]
  norm_num

/-- The operand of line 135: the target, or the `float` nearest to 0.1 for the target 0. -/
theorem Over_Voltage_Limit_unfold (v : ℚ) :
    Over_Voltage_Limit (FloatVal.finite v) =
      (toDouble ((if v = 0 then 13421773 / 134217728 else v) *
          (5404319552844595 / 18014398509481984))).lift fun product =>
        (toDouble ((if v = 0 then 13421773 / 134217728 else v) + product)).lift toFloat := by
  unfold Over_Voltage_Limit
  by_cases h : v = 0
  · subst h
    simp only [ne_eq, not_true_eq_false, if_false]
    rw [toFloat_one_tenth, toDouble_three_tenths]
    simp only [FloatVal.lift, if_true]
  · have hne : FloatVal.finite v ≠ FloatVal.finite 0 := fun hc => h (FloatVal.finite.inj hc)
    simp only [hne, h, ne_eq, not_false_eq_true, if_true, if_false, toDouble_three_tenths,
      FloatVal.lift]

theorem two_zpow_le (a b : Int) (h : a ≤ b) : (2 : ℚ) ^ a ≤ (2 : ℚ) ^ b :=
  zpow_le_zpow_right₀ (by norm_num) h

/-- For a positive operand `a` of line 135 between `2 ^ -100` and `2 ^ 100`, the limit
is finite and within the relative distance `2 ^ -23` of `a * 1.3`. -/
theorem limit_near (a : ℚ) (h0 : 1 / 2 ^ 100 ≤ a) (h1 : a ≤ 2 ^ 100) :
    ∃ q, ((toDouble (a * (5404319552844595 / 18014398509481984))).lift fun product =>
        (toDouble (a + product)).lift toFloat) = FloatVal.finite q ∧
      |q - a * (13 / 10)| ≤ a * (13 / 10) / 2 ^ 23 := by
  have ha : 0 < a := lt_of_lt_of_le (by norm_num) h0
  norm_num at h0 h1
  have lo : ∀ x : ℚ, 1 / 2 ^ 102 ≤ x →
      (2 : ℚ) ^ (-1022 : Int) ≤ x ∧ (2 : ℚ) ^ (-126 : Int) ≤ x := by
    intro x hx
    have e : (2 : ℚ) ^ (-102 : Int) = 1 / 2 ^ 102 := by norm_num
    exact ⟨le_trans (two_zpow_le (-1022) (-102) (by norm_num)) (by rw [e]; exact hx),
      le_trans (two_zpow_le (-126) (-102) (by norm_num)) (by rw [e]; exact hx)⟩
  have hi : ∀ x : ℚ, x ≤ 2 ^ 102 →
      x ≤ (2 : ℚ) ^ (1023 : Int) ∧ x ≤ (2 : ℚ) ^ (127 : Int) := by
    intro x hx
    have e : (2 : ℚ) ^ (102 : Int) = 2 ^ 102 := by norm_num
    exact ⟨le_trans (by rw [e]; exact hx) (two_zpow_le 102 1023 (by norm_num)),
      le_trans (by rw [e]; exact hx) (two_zpow_le 102 127 (by norm_num))⟩
  obtain ⟨P, hP, hP0, hP1⟩ := roundBinary_pos 53 (-1022) 1023
    (a * (5404319552844595 / 18014398509481984)) (by norm_num)
    (lo _ (by norm_num; linarith)).1 (hi _ (by norm_num; linarith)).1
  norm_num at hP0 hP1
  obtain ⟨S, hS, hS0, hS1⟩ := roundBinary_pos 53 (-1022) 1023 (a + P) (by norm_num)
    (lo _ (by norm_num; linarith)).1 (hi _ (by norm_num; linarith)).1
  norm_num at hS0 hS1
  obtain ⟨R, hR, hR0, hR1⟩ := roundBinary_pos 24 (-126) 127 S (by norm_num)
    (lo _ (by norm_num; linarith)).2 (hi _ (by norm_num; linarith)).2
  norm_num at hR0 hR1
  refine ⟨R, ?_, ?_⟩
  · unfold toDouble toFloat
    simp only [hP, FloatVal.lift, hS, hR]
  · rw [abs_le]
    norm_num
    constructor <;> linarith

/-! ## Properties of the regulator access -/

theorem Supported_scan_iff (SV : Nat → ℚ) (v : ℚ) (n k : Nat) :
    Supported_scan SV v n k = true ↔
      ∃ i, i < n ∧ (∀ j, j ≤ i → SV (k + j) ≠ -1) ∧ SV (k + i) = v := by
  induction n generalizing k with
  | zero => simp [Supported_scan]
  | succ n ih =>
    unfold Supported_scan
    by_cases h1 : SV k = -1
    · simp only [h1, if_true]
      constructor
      · intro h; cases h
      · rintro ⟨i, _, hj, _⟩
        exact absurd h1 (by simpa using hj 0 (Nat.zero_le _))
    · by_cases h2 : v = SV k
      · simp only [h1, h2, FloatVal.finite.injEq, if_true, if_false, true_iff]
        refine ⟨0, Nat.succ_pos _, ?_, by simp⟩
        intro j hj
        have : j = 0 := by omega
        subst this
        simpa using h1
      · simp only [h1, h2, FloatVal.finite.injEq, if_false, ih]
        constructor
        · rintro ⟨i, hi, hj, he⟩
          refine ⟨i + 1, by omega, ?_, ?_⟩
          · intro j hj'
            rcases j with _ | j
            · simpa using h1
            · have := hj j (by omega)
              rwa [show k + (j + 1) = k + 1 + j by omega]
          · rwa [show k + (i + 1) = k + 1 + i by omega]
        · rintro ⟨i, hi, hj, he⟩
          rcases i with _ | i
          · exact absurd he.symm (by simpa using h2)
          · refine ⟨i, by omega, ?_, ?_⟩
            · intro j hj'
              have := hj (j + 1) (by omega)
              rwa [show k + (j + 1) = k + 1 + j by omega] at this
            · rwa [show k + (i + 1) = k + 1 + i by omega] at he

theorem fullSequence_length_le (bus : Bus) (Regulator : Voltage_t) (Voltage : ℚ) :
    (fullSequence bus Regulator Voltage).length ≤ 9 := by
  unfold fullSequence prologue setSequence
  split_ifs <;> simp

theorem transactions_fullSequence (bus : Bus) (Regulator : Voltage_t) (Voltage : ℚ) :
    transactions ([Event.opened] ++ fullSequence bus Regulator Voltage ++ [Event.closed]) =
      fullSequence bus Regulator Voltage := by
  unfold fullSequence prologue setSequence transactions
  split_ifs <;> simp

theorem run_rejected (ITEMS_MAX : Nat) (bus : Bus) (Regulator : Voltage_t) (Voltage : ℚ)
    (h : Supported_scan Regulator.Supported_Volt Voltage ITEMS_MAX 0 = false) :
    (runRegulator ITEMS_MAX bus Regulator Voltage 1).Ret = -1 ∧
    (runRegulator ITEMS_MAX bus Regulator Voltage 1).trace = [] := by
  simp [runRegulator, Access_Regulator, h, pure, bind]

theorem run_open_failed (ITEMS_MAX : Nat) (bus : Bus) (Regulator : Voltage_t) (Voltage : ℚ)
    (h : Supported_scan Regulator.Supported_Volt Voltage ITEMS_MAX 0 = true)
    (hb : bus.openOk = false) :
    (runRegulator ITEMS_MAX bus Regulator Voltage 1).Ret = -1 ∧
    (runRegulator ITEMS_MAX bus Regulator Voltage 1).trace = [Event.openFailed] := by
  simp [runRegulator, Access_Regulator, h, hb, pure, bind, emit]

theorem run_set_ok (ITEMS_MAX : Nat) (bus : Bus) (Regulator : Voltage_t) (Voltage : ℚ)
    (h : Supported_scan Regulator.Supported_Volt Voltage ITEMS_MAX 0 = true)
    (hb : bus.openOk = true)
    (hr : ∀ k, k < (fullSequence bus Regulator Voltage).length → bus.Ret k = 0) :
    (runRegulator ITEMS_MAX bus Regulator Voltage 1).trace =
      [Event.opened] ++ fullSequence bus Regulator Voltage ++ [Event.closed] ∧
    (runRegulator ITEMS_MAX bus Regulator Voltage 1).Ret = 0 ∧
    (runRegulator ITEMS_MAX bus Regulator Voltage 1).Voltage = Voltage := by
  by_cases hp : Regulator.Page_Select = -1 <;> by_cases hn : Regulator.Part_Name = "IR38164" <;>
    simp only [fullSequence, prologue, setSequence, hp, hn, if_true, if_false, ne_eq,
      not_true_eq_false, not_false_eq_true, List.length_append, List.length_cons,
      List.length_nil, List.nil_append] at hr <;>
    simp [runRegulator, Access_Regulator, h, hb, hr, hp, hn, pure, bind, emit, I2C_WRITE,
      I2C_READ, sent, List.range_succ, Function.update, Exponent_of, fullSequence, prologue,
      setSequence, Vout_float]

set_option maxHeartbeats 4000000 in
theorem run_set_fail (ITEMS_MAX : Nat) (bus : Bus) (Regulator : Voltage_t) (Voltage : ℚ)
    (k : Nat) (h : Supported_scan Regulator.Supported_Volt Voltage ITEMS_MAX 0 = true)
    (hb : bus.openOk = true) (hk : k < (fullSequence bus Regulator Voltage).length)
    (hprev : ∀ j, j < k → bus.Ret j = 0) (hfail : bus.Ret k ≠ 0) :
    (runRegulator ITEMS_MAX bus Regulator Voltage 1).trace =
      [Event.opened] ++ (fullSequence bus Regulator Voltage).take (k + 1) ++ [Event.closed] ∧
    (runRegulator ITEMS_MAX bus Regulator Voltage 1).Ret = bus.Ret k ∧
    (runRegulator ITEMS_MAX bus Regulator Voltage 1).Voltage = Voltage := by
  have h0 := hprev 0
  have h1 := hprev 1
  have h2 := hprev 2
  have h3 := hprev 3
  have h4 := hprev 4
  have h5 := hprev 5
  have h6 := hprev 6
  have h7 := hprev 7
  clear hprev
  by_cases hp : Regulator.Page_Select = -1 <;> by_cases hn : Regulator.Part_Name = "IR38164" <;>
    simp only [fullSequence, prologue, setSequence, hp, hn, if_true, if_false, ne_eq,
      not_true_eq_false, not_false_eq_true, List.length_append, List.length_cons,
      List.length_nil, List.nil_append] at hk <;>
    interval_cases k <;>
    simp [runRegulator, Access_Regulator, pure, bind, emit, I2C_WRITE, I2C_READ, h, hb, hp, hn,
      h0, h1, h2, h3, h4, h5, h6, h7, hfail, sent, List.range_succ, Function.update,
      Exponent_of, fullSequence, prologue, setSequence, Vout_float]

/-- On every bus either all transactions of the full sequence succeed or there is a first
one that fails. -/
theorem first_failure (Ret : Nat → Int) (n : Nat) :
    (∀ k, k < n → Ret k = 0) ∨
      ∃ k, k < n ∧ (∀ j, j < k → Ret j = 0) ∧ Ret k ≠ 0 := by
  induction n with
  | zero => left; intro k hk; omega
  | succ n ih =>
    rcases ih with hall | ⟨k, hk, hprev, hfail⟩
    · by_cases hn : Ret n = 0
      · left
        intro k hk
        rcases Nat.lt_succ_iff_lt_or_eq.mp hk with hlt | rfl
        · exact hall k hlt
        · exact hn
      · right
        exact ⟨n, Nat.lt_succ_self n, hall, hn⟩
    · right
      exact ⟨k, Nat.lt_succ_of_lt hk, hprev, hfail⟩

theorem run_accepted_head (ITEMS_MAX : Nat) (bus : Bus) (Regulator : Voltage_t) (Voltage : ℚ)
    (h : Supported_scan Regulator.Supported_Volt Voltage ITEMS_MAX 0 = true)
    (hb : bus.openOk = true) :
    (runRegulator ITEMS_MAX bus Regulator Voltage 1).trace.head? = some Event.opened := by
  rcases first_failure bus.Ret (fullSequence bus Regulator Voltage).length with
    hall | ⟨k, hk, hprev, hfail⟩
  · rw [(run_set_ok ITEMS_MAX bus Regulator Voltage h hb hall).1]
    rfl
  · rw [(run_set_fail ITEMS_MAX bus Regulator Voltage k h hb hk hprev hfail).1]
    rfl

theorem enable_not_in_take (bus : Bus) (Regulator : Voltage_t) (Voltage : ℚ) (k : Nat)
    (hk : k < (fullSequence bus Regulator Voltage).length) :
    Event.i2c_write Regulator.I2C_Address [OutByte.PMBUS_OPERATION, OutByte.lit 128] ∉
      (fullSequence bus Regulator Voltage).take k := by
  by_cases hp : Regulator.Page_Select = -1 <;> by_cases hn : Regulator.Part_Name = "IR38164" <;>
    simp only [fullSequence, prologue, setSequence, hp, hn, if_true, if_false, ne_eq,
      not_true_eq_false, not_false_eq_true, List.length_append, List.length_cons,
      List.length_nil, List.nil_append] at hk ⊢ <;>
    interval_cases k <;> simp

theorem transactions_take_fullSequence (bus : Bus) (Regulator : Voltage_t) (Voltage : ℚ)
    (k : Nat) :
    transactions ([Event.opened] ++ (fullSequence bus Regulator Voltage).take k ++
      [Event.closed]) = (fullSequence bus Regulator Voltage).take k := by
  have hall : ∀ e ∈ fullSequence bus Regulator Voltage,
      (match e with
        | Event.i2c_write _ _ => true
        | Event.i2c_read _ _ _ => true
        | _ => false) = true := by
    unfold fullSequence prologue setSequence
    split_ifs <;> simp
  unfold transactions
  rw [List.filter_append, List.filter_append]
  have h1 : List.filter (fun e => match e with
        | Event.i2c_write _ _ => true
        | Event.i2c_read _ _ _ => true
        | _ => false) ((fullSequence bus Regulator Voltage).take k) =
      (fullSequence bus Regulator Voltage).take k :=
    List.filter_eq_self.mpr fun e he => hall e (List.mem_of_mem_take he)
  rw [h1]
  simp

/-- C1: a voltage change (`Access = 1`) whose target is not equal to one of the
`Supported_Volt` entries that precede the first `-1` terminator (at most `ITEMS_MAX`
entries are scanned) returns `-1` with an empty trace: the bus is not opened and no read
or write is issued.  When the target equals such an entry the call goes on to open the
bus: its trace starts with the attempt to open. -/
theorem Access_Regulator_rejects_unsupported_voltage (ITEMS_MAX : Nat) (bus : Bus)
    (Regulator : Voltage_t) (Voltage : ℚ) :
    ((¬ ∃ i, i < ITEMS_MAX ∧ (∀ j, j ≤ i → Regulator.Supported_Volt j ≠ -1) ∧
          Regulator.Supported_Volt i = Voltage) →
      (runRegulator ITEMS_MAX bus Regulator Voltage 1).Ret = -1 ∧
      (runRegulator ITEMS_MAX bus Regulator Voltage 1).trace = []) ∧
    ((∃ i, i < ITEMS_MAX ∧ (∀ j, j ≤ i → Regulator.Supported_Volt j ≠ -1) ∧
          Regulator.Supported_Volt i = Voltage) →
      (runRegulator ITEMS_MAX bus Regulator Voltage 1).trace.head? =
        some (if bus.openOk = true then Event.opened else Event.openFailed)) := by
  have hiff := Supported_scan_iff Regulator.Supported_Volt Voltage ITEMS_MAX 0
  simp only [Nat.zero_add] at hiff
  constructor
  · intro hno
    have hs : Supported_scan Regulator.Supported_Volt Voltage ITEMS_MAX 0 = false := by
      cases hc : Supported_scan Regulator.Supported_Volt Voltage ITEMS_MAX 0
      · rfl
      · exact absurd (hiff.mp hc) hno
    exact run_rejected ITEMS_MAX bus Regulator Voltage hs
  · intro hyes
    have hs := hiff.mpr hyes
    cases hb : bus.openOk
    · rw [(run_open_failed ITEMS_MAX bus Regulator Voltage hs hb).2]
      rfl
    · rw [run_accepted_head ITEMS_MAX bus Regulator Voltage hs hb]
      rfl

/-- C1 at concrete inputs: 2 V is not in the list of `plainRegulator` and is rejected
without any bus access; 1 V is in the list and the bus is opened. -/
theorem Access_Regulator_rejects_unsupported_voltage_witness :
    ((runRegulator 4 quietBus plainRegulator 2 1).Ret = -1 ∧
      (runRegulator 4 quietBus plainRegulator 2 1).trace = []) ∧
    (runRegulator 4 quietBus plainRegulator 1 1).trace.head? = some Event.opened := by
  refine ⟨(Access_Regulator_rejects_unsupported_voltage 4 quietBus plainRegulator 2).1 ?_,
    (Access_Regulator_rejects_unsupported_voltage 4 quietBus plainRegulator 1).2 ?_⟩
  · rintro ⟨i, hi, hj, he⟩
    have h0 := hj 0 (Nat.zero_le _)
    rcases i with _ | i
    · norm_num [plainRegulator] at he
    · have h1 := hj 1 (by omega)
      norm_num [plainRegulator] at h1
  · refine ⟨0, by decide, ?_, ?_⟩
    · intro j hj
      have : j = 0 := by omega
      subst this
      norm_num [plainRegulator]
    · norm_num [plainRegulator]

/-- C2: in an accepted voltage change, when transaction number `k` (counted from 0) is the
first one that fails, the call returns the non-zero code of that transaction and the
transactions it issued are exactly the first `k + 1` of the sequence a failure-free call
issues, the failed one being the last; the write of `0x80` to `PMBUS_OPERATION` is not in
the trace when the failure precedes it. -/
theorem Access_Regulator_set_aborts_at_first_failure (ITEMS_MAX : Nat) (bus : Bus)
    (Regulator : Voltage_t) (Voltage : ℚ) (k : Nat)
    (hacc : Supported_scan Regulator.Supported_Volt Voltage ITEMS_MAX 0 = true)
    (hopen : bus.openOk = true)
    (hk : k < (transactions
      (runRegulator ITEMS_MAX ⟨true, fun _ => 0, bus.In⟩ Regulator Voltage 1).trace).length)
    (hprev : ∀ j, j < k → bus.Ret j = 0) (hfail : bus.Ret k ≠ 0) :
    (runRegulator ITEMS_MAX bus Regulator Voltage 1).Ret = bus.Ret k ∧
    (runRegulator ITEMS_MAX bus Regulator Voltage 1).Ret ≠ 0 ∧
    transactions (runRegulator ITEMS_MAX bus Regulator Voltage 1).trace =
      (transactions
        (runRegulator ITEMS_MAX ⟨true, fun _ => 0, bus.In⟩ Regulator Voltage 1).trace).take
        (k + 1) ∧
    (k + 1 < (transactions
        (runRegulator ITEMS_MAX ⟨true, fun _ => 0, bus.In⟩ Regulator Voltage 1).trace).length →
      Event.i2c_write Regulator.I2C_Address [OutByte.PMBUS_OPERATION, OutByte.lit 128] ∉
        (runRegulator ITEMS_MAX bus Regulator Voltage 1).trace) := by
  have hfull : transactions
      (runRegulator ITEMS_MAX ⟨true, fun _ => 0, bus.In⟩ Regulator Voltage 1).trace =
      fullSequence bus Regulator Voltage := by
    rw [(run_set_ok ITEMS_MAX ⟨true, fun _ => 0, bus.In⟩ Regulator Voltage hacc rfl
      (fun _ _ => rfl)).1]
    exact transactions_fullSequence bus Regulator Voltage
  rw [hfull] at hk ⊢
  obtain ⟨htrace, hret, _⟩ :=
    run_set_fail ITEMS_MAX bus Regulator Voltage k hacc hopen hk hprev hfail
  refine ⟨hret, by rw [hret]; exact hfail, ?_, ?_⟩
  · rw [htrace]
    exact transactions_take_fullSequence bus Regulator Voltage (k + 1)
  · intro hlt
    rw [htrace]
    have := enable_not_in_take bus Regulator Voltage (k + 1) hlt
    simpa using this

/-- C2 at a concrete input: the fourth transaction fails with `-1`. -/
theorem Access_Regulator_set_aborts_at_first_failure_witness :
    (runRegulator 4 ⟨true, fun k => if k = 3 then -1 else 0, quietBus.In⟩
      plainRegulator 1 1).Ret = -1 ∧
    transactions (runRegulator 4 ⟨true, fun k => if k = 3 then -1 else 0, quietBus.In⟩
      plainRegulator 1 1).trace =
      [Event.i2c_read 32 1 OutByte.PMBUS_VOUT_MODE,
       Event.i2c_write 32 [OutByte.PMBUS_OPERATION, OutByte.lit 0],
       Event.i2c_write 32 [OutByte.PMBUS_VOUT_UV_FAULT_LIMIT, OutByte.lit 0, OutByte.lit 0],
       Event.i2c_write 32 [OutByte.PMBUS_VOUT_UV_WARN_LIMIT, OutByte.lit 0, OutByte.lit 0]] := by
  have h := Access_Regulator_set_aborts_at_first_failure 4
    ⟨true, fun k => if k = 3 then -1 else 0, quietBus.In⟩ plainRegulator 1 3
    (by decide) rfl (by decide) (by decide) (by decide)
  refine ⟨h.1, ?_⟩
  rw [h.2.2.1]
  decide

theorem Vout_of_between (q : ℚ) (e : Int) (n : Nat) (hn : n < 4294967296)
    (hq : 0 ≤ q / pow2 e) (h0 : (n : ℚ) - 1 / 2 ≤ q / pow2 e)
    (h1 : q / pow2 e < (n : ℚ) + 1 / 2) : Vout_of q e = n := by
  unfold Vout_of C_round
  rw [if_pos hq]
  have hf : ⌊q / pow2 e + 1 / 2⌋ = (n : Int) := by
    rw [Int.floor_eq_iff]
    push_cast
    constructor <;> linarith
  rw [hf]
  unfold toUInt
  rw [if_neg (by omega), if_neg (by omega)]
  simp

/-- The limit of a target other than 0, from the three roundings of line 135. -/
theorem limit_of_roundings (a P S R : ℚ) (ha : a ≠ 0)
    (hP : toDouble (a * (5404319552844595 / 18014398509481984)) = FloatVal.finite P)
    (hS : toDouble (a + P) = FloatVal.finite S) (hR : toFloat S = FloatVal.finite R) :
    Over_Voltage_Limit (FloatVal.finite a) = FloatVal.finite R := by
  rw [Over_Voltage_Limit_unfold, if_neg ha, hP]
  show (toDouble (a + P)).lift toFloat = _
  rw [hS]
  exact hR

theorem Over_Voltage_Limit_one :
    Over_Voltage_Limit (FloatVal.finite 1) = FloatVal.finite (5452595 / 4194304) := by
  refine limit_of_roundings 1 (5404319552844595 / 18014398509481984)
    (5854679515581645 / 4503599627370496) _ (by norm_num) ?_ ?_ ?_
  · unfold toDouble
    rw [roundBinary_eq 53 (-1022) 1023 (-2) 5404319552844595 _ (by norm_num)
      (by norm_num [le_abs]) (by norm_num [abs_lt]) (by norm_num [abs_lt])
      (by norm_num [abs_lt])]
    norm_num
  · unfold toDouble
    rw [roundBinary_eq 53 (-1022) 1023 0 5854679515581645 _ (by norm_num)
      (by norm_num [le_abs]) (by norm_num [abs_lt]) (by norm_num [abs_lt])
      (by norm_num [abs_lt])]
    norm_num
  · unfold toFloat
    rw [roundBinary_eq 24 (-126) 127 0 10905190 _ (by norm_num)
      (by norm_num [le_abs]) (by norm_num [abs_lt]) (by norm_num [abs_lt])
      (by norm_num [abs_lt])]
    norm_num

theorem Over_Voltage_Limit_sixteenth :
    Over_Voltage_Limit (FloatVal.finite (1 / 16)) = FloatVal.finite (5452595 / 67108864) := by
  refine limit_of_roundings (1 / 16) (5404319552844595 / 288230376151711744)
    (5854679515581645 / 72057594037927936) _ (by norm_num) ?_ ?_ ?_
  · unfold toDouble
    rw [roundBinary_eq 53 (-1022) 1023 (-6) 5404319552844595 _ (by norm_num)
      (by norm_num [le_abs]) (by norm_num [abs_lt]) (by norm_num [abs_lt])
      (by norm_num [abs_lt])]
    norm_num
  · unfold toDouble
    rw [roundBinary_eq 53 (-1022) 1023 (-4) 5854679515581645 _ (by norm_num)
      (by norm_num [le_abs]) (by norm_num [abs_lt]) (by norm_num [abs_lt])
      (by norm_num [abs_lt])]
    norm_num
  · unfold toFloat
    rw [roundBinary_eq 24 (-126) 127 (-4) 10905190 _ (by norm_num)
      (by norm_num [le_abs]) (by norm_num [abs_lt]) (by norm_num [abs_lt])
      (by norm_num [abs_lt])]
    norm_num

/-- The limit of the `float` nearest to 1.499, `12574523 / 2 ^ 23`. -/
theorem Over_Voltage_Limit_fine :
    Over_Voltage_Limit (FloatVal.finite (12574523 / 8388608)) =
      FloatVal.finite (63855 / 32768) := by
  refine limit_of_roundings (12574523 / 8388608) (8101074757169971 / 18014398509481984)
    (8776164320267469 / 4503599627370496) _ (by norm_num) ?_ ?_ ?_
  · unfold toDouble
    rw [roundBinary_eq 53 (-1022) 1023 (-2) 8101074757169971 _ (by norm_num)
      (by norm_num [le_abs]) (by norm_num [abs_lt]) (by norm_num [abs_lt])
      (by norm_num [abs_lt])]
    norm_num
  · unfold toDouble
    rw [roundBinary_eq 53 (-1022) 1023 0 8776164320267469 _ (by norm_num)
      (by norm_num [le_abs]) (by norm_num [abs_lt]) (by norm_num [abs_lt])
      (by norm_num [abs_lt])]
    norm_num
  · unfold toFloat
    rw [roundBinary_eq 24 (-126) 127 0 16346880 _ (by norm_num)
      (by norm_num [le_abs]) (by norm_num [abs_lt]) (by norm_num [abs_lt])
      (by norm_num [abs_lt])]
    norm_num

/-- C3: an accepted voltage change in which every transaction succeeds issues, after the
optional page-select write and the optional `PMBUS_VOUT_MODE` read, the seven writes
`OPERATION = 0x00`, `VOUT_UV_FAULT_LIMIT = 0`, `VOUT_UV_WARN_LIMIT = 0`,
`VOUT_OV_FAULT_LIMIT = L`, `VOUT_OV_WARN_LIMIT = L`, `VOUT_COMMAND = V`, `OPERATION = 0x80`
in this order, `L` being the encoded over-voltage limit and `V` the encoded target, then
closes the bus and returns 0. -/
theorem Access_Regulator_set_write_order (ITEMS_MAX : Nat) (bus : Bus)
    (Regulator : Voltage_t) (Voltage : ℚ)
    (hacc : Supported_scan Regulator.Supported_Volt Voltage ITEMS_MAX 0 = true)
    (hopen : bus.openOk = true) (hok : ∀ k, bus.Ret k = 0) :
    (runRegulator ITEMS_MAX bus Regulator Voltage 1).Ret = 0 ∧
    (runRegulator ITEMS_MAX bus Regulator Voltage 1).trace =
      [Event.opened] ++
      (if Regulator.Page_Select ≠ -1 then
        [Event.i2c_write Regulator.I2C_Address
          [OutByte.lit 0, OutByte.lit (toChar Regulator.Page_Select)]]
       else []) ++
      (if Regulator.Part_Name = "IR38164" then []
       else [Event.i2c_read Regulator.I2C_Address 1 OutByte.PMBUS_VOUT_MODE]) ++
      [Event.i2c_write Regulator.I2C_Address [OutByte.PMBUS_OPERATION, OutByte.lit 0],
       Event.i2c_write Regulator.I2C_Address
         [OutByte.PMBUS_VOUT_UV_FAULT_LIMIT, OutByte.lit 0, OutByte.lit 0],
       Event.i2c_write Regulator.I2C_Address
         [OutByte.PMBUS_VOUT_UV_WARN_LIMIT, OutByte.lit 0, OutByte.lit 0],
       Event.i2c_write Regulator.I2C_Address
         [OutByte.PMBUS_VOUT_OV_FAULT_LIMIT,
          OutByte.lit (Vout_float (Over_Voltage_Limit Voltage) (Exponent_of bus Regulator) % 256),
          OutByte.lit
            (Vout_float (Over_Voltage_Limit Voltage) (Exponent_of bus Regulator) / 256 % 256)],
       Event.i2c_write Regulator.I2C_Address
         [OutByte.PMBUS_VOUT_OV_WARN_LIMIT,
          OutByte.lit (Vout_float (Over_Voltage_Limit Voltage) (Exponent_of bus Regulator) % 256),
          OutByte.lit
            (Vout_float (Over_Voltage_Limit Voltage) (Exponent_of bus Regulator) / 256 % 256)],
       Event.i2c_write Regulator.I2C_Address
         [OutByte.PMBUS_VOUT_COMMAND,
          OutByte.lit (Vout_of Voltage (Exponent_of bus Regulator) % 256),
          OutByte.lit (Vout_of Voltage (Exponent_of bus Regulator) / 256 % 256)],
       Event.i2c_write Regulator.I2C_Address [OutByte.PMBUS_OPERATION, OutByte.lit 128],
       Event.closed] := by
  obtain ⟨htrace, hret, _⟩ :=
    run_set_ok ITEMS_MAX bus Regulator Voltage hacc hopen (fun k _ => hok k)
  refine ⟨hret, ?_⟩
  rw [htrace]
  simp [fullSequence, prologue, setSequence]

/-- C3 at a concrete input: 1 V on a regulator without page select. -/
theorem Access_Regulator_set_write_order_witness :
    (runRegulator 4 quietBus plainRegulator 1 1).Ret = 0 ∧
    (runRegulator 4 quietBus plainRegulator 1 1).trace =
      [Event.opened,
       Event.i2c_read 32 1 OutByte.PMBUS_VOUT_MODE,
       Event.i2c_write 32 [OutByte.PMBUS_OPERATION, OutByte.lit 0],
       Event.i2c_write 32 [OutByte.PMBUS_VOUT_UV_FAULT_LIMIT, OutByte.lit 0, OutByte.lit 0],
       Event.i2c_write 32 [OutByte.PMBUS_VOUT_UV_WARN_LIMIT, OutByte.lit 0, OutByte.lit 0],
       Event.i2c_write 32 [OutByte.PMBUS_VOUT_OV_FAULT_LIMIT, OutByte.lit 77, OutByte.lit 1],
       Event.i2c_write 32 [OutByte.PMBUS_VOUT_OV_WARN_LIMIT, OutByte.lit 77, OutByte.lit 1],
       Event.i2c_write 32 [OutByte.PMBUS_VOUT_COMMAND, OutByte.lit 0, OutByte.lit 1],
       Event.i2c_write 32 [OutByte.PMBUS_OPERATION, OutByte.lit 128],
       Event.closed] := by
  have h := Access_Regulator_set_write_order 4 quietBus plainRegulator 1 (by decide) rfl
    (fun _ => rfl)
  refine ⟨h.1, ?_⟩
  rw [h.2]
  have hs : ¬ ("IR35215" = "IR38164") := by decide
  have he : Exponent_of quietBus plainRegulator = -8 := by
    norm_num [hs, plainRegulator, quietBus, Exponent_of]
  have hV : Vout_of 1 (-8) = 256 :=
    Vout_of_between _ (-8) 256 (by norm_num) (by norm_num [pow2]) (by norm_num [pow2])
      (by norm_num [pow2])
  have hL : Vout_float (Over_Voltage_Limit (FloatVal.finite 1)) (-8) = 333 := by
    rw [Over_Voltage_Limit_one]
    exact Vout_of_between _ (-8) 333 (by norm_num) (by norm_num [pow2]) (by norm_num [pow2])
      (by norm_num [pow2])
  rw [he, hL, hV]
  simp [hs, plainRegulator]


/-- C4, refuted as stated: for the accepted target 1/16 V at exponent -8 the limit is the
`float` `5452595 / 2 ^ 26`, about 0.08125, and the bytes `21, 0` go to both limit
registers, while `max(1/16, 0.1) * 1.3 = 0.13` would encode to `33, 0`. -/
theorem Over_Voltage_Limit_is_not_max :
    Over_Voltage_Limit (FloatVal.finite (1 / 16)) = FloatVal.finite (5452595 / 67108864) ∧
    Event.i2c_write 32 [OutByte.PMBUS_VOUT_OV_FAULT_LIMIT, OutByte.lit 21, OutByte.lit 0] ∈
      (runRegulator 4 quietBus lowRegulator (1 / 16) 1).trace ∧
    Event.i2c_write 32 [OutByte.PMBUS_VOUT_OV_WARN_LIMIT, OutByte.lit 21, OutByte.lit 0] ∈
      (runRegulator 4 quietBus lowRegulator (1 / 16) 1).trace ∧
    Vout_of (max (1 / 16) (1 / 10) * (13 / 10)) (-8) = 33 := by
  have hacc : Supported_scan lowRegulator.Supported_Volt (FloatVal.finite (1 / 16)) 4 0 = true := by
    norm_num [Supported_scan, lowRegulator]
  have htrace := (run_set_ok 4 quietBus lowRegulator (1 / 16) hacc rfl (fun _ _ => rfl)).1
  have he : Exponent_of quietBus lowRegulator = -8 := by
    norm_num [Exponent_of, lowRegulator]
  have hL : Vout_float (Over_Voltage_Limit (FloatVal.finite (1 / 16)))
      (Exponent_of quietBus lowRegulator) = 21 := by
    rw [he, Over_Voltage_Limit_sixteenth]
    exact Vout_of_between _ (-8) 21 (by norm_num) (by norm_num [pow2]) (by norm_num [pow2])
      (by norm_num [pow2])
  refine ⟨Over_Voltage_Limit_sixteenth, ?_, ?_, ?_⟩
  · rw [htrace]
    simp only [fullSequence, setSequence, hL]
    simp [lowRegulator]
  · rw [htrace]
    simp only [fullSequence, setSequence, hL]
    simp [lowRegulator]
  · have hm : max ((1 : ℚ) / 16) (1 / 10) = 1 / 10 := max_eq_right (by norm_num)
    rw [hm]
    norm_num [Vout_of, pow2, C_round, toUInt]
    rfl

/-- C4, amended: in an accepted voltage change whose transactions all succeed, the same
two bytes are written to `PMBUS_VOUT_OV_FAULT_LIMIT` and to `PMBUS_VOUT_OV_WARN_LIMIT`, and
no others: the encoding of the `float` `Over_Voltage_Limit`.  With `t` the target when the
target is not 0 and the `float` nearest to 0.1, `13421773 / 2 ^ 27`, when it is 0, this
`float` is `t + t * 0.3` with `0.3` the `double` nearest to 3/10, the product and the sum
rounded to `double` and the sum then rounded to `float`; for `t` between `2 ^ -100` and
`2 ^ 100` it is finite and within the relative distance `2 ^ -23` of `t * 1.3`. -/
theorem Access_Regulator_over_voltage_limit (ITEMS_MAX : Nat) (bus : Bus)
    (Regulator : Voltage_t) (Voltage : ℚ)
    (hacc : Supported_scan Regulator.Supported_Volt Voltage ITEMS_MAX 0 = true)
    (hopen : bus.openOk = true) (hok : ∀ k, bus.Ret k = 0) :
    Event.i2c_write Regulator.I2C_Address
      [OutByte.PMBUS_VOUT_OV_FAULT_LIMIT,
       OutByte.lit (Vout_float (Over_Voltage_Limit Voltage) (Exponent_of bus Regulator) % 256),
       OutByte.lit
         (Vout_float (Over_Voltage_Limit Voltage) (Exponent_of bus Regulator) / 256 % 256)] ∈
      (runRegulator ITEMS_MAX bus Regulator Voltage 1).trace ∧
    Event.i2c_write Regulator.I2C_Address
      [OutByte.PMBUS_VOUT_OV_WARN_LIMIT,
       OutByte.lit (Vout_float (Over_Voltage_Limit Voltage) (Exponent_of bus Regulator) % 256),
       OutByte.lit
         (Vout_float (Over_Voltage_Limit Voltage) (Exponent_of bus Regulator) / 256 % 256)] ∈
      (runRegulator ITEMS_MAX bus Regulator Voltage 1).trace ∧
    (∀ bytes, Event.i2c_write Regulator.I2C_Address
        (OutByte.PMBUS_VOUT_OV_FAULT_LIMIT :: bytes) ∈
          (runRegulator ITEMS_MAX bus Regulator Voltage 1).trace ∨
        Event.i2c_write Regulator.I2C_Address
        (OutByte.PMBUS_VOUT_OV_WARN_LIMIT :: bytes) ∈
          (runRegulator ITEMS_MAX bus Regulator Voltage 1).trace →
      bytes =
        [OutByte.lit (Vout_float (Over_Voltage_Limit Voltage) (Exponent_of bus Regulator) % 256),
         OutByte.lit
          (Vout_float (Over_Voltage_Limit Voltage) (Exponent_of bus Regulator) / 256 % 256)]) ∧
    Over_Voltage_Limit Voltage =
      (toDouble ((if Voltage = 0 then 13421773 / 134217728 else Voltage) *
          (5404319552844595 / 18014398509481984))).lift (fun product =>
        (toDouble ((if Voltage = 0 then 13421773 / 134217728 else Voltage) + product)).lift
          toFloat) ∧
    toDouble (3 / 10) = FloatVal.finite (5404319552844595 / 18014398509481984) ∧
    (toDouble (1 / 10)).lift toFloat = FloatVal.finite (13421773 / 134217728) ∧
    (1 / 2 ^ 100 ≤ (if Voltage = 0 then 13421773 / 134217728 else Voltage) →
      (if Voltage = 0 then 13421773 / 134217728 else Voltage) ≤ 2 ^ 100 →
      ∃ q, Over_Voltage_Limit Voltage = FloatVal.finite q ∧
        |q - (if Voltage = 0 then 13421773 / 134217728 else Voltage) * (13 / 10)| ≤
          (if Voltage = 0 then 13421773 / 134217728 else Voltage) * (13 / 10) / 2 ^ 23) := by
  have htrace :=
    (run_set_ok ITEMS_MAX bus Regulator Voltage hacc hopen (fun k _ => hok k)).1
  rw [htrace]
  refine ⟨?_, ?_, ?_, Over_Voltage_Limit_unfold Voltage, toDouble_three_tenths,
    toFloat_one_tenth, ?_⟩
  · simp [fullSequence, setSequence]
  · simp [fullSequence, setSequence]
  · intro bytes hb
    unfold fullSequence prologue setSequence at hb
    split_ifs at hb <;> simp at hb <;> exact hb
  · intro h0 h1
    rw [Over_Voltage_Limit_unfold]
    exact limit_near _ h0 h1

/-- C4 amended, at a concrete input: the target is the `float` nearest to 1.499 V and the
exponent is -14.  The limit is the `float` `63855 / 2 ^ 15` and its encoding `31928`
(`0x7CB8`) is written, while `t * 1.3` would encode to `31927`. -/
theorem Access_Regulator_over_voltage_limit_witness :
    Event.i2c_write 32 [OutByte.PMBUS_VOUT_OV_FAULT_LIMIT, OutByte.lit 184, OutByte.lit 124] ∈
      (runRegulator 4 fineBus fineRegulator (12574523 / 8388608) 1).trace ∧
    Vout_of (12574523 / 8388608 * (13 / 10)) (-14) = 31927 := by
  have h := (Access_Regulator_over_voltage_limit 4 fineBus fineRegulator (12574523 / 8388608)
    (by norm_num [Supported_scan, fineRegulator]) rfl (fun _ => rfl)).1
  have hs : ¬ ("IR35215" = "IR38164") := by decide
  have he : Exponent_of fineBus fineRegulator = -14 := by
    norm_num [hs, Exponent_of, fineRegulator, fineBus]
  have hL : Vout_float (Over_Voltage_Limit (FloatVal.finite (12574523 / 8388608)))
      (Exponent_of fineBus fineRegulator) = 31928 := by
    rw [he, Over_Voltage_Limit_fine]
    exact Vout_of_between _ (-14) 31928 (by norm_num) (by norm_num [pow2])
      (by norm_num [pow2]) (by norm_num [pow2])
  rw [hL] at h
  refine ⟨by simpa [fineRegulator] using h, ?_⟩
  exact Vout_of_between _ (-14) 31927 (by norm_num) (by norm_num [pow2]) (by norm_num [pow2])
    (by norm_num [pow2])

theorem toShort_of_small (m : Int) (h0 : 0 ≤ m) (h1 : m < 32768) : toShort m = m := by
  unfold toShort
  have : m % 65536 = m := Int.emod_eq_of_lt h0 (by omega)
  simp [this, h1]

theorem C_round_intCast (m : Int) : C_round (m : ℚ) = m := by
  unfold C_round
  have h1 : ⌊(m : ℚ) + 1 / 2⌋ = m := by
    rw [Int.floor_eq_iff]
    constructor <;> norm_num
  have h2 : ⌊-(m : ℚ) + 1 / 2⌋ = -m := by
    rw [Int.floor_eq_iff]
    constructor <;> push_cast <;> norm_num
  split_ifs
  · exact h1
  · rw [h2]; ring

theorem pow2_ne_zero (e : Int) : pow2 e ≠ 0 := by
  unfold pow2
  exact zpow_ne_zero e (by norm_num)

theorem Vout_of_mantissa (m e : Int) (h0 : 0 ≤ m) (h1 : m < 4294967296) :
    Vout_of ((m : ℚ) * pow2 e) e = m.toNat := by
  unfold Vout_of
  rw [mul_div_assoc, div_self (pow2_ne_zero e), mul_one, C_round_intCast]
  unfold toUInt
  rw [if_neg (by omega), if_neg (by omega)]

/-- C5, refuted as stated: at exponent -8 the voltage of mantissa -2 is encoded as the
bytes `0, 0`, which decode to 0, two LSB away; and the voltage of the 16-bit mantissa
32768 is encoded as `0x00, 0x80`, which decode to the mantissa -32768. -/
theorem Vout_roundtrip_fails_outside_positive_range :
    ¬ (|Decode_Vout (fun j => if j = 0 then Vout_of ((-2 : ℚ) * pow2 (-8)) (-8) % 256
          else Vout_of ((-2 : ℚ) * pow2 (-8)) (-8) / 256 % 256) (-8) - (-2 : ℚ) * pow2 (-8)|
        ≤ pow2 (-8)) ∧
    ¬ (|Decode_Vout (fun j => if j = 0 then Vout_of ((32768 : ℚ) * pow2 (-8)) (-8) % 256
          else Vout_of ((32768 : ℚ) * pow2 (-8)) (-8) / 256 % 256) (-8) -
          (32768 : ℚ) * pow2 (-8)| ≤ pow2 (-8)) := by
  have hneg : Vout_of ((-2 : ℚ) * pow2 (-8)) (-8) = 0 := by
    norm_num [Vout_of, pow2, C_round, toUInt]
  have hbig : Vout_of ((32768 : ℚ) * pow2 (-8)) (-8) = 32768 := by
    norm_num [Vout_of, pow2, C_round, toUInt]
    rfl
  rw [hneg, hbig]
  constructor
  · norm_num [Decode_Vout, toShort, pow2, abs_of_pos]
  · norm_num [Decode_Vout, toShort, pow2]

/-- C5, amended: for every exponent `e` and every mantissa `m` with `0 ≤ m ≤ 32767`, the
two bytes the voltage change produces when it encodes `v = m * 2^e` (low and high byte of
`round(v / 2^e)`) are the bytes of `m`, and the read path decodes them to exactly `v`. -/
theorem Vout_roundtrip_exact (m e : Int) (h0 : 0 ≤ m) (h1 : m ≤ 32767) :
    Vout_of ((m : ℚ) * pow2 e) e = m.toNat ∧
    Decode_Vout (fun j => if j = 0 then Vout_of ((m : ℚ) * pow2 e) e % 256
        else Vout_of ((m : ℚ) * pow2 e) e / 256 % 256) e = (m : ℚ) * pow2 e := by
  have hV := Vout_of_mantissa m e h0 (by omega)
  refine ⟨hV, ?_⟩
  rw [hV]
  unfold Decode_Vout
  have hm : ((((if (1 : Nat) = 0 then m.toNat % 256 else m.toNat / 256 % 256 : Nat) : Int) * 256
      + ((if (0 : Nat) = 0 then m.toNat % 256 else m.toNat / 256 % 256 : Nat) : Int))) = m := by
    simp only [if_true, if_false, one_ne_zero]
    omega
  rw [hm, toShort_of_small m h0 (by omega)]

/-- C5 amended, at a concrete input: mantissa 100 at exponent -8, the voltage 0.390625. -/
theorem Vout_roundtrip_exact_witness :
    Decode_Vout (fun j => if j = 0 then Vout_of ((100 : ℚ) * pow2 (-8)) (-8) % 256
        else Vout_of ((100 : ℚ) * pow2 (-8)) (-8) / 256 % 256) (-8) = (100 : ℚ) * pow2 (-8) :=
  (Vout_roundtrip_exact 100 (-8) (by decide) (by decide)).2


set_option maxRecDepth 100000

/-! ## Properties of the decoders -/

theorem Dec.bind_res {α β : Type} (m : Dec α) (f : α → Dec β) :
    (Dec.bind m f).res =
      match m.res with
      | Res.ok a => (f a).res
      | Res.stop s => Res.stop s := by
  unfold Dec.bind
  cases m.res <;> rfl

theorem Dec.bind_out {α β : Type} (m : Dec α) (f : α → Dec β) :
    (Dec.bind m f).out =
      match m.res with
      | Res.ok a => m.out ++ (f a).out
      | Res.stop _ => m.out := by
  unfold Dec.bind
  cases m.res <;> rfl

theorem Dec.bind_reads {α β : Type} (m : Dec α) (f : α → Dec β) :
    (Dec.bind m f).reads =
      match m.res with
      | Res.ok a => m.reads ++ (f a).reads
      | Res.stop _ => m.reads := by
  unfold Dec.bind
  cases m.res <;> rfl

theorem Dec.bind_eq {α β : Type} (m : Dec α) (f : α → Dec β) : m >>= f = Dec.bind m f := rfl

theorem Dec.pure_res {α : Type} (a : α) : (pure a : Dec α).res = Res.ok a := rfl

theorem Dec.pure_out {α : Type} (a : α) : (pure a : Dec α).out = [] := rfl

theorem Dec.pure_reads {α : Type} (a : α) : (pure a : Dec α).reads = [] := rfl

theorem rd_res (Buffer : List Nat) (i : Nat) (h : i < Buffer.length) :
    (rd Buffer i).res = Res.ok (byteAt Buffer i) := by
  unfold rd byteAt
  rw [List.getD_eq_getElem?_getD, List.getElem?_eq_getElem h]
  rfl

theorem rd_res_fault (Buffer : List Nat) (i : Nat) (h : Buffer.length ≤ i) :
    (rd Buffer i).res = Res.stop (Status.fault i) := by
  unfold rd
  rw [List.getElem?_eq_none h]

theorem rd_out (Buffer : List Nat) (i : Nat) : (rd Buffer i).out = [] := by
  unfold rd
  cases Buffer[i]? <;> rfl

theorem rd_reads (Buffer : List Nat) (i : Nat) : (rd Buffer i).reads = [i] := by
  unfold rd
  cases Buffer[i]? <;> rfl

theorem print_res (off : Nat) (field : Field) (vals : List Tok) :
    (print off field vals).res = Res.ok () := rfl

theorem print_out (off : Nat) (field : Field) (vals : List Tok) :
    (print off field vals).out = [⟨off, field, vals⟩] := rfl

theorem ret_res {α : Type} (v : Int) : (ret v : Dec α).res = Res.stop (Status.returned v) := rfl

theorem ret_out {α : Type} (v : Int) : (ret v : Dec α).out = [] := rfl

theorem rdRange_res (Buffer : List Nat) (n i : Nat) (h : i + n ≤ Buffer.length) :
    (rdRange Buffer i n).res = Res.ok ((List.range n).map fun k => byteAt Buffer (i + k)) := by
  induction n generalizing i with
  | zero => rfl
  | succ n ih =>
    unfold rdRange
    simp only [Dec.bind_eq, Dec.bind_res, rd_res Buffer i (by omega), ih (i + 1) (by omega),
      Dec.pure_res]
    rw [List.range_succ_eq_map]
    simp [Nat.add_assoc, Nat.add_comm 1]

theorem rdRange_out (Buffer : List Nat) (n i : Nat) : (rdRange Buffer i n).out = [] := by
  induction n generalizing i with
  | zero => rfl
  | succ n ih =>
    unfold rdRange
    simp only [Dec.bind_eq, Dec.bind_out, rd_out, ih, Dec.pure_out]
    cases (rd Buffer i).res with
    | ok a => cases (rdRange Buffer (i + 1) n).res <;> rfl
    | stop s => rfl

theorem DC_fields_res (Buffer : List Nat) (o : Nat) (h : o + 17 < Buffer.length) :
    (DC_fields Buffer o).res = Res.ok () := by
  unfold DC_fields
  simp only [Dec.bind_eq, Dec.bind_res, print_res, Dec.pure_res,
    rd_res Buffer (o + 6) (by omega), rd_res Buffer (o + 7) (by omega),
    rd_res Buffer (o + 8) (by omega), rd_res Buffer (o + 9) (by omega),
    rd_res Buffer (o + 10) (by omega), rd_res Buffer (o + 11) (by omega),
    rd_res Buffer (o + 12) (by omega), rd_res Buffer (o + 13) (by omega),
    rd_res Buffer (o + 14) (by omega), rd_res Buffer (o + 15) (by omega),
    rd_res Buffer (o + 16) (by omega), rd_res Buffer (o + 17) (by omega)]

theorem decodedEntries_append (a b : List Line) :
    decodedEntries (a ++ b) = decodedEntries a ++ decodedEntries b := by
  simp [decodedEntries]

theorem decodedEntries_nil : decodedEntries [] = [] := rfl

theorem decodedEntries_cons (l : Line) (ls : List Line) :
    decodedEntries (l :: ls) =
      if l.field = Field.RecordType_DC_Output ∨ l.field = Field.RecordType_DC_Load ∨
          l.field = Field.RecordType_Mac_ID ∨ l.field = Field.RecordType_Memory ∨
          l.field = Field.RecordType_Vita_57_1 then l.off :: decodedEntries ls
      else decodedEntries ls := by
  unfold decodedEntries
  by_cases h : l.field = Field.RecordType_DC_Output ∨ l.field = Field.RecordType_DC_Load ∨
      l.field = Field.RecordType_Mac_ID ∨ l.field = Field.RecordType_Memory ∨
      l.field = Field.RecordType_Vita_57_1
  · simp [List.filter_cons, h]
  · simp [List.filter_cons, h]

theorem DC_fields_entries (Buffer : List Nat) (o : Nat) (h : o + 17 < Buffer.length) :
    decodedEntries (DC_fields Buffer o).out = [] := by
  unfold DC_fields
  simp only [Dec.bind_eq, Dec.bind_res, Dec.bind_out, print_res, print_out, Dec.pure_res,
    Dec.pure_out, rd_out,
    rd_res Buffer (o + 6) (by omega), rd_res Buffer (o + 7) (by omega),
    rd_res Buffer (o + 8) (by omega), rd_res Buffer (o + 9) (by omega),
    rd_res Buffer (o + 10) (by omega), rd_res Buffer (o + 11) (by omega),
    rd_res Buffer (o + 12) (by omega), rd_res Buffer (o + 13) (by omega),
    rd_res Buffer (o + 14) (by omega), rd_res Buffer (o + 15) (by omega),
    rd_res Buffer (o + 16) (by omega), rd_res Buffer (o + 17) (by omega)]
  simp [decodedEntries]

theorem rdStringFrom_out (l : List Nat) (i : Nat) : (rdStringFrom l i).out = [] := by
  induction l generalizing i with
  | nil => rfl
  | cons b rest ih =>
    unfold rdStringFrom
    split_ifs
    · rfl
    · simp only [Dec.bind_out, Dec.pure_out, ih]
      cases (rdStringFrom rest (i + 1)).res <;> rfl

theorem rdStringFrom_res (l : List Nat) (i : Nat)
    (h : (l.takeWhile fun b => b ≠ 0).length < l.length) :
    (rdStringFrom l i).res = Res.ok (l.takeWhile fun b => b ≠ 0) := by
  induction l generalizing i with
  | nil => simp at h
  | cons b rest ih =>
    unfold rdStringFrom
    by_cases hb : b = 0
    · simp [hb, List.takeWhile]
    · have hlen : (rest.takeWhile fun b => b ≠ 0).length < rest.length := by
        simpa [List.takeWhile, hb] using h
      simp only [hb, if_false, Dec.bind_res, ih (i + 1) hlen, Dec.pure_res]
      simp [List.takeWhile, hb]

theorem rdString_res (Buffer : List Nat) (i : Nat)
    (h : i + (stringAt Buffer i).length < Buffer.length) :
    (rdString Buffer i).res = Res.ok (stringAt Buffer i) := by
  unfold rdString stringAt
  apply rdStringFrom_res
  unfold stringAt at h
  rw [List.length_drop]
  omega

theorem rdString_out (Buffer : List Nat) (i : Nat) : (rdString Buffer i).out = [] :=
  rdStringFrom_out _ _

theorem recognized_iff (t : Nat) :
    recognized t = true ↔ t = 0x1 ∨ t = 0x2 ∨ t = 0xD2 ∨ t = 0xD3 ∨ t = 0xFA := by
  simp [recognized, or_assoc]

theorem MultiRecord_type_recognized (o t : Nat) (h : recognized t = true) :
    (MultiRecord_type o t).res = Res.ok () ∧
    (MultiRecord_type o t).out = [⟨o, recordTypeField t, [Tok.hex t]⟩] := by
  rcases (recognized_iff t).mp h with h | h | h | h | h <;> subst h <;>
    exact ⟨rfl, rfl⟩

theorem MultiRecord_type_unrecognized (o t : Nat) (h : recognized t = false) :
    (MultiRecord_type o t).res = Res.stop (Status.returned (-1)) ∧
    (MultiRecord_type o t).out = [] := by
  have hn : ¬ (t = 0x1 ∨ t = 0x2 ∨ t = 0xD2 ∨ t = 0xD3 ∨ t = 0xFA) := by
    rw [← recognized_iff, h]; simp
  simp only [not_or] at hn
  obtain ⟨h1, h2, h3, h4, h5⟩ := hn
  unfold MultiRecord_type
  simp only [h1, h2, h3, h4, h5, if_false]
  exact ⟨rfl, rfl⟩

theorem MultiRecord_header_spec (Buffer : List Nat) (o t : Nat) (h : o + 7 < Buffer.length) :
    (MultiRecord_header Buffer o t).res = Res.ok () ∧
    decodedEntries (MultiRecord_header Buffer o t).out = [] := by
  unfold MultiRecord_header
  by_cases ht : t = 0xD2 ∨ t = 0xD3
  · simp only [ht, if_true, Dec.bind_eq, Dec.bind_res, Dec.bind_out, print_res, print_out,
      Dec.pure_res, Dec.pure_out, rd_out, rdRange_out,
      rd_res Buffer (o + 1) (by omega), rd_res Buffer (o + 2) (by omega),
      rd_res Buffer (o + 3) (by omega), rd_res Buffer (o + 4) (by omega),
      rdRange_res Buffer 3 (o + 5) (by omega)]
    simp [decodedEntries]
  · simp only [ht, if_false, Dec.bind_eq, Dec.bind_res, Dec.bind_out, print_res, print_out,
      Dec.pure_res, Dec.pure_out, rd_out,
      rd_res Buffer (o + 1) (by omega), rd_res Buffer (o + 2) (by omega),
      rd_res Buffer (o + 3) (by omega), rd_res Buffer (o + 4) (by omega)]
    simp [decodedEntries]

theorem MultiRecord_next_spec (Buffer : List Nat) (o last : Nat) (h : o + 2 < Buffer.length) :
    (MultiRecord_next Buffer o last).res =
      Res.ok (if last = 0 then o + (5 + byteAt Buffer (o + 2)) else o) ∧
    (MultiRecord_next Buffer o last).out = [] := by
  unfold MultiRecord_next
  by_cases hl : last = 0
  · simp only [hl, if_true, Dec.bind_eq, Dec.bind_res, Dec.bind_out, Dec.pure_res,
      Dec.pure_out, rd_out, rd_res Buffer (o + 2) h, List.append_nil, and_self]
  · simp only [hl, if_false]
    exact ⟨rfl, rfl⟩

theorem wellFormedEntry_bounds (Buffer : List Nat) (o : Nat)
    (h : wellFormedEntry Buffer o = true) :
    recognized (byteAt Buffer o) = true ∧ o + 5 + byteAt Buffer (o + 2) ≤ Buffer.length ∧
      o + 10 ≤ Buffer.length := by
  unfold wellFormedEntry at h
  simp only [Bool.and_eq_true, decide_eq_true_eq] at h
  obtain ⟨hlen, hcase⟩ := h
  refine ⟨?_, hlen, ?_⟩
  · rw [recognized_iff]
    by_contra hn
    simp only [not_or] at hn
    obtain ⟨h1, h2, h3, h4, h5⟩ := hn
    simp [h1, h2, h3, h4, h5] at hcase
  · split_ifs at hcase <;> simp at hcase <;> omega

theorem MultiRecord_payload_spec (Buffer : List Nat) (o : Nat)
    (h : wellFormedEntry Buffer o = true) :
    (MultiRecord_payload Buffer o (byteAt Buffer o)).res = Res.ok () ∧
    decodedEntries (MultiRecord_payload Buffer o (byteAt Buffer o)).out = [] := by
  unfold wellFormedEntry at h
  simp only [Bool.and_eq_true, decide_eq_true_eq] at h
  obtain ⟨hlen, hcase⟩ := h
  unfold MultiRecord_payload
  split_ifs at hcase with h1 h2 h3 h4 h5
  · have hc : 13 ≤ byteAt Buffer (o + 2) := by simpa using hcase
    simp [h1, Dec.bind_eq, Dec.bind_res, Dec.bind_out, print_res, print_out,
      rd_out, rd_res Buffer (o + 5) (by omega), DC_fields_res Buffer o (by omega),
      decodedEntries_append, decodedEntries_cons, decodedEntries_nil,
      DC_fields_entries Buffer o (by omega)]
  · have hc : 13 ≤ byteAt Buffer (o + 2) ∧ byteAt Buffer (o + 5) ≤ 0xF := by simpa using hcase
    by_cases hz : byteAt Buffer (o + 5) = 0
    · simp [h1, h2, hz, Dec.bind_eq, Dec.bind_res, Dec.bind_out,
        print_res, print_out, rd_out, rd_res Buffer (o + 5) (by omega),
        DC_fields_res Buffer o (by omega), decodedEntries_append, decodedEntries_cons,
        decodedEntries_nil, DC_fields_entries Buffer o (by omega)]
    · simp [h1, h2, hz, hc.2, Dec.bind_eq, Dec.bind_res,
        Dec.bind_out, print_res, print_out, rd_out, rd_res Buffer (o + 5) (by omega),
        DC_fields_res Buffer o (by omega), decodedEntries_append, decodedEntries_cons,
        decodedEntries_nil, DC_fields_entries Buffer o (by omega)]
  · have hc : (byteAt Buffer (o + 8) = 0x11 ∧ 10 ≤ byteAt Buffer (o + 2)) ∨
        (byteAt Buffer (o + 8) = 0x31 ∧ 16 ≤ byteAt Buffer (o + 2)) := by simpa using hcase
    rcases hc with ⟨hv, hl⟩ | ⟨hv, hl⟩
    · simp [h1, h2, h3, hv, Dec.bind_eq, Dec.bind_res, Dec.bind_out,
        print_res, print_out, rd_out, rdRange_out, rd_res Buffer (o + 8) (by omega),
        rdRange_res Buffer 6 (o + 9) (by omega), decodedEntries_cons, decodedEntries_nil]
    · simp [h1, h2, h3, hv, Dec.bind_eq, Dec.bind_res, Dec.bind_out,
        print_res, print_out, rd_out, rdRange_out, rd_res Buffer (o + 8) (by omega),
        rdRange_res Buffer 6 (o + 9) (by omega), rdRange_res Buffer 6 (o + 15) (by omega),
        decodedEntries_cons, decodedEntries_nil]
  · have hc : o + 8 + (stringAt Buffer (o + 8)).length + 1 +
        (stringAt Buffer (o + 8 + ((stringAt Buffer (o + 8)).length + 1))).length + 1 ≤
          o + 5 + byteAt Buffer (o + 2) := by simpa using hcase
    simp [h1, h2, h3, h4, Dec.bind_eq, Dec.bind_res, Dec.bind_out,
      print_res, print_out, rdString_out, rdString_res Buffer (o + 8) (by omega),
      rdString_res Buffer (o + 8 + ((stringAt Buffer (o + 8)).length + 1)) (by omega),
      decodedEntries_cons, decodedEntries_nil]
  · have hc : 11 ≤ byteAt Buffer (o + 2) := by
      have := hcase
      simp only [h5, decide_eq_true_eq] at this
      exact this
    simp [h1, h2, h3, h4, h5, Dec.bind_eq, Dec.bind_res, Dec.bind_out,
      print_res, print_out, rd_out, rdRange_out, rdRange_res Buffer 3 (o + 5) (by omega),
      rd_res Buffer (o + 8) (by omega), rd_res Buffer (o + 9) (by omega),
      rd_res Buffer (o + 10) (by omega), rd_res Buffer (o + 11) (by omega),
      rd_res Buffer (o + 12) (by omega), rd_res Buffer (o + 13) (by omega),
      rd_res Buffer (o + 14) (by omega), rd_res Buffer (o + 15) (by omega),
      decodedEntries_cons, decodedEntries_nil]

theorem MultiRecord_body_spec (Buffer : List Nat) (o : Nat)
    (h : wellFormedEntry Buffer o = true) :
    (MultiRecord_body Buffer o).res =
      Res.ok (if byteAt Buffer (o + 1) &&& 0x80 = 0 then o + (5 + byteAt Buffer (o + 2)) else o,
        byteAt Buffer (o + 1) &&& 0x80) ∧
    decodedEntries (MultiRecord_body Buffer o).out = [o] ∧
    (MultiRecord_body Buffer o).out.head? =
      some ⟨o, recordTypeField (byteAt Buffer o), [Tok.hex (byteAt Buffer o)]⟩ := by
  obtain ⟨hrec, hlen, h10⟩ := wellFormedEntry_bounds Buffer o h
  obtain ⟨htr, hto⟩ := MultiRecord_type_recognized o (byteAt Buffer o) hrec
  obtain ⟨hhr, hho⟩ := MultiRecord_header_spec Buffer o (byteAt Buffer o) (by omega)
  obtain ⟨hpr, hpo⟩ := MultiRecord_payload_spec Buffer o h
  obtain ⟨hnr, hno⟩ :=
    MultiRecord_next_spec Buffer o (byteAt Buffer (o + 1) &&& 0x80) (by omega)
  unfold MultiRecord_body
  simp only [Dec.bind_eq, Dec.bind_res, Dec.bind_out, Dec.pure_res, Dec.pure_out, rd_out,
    rd_res Buffer o (by omega), rd_res Buffer (o + 1) (by omega), htr, hto, hhr, hpr, hnr, hno,
    List.nil_append, List.append_nil, decodedEntries_append, hho, hpo]
  refine ⟨trivial, ?_, ?_⟩
  · simp [decodedEntries_cons, decodedEntries_nil, recordTypeField]
    split_ifs <;> simp_all [recognized]
  · rfl

theorem wellFormedChain_length (Buffer : List Nat) (n o : Nat)
    (h : wellFormedChain Buffer n o = true) : o + 5 * (n + 1) ≤ Buffer.length := by
  induction n generalizing o with
  | zero =>
    unfold wellFormedChain at h
    simp only [Bool.and_eq_true] at h
    have := (wellFormedEntry_bounds Buffer o h.1).2.1
    omega
  | succ n ih =>
    unfold wellFormedChain at h
    simp only [Bool.and_eq_true] at h
    have := ih _ h.2
    omega

theorem MultiRecord_loop_spec (Buffer : List Nat) (n : Nat) :
    ∀ (fuel o : Nat), n < fuel → wellFormedChain Buffer n o = true →
      (MultiRecord_loop Buffer fuel o).res = Res.ok () ∧
      (MultiRecord_loop Buffer fuel o).out =
        (chainOffsets Buffer n o).flatMap (fun e => (MultiRecord_body Buffer e).out) ∧
      decodedEntries (MultiRecord_loop Buffer fuel o).out = chainOffsets Buffer n o := by
  induction n with
  | zero =>
    intro fuel o hf h
    unfold wellFormedChain at h
    simp only [Bool.and_eq_true, decide_eq_true_eq] at h
    obtain ⟨hbr, hbe, _⟩ := MultiRecord_body_spec Buffer o h.1
    rcases fuel with _ | fuel
    · omega
    · unfold MultiRecord_loop
      simp only [Dec.bind_eq, Dec.bind_res, Dec.bind_out, hbr, h.2, if_false, Dec.pure_res,
        Dec.pure_out, List.append_nil, hbe, chainOffsets, List.flatMap_cons, List.flatMap_nil,
        and_self]
  | succ n ih =>
    intro fuel o hf h
    unfold wellFormedChain at h
    simp only [Bool.and_eq_true, decide_eq_true_eq] at h
    obtain ⟨⟨hwf, hlast⟩, hrest⟩ := h
    obtain ⟨hbr, hbe, _⟩ := MultiRecord_body_spec Buffer o hwf
    rcases fuel with _ | fuel
    · omega
    · obtain ⟨hr, ho, he⟩ := ih fuel (o + (5 + byteAt Buffer (o + 2))) (by omega) hrest
      unfold MultiRecord_loop
      simp only [Dec.bind_eq, Dec.bind_res, Dec.bind_out, hbr, hlast, if_true,
        decodedEntries_append, hbe, hr, he, chainOffsets, List.flatMap_cons,
        List.singleton_append]
      refine ⟨?_, ?_, ?_⟩ <;> first | trivial | rw [ho]

theorem EEPROM_MultiRecord_chain (Buffer : List Nat) (n : Nat)
    (hwf : wellFormedChain Buffer n (byteAt Buffer 5 * 8) = true) :
    (finish (EEPROM_MultiRecord Buffer)).status = Status.noReturn ∧
    (finish (EEPROM_MultiRecord Buffer)).out =
      (chainOffsets Buffer n (byteAt Buffer 5 * 8)).flatMap
        (fun e => (MultiRecord_body Buffer e).out) ∧
    decodedEntries (finish (EEPROM_MultiRecord Buffer)).out =
      chainOffsets Buffer n (byteAt Buffer 5 * 8) ∧
    (decodedEntries (finish (EEPROM_MultiRecord Buffer)).out).length = n + 1 ∧
    ∀ e ∈ chainOffsets Buffer n (byteAt Buffer 5 * 8),
      (MultiRecord_body Buffer e).out.head? =
        some ⟨e, recordTypeField (byteAt Buffer e), [Tok.hex (byteAt Buffer e)]⟩ := by
  have hchain := wellFormedChain_length Buffer n _ hwf
  have hwf0 : wellFormedEntry Buffer (byteAt Buffer 5 * 8) = true := by
    cases n with
    | zero =>
      unfold wellFormedChain at hwf
      simp only [Bool.and_eq_true] at hwf
      exact hwf.1
    | succ n =>
      unfold wellFormedChain at hwf
      simp only [Bool.and_eq_true] at hwf
      exact hwf.1.1
  obtain ⟨hrec, _, hlen⟩ := wellFormedEntry_bounds Buffer _ hwf0
  obtain ⟨hr, ho, he⟩ :=
    MultiRecord_loop_spec Buffer n (Buffer.length + 1) (byteAt Buffer 5 * 8) (by omega) hwf
  have hrec2 := (recognized_iff _).mp hrec
  have hres : (EEPROM_MultiRecord Buffer).res = Res.ok () := by
    unfold EEPROM_MultiRecord
    simp only [Dec.bind_eq, Dec.bind_res, rd_res Buffer 5 (by omega),
      rd_res Buffer (byteAt Buffer 5 * 8) (by omega), hrec2, not_true_eq_false, if_false, hr,
      Dec.pure_res]
  have hout : (EEPROM_MultiRecord Buffer).out =
      (MultiRecord_loop Buffer (Buffer.length + 1) (byteAt Buffer 5 * 8)).out := by
    unfold EEPROM_MultiRecord
    simp only [Dec.bind_eq, Dec.bind_res, Dec.bind_out, rd_out, rd_res Buffer 5 (by omega),
      rd_res Buffer (byteAt Buffer 5 * 8) (by omega), hrec2, not_true_eq_false, if_false,
      List.nil_append, Dec.pure_res, Dec.pure_out]
  have hfin : (finish (EEPROM_MultiRecord Buffer)).status = Status.noReturn ∧
      (finish (EEPROM_MultiRecord Buffer)).out = (EEPROM_MultiRecord Buffer).out := by
    unfold finish
    rw [hres]
    exact ⟨rfl, rfl⟩
  refine ⟨hfin.1, ?_, ?_, ?_, ?_⟩
  · rw [hfin.2, hout, ho]
  · rw [hfin.2, hout, he]
  · rw [hfin.2, hout, he]
    clear hr ho he hlen hwf hwf0 hchain hrec hrec2 hres hout hfin
    generalize byteAt Buffer 5 * 8 = o
    induction n generalizing o with
    | zero => rfl
    | succ n ih => simp [chainOffsets, ih]
  · clear hr ho he hlen hwf0 hchain hrec hrec2 hres hout hfin
    generalize byteAt Buffer 5 * 8 = o at hwf
    induction n generalizing o with
    | zero =>
      intro e he
      unfold wellFormedChain at hwf
      simp only [Bool.and_eq_true] at hwf
      simp only [chainOffsets, List.mem_singleton] at he
      subst he
      exact (MultiRecord_body_spec Buffer e hwf.1).2.2
    | succ n ih =>
      intro e he
      unfold wellFormedChain at hwf
      simp only [Bool.and_eq_true] at hwf
      simp only [chainOffsets, List.mem_cons] at he
      rcases he with rfl | he
      · exact (MultiRecord_body_spec Buffer e hwf.1.1).2.2
      · exact ih _ hwf.2 e he

theorem MultiRecord_body_reads (Buffer : List Nat) (o : Nat) :
    ∃ rest, (MultiRecord_body Buffer o).reads = o :: rest := by
  unfold MultiRecord_body
  simp only [Dec.bind_eq, Dec.bind_reads, rd_reads]
  cases (rd Buffer o).res with
  | ok a => exact ⟨_, rfl⟩
  | stop s => exact ⟨_, rfl⟩

theorem MultiRecord_body_head (Buffer : List Nat) (o : Nat) (h : o + 1 < Buffer.length)
    (hrec : recognized (byteAt Buffer o) = true) :
    ∃ rest, (MultiRecord_body Buffer o).out =
      ⟨o, recordTypeField (byteAt Buffer o), [Tok.hex (byteAt Buffer o)]⟩ :: rest := by
  obtain ⟨htr, hto⟩ := MultiRecord_type_recognized o (byteAt Buffer o) hrec
  unfold MultiRecord_body
  simp only [Dec.bind_eq, Dec.bind_res, Dec.bind_out, rd_out, rd_res Buffer o (by omega),
    rd_res Buffer (o + 1) h, htr, hto, List.nil_append, List.singleton_append]
  exact ⟨_, rfl⟩

theorem MultiRecord_body_unrecognized (Buffer : List Nat) (o : Nat) (h : o + 1 < Buffer.length)
    (hrec : recognized (byteAt Buffer o) = false) :
    (MultiRecord_body Buffer o).res = Res.stop (Status.returned (-1)) ∧
    (MultiRecord_body Buffer o).out = [] := by
  obtain ⟨htr, hto⟩ := MultiRecord_type_unrecognized o (byteAt Buffer o) hrec
  unfold MultiRecord_body
  simp only [Dec.bind_eq, Dec.bind_res, Dec.bind_out, rd_out, rd_res Buffer o (by omega),
    rd_res Buffer (o + 1) h, htr, hto, List.nil_append, and_self]

theorem MultiRecord_loop_reads (Buffer : List Nat) (fuel o : Nat) :
    ∃ rest, (MultiRecord_loop Buffer (fuel + 1) o).reads = o :: rest := by
  obtain ⟨r, hr⟩ := MultiRecord_body_reads Buffer o
  unfold MultiRecord_loop
  simp only [Dec.bind_eq, Dec.bind_reads, hr]
  cases (MultiRecord_body Buffer o).res with
  | ok a => exact ⟨_, rfl⟩
  | stop s => exact ⟨_, rfl⟩

theorem MultiRecord_loop_head (Buffer : List Nat) (fuel o : Nat) (l : Line) (r : List Line)
    (h : (MultiRecord_body Buffer o).out = l :: r) :
    ∃ rest, (MultiRecord_loop Buffer (fuel + 1) o).out = l :: rest := by
  unfold MultiRecord_loop
  simp only [Dec.bind_eq, Dec.bind_out, h]
  cases (MultiRecord_body Buffer o).res with
  | ok a => exact ⟨_, rfl⟩
  | stop s => exact ⟨_, rfl⟩

theorem MultiRecord_loop_unrecognized (Buffer : List Nat) (fuel o : Nat)
    (h : o + 1 < Buffer.length) (hrec : recognized (byteAt Buffer o) = false) :
    (MultiRecord_loop Buffer (fuel + 1) o).res = Res.stop (Status.returned (-1)) ∧
    (MultiRecord_loop Buffer (fuel + 1) o).out = [] := by
  obtain ⟨hr, ho⟩ := MultiRecord_body_unrecognized Buffer o h hrec
  unfold MultiRecord_loop
  simp only [Dec.bind_eq, Dec.bind_res, Dec.bind_out, hr, ho, and_self]

theorem EEPROM_MultiRecord_unfold (Buffer : List Nat) (h5 : 5 < Buffer.length)
    (hoff : byteAt Buffer 5 * 8 < Buffer.length) :
    (EEPROM_MultiRecord Buffer).res =
      (MultiRecord_loop Buffer (Buffer.length + 1) (startOffset Buffer)).res ∧
    (EEPROM_MultiRecord Buffer).out =
      (MultiRecord_loop Buffer (Buffer.length + 1) (startOffset Buffer)).out ∧
    (EEPROM_MultiRecord Buffer).reads =
      5 :: byteAt Buffer 5 * 8 ::
        (MultiRecord_loop Buffer (Buffer.length + 1) (startOffset Buffer)).reads := by
  unfold EEPROM_MultiRecord startOffset
  by_cases hrec : recognized (byteAt Buffer (byteAt Buffer 5 * 8)) = true
  · have hrec2 := (recognized_iff _).mp hrec
    simp only [Dec.bind_eq, Dec.bind_res, Dec.bind_out, Dec.bind_reads, rd_out, rd_reads,
      rd_res Buffer 5 h5, rd_res Buffer (byteAt Buffer 5 * 8) hoff, hrec, hrec2,
      not_true_eq_false, if_false, if_true, List.nil_append, Dec.pure_res, Dec.pure_out,
      Dec.pure_reads, List.singleton_append, and_self]
  · have hrec2 : ¬ (byteAt Buffer (byteAt Buffer 5 * 8) = 0x1 ∨
        byteAt Buffer (byteAt Buffer 5 * 8) = 0x2 ∨ byteAt Buffer (byteAt Buffer 5 * 8) = 0xD2 ∨
        byteAt Buffer (byteAt Buffer 5 * 8) = 0xD3 ∨
        byteAt Buffer (byteAt Buffer 5 * 8) = 0xFA) := by
      rw [← recognized_iff]; exact hrec
    simp only [Dec.bind_eq, Dec.bind_res, Dec.bind_out, Dec.bind_reads, rd_out, rd_reads,
      rd_res Buffer 5 h5, rd_res Buffer (byteAt Buffer 5 * 8) hoff, hrec, hrec2,
      not_false_eq_true, if_false, if_true, List.nil_append, Dec.pure_res, Dec.pure_out,
      Dec.pure_reads, List.singleton_append, and_self, Bool.false_eq_true]

theorem finish_out (body : Dec Unit) : (finish body).out = body.out := by
  unfold finish
  cases body.res <;> rfl

theorem finish_reads (body : Dec Unit) : (finish body).reads = body.reads := by
  unfold finish
  cases body.res <;> rfl

theorem finish_status_stop (body : Dec Unit) (s : Status) (h : body.res = Res.stop s) :
    (finish body).status = s := by
  unfold finish
  rw [h]

/-- C8: the walk of the multirecord area starts at `Buffer[5] * 8` when the byte at that
offset is one of the five recognized type codes and at `0x68` otherwise: after `Buffer[5]`
and the byte at `Buffer[5] * 8`, the next byte read is the Type byte at that start offset;
when it is a recognized type the first line printed is the `Record Type` line of the
entry at the start offset, and when it is not the call returns `-1` and decodes nothing. -/
theorem EEPROM_MultiRecord_first_entry (Buffer : List Nat) (h5 : 5 < Buffer.length)
    (hoff : byteAt Buffer 5 * 8 < Buffer.length) :
    startOffset Buffer =
      (if byteAt Buffer (byteAt Buffer 5 * 8) = 0x01 ∨ byteAt Buffer (byteAt Buffer 5 * 8) = 0x02 ∨
          byteAt Buffer (byteAt Buffer 5 * 8) = 0xD2 ∨ byteAt Buffer (byteAt Buffer 5 * 8) = 0xD3 ∨
          byteAt Buffer (byteAt Buffer 5 * 8) = 0xFA then byteAt Buffer 5 * 8 else 0x68) ∧
    (finish (EEPROM_MultiRecord Buffer)).reads.take 3 =
      [5, byteAt Buffer 5 * 8, startOffset Buffer] ∧
    (startOffset Buffer + 1 < Buffer.length →
      recognized (byteAt Buffer (startOffset Buffer)) = true →
      (finish (EEPROM_MultiRecord Buffer)).out.head? =
        some ⟨startOffset Buffer, recordTypeField (byteAt Buffer (startOffset Buffer)),
          [Tok.hex (byteAt Buffer (startOffset Buffer))]⟩) ∧
    (startOffset Buffer + 1 < Buffer.length →
      recognized (byteAt Buffer (startOffset Buffer)) = false →
      (finish (EEPROM_MultiRecord Buffer)).out = [] ∧
      (finish (EEPROM_MultiRecord Buffer)).status = Status.returned (-1)) := by
  obtain ⟨hres, hout, hreads⟩ := EEPROM_MultiRecord_unfold Buffer h5 hoff
  refine ⟨?_, ?_, ?_, ?_⟩
  · unfold startOffset
    by_cases hrec : recognized (byteAt Buffer (byteAt Buffer 5 * 8)) = true
    · rw [if_pos hrec, if_pos ((recognized_iff _).mp hrec)]
    · rw [if_neg hrec, if_neg (fun hc => hrec ((recognized_iff _).mpr hc))]
  · obtain ⟨rest, hrest⟩ :=
      MultiRecord_loop_reads Buffer Buffer.length (startOffset Buffer)
    rw [finish_reads, hreads, hrest]
    rfl
  · intro hlt hrec
    obtain ⟨r, hr⟩ := MultiRecord_body_head Buffer (startOffset Buffer) hlt hrec
    obtain ⟨rest, hrest⟩ :=
      MultiRecord_loop_head Buffer Buffer.length (startOffset Buffer) _ r hr
    rw [finish_out, hout, hrest]
    rfl
  · intro hlt hrec
    obtain ⟨hr, ho⟩ :=
      MultiRecord_loop_unrecognized Buffer Buffer.length (startOffset Buffer) hlt hrec
    rw [finish_out, hout, ho]
    exact ⟨rfl, finish_status_stop _ _ (hres.trans hr)⟩

/-- C7: for a buffer whose multirecord area, at offset `Buffer[5] * 8`, is a well-formed
chain of `n + 1` entries (only the last one has the Format top bit set), the call prints
exactly the decoding of these `n + 1` entries, in byte order, and nothing else: the
entries decoded are at the offsets of the chain, each one `5 + Length` bytes after its
predecessor, every one opened by its `Record Type` line, and the loop ends after the last
one without a fault. -/
theorem EEPROM_MultiRecord_decodes_chain (Buffer : List Nat) (n : Nat)
    (hwf : wellFormedChain Buffer n (byteAt Buffer 5 * 8) = true) :
    (finish (EEPROM_MultiRecord Buffer)).out =
      (chainOffsets Buffer n (byteAt Buffer 5 * 8)).flatMap
        (fun e => (MultiRecord_body Buffer e).out) ∧
    decodedEntries (finish (EEPROM_MultiRecord Buffer)).out =
      chainOffsets Buffer n (byteAt Buffer 5 * 8) ∧
    (decodedEntries (finish (EEPROM_MultiRecord Buffer)).out).length = n + 1 ∧
    (∀ e ∈ chainOffsets Buffer n (byteAt Buffer 5 * 8),
      (MultiRecord_body Buffer e).out.head? =
        some ⟨e, recordTypeField (byteAt Buffer e), [Tok.hex (byteAt Buffer e)]⟩) ∧
    (∀ i, (finish (EEPROM_MultiRecord Buffer)).status ≠ Status.fault i) ∧
    (finish (EEPROM_MultiRecord Buffer)).status ≠ Status.outOfFuel := by
  obtain ⟨hs, ho, he, hl, hh⟩ := EEPROM_MultiRecord_chain Buffer n hwf
  refine ⟨ho, he, hl, hh, ?_, ?_⟩
  · intro i
    rw [hs]
    exact fun hc => Status.noConfusion hc
  · rw [hs]
    exact fun hc => Status.noConfusion hc

/-- C7 at a concrete input: a DC Load entry at offset 16 followed by the last entry, a
MAC-ID record, at offset 16 + 5 + 13 = 34. -/
theorem EEPROM_MultiRecord_decodes_chain_witness :
    wellFormedChain imageTwoRecords 1 (byteAt imageTwoRecords 5 * 8) = true ∧
    decodedEntries (finish (EEPROM_MultiRecord imageTwoRecords)).out = [16, 34] := by
  have hwf : wellFormedChain imageTwoRecords 1 (byteAt imageTwoRecords 5 * 8) = true := by
    decide
  exact ⟨hwf, (EEPROM_MultiRecord_decodes_chain imageTwoRecords 1 hwf).2.1⟩

/-- C8 at a concrete input: the header points at offset 16, where the byte is 0, so the
walk starts at `0x68`, where a DC Output record is decoded. -/
theorem EEPROM_MultiRecord_first_entry_witness :
    (finish (EEPROM_MultiRecord imageErratum)).reads.take 3 = [5, 16, 0x68] ∧
    (finish (EEPROM_MultiRecord imageErratum)).out.head? =
      some ⟨0x68, Field.RecordType_DC_Output, [Tok.hex 1]⟩ := by
  have h := EEPROM_MultiRecord_first_entry imageErratum (by decide) (by decide)
  exact ⟨h.2.1, h.2.2.1 (by decide) (by decide)⟩

theorem EEPROM_MultiRecord_reads_second (Buffer : List Nat) (h5 : 5 < Buffer.length) :
    (finish (EEPROM_MultiRecord Buffer)).reads.take 2 = [5, byteAt Buffer 5 * 8] := by
  rw [finish_reads]
  unfold EEPROM_MultiRecord
  simp only [Dec.bind_eq, Dec.bind_reads, rd_reads, rd_res Buffer 5 h5]
  cases (rd Buffer (byteAt Buffer 5 * 8)).res with
  | ok a => rfl
  | stop s => rfl

theorem byteAt_append (l pad : List Nat) (i : Nat) (h : i < l.length) :
    byteAt (l ++ pad) i = byteAt l i := by
  unfold byteAt
  exact List.getD_append l pad 0 i h

/-- C6, the code at two 256-byte images: with `Buffer[5] = 0x20` the second read is at
index 256, whatever follows the image in memory; with two entries without the Format top
bit the walk reads index 368. -/
theorem EEPROM_MultiRecord_reads_outside_buffer :
    imageOffsetOutside.length = 256 ∧
    (finish (EEPROM_MultiRecord imageOffsetOutside)).reads = [5, 256] ∧
    (∀ pad, (finish (EEPROM_MultiRecord (imageOffsetOutside ++ pad))).reads.take 2 = [5, 256]) ∧
    imageNoTerminal.length = 256 ∧
    368 ∈ (finish (EEPROM_MultiRecord imageNoTerminal)).reads := by
  refine ⟨by decide, by decide, ?_, by decide, by decide⟩
  intro pad
  have h5 : 5 < (imageOffsetOutside ++ pad).length := by
    rw [List.length_append]
    have : imageOffsetOutside.length = 256 := by decide
    omega
  rw [EEPROM_MultiRecord_reads_second _ h5, byteAt_append _ _ _ (by decide)]
  decide
/-- C9, the code on every well-formed multirecord area: the call reaches the end of the
function body, which has no `return` statement; it does not return 0. -/
theorem EEPROM_MultiRecord_success_has_no_return_value (Buffer : List Nat) (n : Nat)
    (hwf : wellFormedChain Buffer n (byteAt Buffer 5 * 8) = true) :
    (finish (EEPROM_MultiRecord Buffer)).status = Status.noReturn ∧
    (finish (EEPROM_MultiRecord Buffer)).status ≠ Status.returned 0 := by
  have hs := (EEPROM_MultiRecord_chain Buffer n hwf).1
  refine ⟨hs, ?_⟩
  rw [hs]
  exact fun hc => Status.noConfusion hc

/-- C9 at a concrete input: one DC Output record flagged as the last record. -/
theorem EEPROM_MultiRecord_success_has_no_return_value_witness :
    wellFormedChain imageOneRecord 0 (byteAt imageOneRecord 5 * 8) = true ∧
    (finish (EEPROM_MultiRecord imageOneRecord)).status = Status.noReturn := by
  have hwf : wellFormedChain imageOneRecord 0 (byteAt imageOneRecord 5 * 8) = true := by
    decide
  exact ⟨hwf, (EEPROM_MultiRecord_success_has_no_return_value imageOneRecord 0 hwf).1⟩

/-- C10, the code at a Board Info image whose FRU File ID field has length 1: with the
PCIe flag set the byte printed as End-of-Record, at offset 45, is `0x00`, without the
flag it is `0x01`, at offset 26; both calls return 0. -/
theorem EEPROM_Board_accepts_missing_EoR :
    (finish (EEPROM_Board utcMktime imageBoard 1)).status = Status.returned 0 ∧
    ⟨45, Field.EoR_Checksum, [Tok.hex 0, Tok.hex 0]⟩ ∈
      (finish (EEPROM_Board utcMktime imageBoard 1)).out ∧
    (finish (EEPROM_Board utcMktime imageBoard 0)).status = Status.returned 0 ∧
    ⟨26, Field.EoR_Pad_Checksum, [Tok.hex 1, Tok.hex 9, Tok.hex 16, Tok.hex 1]⟩ ∈
      (finish (EEPROM_Board utcMktime imageBoard 0)).out := by
  decide


/-! ### The loop never runs out of fuel -/

theorem fuelFree_bind {α β : Type} (m : Dec α) (f : α → Dec β) (hm : m.fuelFree)
    (hf : ∀ a, (f a).fuelFree) : (Dec.bind m f).fuelFree := by
  unfold Dec.fuelFree at *
  rw [Dec.bind_res]
  cases hres : m.res with
  | ok a => exact hf a
  | stop s =>
    intro hc
    apply hm
    rw [hres, Res.stop.inj hc]

theorem fuelFree_seq {α β : Type} (m : Dec α) (f : α → Dec β) (hm : m.fuelFree)
    (hf : ∀ a, (f a).fuelFree) : (m >>= f).fuelFree := fuelFree_bind m f hm hf

theorem fuelFree_pure {α : Type} (a : α) : (pure a : Dec α).fuelFree := by
  intro hc; cases hc

theorem fuelFree_rd (Buffer : List Nat) (i : Nat) : (rd Buffer i).fuelFree := by
  unfold Dec.fuelFree rd
  cases Buffer[i]? <;> intro hc <;> cases hc

theorem fuelFree_print (off : Nat) (field : Field) (vals : List Tok) :
    (print off field vals).fuelFree := by
  intro hc; cases hc

theorem fuelFree_ret {α : Type} (v : Int) : (ret v : Dec α).fuelFree := by
  intro hc; cases hc

theorem fuelFree_rdRange (Buffer : List Nat) (n i : Nat) : (rdRange Buffer i n).fuelFree := by
  induction n generalizing i with
  | zero => exact fuelFree_pure _
  | succ n ih =>
    unfold rdRange
    exact fuelFree_seq _ _ (fuelFree_rd _ _) fun _ =>
      fuelFree_seq _ _ (ih _) fun _ => fuelFree_pure _

theorem fuelFree_rdStringFrom (l : List Nat) (i : Nat) : (rdStringFrom l i).fuelFree := by
  induction l generalizing i with
  | nil => intro hc; cases hc
  | cons b rest ih =>
    unfold rdStringFrom
    split_ifs
    · intro hc; cases hc
    · exact fuelFree_bind _ _ (by intro hc; cases hc) fun _ =>
        fuelFree_bind _ _ (ih _) fun _ => fuelFree_pure _

theorem fuelFree_rdString (Buffer : List Nat) (i : Nat) : (rdString Buffer i).fuelFree :=
  fuelFree_rdStringFrom _ _

theorem fuelFree_DC_fields (Buffer : List Nat) (o : Nat) : (DC_fields Buffer o).fuelFree := by
  unfold DC_fields
  repeat first
    | exact fuelFree_print _ _ _
    | exact fuelFree_rd _ _
    | refine fuelFree_seq _ _ ?_ (fun _ => ?_)

theorem fuelFree_type (o t : Nat) : (MultiRecord_type o t).fuelFree := by
  unfold MultiRecord_type
  split_ifs <;> first | exact fuelFree_print _ _ _ | exact fuelFree_ret _

theorem fuelFree_header (Buffer : List Nat) (o t : Nat) :
    (MultiRecord_header Buffer o t).fuelFree := by
  unfold MultiRecord_header
  repeat first
    | exact fuelFree_print _ _ _
    | exact fuelFree_rd _ _
    | exact fuelFree_rdRange _ _ _
    | exact fuelFree_pure _
    | refine fuelFree_seq _ _ ?_ (fun _ => ?_)
    | split

theorem fuelFree_payload (Buffer : List Nat) (o t : Nat) :
    (MultiRecord_payload Buffer o t).fuelFree := by
  have hp := fuelFree_print
  have hd := fuelFree_DC_fields Buffer o
  have hr := fuelFree_rd Buffer
  have hg := fuelFree_rdRange Buffer
  have hs := fuelFree_rdString Buffer
  unfold MultiRecord_payload
  dsimp only
  split_ifs
  · exact fuelFree_seq _ _ (hr _) fun _ => fuelFree_seq _ _ (hp _ _ _) fun _ => hd
  · refine fuelFree_seq _ _ (hr _) fun b5 => ?_
    split_ifs
    · exact fuelFree_seq _ _ (hp _ _ _) fun _ => hd
    · exact fuelFree_seq _ _ (hp _ _ _) fun _ => hd
    · exact fuelFree_seq _ _ (fuelFree_ret _) fun _ => hd
  · refine fuelFree_seq _ _ (hr _) fun b8 => ?_
    split_ifs
    · exact fuelFree_seq _ _ (hp _ _ _) fun _ =>
        fuelFree_seq _ _ (hg _ _) fun _ => hp _ _ _
    · exact fuelFree_seq _ _ (hp _ _ _) fun _ =>
        fuelFree_seq _ _ (hg _ _) fun _ =>
        fuelFree_seq _ _ (hp _ _ _) fun _ =>
        fuelFree_seq _ _ (hg _ _) fun _ => hp _ _ _
    · exact fuelFree_ret _
  · exact fuelFree_seq _ _ (hs _) fun _ =>
      fuelFree_seq _ _ (hp _ _ _) fun _ =>
      fuelFree_seq _ _ (hs _) fun _ => hp _ _ _
  · exact fuelFree_seq _ _ (hg _ _) fun _ =>
      fuelFree_seq _ _ (hp _ _ _) fun _ =>
      fuelFree_seq _ _ (hr _) fun _ => fuelFree_seq _ _ (hp _ _ _) fun _ =>
      fuelFree_seq _ _ (hr _) fun _ => fuelFree_seq _ _ (hp _ _ _) fun _ =>
      fuelFree_seq _ _ (hr _) fun _ => fuelFree_seq _ _ (hp _ _ _) fun _ =>
      fuelFree_seq _ _ (hr _) fun _ => fuelFree_seq _ _ (hp _ _ _) fun _ =>
      fuelFree_seq _ _ (hr _) fun _ => fuelFree_seq _ _ (hp _ _ _) fun _ =>
      fuelFree_seq _ _ (hr _) fun _ => fuelFree_seq _ _ (hp _ _ _) fun _ =>
      fuelFree_seq _ _ (hr _) fun _ => fuelFree_seq _ _ (hp _ _ _) fun _ =>
      fuelFree_seq _ _ (hr _) fun _ => hp _ _ _
  · exact fuelFree_ret _

theorem fuelFree_next (Buffer : List Nat) (o last : Nat) :
    (MultiRecord_next Buffer o last).fuelFree := by
  unfold MultiRecord_next
  split_ifs
  · exact fuelFree_seq _ _ (fuelFree_rd _ _) fun _ => fuelFree_pure _
  · exact fuelFree_pure _

theorem fuelFree_body (Buffer : List Nat) (o : Nat) : (MultiRecord_body Buffer o).fuelFree := by
  unfold MultiRecord_body
  exact fuelFree_seq _ _ (fuelFree_rd _ _) fun _ =>
    fuelFree_seq _ _ (fuelFree_rd _ _) fun _ =>
    fuelFree_seq _ _ (fuelFree_type _ _) fun _ =>
    fuelFree_seq _ _ (fuelFree_header _ _ _) fun _ =>
    fuelFree_seq _ _ (fuelFree_payload _ _ _) fun _ =>
    fuelFree_seq _ _ (fuelFree_next _ _ _) fun _ => fuelFree_pure _

theorem Dec.bind_res_ok {α β : Type} (m : Dec α) (f : α → Dec β) (b : β)
    (h : (Dec.bind m f).res = Res.ok b) : ∃ a, m.res = Res.ok a ∧ (f a).res = Res.ok b := by
  rw [Dec.bind_res] at h
  cases hres : m.res with
  | ok a =>
    rw [hres] at h
    exact ⟨a, rfl, h⟩
  | stop s =>
    rw [hres] at h
    cases h

theorem rd_res_ok (Buffer : List Nat) (i b : Nat) (h : (rd Buffer i).res = Res.ok b) :
    i < Buffer.length ∧ b = byteAt Buffer i := by
  by_cases hi : i < Buffer.length
  · rw [rd_res Buffer i hi] at h
    cases h
    exact ⟨hi, rfl⟩
  · rw [rd_res_fault Buffer i (by omega)] at h
    cases h

/-- A pass of the loop body that is followed by another pass has read `Buffer[Offset]`
inside the buffer and has moved `Offset` forward by at least 5. -/
theorem MultiRecord_body_progress (Buffer : List Nat) (o o2 : Nat)
    (h : (MultiRecord_body Buffer o).res = Res.ok (o2, 0)) :
    o < Buffer.length ∧ o + 5 ≤ o2 := by
  unfold MultiRecord_body at h
  obtain ⟨t, ht, h⟩ := Dec.bind_res_ok _ _ _ h
  obtain ⟨fmt, _, h⟩ := Dec.bind_res_ok _ _ _ h
  obtain ⟨_, _, h⟩ := Dec.bind_res_ok _ _ _ h
  obtain ⟨_, _, h⟩ := Dec.bind_res_ok _ _ _ h
  obtain ⟨_, _, h⟩ := Dec.bind_res_ok _ _ _ h
  obtain ⟨O, hO, h⟩ := Dec.bind_res_ok _ _ _ h
  have hpair : (O, fmt &&& 0x80) = (o2, 0) := by
    have : (pure (O, fmt &&& 0x80) : Dec (Nat × Nat)).res = Res.ok (o2, 0) := h
    rw [Dec.pure_res] at this
    exact Res.ok.inj this
  have h1 : O = o2 := congrArg Prod.fst hpair
  have h2 : fmt &&& 0x80 = 0 := congrArg Prod.snd hpair
  refine ⟨(rd_res_ok Buffer o t ht).1, ?_⟩
  rw [h2] at hO
  unfold MultiRecord_next at hO
  simp only [if_true] at hO
  obtain ⟨b, _, hb⟩ := Dec.bind_res_ok _ _ _ hO
  have : (pure (o + (5 + b)) : Dec Nat).res = Res.ok O := hb
  rw [Dec.pure_res] at this
  have := Res.ok.inj this
  omega

theorem fuelFree_loop (Buffer : List Nat) (fuel : Nat) :
    ∀ o, Buffer.length < o + fuel → 0 < fuel → (MultiRecord_loop Buffer fuel o).fuelFree := by
  induction fuel with
  | zero => intro o _ h0; omega
  | succ fuel ih =>
    intro o hlen _
    unfold MultiRecord_loop
    unfold Dec.fuelFree
    rw [Dec.bind_eq, Dec.bind_res]
    cases hres : (MultiRecord_body Buffer o).res with
    | stop s =>
      intro hc
      apply fuelFree_body Buffer o
      rw [hres, Res.stop.inj hc]
    | ok a =>
      obtain ⟨o2, last⟩ := a
      by_cases hl : last = 0
      · subst hl
        obtain ⟨hlt, hge⟩ := MultiRecord_body_progress Buffer o o2 hres
        show (if (0 : Nat) = 0 then MultiRecord_loop Buffer fuel o2 else pure PUnit.unit).res ≠
          Res.stop Status.outOfFuel
        rw [if_pos rfl]
        exact ih o2 (by omega) (by omega)
      · show (if last = 0 then MultiRecord_loop Buffer fuel o2 else pure PUnit.unit).res ≠
          Res.stop Status.outOfFuel
        rw [if_neg hl]
        exact fuelFree_pure _

/-- `EEPROM_MultiRecord` is total on every buffer: the fuel given to its loop is never
used up. -/
theorem EEPROM_MultiRecord_fuel_suffices (Buffer : List Nat) :
    (finish (EEPROM_MultiRecord Buffer)).status ≠ Status.outOfFuel := by
  have hbody : (EEPROM_MultiRecord Buffer).fuelFree := by
    unfold EEPROM_MultiRecord
    refine fuelFree_seq _ _ (fuelFree_rd _ _) fun _ =>
      fuelFree_seq _ _ (fuelFree_rd _ _) fun _ => ?_
    split_ifs
    · exact fuelFree_seq _ _ (fuelFree_pure _) fun _ =>
        fuelFree_loop Buffer _ _ (by omega) (by omega)
    · exact fuelFree_seq _ _ (fuelFree_pure _) fun _ =>
        fuelFree_loop Buffer _ _ (by omega) (by omega)
  unfold finish
  cases hres : (EEPROM_MultiRecord Buffer).res with
  | ok a => intro hc; cases hc
  | stop s =>
    intro hc
    apply hbody
    rw [hres]
    exact congrArg Res.stop hc

/-! ## Properties of the voltage read and of the bus handle -/

theorem toShort_bounds (i : Int) : -32768 ≤ toShort i ∧ toShort i < 32768 := by
  unfold toShort
  split_ifs <;> omega

theorem Exponent_of_bounds (bus : Bus) (Regulator : Voltage_t) :
    -32 ≤ Exponent_of bus Regulator ∧ Exponent_of bus Regulator ≤ 223 := by
  unfold Exponent_of
  split_ifs <;> omega

/-- The conversion to `float` of the value decoded with an exponent of at least -149:
the value itself, unless its magnitude reaches `2 ^ 128`. -/
theorem toFloat_Decode_Vout (In_Buffer : Nat → Nat) (e : Int) (he : -149 ≤ e) :
    toFloat (Decode_Vout In_Buffer e) =
      if (2 : ℚ) ^ (128 : Int) ≤ Decode_Vout In_Buffer e then FloatVal.inf
      else if Decode_Vout In_Buffer e ≤ -(2 : ℚ) ^ (128 : Int) then FloatVal.negInf
      else FloatVal.finite (Decode_Vout In_Buffer e) := by
  obtain ⟨h0, h1⟩ := toShort_bounds ((In_Buffer 1 : Int) * 256 + In_Buffer 0)
  have h := roundBinary_exact 24 (-126) 127
    (toShort ((In_Buffer 1 : Int) * 256 + In_Buffer 0)) e
    (by rw [abs_lt]; constructor <;> norm_num <;> omega) (by norm_num; omega)
  unfold toFloat Decode_Vout pow2
  rw [h]
  norm_num

theorem Decode_Vout_abs_le (In_Buffer : Nat → Nat) (e : Int) :
    |Decode_Vout In_Buffer e| ≤ 32768 * (2 : ℚ) ^ e := by
  obtain ⟨h0, h1⟩ := toShort_bounds ((In_Buffer 1 : Int) * 256 + In_Buffer 0)
  unfold Decode_Vout pow2
  rw [abs_mul, abs_of_pos (zpow_pos (by norm_num : (0 : ℚ) < 2) e)]
  apply mul_le_mul_of_nonneg_right _ (zpow_pos (by norm_num : (0 : ℚ) < 2) e).le
  rw [abs_le]
  constructor
  · have : ((-32768 : Int) : ℚ) ≤ (toShort ((In_Buffer 1 : Int) * 256 + In_Buffer 0) : ℚ) := by
      exact_mod_cast h0
    simpa using this
  · have : (toShort ((In_Buffer 1 : Int) * 256 + In_Buffer 0) : ℚ) ≤ ((32768 : Int) : ℚ) := by
      exact_mod_cast h1.le
    simpa using this

/-- With an exponent between -149 and 112 the value decoded is stored as it is. -/
theorem toFloat_Decode_Vout_finite (In_Buffer : Nat → Nat) (e : Int) (he : -149 ≤ e)
    (he2 : e ≤ 112) :
    toFloat (Decode_Vout In_Buffer e) = FloatVal.finite (Decode_Vout In_Buffer e) := by
  have hb := abs_le.mp (Decode_Vout_abs_le In_Buffer e)
  have hp : (2 : ℚ) ^ e ≤ (2 : ℚ) ^ (112 : Int) := two_zpow_le e 112 he2
  have e1 : (2 : ℚ) ^ (128 : Int) = 65536 * (2 : ℚ) ^ (112 : Int) := by norm_num
  have hz : (0 : ℚ) < (2 : ℚ) ^ (112 : Int) := zpow_pos (by norm_num) _
  rw [toFloat_Decode_Vout In_Buffer e he, if_neg (by rw [e1]; linarith),
    if_neg (by rw [e1]; linarith)]

theorem run_get_ok (ITEMS_MAX : Nat) (bus : Bus) (Regulator : Voltage_t) (Voltage : ℚ)
    (hb : bus.openOk = true)
    (hr : ∀ k, k < (getSequence Regulator).length → bus.Ret k = 0) :
    (runRegulator ITEMS_MAX bus Regulator Voltage 0).trace =
      [Event.opened] ++ getSequence Regulator ++ [Event.closed] ∧
    (runRegulator ITEMS_MAX bus Regulator Voltage 0).Ret = 0 ∧
    (runRegulator ITEMS_MAX bus Regulator Voltage 0).Voltage =
      toFloat (Decode_Vout (Vout_bytes bus Regulator) (Exponent_of bus Regulator)) := by
  have hv : ∀ n, (prologue Regulator).length = n →
      (fun j => if j < 2 then bus.In n j % 256 else 0) = Vout_bytes bus Regulator := by
    intro n hn
    funext j
    simp [Vout_bytes, hn]
  by_cases hp : Regulator.Page_Select = -1 <;> by_cases hn : Regulator.Part_Name = "IR38164" <;>
    simp only [getSequence, prologue, hp, hn, if_true, if_false, ne_eq,
      not_true_eq_false, not_false_eq_true, List.length_append, List.length_cons,
      List.length_nil, List.nil_append] at hr hv <;>
    simp [runRegulator, Access_Regulator, hb, hr, hp, hn, pure, bind, emit, I2C_WRITE,
      I2C_READ, sent, List.range_succ, Function.update, Exponent_of, getSequence, prologue] <;>
    rw [hv _ rfl]

set_option maxHeartbeats 4000000 in
theorem run_get_fail (ITEMS_MAX : Nat) (bus : Bus) (Regulator : Voltage_t) (Voltage : ℚ)
    (k : Nat) (hb : bus.openOk = true) (hk : k < (getSequence Regulator).length)
    (hprev : ∀ j, j < k → bus.Ret j = 0) (hfail : bus.Ret k ≠ 0) :
    (runRegulator ITEMS_MAX bus Regulator Voltage 0).trace =
      [Event.opened] ++ (getSequence Regulator).take (k + 1) ++ [Event.closed] ∧
    (runRegulator ITEMS_MAX bus Regulator Voltage 0).Ret = bus.Ret k ∧
    (runRegulator ITEMS_MAX bus Regulator Voltage 0).Voltage = Voltage := by
  have h0 := hprev 0
  have h1 := hprev 1
  have h2 := hprev 2
  clear hprev
  by_cases hp : Regulator.Page_Select = -1 <;> by_cases hn : Regulator.Part_Name = "IR38164" <;>
    simp only [getSequence, prologue, hp, hn, if_true, if_false, ne_eq,
      not_true_eq_false, not_false_eq_true, List.length_append, List.length_cons,
      List.length_nil, List.nil_append] at hk <;>
    interval_cases k <;>
    simp [runRegulator, Access_Regulator, pure, bind, emit, I2C_WRITE, I2C_READ, hb, hp, hn,
      h0, h1, h2, hfail, sent, List.range_succ, Function.update, getSequence, prologue]

theorem run_other_ok (ITEMS_MAX : Nat) (bus : Bus) (Regulator : Voltage_t) (Voltage : ℚ)
    (Access : Int) (ha0 : Access ≠ 0) (ha1 : Access ≠ 1) (hb : bus.openOk = true)
    (hr : ∀ k, k < (prologue Regulator).length → bus.Ret k = 0) :
    (runRegulator ITEMS_MAX bus Regulator Voltage Access).trace =
      [Event.opened] ++ prologue Regulator ++ [Event.closed] ∧
    (runRegulator ITEMS_MAX bus Regulator Voltage Access).Ret = -1 ∧
    (runRegulator ITEMS_MAX bus Regulator Voltage Access).Voltage = Voltage := by
  by_cases hp : Regulator.Page_Select = -1 <;> by_cases hn : Regulator.Part_Name = "IR38164" <;>
    simp only [prologue, hp, hn, if_true, if_false, ne_eq,
      not_true_eq_false, not_false_eq_true, List.length_append, List.length_cons,
      List.length_nil, List.nil_append] at hr <;>
    simp [runRegulator, Access_Regulator, hb, hr, hp, hn, ha0, ha1, pure, bind, emit, I2C_WRITE,
      I2C_READ, sent, List.range_succ, Function.update, prologue]

theorem run_other_fail (ITEMS_MAX : Nat) (bus : Bus) (Regulator : Voltage_t) (Voltage : ℚ)
    (Access : Int) (ha0 : Access ≠ 0) (ha1 : Access ≠ 1)
    (k : Nat) (hb : bus.openOk = true) (hk : k < (prologue Regulator).length)
    (hprev : ∀ j, j < k → bus.Ret j = 0) (hfail : bus.Ret k ≠ 0) :
    (runRegulator ITEMS_MAX bus Regulator Voltage Access).trace =
      [Event.opened] ++ (prologue Regulator).take (k + 1) ++ [Event.closed] ∧
    (runRegulator ITEMS_MAX bus Regulator Voltage Access).Ret = bus.Ret k ∧
    (runRegulator ITEMS_MAX bus Regulator Voltage Access).Voltage = Voltage := by
  have h0 := hprev 0
  have h1 := hprev 1
  clear hprev
  by_cases hp : Regulator.Page_Select = -1 <;> by_cases hn : Regulator.Part_Name = "IR38164" <;>
    simp only [prologue, hp, hn, if_true, if_false, ne_eq,
      not_true_eq_false, not_false_eq_true, List.length_append, List.length_cons,
      List.length_nil, List.nil_append] at hk <;>
    interval_cases k <;>
    simp [runRegulator, Access_Regulator, pure, bind, emit, I2C_WRITE, I2C_READ, hb, hp, hn,
      h0, h1, hfail, ha0, ha1, sent, List.range_succ, Function.update, prologue]

theorem run_trace_shape (ITEMS_MAX : Nat) (bus : Bus) (Regulator : Voltage_t) (Voltage : ℚ)
    (Access : Int) (hb : bus.openOk = true)
    (hacc : Access = 1 → Supported_scan Regulator.Supported_Volt Voltage ITEMS_MAX 0 = true) :
    ∃ k, (runRegulator ITEMS_MAX bus Regulator Voltage Access).trace =
      [Event.opened] ++ (sequenceOf bus Regulator Voltage Access).take k ++ [Event.closed] := by
  by_cases ha0 : Access = 0
  · subst ha0
    simp only [sequenceOf, if_true]
    rcases first_failure bus.Ret (getSequence Regulator).length with hall | ⟨k, hk, hprev, hfail⟩
    · exact ⟨_, by rw [(run_get_ok ITEMS_MAX bus Regulator Voltage hb hall).1, List.take_length]⟩
    · exact ⟨k + 1, (run_get_fail ITEMS_MAX bus Regulator Voltage k hb hk hprev hfail).1⟩
  · by_cases ha1 : Access = 1
    · subst ha1
      simp only [sequenceOf, if_true, if_neg ha0]
      rcases first_failure bus.Ret (fullSequence bus Regulator Voltage).length with
        hall | ⟨k, hk, hprev, hfail⟩
      · exact ⟨_, by rw [(run_set_ok ITEMS_MAX bus Regulator Voltage (hacc rfl) hb hall).1,
          List.take_length]⟩
      · exact ⟨k + 1,
          (run_set_fail ITEMS_MAX bus Regulator Voltage k (hacc rfl) hb hk hprev hfail).1⟩
    · simp only [sequenceOf, if_neg ha0, if_neg ha1]
      rcases first_failure bus.Ret (prologue Regulator).length with hall | ⟨k, hk, hprev, hfail⟩
      · exact ⟨_, by rw [(run_other_ok ITEMS_MAX bus Regulator Voltage Access ha0 ha1 hb hall).1,
          List.take_length]⟩
      · exact ⟨k + 1,
          (run_other_fail ITEMS_MAX bus Regulator Voltage Access ha0 ha1 k hb hk hprev hfail).1⟩

theorem closed_not_mem_sequenceOf (bus : Bus) (Regulator : Voltage_t) (Voltage : ℚ)
    (Access : Int) : Event.closed ∉ sequenceOf bus Regulator Voltage Access := by
  unfold sequenceOf getSequence fullSequence prologue setSequence
  split_ifs <;> simp

theorem mode_not_mem_sequenceOf (bus : Bus) (Regulator : Voltage_t) (Voltage : ℚ)
    (Access : Int) (hn : Regulator.Part_Name = "IR38164") (a l : Nat) :
    Event.i2c_read a l OutByte.PMBUS_VOUT_MODE ∉ sequenceOf bus Regulator Voltage Access := by
  unfold sequenceOf getSequence fullSequence prologue setSequence
  rw [if_pos hn]
  split_ifs <;> simp

theorem closedOnce_of_shape (l : List Event) (h : Event.closed ∉ l) :
    closedOnce ([Event.opened] ++ l ++ [Event.closed]) := by
  refine ⟨List.getLast?_concat _, ?_⟩
  rw [List.count_append, List.count_append, List.count_eq_zero_of_not_mem h]
  decide


theorem run_closedOnce (ITEMS_MAX : Nat) (bus : Bus) (Regulator : Voltage_t) (Voltage : ℚ)
    (Access : Int) (hb : bus.openOk = true)
    (hacc : Access = 1 → Supported_scan Regulator.Supported_Volt Voltage ITEMS_MAX 0 = true) :
    closedOnce (runRegulator ITEMS_MAX bus Regulator Voltage Access).trace := by
  obtain ⟨k, hk⟩ := run_trace_shape ITEMS_MAX bus Regulator Voltage Access hb hacc
  rw [hk]
  exact closedOnce_of_shape _
    (fun h => closed_not_mem_sequenceOf bus Regulator Voltage Access (List.mem_of_mem_take h))

theorem Access_IO_Exp_closedOnce (bus : Bus) (I2C_Address : Nat) (Op Offset : Int)
    (Out In : Nat) (hb : bus.openOk = true) :
    closedOnce (Access_IO_Exp bus I2C_Address Op Offset Out In ⟨0, []⟩).2.trace := by
  by_cases h0 : Op = 0 <;> by_cases h1 : Op = 1 <;> by_cases hr : bus.Ret 0 = 0 <;>
    simp [Access_IO_Exp, closedOnce, hb, h0, h1, hr, pure, bind, emit, I2C_WRITE, I2C_READ, sent,
      List.range_succ, Function.update, zeroed]

theorem FMC_Vadj_Range_trace_ok (SYSCMD_MAX : Nat) (bus : Bus) (I2C_Address : Nat)
    (Min_Voltage Max_Voltage : ℚ) (hb : bus.openOk = true) (hr : bus.Ret 0 = 0) :
    (FMC_Vadj_Range SYSCMD_MAX bus I2C_Address Min_Voltage Max_Voltage ⟨0, []⟩).2.trace =
      [Event.opened, Event.i2c_read I2C_Address 255 (OutByte.lit 0)] := by
  simp only [FMC_Vadj_Range, hb, hr, pure, bind, emit, I2C_READ, sent]
  simp only [Bool.true_eq_false, if_false, ne_eq, not_true_eq_false]
  generalize Vadj_walk _ = w
  rcases w with ⟨res, reads, out⟩
  rcases res with ⟨mn, mx⟩ | s <;> simp [hr, Function.update]

theorem FMC_Vadj_Range_trace_fail (SYSCMD_MAX : Nat) (bus : Bus) (I2C_Address : Nat)
    (Min_Voltage Max_Voltage : ℚ) (hb : bus.openOk = true) (hr : bus.Ret 0 ≠ 0) :
    (FMC_Vadj_Range SYSCMD_MAX bus I2C_Address Min_Voltage Max_Voltage ⟨0, []⟩).2.trace =
      [Event.opened, Event.i2c_read I2C_Address 255 (OutByte.lit 0), Event.closed] := by
  simp [FMC_Vadj_Range, hb, hr, pure, bind, emit, I2C_READ, sent, Function.update]

/-! ## The unrecognized record type and the Common Header -/

theorem MultiRecord_loop_stops_at_unrecognized (Buffer : List Nat) (o : Nat)
    (ho : o + 1 < Buffer.length) (hrec : recognized (byteAt Buffer o) = false) :
    ∀ (k fuel s : Nat), Buffer.length < s + fuel → passFrom Buffer k s = some o →
      (MultiRecord_loop Buffer fuel s).res = Res.stop (Status.returned (-1)) ∧
      (MultiRecord_loop Buffer fuel s).out = outFrom Buffer k s := by
  intro k
  induction k with
  | zero =>
    intro fuel s hf hp
    have hs : s = o := by
      unfold passFrom at hp
      exact Option.some.inj hp
    subst hs
    rcases fuel with _ | fuel
    · omega
    · exact MultiRecord_loop_unrecognized Buffer fuel s ho hrec
  | succ k ih =>
    intro fuel s hf hp
    unfold passFrom at hp
    cases hres : (MultiRecord_body Buffer s).res with
    | stop st =>
      rw [hres] at hp
      cases hp
    | ok a =>
      obtain ⟨o2, last⟩ := a
      rw [hres] at hp
      by_cases hl : last = 0
      · subst hl
        simp only [if_true] at hp
        obtain ⟨hlt, hge⟩ := MultiRecord_body_progress Buffer s o2 hres
        rcases fuel with _ | fuel
        · omega
        · obtain ⟨ihr, iho⟩ := ih fuel o2 (by omega) hp
          unfold MultiRecord_loop outFrom
          simp only [Dec.bind_eq, Dec.bind_res, Dec.bind_out, hres, if_true, ihr, iho, and_self]
      · simp only [hl, if_false] at hp
        cases hp

/-- C11: when the walk of the multirecord area reaches, as its pass number `k`, an entry
at offset `o` whose Type byte is none of `0x01`, `0x02`, `0xD2`, `0xD3`, `0xFA` (for `k = 0`
this is the start entry, after the adjustment to `0x68`), `EEPROM_MultiRecord` returns -1
and what it has printed is what the `k` earlier passes printed: no line for the entry at
`o` and none for an entry after it. -/
theorem EEPROM_MultiRecord_unrecognized_type_is_fatal (Buffer : List Nat) (k o : Nat)
    (h5 : 5 < Buffer.length) (hoff : byteAt Buffer 5 * 8 < Buffer.length)
    (hreach : passFrom Buffer k (startOffset Buffer) = some o)
    (ho : o + 1 < Buffer.length) (hrec : recognized (byteAt Buffer o) = false) :
    (finish (EEPROM_MultiRecord Buffer)).status = Status.returned (-1) ∧
    (finish (EEPROM_MultiRecord Buffer)).out = outFrom Buffer k (startOffset Buffer) ∧
    (byteAt Buffer o ≠ 0x01 ∧ byteAt Buffer o ≠ 0x02 ∧ byteAt Buffer o ≠ 0xD2 ∧
      byteAt Buffer o ≠ 0xD3 ∧ byteAt Buffer o ≠ 0xFA) := by
  obtain ⟨hres, hout, _⟩ := EEPROM_MultiRecord_unfold Buffer h5 hoff
  obtain ⟨hlr, hlo⟩ := MultiRecord_loop_stops_at_unrecognized Buffer o ho hrec k
    (Buffer.length + 1) (startOffset Buffer) (by omega) hreach
  refine ⟨finish_status_stop _ _ (by rw [hres, hlr]), by rw [finish_out, hout, hlo], ?_⟩
  have hn : ¬ (byteAt Buffer o = 0x1 ∨ byteAt Buffer o = 0x2 ∨ byteAt Buffer o = 0xD2 ∨
      byteAt Buffer o = 0xD3 ∨ byteAt Buffer o = 0xFA) := by
    rw [← recognized_iff, hrec]
    simp
  simp only [not_or] at hn
  exact hn

/-- C11 at a concrete input: a DC Load entry at offset 16 followed at offset 34 by the
byte `0x55`; the call returns -1 and the only entry decoded is the one at 16. -/
theorem EEPROM_MultiRecord_unrecognized_type_is_fatal_witness :
    passFrom imageUnknownSecond 1 (startOffset imageUnknownSecond) = some 34 ∧
    (finish (EEPROM_MultiRecord imageUnknownSecond)).status = Status.returned (-1) ∧
    decodedEntries (finish (EEPROM_MultiRecord imageUnknownSecond)).out = [16] := by
  have hreach : passFrom imageUnknownSecond 1 (startOffset imageUnknownSecond) = some 34 := by
    decide
  have h := EEPROM_MultiRecord_unrecognized_type_is_fatal imageUnknownSecond 1 34 (by decide)
    (by decide) hreach (by decide) (by decide)
  refine ⟨hreach, h.1, ?_⟩
  rw [h.2.1]
  have hwf : wellFormedEntry imageUnknownSecond 16 = true := by decide
  have hs : startOffset imageUnknownSecond = 16 := by decide
  obtain ⟨hbr, hbe, _⟩ := MultiRecord_body_spec imageUnknownSecond 16 hwf
  rw [hs]
  unfold outFrom
  rw [hbr]
  simp only [outFrom, List.append_nil]
  exact hbe

theorem EEPROM_Common_run (Buffer : List Nat) (h : 8 ≤ Buffer.length) :
    (EEPROM_Common Buffer).res = Res.stop (Status.returned 0) ∧
    (EEPROM_Common Buffer).out =
      [⟨0, Field.CommonVersion, [Tok.hex (byteAt Buffer 0)]⟩,
       ⟨1, Field.InternalUseArea, [Tok.hex (byteAt Buffer 1)]⟩,
       ⟨2, Field.ChassisInfoArea, [Tok.hex (byteAt Buffer 2)]⟩,
       ⟨3, Field.BoardArea, [Tok.hex (byteAt Buffer 3)]⟩,
       ⟨4, Field.ProductInfoArea, [Tok.hex (byteAt Buffer 4)]⟩,
       ⟨5, Field.MultiRecordArea, [Tok.hex (byteAt Buffer 5)]⟩,
       ⟨6, Field.Pad_Checksum, [Tok.hex (byteAt Buffer 6), Tok.hex (byteAt Buffer 7)]⟩] := by
  unfold EEPROM_Common
  simp only [Dec.bind_eq, Dec.bind_res, Dec.bind_out, print_res, print_out, ret_res, ret_out,
    rd_out, rdRange_out, rd_res Buffer 0 (by omega), rd_res Buffer 1 (by omega),
    rd_res Buffer 2 (by omega), rd_res Buffer 3 (by omega), rd_res Buffer 4 (by omega),
    rd_res Buffer 5 (by omega), rdRange_res Buffer 2 6 (by omega)]
  simp [List.range_succ]

/-- C12, refuted as stated: a 256-byte image whose five area offsets are all `0x7F`
(`0x7F * 8 = 1016`, beyond the 256 bytes) is decoded by `EEPROM_Common` with the result
0 (success), not with an error. -/
theorem EEPROM_Common_accepts_offsets_beyond_buffer :
    imageWildOffsets.length = 256 ∧
    (∀ i, 1 ≤ i → i ≤ 5 → imageWildOffsets.length < byteAt imageWildOffsets i * 8) ∧
    (finish (EEPROM_Common imageWildOffsets)).status = Status.returned 0 := by
  refine ⟨by decide, ?_, by decide⟩
  intro i h1 h5
  interval_cases i <;> decide

/-- C12, amended: for every image of at least 8 bytes (a 256-byte image among them)
`EEPROM_Common` returns 0 after printing the eight bytes of the Common Header as they
are; no value of the area offsets makes it fail. -/
theorem EEPROM_Common_always_succeeds (Buffer : List Nat) (h : 8 ≤ Buffer.length) :
    (finish (EEPROM_Common Buffer)).status = Status.returned 0 ∧
    (finish (EEPROM_Common Buffer)).out =
      [⟨0, Field.CommonVersion, [Tok.hex (byteAt Buffer 0)]⟩,
       ⟨1, Field.InternalUseArea, [Tok.hex (byteAt Buffer 1)]⟩,
       ⟨2, Field.ChassisInfoArea, [Tok.hex (byteAt Buffer 2)]⟩,
       ⟨3, Field.BoardArea, [Tok.hex (byteAt Buffer 3)]⟩,
       ⟨4, Field.ProductInfoArea, [Tok.hex (byteAt Buffer 4)]⟩,
       ⟨5, Field.MultiRecordArea, [Tok.hex (byteAt Buffer 5)]⟩,
       ⟨6, Field.Pad_Checksum, [Tok.hex (byteAt Buffer 6), Tok.hex (byteAt Buffer 7)]⟩] := by
  obtain ⟨hres, hout⟩ := EEPROM_Common_run Buffer h
  exact ⟨finish_status_stop _ _ hres, by rw [finish_out, hout]⟩

/-- C12 amended, at a concrete input: an image whose multirecord offset is inside the
buffer is decoded with the same result, 0. -/
theorem EEPROM_Common_always_succeeds_witness :
    8 ≤ imageTwoRecords.length ∧
    (finish (EEPROM_Common imageTwoRecords)).status = Status.returned 0 :=
  ⟨by decide, (EEPROM_Common_always_succeeds imageTwoRecords (by decide)).1⟩

/-! ## Exponent, decoding and encoding of the regulator voltage -/

theorem C_round_of_roundsTo (x : ℚ) (r : Int) (h : roundsTo x r) : C_round x = r := by
  unfold roundsTo at h
  unfold C_round
  by_cases hx : 0 ≤ x
  · rw [if_pos hx, Int.floor_eq_iff]
    rcases h with h | ⟨h, hlt⟩
    · rw [abs_lt] at h
      constructor <;> linarith [h.1, h.2]
    · rw [abs_of_nonneg hx] at hlt
      rcases abs_cases ((r : ℚ) - x) with ⟨he, _⟩ | ⟨he, _⟩
      · rw [he] at h
        constructor <;> linarith
      · rw [he] at h
        exfalso
        rcases abs_cases (r : ℚ) with ⟨hr, _⟩ | ⟨hr, hneg⟩
        · rw [hr] at hlt; linarith
        · have : r ≤ -1 := by
            have : r < 0 := by exact_mod_cast hneg
            omega
          have : (r : ℚ) ≤ -1 := by exact_mod_cast this
          linarith
  · rw [if_neg hx]
    push_neg at hx
    have : ⌊-x + 1 / 2⌋ = -r := by
      rw [Int.floor_eq_iff]
      push_cast
      rcases h with h | ⟨h, hlt⟩
      · rw [abs_lt] at h
        constructor <;> linarith [h.1, h.2]
      · rw [abs_of_neg hx] at hlt
        rcases abs_cases ((r : ℚ) - x) with ⟨he, _⟩ | ⟨he, _⟩
        · rw [he] at h
          exfalso
          rcases abs_cases (r : ℚ) with ⟨hr, hpos⟩ | ⟨hr, _⟩
          · have : 0 ≤ r := by exact_mod_cast hpos
            have h1 : (r : ℚ) = x + 1 / 2 := by linarith
            have h2 : (2 : ℚ) * r < 1 := by linarith
            have h3 : (2 : ℚ) * r > -1 + 0 := by
              rw [hr] at hlt; linarith
            have h4 : r < 1 := by
              have : (r : ℚ) < 1 := by linarith
              exact_mod_cast this
            have h5 : r = 0 := by omega
            rw [h5] at hr hlt
            simp at hlt
            linarith
          · rw [hr] at hlt; linarith
        · rw [he] at h
          constructor <;> linarith
    rw [this, neg_neg]

theorem roundsTo_C_round (x : ℚ) : roundsTo x (C_round x) := by
  unfold roundsTo C_round
  by_cases hx : 0 ≤ x
  · rw [if_pos hx]
    have h1 := Int.floor_le (x + 1 / 2)
    have h2 := Int.lt_floor_add_one (x + 1 / 2)
    by_cases he : (⌊x + 1 / 2⌋ : ℚ) = x + 1 / 2
    · right
      have h3 : (⌊x + 1 / 2⌋ : ℚ) - x = 1 / 2 := by linarith
      rw [h3, abs_of_nonneg hx, he]
      refine ⟨abs_of_pos (by norm_num), ?_⟩
      rw [abs_of_nonneg (by linarith)]
      linarith
    · left
      rw [abs_lt]
      have : (⌊x + 1 / 2⌋ : ℚ) < x + 1 / 2 := lt_of_le_of_ne h1 he
      constructor <;> linarith
  · rw [if_neg hx]
    push_neg at hx
    have h1 := Int.floor_le (-x + 1 / 2)
    have h2 := Int.lt_floor_add_one (-x + 1 / 2)
    push_cast
    by_cases he : (⌊-x + 1 / 2⌋ : ℚ) = -x + 1 / 2
    · right
      have h3 : -(⌊-x + 1 / 2⌋ : ℚ) - x = -(1 / 2) := by linarith
      rw [h3, abs_of_neg hx, he]
      refine ⟨by rw [abs_neg]; exact abs_of_pos (by norm_num), ?_⟩
      rw [abs_neg, abs_of_nonneg (by linarith)]
      linarith
    · left
      rw [abs_lt]
      have : (⌊-x + 1 / 2⌋ : ℚ) < -x + 1 / 2 := lt_of_le_of_ne h1 he
      constructor <;> linarith

theorem Vout_of_rounded (v : ℚ) (e : Int) (r : Int) (h : roundsTo (v / (2 : ℚ) ^ e) r)
    (h0 : 0 ≤ r) (h1 : r < 65536) :
    Vout_of v e % 256 = r.toNat % 256 ∧ Vout_of v e / 256 % 256 = r.toNat / 256 := by
  have hr : C_round (v / pow2 e) = r := C_round_of_roundsTo _ _ h
  unfold Vout_of toUInt
  rw [hr, if_neg (by omega), if_neg (by omega)]
  refine ⟨rfl, ?_⟩
  have : r.toNat < 65536 := by omega
  omega

theorem signed16_eq_toShort (b0 b1 : Nat) (h0 : b0 < 256) (h1 : b1 < 256) :
    toShort ((b1 : Int) * 256 + b0) = signed16 (b0 + 256 * b1) := by
  unfold toShort signed16
  have : ((b1 : Int) * 256 + b0) % 65536 = ((b0 + 256 * b1 : Nat) : Int) := by
    push_cast
    omega
  rw [this]
  split_ifs <;> omega


theorem run_no_mode_read (ITEMS_MAX : Nat) (bus : Bus) (Regulator : Voltage_t) (Voltage : ℚ)
    (Access : Int) (hn : Regulator.Part_Name = "IR38164") (a l : Nat) :
    Event.i2c_read a l OutByte.PMBUS_VOUT_MODE ∉
      (runRegulator ITEMS_MAX bus Regulator Voltage Access).trace := by
  by_cases hrej : Access = 1 ∧ Supported_scan Regulator.Supported_Volt Voltage ITEMS_MAX 0 = false
  · simp [runRegulator, Access_Regulator, hrej, pure, bind]
  · by_cases hb : bus.openOk = true
    · have hacc : Access = 1 →
          Supported_scan Regulator.Supported_Volt Voltage ITEMS_MAX 0 = true := by
        intro h1
        by_contra hc
        exact hrej ⟨h1, by simpa using hc⟩
      obtain ⟨k, hk⟩ := run_trace_shape ITEMS_MAX bus Regulator Voltage Access hb hacc
      rw [hk]
      intro hmem
      simp only [List.mem_append, List.mem_singleton, List.mem_cons, List.not_mem_nil,
        or_false] at hmem
      rcases hmem with (h | h) | h
      · cases h
      · exact mode_not_mem_sequenceOf bus Regulator Voltage Access hn a l
          (List.mem_of_mem_take h)
      · cases h
    · have hb2 : bus.openOk = false := by simpa using hb
      simp [runRegulator, Access_Regulator, hrej, hb2, pure, bind, emit]

/-- C13: with the bus open and every transaction succeeding, a regulator whose part
name is `IR38164` is never sent a `PMBUS_VOUT_MODE` read (whatever `Access` is) and its
readings and encodings use the exponent -8; a regulator with any other part name is sent
the 1-byte `PMBUS_VOUT_MODE` read and the exponent is the byte `b` it returns minus 32.
The exponent shows in the voltage a read returns (the value decoded with it, converted
to `float`) and in the bytes a change writes to `PMBUS_VOUT_COMMAND`. -/
theorem Access_Regulator_exponent_source (ITEMS_MAX : Nat) (bus : Bus)
    (Regulator : Voltage_t) (Voltage Target : ℚ)
    (hacc : Supported_scan Regulator.Supported_Volt Target ITEMS_MAX 0 = true)
    (hopen : bus.openOk = true) (hok : ∀ k, bus.Ret k = 0) :
    (Regulator.Part_Name = "IR38164" →
      (∀ Access a l, Event.i2c_read a l OutByte.PMBUS_VOUT_MODE ∉
        (runRegulator ITEMS_MAX bus Regulator Voltage Access).trace) ∧
      (runRegulator ITEMS_MAX bus Regulator Voltage 0).Voltage =
        toFloat (Decode_Vout (Vout_bytes bus Regulator) (-8)) ∧
      Event.i2c_write Regulator.I2C_Address
        [OutByte.PMBUS_VOUT_COMMAND, OutByte.lit (Vout_of Target (-8) % 256),
          OutByte.lit (Vout_of Target (-8) / 256 % 256)] ∈
        (runRegulator ITEMS_MAX bus Regulator Target 1).trace) ∧
    (Regulator.Part_Name ≠ "IR38164" →
      Event.i2c_read Regulator.I2C_Address 1 OutByte.PMBUS_VOUT_MODE ∈
        (runRegulator ITEMS_MAX bus Regulator Voltage 0).trace ∧
      Event.i2c_read Regulator.I2C_Address 1 OutByte.PMBUS_VOUT_MODE ∈
        (runRegulator ITEMS_MAX bus Regulator Target 1).trace ∧
      (runRegulator ITEMS_MAX bus Regulator Voltage 0).Voltage =
        toFloat (Decode_Vout (Vout_bytes bus Regulator)
          (((bus.In (if Regulator.Page_Select ≠ -1 then 1 else 0) 0 % 256 : Nat) : Int) - 32)) ∧
      Event.i2c_write Regulator.I2C_Address
        [OutByte.PMBUS_VOUT_COMMAND,
          OutByte.lit (Vout_of Target
            (((bus.In (if Regulator.Page_Select ≠ -1 then 1 else 0) 0 % 256 : Nat) : Int) - 32)
            % 256),
          OutByte.lit (Vout_of Target
            (((bus.In (if Regulator.Page_Select ≠ -1 then 1 else 0) 0 % 256 : Nat) : Int) - 32)
            / 256 % 256)] ∈
        (runRegulator ITEMS_MAX bus Regulator Target 1).trace) := by
  obtain ⟨hgt, _, hgv⟩ := run_get_ok ITEMS_MAX bus Regulator Voltage hopen (fun k _ => hok k)
  obtain ⟨hst, _, _⟩ := run_set_ok ITEMS_MAX bus Regulator Target hacc hopen (fun k _ => hok k)
  constructor
  · intro hn
    refine ⟨fun Access a l => run_no_mode_read ITEMS_MAX bus Regulator Voltage Access hn a l,
      ?_, ?_⟩
    · rw [hgv]
      simp [Exponent_of, hn]
    · rw [hst]
      simp [fullSequence, setSequence, Exponent_of, hn]
  · intro hn
    refine ⟨?_, ?_, ?_, ?_⟩
    · rw [hgt]
      simp [getSequence, prologue, hn]
    · rw [hst]
      simp [fullSequence, prologue, hn]
    · rw [hgv]
      simp [Exponent_of, hn]
    · rw [hst]
      simp [fullSequence, setSequence, Exponent_of, hn]

/-- C13 at a concrete input: the byte `0x18` read from `PMBUS_VOUT_MODE` gives the
exponent `0x18 - 32 = -8`, with which the bytes `0x64, 0x00` decode to 100/256 and the
target 1 V encodes to `0x0100`. -/
theorem Access_Regulator_exponent_source_witness :
    Event.i2c_read 32 1 OutByte.PMBUS_VOUT_MODE ∈ (runRegulator 4 voutBus plainRegulator 0 0).trace ∧
    (runRegulator 4 voutBus plainRegulator 0 0).Voltage =
      FloatVal.finite (100 * (2 : ℚ) ^ (-8 : Int)) ∧
    Event.i2c_write 32 [OutByte.PMBUS_VOUT_COMMAND, OutByte.lit 0, OutByte.lit 1] ∈
      (runRegulator 4 voutBus plainRegulator 1 1).trace := by
  have hs : plainRegulator.Part_Name ≠ "IR38164" := by decide
  have h := (Access_Regulator_exponent_source 4 voutBus plainRegulator 0 1 (by decide) rfl
    (fun _ => rfl)).2 hs
  refine ⟨h.1, ?_, ?_⟩
  · rw [h.2.2.1, toFloat_Decode_Vout_finite _ _ (by norm_num [plainRegulator, voutBus])
      (by norm_num [plainRegulator, voutBus])]
    have hs2 : ¬ ("IR35215" = "IR38164") := by decide
    norm_num [Decode_Vout, Vout_bytes, prologue, plainRegulator, voutBus, toShort, pow2, hs2]
  · have h4 := h.2.2.2
    norm_num [plainRegulator, voutBus, Vout_of, pow2, C_round, toUInt] at h4
    exact h4


/-- The value a successful read leaves in `*Voltage`, for the mantissa `m` and the
exponent `e` of the call: `m * 2 ^ e` when its magnitude is below `2 ^ 128`, an infinity
of the sign of `m` otherwise. -/
theorem run_get_value (ITEMS_MAX : Nat) (bus : Bus) (Regulator : Voltage_t) (Voltage : ℚ)
    (hopen : bus.openOk = true) (hok : ∀ k, bus.Ret k = 0) :
    (runRegulator ITEMS_MAX bus Regulator Voltage 0).Voltage =
      if (2 : ℚ) ^ 128 ≤
          (signed16 (Vout_bytes bus Regulator 0 + 256 * Vout_bytes bus Regulator 1) : ℚ) *
            (2 : ℚ) ^ Exponent_of bus Regulator then FloatVal.inf
      else if (signed16 (Vout_bytes bus Regulator 0 + 256 * Vout_bytes bus Regulator 1) : ℚ) *
            (2 : ℚ) ^ Exponent_of bus Regulator ≤ -(2 : ℚ) ^ 128 then FloatVal.negInf
      else FloatVal.finite
          ((signed16 (Vout_bytes bus Regulator 0 + 256 * Vout_bytes bus Regulator 1) : ℚ) *
            (2 : ℚ) ^ Exponent_of bus Regulator) := by
  obtain ⟨_, _, hv⟩ := run_get_ok ITEMS_MAX bus Regulator Voltage hopen (fun k _ => hok k)
  have h0 : Vout_bytes bus Regulator 0 < 256 := by
    unfold Vout_bytes
    rw [if_pos (by omega)]
    exact Nat.mod_lt _ (by omega)
  have h1 : Vout_bytes bus Regulator 1 < 256 := by
    unfold Vout_bytes
    rw [if_pos (by omega)]
    exact Nat.mod_lt _ (by omega)
  have hd : Decode_Vout (Vout_bytes bus Regulator) (Exponent_of bus Regulator) =
      (signed16 (Vout_bytes bus Regulator 0 + 256 * Vout_bytes bus Regulator 1) : ℚ) *
        (2 : ℚ) ^ Exponent_of bus Regulator := by
    unfold Decode_Vout pow2
    rw [signed16_eq_toShort _ _ h0 h1]
  have he := (Exponent_of_bounds bus Regulator).1
  have hp : (2 : ℚ) ^ (128 : Int) = (2 : ℚ) ^ 128 := by norm_num
  rw [hv, toFloat_Decode_Vout _ _ (by omega), hd, hp]

/-- C14, refuted as stated: a regulator that answers `0xFF` to `PMBUS_VOUT_MODE` and
`0x01, 0x00` to `PMBUS_READ_VOUT` has the mantissa 1 and the exponent `0xFF - 32 = 223`;
the read returns 0 and leaves `+infinity` in `*Voltage`, not `2 ^ 223`. -/
theorem Access_Regulator_get_overflows :
    Exponent_of overflowBus plainRegulator = 223 ∧
    Vout_bytes overflowBus plainRegulator 0 = 1 ∧
    Vout_bytes overflowBus plainRegulator 1 = 0 ∧
    (runRegulator 4 overflowBus plainRegulator 0 0).Ret = 0 ∧
    (runRegulator 4 overflowBus plainRegulator 0 0).Voltage = FloatVal.inf ∧
    (runRegulator 4 overflowBus plainRegulator 0 0).Voltage ≠
      FloatVal.finite ((signed16 (1 + 256 * 0) : ℚ) * (2 : ℚ) ^ (223 : Int)) := by
  have hs : ¬ ("IR35215" = "IR38164") := by decide
  have he : Exponent_of overflowBus plainRegulator = 223 := by
    norm_num [hs, Exponent_of, plainRegulator, overflowBus]
  have h0 : Vout_bytes overflowBus plainRegulator 0 = 1 := by
    simp [Vout_bytes, prologue, plainRegulator, overflowBus, hs]
  have h1 : Vout_bytes overflowBus plainRegulator 1 = 0 := by
    simp [Vout_bytes, prologue, plainRegulator, overflowBus, hs]
  have hret := (run_get_ok 4 overflowBus plainRegulator 0 rfl (fun _ _ => rfl)).2.1
  have hv := run_get_value 4 overflowBus plainRegulator 0 rfl (fun _ => rfl)
  rw [h0, h1, he] at hv
  have hbig : (2 : ℚ) ^ 128 ≤ (signed16 (1 + 256 * 0) : ℚ) * (2 : ℚ) ^ (223 : Int) := by
    have e1 : (2 : ℚ) ^ (223 : Int) = (2 : ℚ) ^ 128 * (2 : ℚ) ^ 95 := by norm_num
    have hz : (0 : ℚ) < (2 : ℚ) ^ 128 := by positivity
    have h95 : (1 : ℚ) ≤ (2 : ℚ) ^ 95 := one_le_pow₀ (by norm_num)
    rw [e1]
    norm_num [signed16]
  rw [if_pos hbig] at hv
  refine ⟨he, h0, h1, hret, hv, ?_⟩
  rw [hv]
  exact fun hc => FloatVal.noConfusion hc

/-- C14, amended: with the bus open and every transaction succeeding, a read
(`Access = 0`) returns 0.  With `m` the two's-complement value of the 16-bit word
`b0 + 256 * b1` made of the two bytes `b0`, `b1` that `PMBUS_READ_VOUT` delivered and `e`
the exponent the call resolved, it reports `m * 2 ^ e` when the magnitude of this value is
below `2 ^ 128`, which is so for every exponent up to 112 (a `PMBUS_VOUT_MODE` byte up to
`0x90`); otherwise the value does not fit the `float` and an infinity of the sign of `m`
is reported.  For the bytes `0x64, 0x00` and `e = -8` the result is 0.390625. -/
theorem Access_Regulator_get_decodes (ITEMS_MAX : Nat) (bus : Bus) (Regulator : Voltage_t)
    (Voltage : ℚ) (hopen : bus.openOk = true) (hok : ∀ k, bus.Ret k = 0) :
    (runRegulator ITEMS_MAX bus Regulator Voltage 0).Ret = 0 ∧
    (|(signed16 (Vout_bytes bus Regulator 0 + 256 * Vout_bytes bus Regulator 1) : ℚ) *
        (2 : ℚ) ^ Exponent_of bus Regulator| < (2 : ℚ) ^ 128 →
      (runRegulator ITEMS_MAX bus Regulator Voltage 0).Voltage =
        FloatVal.finite
          ((signed16 (Vout_bytes bus Regulator 0 + 256 * Vout_bytes bus Regulator 1) : ℚ) *
            (2 : ℚ) ^ Exponent_of bus Regulator)) ∧
    (Exponent_of bus Regulator ≤ 112 →
      (runRegulator ITEMS_MAX bus Regulator Voltage 0).Voltage =
        FloatVal.finite
          ((signed16 (Vout_bytes bus Regulator 0 + 256 * Vout_bytes bus Regulator 1) : ℚ) *
            (2 : ℚ) ^ Exponent_of bus Regulator)) ∧
    ((2 : ℚ) ^ 128 ≤
        (signed16 (Vout_bytes bus Regulator 0 + 256 * Vout_bytes bus Regulator 1) : ℚ) *
          (2 : ℚ) ^ Exponent_of bus Regulator →
      (runRegulator ITEMS_MAX bus Regulator Voltage 0).Voltage = FloatVal.inf) ∧
    ((signed16 (Vout_bytes bus Regulator 0 + 256 * Vout_bytes bus Regulator 1) : ℚ) *
        (2 : ℚ) ^ Exponent_of bus Regulator ≤ -(2 : ℚ) ^ 128 →
      (runRegulator ITEMS_MAX bus Regulator Voltage 0).Voltage = FloatVal.negInf) ∧
    (Vout_bytes bus Regulator 0 = 0x64 → Vout_bytes bus Regulator 1 = 0x00 →
      Exponent_of bus Regulator = -8 →
      (runRegulator ITEMS_MAX bus Regulator Voltage 0).Voltage =
        FloatVal.finite (390625 / 1000000)) := by
  obtain ⟨_, hret, hv⟩ := run_get_ok ITEMS_MAX bus Regulator Voltage hopen (fun k _ => hok k)
  have hval := run_get_value ITEMS_MAX bus Regulator Voltage hopen hok
  have hz : (0 : ℚ) < (2 : ℚ) ^ 128 := by positivity
  have hfin : |(signed16 (Vout_bytes bus Regulator 0 + 256 * Vout_bytes bus Regulator 1) : ℚ) *
        (2 : ℚ) ^ Exponent_of bus Regulator| < (2 : ℚ) ^ 128 →
      (runRegulator ITEMS_MAX bus Regulator Voltage 0).Voltage =
        FloatVal.finite
          ((signed16 (Vout_bytes bus Regulator 0 + 256 * Vout_bytes bus Regulator 1) : ℚ) *
            (2 : ℚ) ^ Exponent_of bus Regulator) := by
    intro habs
    rw [abs_lt] at habs
    rw [hval, if_neg (by linarith), if_neg (by linarith)]
  refine ⟨hret, hfin, ?_, ?_, ?_, ?_⟩
  · intro he
    have h0 : Vout_bytes bus Regulator 0 < 256 := by
      unfold Vout_bytes
      rw [if_pos (by omega)]
      exact Nat.mod_lt _ (by omega)
    have h1 : Vout_bytes bus Regulator 1 < 256 := by
      unfold Vout_bytes
      rw [if_pos (by omega)]
      exact Nat.mod_lt _ (by omega)
    have hlo := (Exponent_of_bounds bus Regulator).1
    rw [hv, toFloat_Decode_Vout_finite _ _ (by omega) he]
    unfold Decode_Vout pow2
    rw [signed16_eq_toShort _ _ h0 h1]
  · intro hbig
    rw [hval, if_pos hbig]
  · intro hneg
    rw [hval, if_neg (by linarith), if_pos hneg]
  · intro hb0 hb1 he
    rw [hfin (by rw [hb0, hb1, he]; norm_num [signed16, abs_lt]), hb0, hb1, he]
    norm_num [signed16]

/-- C14 amended, at a concrete input: the bytes `0x64, 0x00` at the exponent
`0x18 - 32 = -8`. -/
theorem Access_Regulator_get_decodes_witness :
    (runRegulator 4 voutBus plainRegulator 0 0).Ret = 0 ∧
    (runRegulator 4 voutBus plainRegulator 0 0).Voltage = FloatVal.finite (390625 / 1000000) := by
  have h := Access_Regulator_get_decodes 4 voutBus plainRegulator 0 rfl (fun _ => rfl)
  have hs : ¬ ("IR35215" = "IR38164") := by decide
  refine ⟨h.1, h.2.2.2.2.2 ?_ ?_ ?_⟩
  · simp [Vout_bytes, prologue, plainRegulator, voutBus, hs]
  · simp [Vout_bytes, prologue, plainRegulator, voutBus, hs]
  · simp [Exponent_of, plainRegulator, voutBus, hs]

/-- C15: in an accepted voltage change in which every transaction succeeds, when the
quotient of the target by `2 ^ e` (`e` the resolved exponent) rounds, to the nearest
integer and away from zero at a tie, to `r` with `0 ≤ r < 65536`, the write to
`PMBUS_VOUT_COMMAND` carries the low byte of `r` and then its high byte, and no other
write to that register is issued. -/
theorem Access_Regulator_set_encodes (ITEMS_MAX : Nat) (bus : Bus) (Regulator : Voltage_t)
    (Voltage : ℚ) (r : Int)
    (hacc : Supported_scan Regulator.Supported_Volt Voltage ITEMS_MAX 0 = true)
    (hopen : bus.openOk = true) (hok : ∀ k, bus.Ret k = 0)
    (hr : roundsTo (Voltage / (2 : ℚ) ^ Exponent_of bus Regulator) r)
    (h0 : 0 ≤ r) (h1 : r < 65536) :
    Event.i2c_write Regulator.I2C_Address
      [OutByte.PMBUS_VOUT_COMMAND, OutByte.lit (r.toNat % 256), OutByte.lit (r.toNat / 256)] ∈
      (runRegulator ITEMS_MAX bus Regulator Voltage 1).trace ∧
    (∀ a data, Event.i2c_write a (OutByte.PMBUS_VOUT_COMMAND :: data) ∈
        (runRegulator ITEMS_MAX bus Regulator Voltage 1).trace →
      data = [OutByte.lit (r.toNat % 256), OutByte.lit (r.toNat / 256)]) ∧
    roundsTo (Voltage / (2 : ℚ) ^ Exponent_of bus Regulator)
      (C_round (Voltage / (2 : ℚ) ^ Exponent_of bus Regulator)) := by
  obtain ⟨hst, _, _⟩ := run_set_ok ITEMS_MAX bus Regulator Voltage hacc hopen (fun k _ => hok k)
  obtain ⟨hlo, hhi⟩ := Vout_of_rounded Voltage (Exponent_of bus Regulator) r hr h0 h1
  refine ⟨?_, ?_, roundsTo_C_round _⟩
  · rw [hst]
    simp [fullSequence, setSequence, hlo, hhi]
  · intro a data hmem
    rw [hst] at hmem
    unfold fullSequence prologue setSequence at hmem
    rw [hlo, hhi] at hmem
    split_ifs at hmem <;> simp at hmem <;> exact hmem.2

/-- C15 at a concrete input: 1 V at the exponent -8 is `256 = 0x0100`, sent as `0x00`
then `0x01`. -/
theorem Access_Regulator_set_encodes_witness :
    roundsTo (1 / (2 : ℚ) ^ Exponent_of quietBus plainRegulator) 256 ∧
    Event.i2c_write 32 [OutByte.PMBUS_VOUT_COMMAND, OutByte.lit 0, OutByte.lit 1] ∈
      (runRegulator 4 quietBus plainRegulator 1 1).trace := by
  have hs : ¬ ("IR35215" = "IR38164") := by decide
  have hr : roundsTo (1 / (2 : ℚ) ^ Exponent_of quietBus plainRegulator) 256 := by
    left
    norm_num [Exponent_of, plainRegulator, quietBus, hs]
  exact ⟨hr, (Access_Regulator_set_encodes 4 quietBus plainRegulator 1 256 (by decide) rfl
    (fun _ => rfl) hr (by decide) (by decide)).1⟩

/-- C16: with the bus open and every transaction succeeding, a read (`Access = 0`)
issues, in this order and nothing else: the page-select write `[0x00, Page_Select]` if
and only if `Page_Select` is not -1, the `PMBUS_VOUT_MODE` read unless the part is
`IR38164`, and one 2-byte `PMBUS_READ_VOUT` read; then it closes the bus and returns 0
with the decoded voltage. -/
theorem Access_Regulator_get_sequence (ITEMS_MAX : Nat) (bus : Bus) (Regulator : Voltage_t)
    (Voltage : ℚ) (hopen : bus.openOk = true) (hok : ∀ k, bus.Ret k = 0) :
    (runRegulator ITEMS_MAX bus Regulator Voltage 0).Ret = 0 ∧
    (runRegulator ITEMS_MAX bus Regulator Voltage 0).trace =
      [Event.opened] ++
      (if Regulator.Page_Select ≠ -1 then
        [Event.i2c_write Regulator.I2C_Address
          [OutByte.lit 0, OutByte.lit (toChar Regulator.Page_Select)]]
       else []) ++
      (if Regulator.Part_Name = "IR38164" then []
       else [Event.i2c_read Regulator.I2C_Address 1 OutByte.PMBUS_VOUT_MODE]) ++
      [Event.i2c_read Regulator.I2C_Address 2 OutByte.PMBUS_READ_VOUT, Event.closed] ∧
    (runRegulator ITEMS_MAX bus Regulator Voltage 0).Voltage =
      toFloat (Decode_Vout (Vout_bytes bus Regulator) (Exponent_of bus Regulator)) := by
  obtain ⟨htrace, hret, hv⟩ :=
    run_get_ok ITEMS_MAX bus Regulator Voltage hopen (fun k _ => hok k)
  refine ⟨hret, ?_, hv⟩
  rw [htrace]
  simp [getSequence, prologue]

/-- C16 at a concrete input: a regulator on page 1, read at the exponent -8. -/
theorem Access_Regulator_get_sequence_witness :
    (runRegulator 4 quietBus pagedRegulator 0 0).Ret = 0 ∧
    (runRegulator 4 quietBus pagedRegulator 0 0).trace =
      [Event.opened,
       Event.i2c_write 19 [OutByte.lit 0, OutByte.lit 1],
       Event.i2c_read 19 1 OutByte.PMBUS_VOUT_MODE,
       Event.i2c_read 19 2 OutByte.PMBUS_READ_VOUT,
       Event.closed] ∧
    (runRegulator 4 quietBus pagedRegulator 0 0).Voltage = FloatVal.finite (24 / 256) := by
  have h := Access_Regulator_get_sequence 4 quietBus pagedRegulator 0 rfl (fun _ => rfl)
  have hs : ¬ ("IRPS5401" = "IR38164") := by decide
  refine ⟨h.1, ?_, ?_⟩
  · rw [h.2.1]
    simp [pagedRegulator, hs, toChar]
  · rw [h.2.2, toFloat_Decode_Vout_finite _ _ (by have := Exponent_of_bounds quietBus pagedRegulator; omega)
      (by norm_num [Exponent_of, pagedRegulator, quietBus, hs])]
    norm_num [Decode_Vout, Vout_bytes, Exponent_of, prologue, pagedRegulator, quietBus, toShort,
      pow2, hs]

/-! ## Temperatures of the transceivers and of the DIMM -/

theorem wordOf_eq (In_Buffer : Nat → Nat) (h1 : In_Buffer 1 < 256) :
    wordOf In_Buffer = In_Buffer 0 * 256 + In_Buffer 1 := by
  unfold wordOf
  rw [Nat.shiftLeft_eq, show (2 : Nat) ^ 8 = 256 by norm_num, Nat.mul_comm]
  exact (Nat.mul_add_lt_is_or (i := 8) (by simpa using h1) (In_Buffer 0)).symm

theorem and_sign_bit (w : Nat) (h : w < 65536) :
    w &&& 0x7FFF = w % 32768 ∧ w &&& 0x8000 = if w < 32768 then 0 else 32768 := by
  constructor
  · have : (0x7FFF : Nat) = 2 ^ 15 - 1 := by norm_num
    rw [this, Nat.and_pow_two_sub_one_eq_mod]
  · have : (0x8000 : Nat) = 2 ^ 15 := by norm_num
    rw [this, Nat.and_two_pow, Nat.testBit_to_div_mod]
    by_cases hw : w < 32768
    · have h2 : w / 32768 % 2 = 0 := by omega
      simp [h2, hw]
    · have h2 : w / 32768 % 2 = 1 := by omega
      simp [h2, hw]

theorem Temperature_Value_eq (In_Buffer : Nat → Nat) (h0 : In_Buffer 0 < 256)
    (h1 : In_Buffer 1 < 256) :
    Temperature_Value In_Buffer =
      if In_Buffer 0 < 128 then In_Buffer 0 * 256 + In_Buffer 1
      else 18446744073709551616 - 65536 + (In_Buffer 0 * 256 + In_Buffer 1) := by
  unfold Temperature_Value
  rw [wordOf_eq In_Buffer h1]
  obtain ⟨ha, hb⟩ := and_sign_bit (In_Buffer 0 * 256 + In_Buffer 1) (by omega)
  rw [ha, hb]
  unfold subULong
  split_ifs <;> omega

theorem SFP_Ops_get_temperature (bus : Bus) (SFPs : List SFP_t) (SFP : SFP_t) (T_Flag : Int)
    (Target_Arg : String) (V_Flag : Int) (Value_Arg : Int)
    (hT : T_Flag ≠ 0) (hfind : SFPs.find? (fun S => decide (S.Name = Target_Arg)) = some SFP)
    (hopen : bus.openOk = true) (hok : ∀ k, bus.Ret k = 0) :
    (runOps (SFP_Ops bus SFPs SFP_Cmd.GETSFP T_Flag Target_Arg V_Flag Value_Arg)).trace.filter
        (fun e => match e with
          | Event.print Report.InternalTemperature _ => true
          | _ => false) =
      [Event.print Report.InternalTemperature
        ((Temperature_Value (fun j => if j < 2 then bus.In 2 j % 256 else 0) : ℚ) / 256)] ∧
    (runOps (SFP_Ops bus SFPs SFP_Cmd.GETSFP T_Flag Target_Arg V_Flag Value_Arg)).trace.take 6 =
      [Event.opened,
       Event.i2c_read SFP.I2C_Address 16 (OutByte.lit 0x14),
       Event.printText Report.Manufacturer (textOf (fun j => if j < 16 then bus.In 0 j % 256 else 0) 16),
       Event.i2c_read SFP.I2C_Address 16 (OutByte.lit 0x44),
       Event.printText Report.SerialNumber (textOf (fun j => if j < 16 then bus.In 1 j % 256 else 0) 16),
       Event.i2c_read (SFP.I2C_Address + 1) 2 (OutByte.lit 0x60)] := by
  simp [runOps, SFP_Ops, hT, hfind, hopen, hok, pure, bind, emit, I2C_READ,
      sent, List.range_succ, Function.update, zeroed]

theorem QSFP_Ops_get_temperature (bus : Bus) (QSFPs : List SFP_t) (QSFP : SFP_t) (T_Flag : Int)
    (Target_Arg : String) (V_Flag : Int) (Value_Arg : Int)
    (hT : T_Flag ≠ 0) (hfind : QSFPs.find? (fun S => decide (S.Name = Target_Arg)) = some QSFP)
    (hopen : bus.openOk = true) (hok : ∀ k, bus.Ret k = 0) :
    (runOps (QSFP_Ops bus 0 QSFPs QSFP_Cmd.GETQSFP T_Flag Target_Arg V_Flag Value_Arg)).trace.filter
        (fun e => match e with
          | Event.print Report.InternalTemperature _ => true
          | _ => false) =
      [Event.print Report.InternalTemperature
        ((Temperature_Value (fun j => if j < 2 then bus.In 3 j % 256 else 0) : ℚ) / 256)] ∧
    Event.i2c_read QSFP.I2C_Address 2 (OutByte.lit 0x16) ∈
      (runOps (QSFP_Ops bus 0 QSFPs QSFP_Cmd.GETQSFP T_Flag Target_Arg V_Flag Value_Arg)).trace := by
  simp [runOps, QSFP_Ops, QSFP_switch, hT, hfind, hopen, hok, pure, bind, emit, I2C_READ,
      sent, List.range_succ, Function.update, zeroed]

theorem Temperature_Value_bytesRead (bus : Bus) (k : Nat) :
    ((bus.In k 0 % 256 < 128 →
      ((Temperature_Value (bytesRead bus k 2) : Nat) : ℚ) / 256 =
        (signed16 (bus.In k 0 % 256 * 256 + bus.In k 1 % 256) : ℚ) / 256) ∧
    (128 ≤ bus.In k 0 % 256 →
      ((Temperature_Value (bytesRead bus k 2) : Nat) : ℚ) / 256 =
        (18446744073709551616 + (signed16 (bus.In k 0 % 256 * 256 + bus.In k 1 % 256) : ℚ)) /
          256)) := by
  have h0 : bytesRead bus k 2 0 < 256 := Nat.mod_lt _ (by omega)
  have h1 : bytesRead bus k 2 1 < 256 := Nat.mod_lt _ (by omega)
  have e0 : bytesRead bus k 2 0 = bus.In k 0 % 256 := rfl
  have e1 : bytesRead bus k 2 1 = bus.In k 1 % 256 := rfl
  have ht := Temperature_Value_eq (bytesRead bus k 2) h0 h1
  rw [e0, e1] at ht
  rw [e0] at h0
  rw [e1] at h1
  generalize bus.In k 0 % 256 = a at *
  generalize bus.In k 1 % 256 = b at *
  constructor
  · intro hlt
    rw [ht, if_pos hlt]
    unfold signed16
    rw [if_pos (by omega)]
    push_cast
    rfl
  · intro hge
    rw [ht, if_neg (by omega)]
    unfold signed16
    rw [if_neg (by omega)]
    push_cast
    ring

/-- C17, the code against the claim: with a found target, an open bus and every
transaction succeeding, `getSFP` and `getQSFP` print one internal temperature each, the
`unsigned long` `Value` of the word `hi * 256 + lo` read from register `0x60` (SFP, third
transaction) or `0x16` (QSFP, fourth transaction) divided by 256.  For `hi < 0x80` this is
the two's-complement value of the word divided by 256; for a word with the sign bit set
it is that value plus `2 ^ 64`, divided by 256: the subtraction wraps and the negative
temperature is printed as a number of the order of `2 ^ 56`. -/
theorem transceiver_temperature_wraps (bus : Bus) (Table : List SFP_t) (Target : SFP_t)
    (T_Flag : Int) (Target_Arg : String) (V_Flag : Int) (Value_Arg : Int)
    (hT : T_Flag ≠ 0)
    (hfind : Table.find? (fun S => decide (S.Name = Target_Arg)) = some Target)
    (hopen : bus.openOk = true) (hok : ∀ k, bus.Ret k = 0) :
    temperaturePrints
        (runOps (SFP_Ops bus Table SFP_Cmd.GETSFP T_Flag Target_Arg V_Flag Value_Arg)).trace =
      [Event.print Report.InternalTemperature
        ((Temperature_Value (bytesRead bus 2 2) : ℚ) / 256)] ∧
    temperaturePrints
        (runOps (QSFP_Ops bus 0 Table QSFP_Cmd.GETQSFP T_Flag Target_Arg V_Flag Value_Arg)).trace =
      [Event.print Report.InternalTemperature
        ((Temperature_Value (bytesRead bus 3 2) : ℚ) / 256)] ∧
    (∀ k, (bus.In k 0 % 256 < 128 →
        ((Temperature_Value (bytesRead bus k 2) : Nat) : ℚ) / 256 =
          (signed16 (bus.In k 0 % 256 * 256 + bus.In k 1 % 256) : ℚ) / 256) ∧
      (128 ≤ bus.In k 0 % 256 →
        ((Temperature_Value (bytesRead bus k 2) : Nat) : ℚ) / 256 =
          (18446744073709551616 +
            (signed16 (bus.In k 0 % 256 * 256 + bus.In k 1 % 256) : ℚ)) / 256)) := by
  refine ⟨?_, ?_, fun k => Temperature_Value_bytesRead bus k⟩
  · exact (SFP_Ops_get_temperature bus Table Target T_Flag Target_Arg V_Flag Value_Arg hT hfind
      hopen hok).1
  · exact (QSFP_Ops_get_temperature bus Table Target T_Flag Target_Arg V_Flag Value_Arg hT hfind
      hopen hok).1

/-- C17 at a concrete input: the bytes `0xFF, 0x00` are the word `0xFF00`, -256 in two's
complement, that is -1 degree; `getSFP` and `getQSFP` print `(2 ^ 64 - 256) / 256`. -/
theorem transceiver_temperature_wraps_witness :
    (signed16 (0xFF * 256 + 0x00) : ℚ) / 256 = -1 ∧
    temperaturePrints
        (runOps (SFP_Ops (wordBus 0xFF 0x00) oneSFP SFP_Cmd.GETSFP 1 "SFP0" 0 0)).trace =
      [Event.print Report.InternalTemperature 72057594037927935] ∧
    temperaturePrints
        (runOps (QSFP_Ops (wordBus 0xFF 0x00) 0 oneSFP QSFP_Cmd.GETQSFP 1 "SFP0" 0 0)).trace =
      [Event.print Report.InternalTemperature 72057594037927935] := by
  have h := transceiver_temperature_wraps (wordBus 0xFF 0x00) oneSFP ⟨"SFP0", 0x50⟩ 1 "SFP0" 0 0
    (by decide) rfl rfl (fun _ => rfl)
  have hv : ∀ k, ((Temperature_Value (bytesRead (wordBus 0xFF 0x00) k 2) : Nat) : ℚ) / 256 =
      72057594037927935 := by
    intro k
    rw [(h.2.2 k).2 (by norm_num [wordBus])]
    norm_num [wordBus, signed16]
  refine ⟨by norm_num [signed16], ?_, ?_⟩
  · rw [h.1, hv 2]
  · rw [h.2.1, hv 3]

theorem Tbuf_t_eq (Buf : Nat → Nat) (h0 : Buf 0 < 256) (h1 : Buf 1 < 256) :
    Tbuf_t Buf = signed16 ((Buf 0 * 256 + Buf 1) * 8 % 65536) := by
  unfold Tbuf_t
  have hshr : (Buf 0 + 256 * Buf 1) >>> 8 = Buf 1 := by
    rw [Nat.shiftRight_eq_div_pow]
    omega
  have hor : (Buf 0 + 256 * Buf 1) <<< 8 ||| (Buf 0 + 256 * Buf 1) >>> 8 =
      2 ^ 8 * (Buf 0 + 256 * Buf 1) + Buf 1 := by
    rw [hshr, Nat.shiftLeft_eq, Nat.mul_comm]
    exact (Nat.mul_add_lt_is_or (i := 8) (by simpa using h1) (Buf 0 + 256 * Buf 1)).symm
  rw [hor, Nat.shiftLeft_eq]
  unfold toShort signed16
  have hm : (((2 ^ 8 * (Buf 0 + 256 * Buf 1) + Buf 1) * 2 ^ 3 : Nat) : Int) % 65536 =
      (((Buf 0 * 256 + Buf 1) * 8 % 65536 : Nat) : Int) := by
    norm_num
    omega
  rw [hm]
  split_ifs <;> omega

theorem signed16_times8 (w : Nat) :
    signed16 (w * 8 % 65536) = 8 * signed13 (w % 8192) := by
  unfold signed16 signed13
  split_ifs <;> omega

theorem DIMM_temperature_run (bus : Bus) (Therm : i2c_info) (hlen : Therm.Read_len = 2)
    (hr : bus.Ret 0 = 0) :
    runOps (DIMM_temperature bus true Therm) =
      ⟨0, [Event.i2c_read Therm.Bus_addr 2 (OutByte.lit Therm.Reg_addr),
        Event.print Report.Temperature
          ((1 / 8 : ℚ) * (Tbuf_t (bytesRead bus 0 2) : ℚ) / 16)]⟩ := by
  have hb : (fun j => if j < 2 then bus.In 0 j % 256 else 0) = bytesRead bus 0 2 := by
    funext j
    rfl
  simp [runOps, DIMM_temperature, DDRi2c_read, hlen, hr, pure, bind, emit, I2C_READ, hb]

theorem DIMM_temperature_run_fail (bus : Bus) (Therm : i2c_info)
    (hr : bus.Ret 0 ≠ 0) :
    runOps (DIMM_temperature bus true Therm) =
      ⟨bus.Ret 0, [Event.i2c_read Therm.Bus_addr Therm.Read_len (OutByte.lit Therm.Reg_addr)]⟩ := by
  simp [runOps, DIMM_temperature, DDRi2c_read, hr, pure, bind, emit, I2C_READ]

/-- C18: when the 2-byte read of the DIMM temperature sensor succeeds and delivers the
bytes `b0, b1` in this order, `DIMM_temperature` prints `T / 128`, where `T` is the
two's-complement value of the 16-bit word `((b0 * 256 + b1) * 8) mod 65536`; this is the
two's-complement value of the low 13 bits of `b0 * 256 + b1` divided by 16, so the top
three bits of `b0` have no effect. -/
theorem DIMM_temperature_value (bus : Bus) (Therm : i2c_info) (hlen : Therm.Read_len = 2)
    (hr : bus.Ret 0 = 0) :
    runOps (DIMM_temperature bus true Therm) =
      ⟨0, [Event.i2c_read Therm.Bus_addr 2 (OutByte.lit Therm.Reg_addr),
        Event.print Report.Temperature
          ((signed16 ((bus.In 0 0 % 256 * 256 + bus.In 0 1 % 256) * 8 % 65536) : ℚ) / 128)]⟩ ∧
    (signed16 ((bus.In 0 0 % 256 * 256 + bus.In 0 1 % 256) * 8 % 65536) : ℚ) / 128 =
      (signed13 ((bus.In 0 0 % 256 * 256 + bus.In 0 1 % 256) % 8192) : ℚ) / 16 ∧
    (bus.In 0 0 % 256 * 256 + bus.In 0 1 % 256) % 8192 =
      (bus.In 0 0 % 32 * 256 + bus.In 0 1 % 256) := by
  have h0 : bytesRead bus 0 2 0 < 256 := Nat.mod_lt _ (by omega)
  have h1 : bytesRead bus 0 2 1 < 256 := Nat.mod_lt _ (by omega)
  have ht := Tbuf_t_eq (bytesRead bus 0 2) h0 h1
  have e0 : bytesRead bus 0 2 0 = bus.In 0 0 % 256 := rfl
  have e1 : bytesRead bus 0 2 1 = bus.In 0 1 % 256 := rfl
  rw [e0, e1] at ht
  refine ⟨?_, ?_, by omega⟩
  · have hv : (1 / 8 : ℚ) * (Tbuf_t (bytesRead bus 0 2) : ℚ) / 16 =
        (signed16 ((bus.In 0 0 % 256 * 256 + bus.In 0 1 % 256) * 8 % 65536) : ℚ) / 128 := by
      rw [ht]
      ring
    rw [DIMM_temperature_run bus Therm hlen hr, hv]
  · rw [signed16_times8]
    push_cast
    ring

/-- C18 at a concrete input: the bytes `0xE1, 0x90` (flag bits set, 25 degrees) and the
bytes `0x1F, 0xF0` (-1 degree). -/
theorem DIMM_temperature_value_witness :
    runOps (DIMM_temperature (wordBus 0xE1 0x90) true ⟨0x18, 5, 2⟩) =
      ⟨0, [Event.i2c_read 0x18 2 (OutByte.lit 5), Event.print Report.Temperature 25]⟩ := by
  have h := (DIMM_temperature_value (wordBus 0xE1 0x90) ⟨0x18, 5, 2⟩ rfl rfl).1
  rw [h]
  norm_num [wordBus, signed16]

/-! ## The bus handle and the power-mode writes -/

/-- C19, the code against the claim: after a successful `open`, `Access_Regulator`
(whatever `Access` is, an unsupported target being rejected before the open) and
`Access_IO_Exp` close the handle exactly once, as the last thing they do, on every path,
and so does `FMC_Vadj_Range` when its read fails; but when the read succeeds
`FMC_Vadj_Range` ends with the trace `open, read` and never closes the handle. -/
theorem FMC_Vadj_Range_leaves_handle_open (ITEMS_MAX SYSCMD_MAX : Nat) (bus : Bus)
    (Regulator : Voltage_t) (Voltage : ℚ) (Access : Int) (I2C_Address : Nat)
    (Op Offset : Int) (Out In : Nat) (Min_Voltage Max_Voltage : ℚ)
    (hopen : bus.openOk = true) :
    ((Access = 1 → Supported_scan Regulator.Supported_Volt Voltage ITEMS_MAX 0 = true) →
      closedOnce (runRegulator ITEMS_MAX bus Regulator Voltage Access).trace) ∧
    closedOnce (Access_IO_Exp bus I2C_Address Op Offset Out In ⟨0, []⟩).2.trace ∧
    (bus.Ret 0 ≠ 0 →
      closedOnce
        (FMC_Vadj_Range SYSCMD_MAX bus I2C_Address Min_Voltage Max_Voltage ⟨0, []⟩).2.trace) ∧
    (bus.Ret 0 = 0 →
      (FMC_Vadj_Range SYSCMD_MAX bus I2C_Address Min_Voltage Max_Voltage ⟨0, []⟩).2.trace =
        [Event.opened, Event.i2c_read I2C_Address 255 (OutByte.lit 0)] ∧
      Event.closed ∉
        (FMC_Vadj_Range SYSCMD_MAX bus I2C_Address Min_Voltage Max_Voltage ⟨0, []⟩).2.trace) := by
  refine ⟨fun hacc => run_closedOnce ITEMS_MAX bus Regulator Voltage Access hopen hacc,
    Access_IO_Exp_closedOnce bus I2C_Address Op Offset Out In hopen, ?_, ?_⟩
  · intro hr
    rw [FMC_Vadj_Range_trace_fail SYSCMD_MAX bus I2C_Address Min_Voltage Max_Voltage hopen hr]
    exact ⟨rfl, by simp⟩
  · intro hr
    rw [FMC_Vadj_Range_trace_ok SYSCMD_MAX bus I2C_Address Min_Voltage Max_Voltage hopen hr]
    exact ⟨rfl, by simp⟩

/-- C19 at a concrete input: an FMC EEPROM whose read succeeds; the call returns 0 and
the handle is still open. -/
theorem FMC_Vadj_Range_leaves_handle_open_witness :
    (FMC_Vadj_Range 256 quietBus 0x50 0 0 ⟨0, []⟩).1.status = Status.returned 0 ∧
    (FMC_Vadj_Range 256 quietBus 0x50 0 0 ⟨0, []⟩).2.trace =
      [Event.opened, Event.i2c_read 0x50 255 (OutByte.lit 0)] ∧
    Event.closed ∉ (FMC_Vadj_Range 256 quietBus 0x50 0 0 ⟨0, []⟩).2.trace := by
  have h := (FMC_Vadj_Range_leaves_handle_open 4 256 quietBus plainRegulator 1 0 0x50 0 0 0 0
    0 0 rfl).2.2.2 rfl
  refine ⟨?_, h.1, h.2⟩
  decide

theorem toULong_small (v : Int) (h0 : 0 ≤ v) (h1 : v ≤ 255) :
    toULong v = v.toNat ∧ ¬ (toULong v > 255) ∧ toULong v &&& 255 = v.toNat := by
  have hu : toULong v = v.toNat := by
    unfold toULong
    rw [Int.emod_eq_of_lt h0 (by omega)]
  refine ⟨hu, by rw [hu]; omega, ?_⟩
  rw [hu]
  have : (255 : Nat) = 2 ^ 8 - 1 := by norm_num
  rw [this, Nat.and_pow_two_sub_one_eq_mod]
  omega

theorem SFP_Ops_setpwm_run (bus : Bus) (SFPs : List SFP_t) (SFP : SFP_t) (T_Flag : Int)
    (Target_Arg : String) (V_Flag : Int) (Value_Arg : Int)
    (hT : T_Flag ≠ 0) (hfind : SFPs.find? (fun S => decide (S.Name = Target_Arg)) = some SFP)
    (hopen : bus.openOk = true) (hV : V_Flag ≠ 0) (h0 : 0 ≤ Value_Arg) (h1 : Value_Arg ≤ 255) :
    runOps (SFP_Ops bus SFPs SFP_Cmd.SETPWMSFP T_Flag Target_Arg V_Flag Value_Arg) =
      if bus.Ret 0 ≠ 0 then
        ⟨bus.Ret 0, [Event.opened,
          Event.i2c_write (SFP.I2C_Address + 1) [OutByte.lit 0x80, OutByte.lit Value_Arg.toNat],
          Event.closed]⟩
      else
        ⟨bus.Ret 1, [Event.opened,
          Event.i2c_write (SFP.I2C_Address + 1) [OutByte.lit 0x80, OutByte.lit Value_Arg.toNat],
          Event.sleep 1,
          Event.i2c_write (SFP.I2C_Address + 1) [OutByte.lit 0x81, OutByte.lit Value_Arg.toNat],
          Event.closed]⟩ := by
  obtain ⟨_, hle, hand⟩ := toULong_small Value_Arg h0 h1
  by_cases hr0 : bus.Ret 0 = 0 <;> by_cases hr1 : bus.Ret 1 = 0 <;>
    simp [runOps, SFP_Ops, hT, hfind, hopen, hV, hle, hand, hr0, hr1, pure, bind, emit, I2C_WRITE,
      sent, List.range_succ, Function.update, zeroed]

theorem toULong_large (v : Int) (hmin : -9223372036854775808 ≤ v)
    (hmax : v < 9223372036854775808) (h : v < 0 ∨ 255 < v) : toULong v > 255 := by
  unfold toULong
  rcases h with h | h
  · have : v % 18446744073709551616 = v + 18446744073709551616 := by omega
    rw [this]
    omega
  · rw [Int.emod_eq_of_lt (by omega) (by omega)]
    omega

theorem SFP_Ops_setpwm_rejected (bus : Bus) (SFPs : List SFP_t) (SFP : SFP_t) (T_Flag : Int)
    (Target_Arg : String) (V_Flag : Int) (Value_Arg : Int)
    (hT : T_Flag ≠ 0) (hfind : SFPs.find? (fun S => decide (S.Name = Target_Arg)) = some SFP)
    (hopen : bus.openOk = true) (hbig : toULong Value_Arg > 255) :
    runOps (SFP_Ops bus SFPs SFP_Cmd.SETPWMSFP T_Flag Target_Arg V_Flag Value_Arg) =
      ⟨-1, [Event.opened, Event.closed]⟩ := by
  by_cases hV : V_Flag = 0 <;>
    simp [runOps, SFP_Ops, hT, hfind, hopen, hV, hbig, pure, bind, emit]

/-- C20: for a found target, an open bus and a value `v` of `0..0xFF` (the values
`setpwmSFP` accepts: any other `long` is refused without a write), the call writes
`[0x80, v]`, and when that write fails it closes the bus and returns the error of the
write without another transaction; when it succeeds the call sleeps one second and then
writes `[0x81, v]`, these two being the only transactions, closes the bus and returns the
result of the second write (0 on success). -/
theorem SFP_Ops_setpwm_two_writes (bus : Bus) (SFPs : List SFP_t) (SFP : SFP_t) (T_Flag : Int)
    (Target_Arg : String) (V_Flag : Int) (Value_Arg : Int)
    (hT : T_Flag ≠ 0) (hfind : SFPs.find? (fun S => decide (S.Name = Target_Arg)) = some SFP)
    (hopen : bus.openOk = true) (hV : V_Flag ≠ 0)
    (hmin : -9223372036854775808 ≤ Value_Arg) (hmax : Value_Arg < 9223372036854775808) :
    (0 ≤ Value_Arg → Value_Arg ≤ 0xFF → bus.Ret 0 = 0 →
      (runOps (SFP_Ops bus SFPs SFP_Cmd.SETPWMSFP T_Flag Target_Arg V_Flag Value_Arg)).trace =
        [Event.opened,
         Event.i2c_write (SFP.I2C_Address + 1) [OutByte.lit 0x80, OutByte.lit Value_Arg.toNat],
         Event.sleep 1,
         Event.i2c_write (SFP.I2C_Address + 1) [OutByte.lit 0x81, OutByte.lit Value_Arg.toNat],
         Event.closed] ∧
      (runOps (SFP_Ops bus SFPs SFP_Cmd.SETPWMSFP T_Flag Target_Arg V_Flag Value_Arg)).Ret =
        bus.Ret 1) ∧
    (0 ≤ Value_Arg → Value_Arg ≤ 0xFF → bus.Ret 0 ≠ 0 →
      (runOps (SFP_Ops bus SFPs SFP_Cmd.SETPWMSFP T_Flag Target_Arg V_Flag Value_Arg)).trace =
        [Event.opened,
         Event.i2c_write (SFP.I2C_Address + 1) [OutByte.lit 0x80, OutByte.lit Value_Arg.toNat],
         Event.closed] ∧
      (runOps (SFP_Ops bus SFPs SFP_Cmd.SETPWMSFP T_Flag Target_Arg V_Flag Value_Arg)).Ret =
        bus.Ret 0) ∧
    (Value_Arg < 0 ∨ 0xFF < Value_Arg →
      (runOps (SFP_Ops bus SFPs SFP_Cmd.SETPWMSFP T_Flag Target_Arg V_Flag Value_Arg)).trace =
        [Event.opened, Event.closed] ∧
      (runOps (SFP_Ops bus SFPs SFP_Cmd.SETPWMSFP T_Flag Target_Arg V_Flag Value_Arg)).Ret =
        -1) := by
  refine ⟨?_, ?_, ?_⟩
  · intro h0 h1 hr
    rw [SFP_Ops_setpwm_run bus SFPs SFP T_Flag Target_Arg V_Flag Value_Arg hT hfind hopen hV h0
      h1, if_neg (by simpa using hr)]
    exact ⟨rfl, rfl⟩
  · intro h0 h1 hr
    rw [SFP_Ops_setpwm_run bus SFPs SFP T_Flag Target_Arg V_Flag Value_Arg hT hfind hopen hV h0
      h1, if_pos hr]
    exact ⟨rfl, rfl⟩
  · intro hout
    rw [SFP_Ops_setpwm_rejected bus SFPs SFP T_Flag Target_Arg V_Flag Value_Arg hT hfind hopen
      (toULong_large Value_Arg hmin hmax hout)]
    exact ⟨rfl, rfl⟩

/-- C20 at concrete inputs: the value `0x7F` on a bus where everything succeeds, and on
a bus whose first transaction fails with -2. -/
theorem SFP_Ops_setpwm_two_writes_witness :
    runOps (SFP_Ops quietBus oneSFP SFP_Cmd.SETPWMSFP 1 "SFP0" 1 0x7F) =
      ⟨0, [Event.opened,
        Event.i2c_write 0x51 [OutByte.lit 0x80, OutByte.lit 0x7F],
        Event.sleep 1,
        Event.i2c_write 0x51 [OutByte.lit 0x81, OutByte.lit 0x7F],
        Event.closed]⟩ ∧
    (runOps (SFP_Ops failingBus oneSFP SFP_Cmd.SETPWMSFP 1 "SFP0" 1 0x7F)).trace =
      [Event.opened, Event.i2c_write 0x51 [OutByte.lit 0x80, OutByte.lit 0x7F], Event.closed] ∧
    (runOps (SFP_Ops failingBus oneSFP SFP_Cmd.SETPWMSFP 1 "SFP0" 1 0x7F)).Ret = -2 := by
  have h1 := (SFP_Ops_setpwm_two_writes quietBus oneSFP ⟨"SFP0", 0x50⟩ 1 "SFP0" 1 0x7F
    (by decide) rfl rfl (by decide) (by decide) (by decide)).1
    (by decide) (by decide) rfl
  have h2 := (SFP_Ops_setpwm_two_writes failingBus oneSFP ⟨"SFP0", 0x50⟩ 1 "SFP0" 1 0x7F
    (by decide) rfl rfl (by decide) (by decide) (by decide)).2.1
    (by decide) (by decide) (by decide)
  refine ⟨?_, h2.1, h2.2⟩
  have e : runOps (SFP_Ops quietBus oneSFP SFP_Cmd.SETPWMSFP 1 "SFP0" 1 0x7F) =
      ⟨(runOps (SFP_Ops quietBus oneSFP SFP_Cmd.SETPWMSFP 1 "SFP0" 1 0x7F)).Ret,
       (runOps (SFP_Ops quietBus oneSFP SFP_Cmd.SETPWMSFP 1 "SFP0" 1 0x7F)).trace⟩ := rfl
  rw [e, h1.1, h1.2]
  rfl

/-! ## Value checks of the power-mode commands -/

theorem toULong_ne_small (v : Int) (hmin : -9223372036854775808 ≤ v)
    (hmax : v < 9223372036854775808) (h0 : v ≠ 0) (h1 : v ≠ 1) (h3 : v ≠ 3) :
    toULong v ≠ 0 ∧ toULong v ≠ 1 ∧ toULong v ≠ 3 := by
  unfold toULong
  by_cases hneg : v < 0
  · have : v % 18446744073709551616 = v + 18446744073709551616 := by omega
    rw [this]
    omega
  · rw [Int.emod_eq_of_lt (by omega) (by omega)]
    omega

theorem SFP_Ops_setpwm_refused (bus : Bus) (SFPs : List SFP_t) (T_Flag : Int)
    (Target_Arg : String) (V_Flag : Int) (Value_Arg : Int) (hbig : toULong Value_Arg > 255) :
    (runOps (SFP_Ops bus SFPs SFP_Cmd.SETPWMSFP T_Flag Target_Arg V_Flag Value_Arg)).Ret = -1 ∧
    transactions
      (runOps (SFP_Ops bus SFPs SFP_Cmd.SETPWMSFP T_Flag Target_Arg V_Flag Value_Arg)).trace =
        [] := by
  by_cases hT : T_Flag = 0
  · simp [runOps, SFP_Ops, hT, pure, bind, transactions]
  · rcases hfind : SFPs.find? (fun S => decide (S.Name = Target_Arg)) with _ | S
    · simp [runOps, SFP_Ops, hT, hfind, pure, bind, transactions]
    · by_cases hopen : bus.openOk = true <;> by_cases hV : V_Flag = 0 <;>
        simp [runOps, SFP_Ops, hT, hfind, hopen, hV, hbig, pure, bind, emit, transactions]

theorem QSFP_Ops_setpwm_refused (bus : Bus) (Plat_QSFP_Init : Int) (QSFPs : List SFP_t)
    (T_Flag : Int) (Target_Arg : String) (V_Flag : Int) (Value_Arg : Int)
    (hbig : toULong Value_Arg > 255) :
    (runOps (QSFP_Ops bus Plat_QSFP_Init QSFPs QSFP_Cmd.SETPWMQSFP T_Flag Target_Arg V_Flag
      Value_Arg)).Ret = -1 ∧
    transactions (runOps (QSFP_Ops bus Plat_QSFP_Init QSFPs QSFP_Cmd.SETPWMQSFP T_Flag
      Target_Arg V_Flag Value_Arg)).trace = [] := by
  by_cases hT : T_Flag = 0
  · simp [runOps, QSFP_Ops, hT, pure, bind, transactions]
  · rcases hfind : QSFPs.find? (fun S => decide (S.Name = Target_Arg)) with _ | S
    · simp [runOps, QSFP_Ops, hT, hfind, pure, bind, transactions]
    · by_cases hP : Plat_QSFP_Init = 0 <;> by_cases hopen : bus.openOk = true <;>
        by_cases hV : V_Flag = 0 <;>
        simp [runOps, QSFP_Ops, QSFP_switch, hT, hfind, hP, hopen, hV, hbig, pure, bind, emit,
          transactions]

theorem QSFP_Ops_setpwmo_refused (bus : Bus) (Plat_QSFP_Init : Int) (QSFPs : List SFP_t)
    (T_Flag : Int) (Target_Arg : String) (V_Flag : Int) (Value_Arg : Int)
    (h0 : toULong Value_Arg ≠ 0) (h1 : toULong Value_Arg ≠ 1) (h3 : toULong Value_Arg ≠ 3) :
    (runOps (QSFP_Ops bus Plat_QSFP_Init QSFPs QSFP_Cmd.SETPWMOQSFP T_Flag Target_Arg V_Flag
      Value_Arg)).Ret = -1 ∧
    transactions (runOps (QSFP_Ops bus Plat_QSFP_Init QSFPs QSFP_Cmd.SETPWMOQSFP T_Flag
      Target_Arg V_Flag Value_Arg)).trace = [] := by
  by_cases hT : T_Flag = 0
  · simp [runOps, QSFP_Ops, hT, pure, bind, transactions]
  · rcases hfind : QSFPs.find? (fun S => decide (S.Name = Target_Arg)) with _ | S
    · simp [runOps, QSFP_Ops, hT, hfind, pure, bind, transactions]
    · by_cases hP : Plat_QSFP_Init = 0 <;> by_cases hopen : bus.openOk = true <;>
        by_cases hV : V_Flag = 0 <;>
        simp [runOps, QSFP_Ops, QSFP_switch, hT, hfind, hP, hopen, hV, h0, h1, h3, pure, bind,
          emit, transactions]


/-- C21: whatever the target, the bus and the flags are, `setpwmSFP` and `setpwmQSFP`
with a value above `0xFF` return -1 and issue no bus transaction, and so does
`setpwmoQSFP` with a value other than `0x0`, `0x1` and `0x3`; the value is the `long`
that `strtol` returns for the argument.  (In the QSFP commands the platform calls
`Plat_QSFP_Init` and `Plat_Reset_Ops` are still made.) -/
theorem setpwm_refuses_invalid_value (bus : Bus) (Plat_QSFP_Init : Int) (Table : List SFP_t)
    (T_Flag : Int) (Target_Arg : String) (V_Flag : Int) (Value_Arg : Int)
    (hmin : -9223372036854775808 ≤ Value_Arg) (hmax : Value_Arg < 9223372036854775808) :
    (0xFF < Value_Arg →
      (runOps (SFP_Ops bus Table SFP_Cmd.SETPWMSFP T_Flag Target_Arg V_Flag Value_Arg)).Ret =
        -1 ∧
      transactions
        (runOps (SFP_Ops bus Table SFP_Cmd.SETPWMSFP T_Flag Target_Arg V_Flag Value_Arg)).trace =
          [] ∧
      (runOps (QSFP_Ops bus Plat_QSFP_Init Table QSFP_Cmd.SETPWMQSFP T_Flag Target_Arg V_Flag
        Value_Arg)).Ret = -1 ∧
      transactions (runOps (QSFP_Ops bus Plat_QSFP_Init Table QSFP_Cmd.SETPWMQSFP T_Flag
        Target_Arg V_Flag Value_Arg)).trace = []) ∧
    (Value_Arg ≠ 0x0 → Value_Arg ≠ 0x1 → Value_Arg ≠ 0x3 →
      (runOps (QSFP_Ops bus Plat_QSFP_Init Table QSFP_Cmd.SETPWMOQSFP T_Flag Target_Arg V_Flag
        Value_Arg)).Ret = -1 ∧
      transactions (runOps (QSFP_Ops bus Plat_QSFP_Init Table QSFP_Cmd.SETPWMOQSFP T_Flag
        Target_Arg V_Flag Value_Arg)).trace = []) := by
  constructor
  · intro hbig
    have hu := toULong_large Value_Arg hmin hmax (Or.inr hbig)
    obtain ⟨h1, h2⟩ := SFP_Ops_setpwm_refused bus Table T_Flag Target_Arg V_Flag Value_Arg hu
    obtain ⟨h3, h4⟩ := QSFP_Ops_setpwm_refused bus Plat_QSFP_Init Table T_Flag Target_Arg V_Flag
      Value_Arg hu
    exact ⟨h1, h2, h3, h4⟩
  · intro h0 h1 h3
    obtain ⟨g0, g1, g3⟩ := toULong_ne_small Value_Arg hmin hmax h0 h1 h3
    exact QSFP_Ops_setpwmo_refused bus Plat_QSFP_Init Table T_Flag Target_Arg V_Flag Value_Arg
      g0 g1 g3

/-- C21 at concrete inputs: the value `0x100` for `setpwmSFP`, the value `0x2` for
`setpwmoQSFP`, on a bus where everything would succeed. -/
theorem setpwm_refuses_invalid_value_witness :
    runOps (SFP_Ops quietBus oneSFP SFP_Cmd.SETPWMSFP 1 "SFP0" 1 0x100) =
      ⟨-1, [Event.opened, Event.closed]⟩ ∧
    transactions (runOps (SFP_Ops quietBus oneSFP SFP_Cmd.SETPWMSFP 1 "SFP0" 1 0x100)).trace =
      [] ∧
    (runOps (QSFP_Ops quietBus 0 oneSFP QSFP_Cmd.SETPWMOQSFP 1 "SFP0" 1 0x2)).Ret = -1 ∧
    transactions (runOps (QSFP_Ops quietBus 0 oneSFP QSFP_Cmd.SETPWMOQSFP 1 "SFP0" 1 0x2)).trace =
      [] := by
  have h1 := (setpwm_refuses_invalid_value quietBus 0 oneSFP 1 "SFP0" 1 0x100 (by decide)
    (by decide)).1 (by decide)
  have h2 := (setpwm_refuses_invalid_value quietBus 0 oneSFP 1 "SFP0" 1 0x2 (by decide)
    (by decide)).2 (by decide) (by decide) (by decide)
  refine ⟨?_, h1.2.1, h2.1, h2.2⟩
  exact SFP_Ops_setpwm_rejected quietBus oneSFP ⟨"SFP0", 0x50⟩ 1 "SFP0" 1 0x100 (by decide)
    rfl rfl (by decide)

/-! ## The Board Info area: field walk, UUID and manufacturing date -/

theorem snprintf_res (Buffer : List Nat) (i L : Nat) (h : terminatedAt Buffer i) :
    (snprintf Buffer i L).res = Res.ok ((stringAt Buffer i).take L) := by
  unfold snprintf
  simp only [Dec.bind_eq, Dec.bind_res, rdString_res Buffer i h, Dec.pure_res]

theorem snprintf_out (Buffer : List Nat) (i L : Nat) : (snprintf Buffer i L).out = [] := by
  unfold snprintf
  simp only [Dec.bind_eq, Dec.bind_out, rdString_out, Dec.pure_out]
  cases (rdString Buffer i).res <;> rfl

theorem and_low_six (x : Nat) : x &&& 0x3F = x % 64 := by
  have : (0x3F : Nat) = 2 ^ 6 - 1 := by norm_num
  rw [this, Nat.and_pow_two_sub_one_eq_mod]

theorem fieldOffset_succ (Buffer : List Nat) (k : Nat) :
    fieldOffset Buffer k + byteAt Buffer (fieldOffset Buffer k) % 64 + 1 =
      fieldOffset Buffer (k + 1) := by
  show _ = fieldOffset Buffer k + (1 + byteAt Buffer (fieldOffset Buffer k) % 64)
  omega

theorem terminatedAt_lt (Buffer : List Nat) (i : Nat) (h : terminatedAt Buffer i) :
    i < Buffer.length := by
  unfold terminatedAt at h
  omega

theorem EEPROM_Board_legacy (mktime : tm → Int) (Buffer : List Nat) (PCIe : Int)
    (htime : mktime (BuildDate
        (byteAt Buffer 0xD <<< 16 ||| byteAt Buffer 0xC <<< 8 ||| byteAt Buffer 0xB))
      ≠ -1)
    (hterm : ∀ k, k ≤ 4 → terminatedAt Buffer (fieldOffset Buffer k + 1))
    (hfru : fieldLength Buffer 4 ≠ 1)
    (hlen : fieldOffset Buffer 5 < Buffer.length) :
    (EEPROM_Board mktime Buffer PCIe).res =
      Res.stop (Status.returned (if byteAt Buffer (fieldOffset Buffer 5) = 0xC1 then 0 else -1)) ∧
    (EEPROM_Board mktime Buffer PCIe).out =
      [⟨0x8, Field.Version, [Tok.hex (byteAt Buffer 0x8)]⟩,
       ⟨0x9, Field.AreaLength, [Tok.hex (byteAt Buffer 0x9)]⟩,
       ⟨0xA, Field.LanguageCode, [Tok.hex (byteAt Buffer 0xA)]⟩,
       ⟨0xB, Field.ManufacturingDate,
         [Tok.time (mktime
           (BuildDate (byteAt Buffer 0xD <<< 16 ||| byteAt Buffer 0xC <<< 8 ||| byteAt Buffer 0xB)))]⟩,
       ⟨fieldOffset Buffer 0 + 1, Field.Manufacturer, fieldText Buffer 0⟩,
       ⟨fieldOffset Buffer 1 + 1, Field.ProductName, fieldText Buffer 1⟩,
       ⟨fieldOffset Buffer 2 + 1, Field.SerialNumber, fieldText Buffer 2⟩,
       ⟨fieldOffset Buffer 3 + 1, Field.PartNumber, fieldText Buffer 3⟩,
       ⟨fieldOffset Buffer 4 + 1, Field.FRU_ID, fieldText Buffer 4⟩] ++
      (if byteAt Buffer (fieldOffset Buffer 5) = 0xC1 then
        [⟨fieldOffset Buffer 5, Field.EoR, [Tok.hex (byteAt Buffer (fieldOffset Buffer 5))]⟩]
       else []) := by
  have t0 := hterm 0 (by omega)
  have t1 := hterm 1 (by omega)
  have t2 := hterm 2 (by omega)
  have t3 := hterm 3 (by omega)
  have t4 := hterm 4 (by omega)
  have l0 := terminatedAt_lt _ _ t0
  have l1 := terminatedAt_lt _ _ t1
  have l2 := terminatedAt_lt _ _ t2
  have l3 := terminatedAt_lt _ _ t3
  have l4 := terminatedAt_lt _ _ t4
  have e0 : fieldOffset Buffer 0 = 14 := rfl
  have e1 : 14 + byteAt Buffer 14 % 64 + 1 = fieldOffset Buffer 1 := fieldOffset_succ Buffer 0
  have e2 : fieldOffset Buffer 1 + byteAt Buffer (fieldOffset Buffer 1) % 64 + 1 =
      fieldOffset Buffer 2 := fieldOffset_succ Buffer 1
  have e3 : fieldOffset Buffer 2 + byteAt Buffer (fieldOffset Buffer 2) % 64 + 1 =
      fieldOffset Buffer 3 := fieldOffset_succ Buffer 2
  have e4 : fieldOffset Buffer 3 + byteAt Buffer (fieldOffset Buffer 3) % 64 + 1 =
      fieldOffset Buffer 4 := fieldOffset_succ Buffer 3
  have e5 : fieldOffset Buffer 4 + byteAt Buffer (fieldOffset Buffer 4) % 64 + 1 =
      fieldOffset Buffer 5 := fieldOffset_succ Buffer 4
  rw [e0] at l0 t0
  unfold fieldLength at hfru
  unfold EEPROM_Board fieldText fieldLength
  by_cases hc : byteAt Buffer (fieldOffset Buffer 5) = 0xC1 <;>
  simp only [hc, ne_eq, not_true_eq_false, not_false_eq_true, if_true, Dec.bind_eq, Dec.bind_res, Dec.bind_out, print_res, print_out, ret_res, ret_out,
    rd_out, snprintf_out, Dec.pure_res, Dec.pure_out,
    rd_res Buffer 8 (by omega), rd_res Buffer 9 (by omega), rd_res Buffer 10 (by omega),
    rd_res Buffer 11 (by omega), rd_res Buffer 12 (by omega), rd_res Buffer 13 (by omega),
    rd_res Buffer 14 (by omega), htime, if_false, and_low_six,
    fun L => snprintf_res Buffer (14 + 1) L t0, e1,
    rd_res Buffer (fieldOffset Buffer 1) (by omega),
    fun L => snprintf_res Buffer (fieldOffset Buffer 1 + 1) L t1, e2,
    rd_res Buffer (fieldOffset Buffer 2) (by omega),
    fun L => snprintf_res Buffer (fieldOffset Buffer 2 + 1) L t2, e3,
    rd_res Buffer (fieldOffset Buffer 3) (by omega),
    fun L => snprintf_res Buffer (fieldOffset Buffer 3 + 1) L t3, e4,
    rd_res Buffer (fieldOffset Buffer 4) (by omega), hfru,
    fun L => snprintf_res Buffer (fieldOffset Buffer 4 + 1) L t4, e5,
    rd_res Buffer (fieldOffset Buffer 5) hlen] <;>
  simp [e0]


theorem EEPROM_Board_pcie (mktime : tm → Int) (Buffer : List Nat)
    (htime : mktime (BuildDate
        (byteAt Buffer 0xD <<< 16 ||| byteAt Buffer 0xC <<< 8 ||| byteAt Buffer 0xB))
      ≠ -1)
    (hterm : ∀ k, k ≤ 3 → terminatedAt Buffer (fieldOffset Buffer k + 1))
    (hfru : fieldLength Buffer 4 = 1)
    (hrev : terminatedAt Buffer (fieldOffset Buffer 5 + 1))
    (hlen : fieldOffset Buffer 8 + 2 ≤ Buffer.length) :
    (EEPROM_Board mktime Buffer 1).res = Res.stop (Status.returned 0) ∧
    (EEPROM_Board mktime Buffer 1).out =
      [⟨0x8, Field.Version, [Tok.hex (byteAt Buffer 0x8)]⟩,
       ⟨0x9, Field.AreaLength, [Tok.hex (byteAt Buffer 0x9)]⟩,
       ⟨0xA, Field.LanguageCode, [Tok.hex (byteAt Buffer 0xA)]⟩,
       ⟨0xB, Field.ManufacturingDate,
         [Tok.time (mktime
           (BuildDate (byteAt Buffer 0xD <<< 16 ||| byteAt Buffer 0xC <<< 8 ||| byteAt Buffer 0xB)))]⟩,
       ⟨fieldOffset Buffer 0 + 1, Field.Manufacturer, fieldText Buffer 0⟩,
       ⟨fieldOffset Buffer 1 + 1, Field.ProductName, fieldText Buffer 1⟩,
       ⟨fieldOffset Buffer 2 + 1, Field.SerialNumber, fieldText Buffer 2⟩,
       ⟨fieldOffset Buffer 3 + 1, Field.PartNumber, fieldText Buffer 3⟩,
       ⟨fieldOffset Buffer 4, Field.FRU_ID, [Tok.hex (byteAt Buffer (fieldOffset Buffer 4 + 1))]⟩,
       ⟨fieldOffset Buffer 5 + 1, Field.Revision, fieldText Buffer 5⟩,
       ⟨fieldOffset Buffer 6 + 1, Field.PCIeInfo,
         (bytesAt Buffer (fieldOffset Buffer 6 + 1) (fieldLength Buffer 6)).map Tok.hex⟩,
       ⟨fieldOffset Buffer 7 + 1, Field.UUID,
         uuidToks (bytesAt Buffer (fieldOffset Buffer 7 + 1) (fieldLength Buffer 7)) 0⟩,
       ⟨fieldOffset Buffer 8, Field.EoR_Checksum,
         (bytesAt Buffer (fieldOffset Buffer 8) 2).map Tok.hex⟩] := by
  have t0 := hterm 0 (by omega)
  have t1 := hterm 1 (by omega)
  have t2 := hterm 2 (by omega)
  have t3 := hterm 3 (by omega)
  have l0 := terminatedAt_lt _ _ t0
  have l1 := terminatedAt_lt _ _ t1
  have l2 := terminatedAt_lt _ _ t2
  have l3 := terminatedAt_lt _ _ t3
  have l5 := terminatedAt_lt _ _ hrev
  have e0 : fieldOffset Buffer 0 = 14 := rfl
  have e1 : 14 + byteAt Buffer 14 % 64 + 1 = fieldOffset Buffer 1 := fieldOffset_succ Buffer 0
  have e2 : fieldOffset Buffer 1 + byteAt Buffer (fieldOffset Buffer 1) % 64 + 1 =
      fieldOffset Buffer 2 := fieldOffset_succ Buffer 1
  have e3 : fieldOffset Buffer 2 + byteAt Buffer (fieldOffset Buffer 2) % 64 + 1 =
      fieldOffset Buffer 3 := fieldOffset_succ Buffer 2
  have e4 : fieldOffset Buffer 3 + byteAt Buffer (fieldOffset Buffer 3) % 64 + 1 =
      fieldOffset Buffer 4 := fieldOffset_succ Buffer 3
  unfold fieldLength at hfru
  have e5 : fieldOffset Buffer 4 + 1 + 1 = fieldOffset Buffer 5 := by
    rw [← fieldOffset_succ Buffer 4, hfru]
  have e6 : fieldOffset Buffer 5 + byteAt Buffer (fieldOffset Buffer 5) % 64 + 1 =
      fieldOffset Buffer 6 := fieldOffset_succ Buffer 5
  have e7 : fieldOffset Buffer 6 + byteAt Buffer (fieldOffset Buffer 6) % 64 + 1 =
      fieldOffset Buffer 7 := fieldOffset_succ Buffer 6
  have e8 : fieldOffset Buffer 7 + byteAt Buffer (fieldOffset Buffer 7) % 64 + 1 =
      fieldOffset Buffer 8 := fieldOffset_succ Buffer 7
  rw [e0] at l0 t0
  unfold EEPROM_Board fieldText fieldLength bytesAt
  simp only [Dec.bind_eq, Dec.bind_res, Dec.bind_out, print_res, print_out, ret_res, ret_out,
    rd_out, snprintf_out, rdRange_out, Dec.pure_res, Dec.pure_out,
    rd_res Buffer 8 (by omega), rd_res Buffer 9 (by omega), rd_res Buffer 10 (by omega),
    rd_res Buffer 11 (by omega), rd_res Buffer 12 (by omega), rd_res Buffer 13 (by omega),
    rd_res Buffer 14 (by omega), htime, if_false, if_true, and_low_six,
    fun L => snprintf_res Buffer (14 + 1) L t0, e1,
    rd_res Buffer (fieldOffset Buffer 1) (by omega),
    fun L => snprintf_res Buffer (fieldOffset Buffer 1 + 1) L t1, e2,
    rd_res Buffer (fieldOffset Buffer 2) (by omega),
    fun L => snprintf_res Buffer (fieldOffset Buffer 2 + 1) L t2, e3,
    rd_res Buffer (fieldOffset Buffer 3) (by omega),
    fun L => snprintf_res Buffer (fieldOffset Buffer 3 + 1) L t3, e4,
    rd_res Buffer (fieldOffset Buffer 4) (by omega), hfru,
    rd_res Buffer (fieldOffset Buffer 4 + 1) (by omega), e5,
    rd_res Buffer (fieldOffset Buffer 5) (by omega),
    fun L => snprintf_res Buffer (fieldOffset Buffer 5 + 1) L hrev, e6,
    rd_res Buffer (fieldOffset Buffer 6) (by omega),
    rdRange_res Buffer (byteAt Buffer (fieldOffset Buffer 6) % 64) (fieldOffset Buffer 6 + 1)
      (by omega), e7,
    rd_res Buffer (fieldOffset Buffer 7) (by omega),
    rdRange_res Buffer (byteAt Buffer (fieldOffset Buffer 7) % 64) (fieldOffset Buffer 7 + 1)
      (by omega), e8,
    rdRange_res Buffer 2 (fieldOffset Buffer 8) (by omega)]
  simp [e0]

theorem EEPROM_Board_plain (mktime : tm → Int) (Buffer : List Nat) (PCIe : Int)
    (hpcie : PCIe ≠ 1)
    (htime : mktime (BuildDate
        (byteAt Buffer 0xD <<< 16 ||| byteAt Buffer 0xC <<< 8 ||| byteAt Buffer 0xB))
      ≠ -1)
    (hterm : ∀ k, k ≤ 3 → terminatedAt Buffer (fieldOffset Buffer k + 1))
    (hfru : fieldLength Buffer 4 = 1)
    (hrev : terminatedAt Buffer (fieldOffset Buffer 5 + 1))
    (hlen : fieldOffset Buffer 6 + 4 ≤ Buffer.length) :
    (EEPROM_Board mktime Buffer PCIe).res = Res.stop (Status.returned 0) ∧
    (EEPROM_Board mktime Buffer PCIe).out =
      [⟨0x8, Field.Version, [Tok.hex (byteAt Buffer 0x8)]⟩,
       ⟨0x9, Field.AreaLength, [Tok.hex (byteAt Buffer 0x9)]⟩,
       ⟨0xA, Field.LanguageCode, [Tok.hex (byteAt Buffer 0xA)]⟩,
       ⟨0xB, Field.ManufacturingDate,
         [Tok.time (mktime
           (BuildDate (byteAt Buffer 0xD <<< 16 ||| byteAt Buffer 0xC <<< 8 ||| byteAt Buffer 0xB)))]⟩,
       ⟨fieldOffset Buffer 0 + 1, Field.Manufacturer, fieldText Buffer 0⟩,
       ⟨fieldOffset Buffer 1 + 1, Field.ProductName, fieldText Buffer 1⟩,
       ⟨fieldOffset Buffer 2 + 1, Field.SerialNumber, fieldText Buffer 2⟩,
       ⟨fieldOffset Buffer 3 + 1, Field.PartNumber, fieldText Buffer 3⟩,
       ⟨fieldOffset Buffer 4, Field.FRU_ID, [Tok.hex (byteAt Buffer (fieldOffset Buffer 4 + 1))]⟩,
       ⟨fieldOffset Buffer 5 + 1, Field.Revision, fieldText Buffer 5⟩,
       ⟨fieldOffset Buffer 6, Field.EoR_Pad_Checksum,
         (bytesAt Buffer (fieldOffset Buffer 6) 4).map Tok.hex⟩] := by
  have t0 := hterm 0 (by omega)
  have t1 := hterm 1 (by omega)
  have t2 := hterm 2 (by omega)
  have t3 := hterm 3 (by omega)
  have l0 := terminatedAt_lt _ _ t0
  have l1 := terminatedAt_lt _ _ t1
  have l2 := terminatedAt_lt _ _ t2
  have l3 := terminatedAt_lt _ _ t3
  have l5 := terminatedAt_lt _ _ hrev
  have e0 : fieldOffset Buffer 0 = 14 := rfl
  have e1 : 14 + byteAt Buffer 14 % 64 + 1 = fieldOffset Buffer 1 := fieldOffset_succ Buffer 0
  have e2 : fieldOffset Buffer 1 + byteAt Buffer (fieldOffset Buffer 1) % 64 + 1 =
      fieldOffset Buffer 2 := fieldOffset_succ Buffer 1
  have e3 : fieldOffset Buffer 2 + byteAt Buffer (fieldOffset Buffer 2) % 64 + 1 =
      fieldOffset Buffer 3 := fieldOffset_succ Buffer 2
  have e4 : fieldOffset Buffer 3 + byteAt Buffer (fieldOffset Buffer 3) % 64 + 1 =
      fieldOffset Buffer 4 := fieldOffset_succ Buffer 3
  unfold fieldLength at hfru
  have e5 : fieldOffset Buffer 4 + 1 + 1 = fieldOffset Buffer 5 := by
    rw [← fieldOffset_succ Buffer 4, hfru]
  have e6 : fieldOffset Buffer 5 + byteAt Buffer (fieldOffset Buffer 5) % 64 + 1 =
      fieldOffset Buffer 6 := fieldOffset_succ Buffer 5
  have e7 : fieldOffset Buffer 6 + byteAt Buffer (fieldOffset Buffer 6) % 64 + 1 =
      fieldOffset Buffer 7 := fieldOffset_succ Buffer 6
  have e8 : fieldOffset Buffer 7 + byteAt Buffer (fieldOffset Buffer 7) % 64 + 1 =
      fieldOffset Buffer 8 := fieldOffset_succ Buffer 7
  rw [e0] at l0 t0
  unfold EEPROM_Board fieldText fieldLength bytesAt
  simp only [Dec.bind_eq, Dec.bind_res, Dec.bind_out, print_res, print_out, ret_res, ret_out,
    rd_out, snprintf_out, rdRange_out, Dec.pure_res, Dec.pure_out,
    rd_res Buffer 8 (by omega), rd_res Buffer 9 (by omega), rd_res Buffer 10 (by omega),
    rd_res Buffer 11 (by omega), rd_res Buffer 12 (by omega), rd_res Buffer 13 (by omega),
    rd_res Buffer 14 (by omega), htime, if_false, if_true, and_low_six,
    fun L => snprintf_res Buffer (14 + 1) L t0, e1,
    rd_res Buffer (fieldOffset Buffer 1) (by omega),
    fun L => snprintf_res Buffer (fieldOffset Buffer 1 + 1) L t1, e2,
    rd_res Buffer (fieldOffset Buffer 2) (by omega),
    fun L => snprintf_res Buffer (fieldOffset Buffer 2 + 1) L t2, e3,
    rd_res Buffer (fieldOffset Buffer 3) (by omega),
    fun L => snprintf_res Buffer (fieldOffset Buffer 3 + 1) L t3, e4,
    rd_res Buffer (fieldOffset Buffer 4) (by omega), hfru,
    rd_res Buffer (fieldOffset Buffer 4 + 1) (by omega), e5,
    rd_res Buffer (fieldOffset Buffer 5) (by omega),
    fun L => snprintf_res Buffer (fieldOffset Buffer 5 + 1) L hrev, e6, hpcie,
    rdRange_res Buffer 4 (fieldOffset Buffer 6) (by omega)]
  simp [e0]


theorem takeWhile_take (l : List Nat) :
    ∀ n, n ≤ l.length → (∀ j, j < n → l.getD j 0 ≠ 0) →
      (l.takeWhile fun b => b ≠ 0).take n = l.take n := by
  induction l with
  | nil => intro n _ _; simp
  | cons a rest ih =>
    intro n hn hnz
    cases n with
    | zero => simp
    | succ n =>
      have ha : a ≠ 0 := by simpa using hnz 0 (by omega)
      have hrest : ∀ j, j < n → rest.getD j 0 ≠ 0 := by
        intro j hj
        simpa using hnz (j + 1) (by omega)
      simp only [List.takeWhile_cons, ha, ne_eq, not_false_eq_true, decide_True, if_true,
        List.take_succ_cons, List.cons.injEq, true_and]
      exact ih n (by simpa using hn) hrest

theorem take_drop_bytesAt (Buffer : List Nat) (i n : Nat) (h : i + n ≤ Buffer.length) :
    (Buffer.drop i).take n = bytesAt Buffer i n := by
  unfold bytesAt byteAt
  apply List.ext_getElem
  · simp
    omega
  · intro j h1 h2
    simp at h1 h2
    simp [List.getElem_take, List.getElem_drop]
    rw [List.getElem?_eq_getElem (by omega)]
    rfl

theorem fieldText_eq_bytes (Buffer : List Nat) (k : Nat)
    (hlen : fieldOffset Buffer k + 1 + fieldLength Buffer k ≤ Buffer.length)
    (hnz : ∀ j, j < fieldLength Buffer k → byteAt Buffer (fieldOffset Buffer k + 1 + j) ≠ 0) :
    fieldText Buffer k =
      (bytesAt Buffer (fieldOffset Buffer k + 1) (fieldLength Buffer k)).map Tok.chr := by
  unfold fieldText stringAt
  rw [takeWhile_take _ _ (by rw [List.length_drop]; omega), take_drop_bytesAt _ _ _ hlen]
  intro j hj
  have := hnz j hj
  unfold byteAt at this
  rw [List.getD_eq_getElem?_getD, List.getElem?_drop, ← List.getD_eq_getElem?_getD]
  exact this

theorem fieldOffset_sum (Buffer : List Nat) (k : Nat) :
    fieldOffset Buffer k =
      0x0E + ((List.range k).map fun j => 1 + fieldLength Buffer j).sum := by
  induction k with
  | zero => rfl
  | succ k ih =>
    rw [List.range_succ, List.map_append, List.sum_append]
    simp only [List.map_cons, List.map_nil, List.sum_cons, List.sum_nil]
    show fieldOffset Buffer k + (1 + fieldLength Buffer k) = _
    omega


/-- C22, refuted as stated: in a Board Info image whose FRU File ID field has length 2,
decoded with the PCIe flag set, the call returns 0 after the FRU File ID and the
End-of-Record byte: no revision, no PCIe info and no UUID are decoded. -/
theorem EEPROM_Board_stops_after_long_FRU_ID :
    fieldLength imageLegacyBoard 4 = 2 ∧
    (finish (EEPROM_Board utcMktime imageLegacyBoard 1)).status = Status.returned 0 ∧
    (finish (EEPROM_Board utcMktime imageLegacyBoard 1)).out.map Line.field =
      [Field.Version, Field.AreaLength, Field.LanguageCode, Field.ManufacturingDate,
       Field.Manufacturer, Field.ProductName, Field.SerialNumber, Field.PartNumber,
       Field.FRU_ID, Field.EoR] := by
  decide

/-- C22, amended: the lead byte of field number `k` is at `0x0E` plus the sum over `j < k`
of `1 + L_j`, `L_j` being the low six bits of the lead byte of field `j`.  Manufacturer,
product name, serial number and part number are printed as text: of the `L_k` bytes after
the lead byte, those before the first NUL (all of them when none is NUL).  When the FRU
File ID has length 1 it is printed as one byte, the revision follows, and then PCIe info
and UUID if and only if the PCIe flag is 1; when it has another length it is printed as
text, the End-of-Record byte is checked and nothing else is decoded, whatever the flag.
The strings are assumed to be terminated inside the buffer. -/
theorem EEPROM_Board_field_walk (mktime : tm → Int) (Buffer : List Nat) (PCIe : Int)
    (htime : mktime (BuildDate
        (byteAt Buffer 0xD <<< 16 ||| byteAt Buffer 0xC <<< 8 ||| byteAt Buffer 0xB))
      ≠ -1)
    (hterm : ∀ k, k ≤ 3 → terminatedAt Buffer (fieldOffset Buffer k + 1)) :
    (∀ k, fieldOffset Buffer k =
      0x0E + ((List.range k).map fun j => 1 + byteAt Buffer (fieldOffset Buffer j) % 64).sum) ∧
    (∀ k, fieldOffset Buffer k + 1 + fieldLength Buffer k ≤ Buffer.length →
      (∀ j, j < fieldLength Buffer k → byteAt Buffer (fieldOffset Buffer k + 1 + j) ≠ 0) →
      fieldText Buffer k =
        (bytesAt Buffer (fieldOffset Buffer k + 1) (fieldLength Buffer k)).map Tok.chr) ∧
    (fieldLength Buffer 4 = 1 → terminatedAt Buffer (fieldOffset Buffer 5 + 1) → PCIe = 1 →
      fieldOffset Buffer 8 + 2 ≤ Buffer.length →
      (finish (EEPROM_Board mktime Buffer PCIe)).status = Status.returned 0 ∧
      (finish (EEPROM_Board mktime Buffer PCIe)).out =
        [⟨0x8, Field.Version, [Tok.hex (byteAt Buffer 0x8)]⟩,
         ⟨0x9, Field.AreaLength, [Tok.hex (byteAt Buffer 0x9)]⟩,
         ⟨0xA, Field.LanguageCode, [Tok.hex (byteAt Buffer 0xA)]⟩,
         ⟨0xB, Field.ManufacturingDate,
           [Tok.time (mktime
             (BuildDate (byteAt Buffer 0xD <<< 16 ||| byteAt Buffer 0xC <<< 8 ||| byteAt Buffer 0xB)))]⟩,
         ⟨fieldOffset Buffer 0 + 1, Field.Manufacturer, fieldText Buffer 0⟩,
         ⟨fieldOffset Buffer 1 + 1, Field.ProductName, fieldText Buffer 1⟩,
         ⟨fieldOffset Buffer 2 + 1, Field.SerialNumber, fieldText Buffer 2⟩,
         ⟨fieldOffset Buffer 3 + 1, Field.PartNumber, fieldText Buffer 3⟩,
         ⟨fieldOffset Buffer 4, Field.FRU_ID, [Tok.hex (byteAt Buffer (fieldOffset Buffer 4 + 1))]⟩,
         ⟨fieldOffset Buffer 5 + 1, Field.Revision, fieldText Buffer 5⟩,
         ⟨fieldOffset Buffer 6 + 1, Field.PCIeInfo,
           (bytesAt Buffer (fieldOffset Buffer 6 + 1) (fieldLength Buffer 6)).map Tok.hex⟩,
         ⟨fieldOffset Buffer 7 + 1, Field.UUID,
           uuidToks (bytesAt Buffer (fieldOffset Buffer 7 + 1) (fieldLength Buffer 7)) 0⟩,
         ⟨fieldOffset Buffer 8, Field.EoR_Checksum,
           (bytesAt Buffer (fieldOffset Buffer 8) 2).map Tok.hex⟩]) ∧
    (fieldLength Buffer 4 = 1 → terminatedAt Buffer (fieldOffset Buffer 5 + 1) → PCIe ≠ 1 →
      fieldOffset Buffer 6 + 4 ≤ Buffer.length →
      (finish (EEPROM_Board mktime Buffer PCIe)).status = Status.returned 0 ∧
      (finish (EEPROM_Board mktime Buffer PCIe)).out =
        [⟨0x8, Field.Version, [Tok.hex (byteAt Buffer 0x8)]⟩,
         ⟨0x9, Field.AreaLength, [Tok.hex (byteAt Buffer 0x9)]⟩,
         ⟨0xA, Field.LanguageCode, [Tok.hex (byteAt Buffer 0xA)]⟩,
         ⟨0xB, Field.ManufacturingDate,
           [Tok.time (mktime
             (BuildDate (byteAt Buffer 0xD <<< 16 ||| byteAt Buffer 0xC <<< 8 ||| byteAt Buffer 0xB)))]⟩,
         ⟨fieldOffset Buffer 0 + 1, Field.Manufacturer, fieldText Buffer 0⟩,
         ⟨fieldOffset Buffer 1 + 1, Field.ProductName, fieldText Buffer 1⟩,
         ⟨fieldOffset Buffer 2 + 1, Field.SerialNumber, fieldText Buffer 2⟩,
         ⟨fieldOffset Buffer 3 + 1, Field.PartNumber, fieldText Buffer 3⟩,
         ⟨fieldOffset Buffer 4, Field.FRU_ID, [Tok.hex (byteAt Buffer (fieldOffset Buffer 4 + 1))]⟩,
         ⟨fieldOffset Buffer 5 + 1, Field.Revision, fieldText Buffer 5⟩,
         ⟨fieldOffset Buffer 6, Field.EoR_Pad_Checksum,
           (bytesAt Buffer (fieldOffset Buffer 6) 4).map Tok.hex⟩]) ∧
    (fieldLength Buffer 4 ≠ 1 → terminatedAt Buffer (fieldOffset Buffer 4 + 1) →
      fieldOffset Buffer 5 < Buffer.length →
      (finish (EEPROM_Board mktime Buffer PCIe)).status =
        Status.returned (if byteAt Buffer (fieldOffset Buffer 5) = 0xC1 then 0 else -1) ∧
      (finish (EEPROM_Board mktime Buffer PCIe)).out =
        [⟨0x8, Field.Version, [Tok.hex (byteAt Buffer 0x8)]⟩,
         ⟨0x9, Field.AreaLength, [Tok.hex (byteAt Buffer 0x9)]⟩,
         ⟨0xA, Field.LanguageCode, [Tok.hex (byteAt Buffer 0xA)]⟩,
         ⟨0xB, Field.ManufacturingDate,
           [Tok.time (mktime
             (BuildDate (byteAt Buffer 0xD <<< 16 ||| byteAt Buffer 0xC <<< 8 ||| byteAt Buffer 0xB)))]⟩,
         ⟨fieldOffset Buffer 0 + 1, Field.Manufacturer, fieldText Buffer 0⟩,
         ⟨fieldOffset Buffer 1 + 1, Field.ProductName, fieldText Buffer 1⟩,
         ⟨fieldOffset Buffer 2 + 1, Field.SerialNumber, fieldText Buffer 2⟩,
         ⟨fieldOffset Buffer 3 + 1, Field.PartNumber, fieldText Buffer 3⟩,
         ⟨fieldOffset Buffer 4 + 1, Field.FRU_ID, fieldText Buffer 4⟩] ++
        (if byteAt Buffer (fieldOffset Buffer 5) = 0xC1 then
          [⟨fieldOffset Buffer 5, Field.EoR, [Tok.hex (byteAt Buffer (fieldOffset Buffer 5))]⟩]
         else [])) := by
  refine ⟨fun k => fieldOffset_sum Buffer k, fun k h1 h2 => fieldText_eq_bytes Buffer k h1 h2,
    ?_, ?_, ?_⟩
  · intro hfru hrev hp hlen
    subst hp
    obtain ⟨hres, hout⟩ := EEPROM_Board_pcie mktime Buffer htime hterm hfru hrev hlen
    exact ⟨finish_status_stop _ _ hres, by rw [finish_out, hout]⟩
  · intro hfru hrev hp hlen
    obtain ⟨hres, hout⟩ := EEPROM_Board_plain mktime Buffer PCIe hp htime hterm hfru hrev hlen
    exact ⟨finish_status_stop _ _ hres, by rw [finish_out, hout]⟩
  · intro hfru h4 hlen
    have hterm4 : ∀ k, k ≤ 4 → terminatedAt Buffer (fieldOffset Buffer k + 1) := by
      intro k hk
      rcases Nat.lt_or_ge k 4 with h | h
      · exact hterm k (by omega)
      · have : k = 4 := by omega
        subst this
        exact h4
    obtain ⟨hres, hout⟩ := EEPROM_Board_legacy mktime Buffer PCIe htime hterm4 hfru hlen
    exact ⟨finish_status_stop _ _ hres, by rw [finish_out, hout]⟩

/-- C22 amended, at a concrete input: the image with a FRU File ID of length 1, decoded
with the PCIe flag: the lead bytes are at 14, 16, 18, 20, 22, 24, 26 and 28, and the
fields are decoded up to the UUID. -/
theorem EEPROM_Board_field_walk_witness :
    (List.range 9).map (fieldOffset imageBoard) = [14, 16, 18, 20, 22, 24, 26, 28, 45] ∧
    (finish (EEPROM_Board utcMktime imageBoard 1)).status = Status.returned 0 ∧
    (finish (EEPROM_Board utcMktime imageBoard 1)).out.map Line.field =
      [Field.Version, Field.AreaLength, Field.LanguageCode, Field.ManufacturingDate,
       Field.Manufacturer, Field.ProductName, Field.SerialNumber, Field.PartNumber,
       Field.FRU_ID, Field.Revision, Field.PCIeInfo, Field.UUID, Field.EoR_Checksum] := by
  have hterm : ∀ k, k ≤ 3 → terminatedAt imageBoard (fieldOffset imageBoard k + 1) := by
    intro k hk
    interval_cases k <;> (unfold terminatedAt; decide)
  have h := (EEPROM_Board_field_walk utcMktime imageBoard 1 (by decide) hterm).2.2.1
    (by decide) (by unfold terminatedAt; decide) rfl (by decide)
  refine ⟨by decide, h.1, ?_⟩
  rw [h.2]
  rfl

theorem hex2_byte : ∀ b, b < 256 →
    hex2 b = [hexDigits.getD (b / 16) '0', hexDigits.getD (b % 16) '0'] := by
  decide

theorem date_minutes (bB bC bD : Nat) (hB : bB < 256) (hC : bC < 256) :
    bD <<< 16 ||| bC <<< 8 ||| bB = bB + 256 * bC + 65536 * bD := by
  rw [Nat.shiftLeft_eq, Nat.shiftLeft_eq]
  have h1 : bD * 2 ^ 16 ||| bC * 2 ^ 8 = 2 ^ 16 * bD + bC * 2 ^ 8 := by
    rw [Nat.mul_comm bD]
    exact (Nat.mul_add_lt_is_or (i := 16) (by omega) bD).symm
  have h2 : 2 ^ 16 * bD + bC * 2 ^ 8 = 2 ^ 8 * (2 ^ 8 * bD + bC) := by ring
  rw [h1, h2, ← Nat.mul_add_lt_is_or (i := 8) (by simpa using hB)]
  ring

theorem uuidToks_sixteen (b0 b1 b2 b3 b4 b5 b6 b7 b8 b9 b10 b11 b12 b13 b14 b15 : Nat) :
    hexText (uuidToks [b0, b1, b2, b3, b4, b5, b6, b7, b8, b9, b10, b11, b12, b13, b14, b15] 0) =
      hex2 b0 ++ hex2 b1 ++ hex2 b2 ++ hex2 b3 ++ ['-'] ++ hex2 b4 ++ hex2 b5 ++ ['-'] ++
      hex2 b6 ++ hex2 b7 ++ ['-'] ++ hex2 b8 ++ hex2 b9 ++ ['-'] ++
      hex2 b10 ++ hex2 b11 ++ hex2 b12 ++ hex2 b13 ++ hex2 b14 ++ hex2 b15 := by
  simp [uuidToks, hexText]

theorem bytesAt_sixteen (Buffer : List Nat) (i : Nat) :
    bytesAt Buffer i 16 =
      [byteAt Buffer i, byteAt Buffer (i + 1), byteAt Buffer (i + 2), byteAt Buffer (i + 3),
       byteAt Buffer (i + 4), byteAt Buffer (i + 5), byteAt Buffer (i + 6), byteAt Buffer (i + 7),
       byteAt Buffer (i + 8), byteAt Buffer (i + 9), byteAt Buffer (i + 10),
       byteAt Buffer (i + 11), byteAt Buffer (i + 12), byteAt Buffer (i + 13),
       byteAt Buffer (i + 14), byteAt Buffer (i + 15)] := by
  simp [bytesAt, List.range_succ]

/-- C23, refuted as stated: the image has the PCIe fields, its UUID field (the field
number 7 of the walk, at offset 29) has length 16 and the call with the PCIe flag set
returns 0; but its FRU File ID has length 2, so the call returns after the FRU File ID
and prints no UUID line at all. -/
theorem EEPROM_Board_no_uuid_after_long_FRU_ID :
    fieldLength imageLongFruPcie 4 = 2 ∧
    fieldOffset imageLongFruPcie 7 = 29 ∧
    fieldLength imageLongFruPcie 7 = 16 ∧
    (finish (EEPROM_Board utcMktime imageLongFruPcie 1)).status = Status.returned 0 ∧
    (∀ l ∈ (finish (EEPROM_Board utcMktime imageLongFruPcie 1)).out, l.field ≠ Field.UUID) ∧
    (finish (EEPROM_Board utcMktime imageLongFruPcie 1)).out.map Line.field =
      [Field.Version, Field.AreaLength, Field.LanguageCode, Field.ManufacturingDate,
       Field.Manufacturer, Field.ProductName, Field.SerialNumber, Field.PartNumber,
       Field.FRU_ID, Field.EoR] := by
  refine ⟨by decide, by decide, by decide, by decide, by decide, by decide⟩

/-- C23, amended: in a Board Info buffer decoded with the PCIe flag whose FRU File ID has
length 1 (so that the decoding reaches the UUID) and whose UUID field has length 16, the
UUID line is made of the sixteen bytes in byte order, each printed with `%.2x`, with a
dash after the bytes at positions 3, 5, 7 and 9, that is before those at positions 4, 6, 8
and 10; for bytes `0x00 .. 0xFF` every byte gives exactly two lowercase hexadecimal
digits, the high one first, and the line has 36 characters. -/
theorem EEPROM_Board_uuid_rendering (mktime : tm → Int) (Buffer : List Nat)
    (htime : mktime (BuildDate
        (byteAt Buffer 0xD <<< 16 ||| byteAt Buffer 0xC <<< 8 ||| byteAt Buffer 0xB))
      ≠ -1)
    (hterm : ∀ k, k ≤ 3 → terminatedAt Buffer (fieldOffset Buffer k + 1))
    (hfru : fieldLength Buffer 4 = 1)
    (hrev : terminatedAt Buffer (fieldOffset Buffer 5 + 1))
    (hlen : fieldOffset Buffer 8 + 2 ≤ Buffer.length)
    (h16 : fieldLength Buffer 7 = 16)
    (hbytes : ∀ j, j < 16 → byteAt Buffer (fieldOffset Buffer 7 + 1 + j) < 256) :
    ⟨fieldOffset Buffer 7 + 1, Field.UUID,
        uuidToks (bytesAt Buffer (fieldOffset Buffer 7 + 1) 16) 0⟩ ∈
      (finish (EEPROM_Board mktime Buffer 1)).out ∧
    (∀ l ∈ (finish (EEPROM_Board mktime Buffer 1)).out, l.field = Field.UUID →
      l = ⟨fieldOffset Buffer 7 + 1, Field.UUID,
        uuidToks (bytesAt Buffer (fieldOffset Buffer 7 + 1) 16) 0⟩) ∧
    hexText (uuidToks (bytesAt Buffer (fieldOffset Buffer 7 + 1) 16) 0) =
      hex2 (byteAt Buffer (fieldOffset Buffer 7 + 1)) ++
      hex2 (byteAt Buffer (fieldOffset Buffer 7 + 1 + 1)) ++
      hex2 (byteAt Buffer (fieldOffset Buffer 7 + 1 + 2)) ++
      hex2 (byteAt Buffer (fieldOffset Buffer 7 + 1 + 3)) ++ ['-'] ++
      hex2 (byteAt Buffer (fieldOffset Buffer 7 + 1 + 4)) ++
      hex2 (byteAt Buffer (fieldOffset Buffer 7 + 1 + 5)) ++ ['-'] ++
      hex2 (byteAt Buffer (fieldOffset Buffer 7 + 1 + 6)) ++
      hex2 (byteAt Buffer (fieldOffset Buffer 7 + 1 + 7)) ++ ['-'] ++
      hex2 (byteAt Buffer (fieldOffset Buffer 7 + 1 + 8)) ++
      hex2 (byteAt Buffer (fieldOffset Buffer 7 + 1 + 9)) ++ ['-'] ++
      hex2 (byteAt Buffer (fieldOffset Buffer 7 + 1 + 10)) ++
      hex2 (byteAt Buffer (fieldOffset Buffer 7 + 1 + 11)) ++
      hex2 (byteAt Buffer (fieldOffset Buffer 7 + 1 + 12)) ++
      hex2 (byteAt Buffer (fieldOffset Buffer 7 + 1 + 13)) ++
      hex2 (byteAt Buffer (fieldOffset Buffer 7 + 1 + 14)) ++
      hex2 (byteAt Buffer (fieldOffset Buffer 7 + 1 + 15)) ∧
    (hexText (uuidToks (bytesAt Buffer (fieldOffset Buffer 7 + 1) 16) 0)).length = 36 ∧
    (∀ j, j < 16 →
      hex2 (byteAt Buffer (fieldOffset Buffer 7 + 1 + j)) =
        [hexDigits.getD (byteAt Buffer (fieldOffset Buffer 7 + 1 + j) / 16) '0',
         hexDigits.getD (byteAt Buffer (fieldOffset Buffer 7 + 1 + j) % 16) '0']) := by
  obtain ⟨_, hout⟩ := EEPROM_Board_pcie mktime Buffer htime hterm hfru hrev hlen
  rw [h16] at hout
  have htext := uuidToks_sixteen (byteAt Buffer (fieldOffset Buffer 7 + 1))
    (byteAt Buffer (fieldOffset Buffer 7 + 1 + 1)) (byteAt Buffer (fieldOffset Buffer 7 + 1 + 2))
    (byteAt Buffer (fieldOffset Buffer 7 + 1 + 3)) (byteAt Buffer (fieldOffset Buffer 7 + 1 + 4))
    (byteAt Buffer (fieldOffset Buffer 7 + 1 + 5)) (byteAt Buffer (fieldOffset Buffer 7 + 1 + 6))
    (byteAt Buffer (fieldOffset Buffer 7 + 1 + 7)) (byteAt Buffer (fieldOffset Buffer 7 + 1 + 8))
    (byteAt Buffer (fieldOffset Buffer 7 + 1 + 9)) (byteAt Buffer (fieldOffset Buffer 7 + 1 + 10))
    (byteAt Buffer (fieldOffset Buffer 7 + 1 + 11))
    (byteAt Buffer (fieldOffset Buffer 7 + 1 + 12))
    (byteAt Buffer (fieldOffset Buffer 7 + 1 + 13))
    (byteAt Buffer (fieldOffset Buffer 7 + 1 + 14))
    (byteAt Buffer (fieldOffset Buffer 7 + 1 + 15))
  rw [← bytesAt_sixteen] at htext
  have hdig : ∀ j, j < 16 →
      hex2 (byteAt Buffer (fieldOffset Buffer 7 + 1 + j)) =
        [hexDigits.getD (byteAt Buffer (fieldOffset Buffer 7 + 1 + j) / 16) '0',
         hexDigits.getD (byteAt Buffer (fieldOffset Buffer 7 + 1 + j) % 16) '0'] :=
    fun j hj => hex2_byte _ (hbytes j hj)
  refine ⟨?_, ?_, htext, ?_, hdig⟩
  · rw [finish_out, hout]
    simp
  · intro l hl hf
    rw [finish_out, hout] at hl
    simp only [List.mem_cons, List.mem_singleton, List.not_mem_nil, or_false] at hl
    rcases hl with h | h | h | h | h | h | h | h | h | h | h | h | h <;> subst h <;>
      first
      | rfl
      | exact absurd hf (by simp)
  · rw [htext]
    have h0 := hdig 0 (by omega)
    rw [Nat.add_zero] at h0
    simp only [List.length_append, h0, hdig 1 (by omega), hdig 2 (by omega), hdig 3 (by omega),
      hdig 4 (by omega), hdig 5 (by omega), hdig 6 (by omega), hdig 7 (by omega),
      hdig 8 (by omega), hdig 9 (by omega), hdig 10 (by omega), hdig 11 (by omega),
      hdig 12 (by omega), hdig 13 (by omega), hdig 14 (by omega), hdig 15 (by omega),
      List.length_cons, List.length_nil]

/-- C23 at a concrete input: the UUID bytes `01 02 .. 10` are printed as
`01020304-0506-0708-090a-0b0c0d0e0f10`. -/
theorem EEPROM_Board_uuid_rendering_witness :
    ∃ toks, ⟨29, Field.UUID, toks⟩ ∈ (finish (EEPROM_Board utcMktime imageBoard 1)).out ∧
      hexText toks = "01020304-0506-0708-090a-0b0c0d0e0f10".toList := by
  have hterm : ∀ k, k ≤ 3 → terminatedAt imageBoard (fieldOffset imageBoard k + 1) := by
    intro k hk
    interval_cases k <;> (unfold terminatedAt; decide)
  have hbytes : ∀ j, j < 16 → byteAt imageBoard (fieldOffset imageBoard 7 + 1 + j) < 256 := by
    decide
  have h := EEPROM_Board_uuid_rendering utcMktime imageBoard (by decide) hterm (by decide)
    (by unfold terminatedAt; decide) (by decide) (by decide) hbytes
  exact ⟨_, h.1, by decide⟩

theorem EEPROM_Board_date_line (mktime : tm → Int) (Buffer : List Nat) (PCIe : Int)
    (hlen : 0xD < Buffer.length) :
    (mktime (BuildDate
        (byteAt Buffer 0xD <<< 16 ||| byteAt Buffer 0xC <<< 8 ||| byteAt Buffer 0xB)) ≠ -1 →
      ∃ rest, (EEPROM_Board mktime Buffer PCIe).out =
        [⟨0x8, Field.Version, [Tok.hex (byteAt Buffer 0x8)]⟩,
         ⟨0x9, Field.AreaLength, [Tok.hex (byteAt Buffer 0x9)]⟩,
         ⟨0xA, Field.LanguageCode, [Tok.hex (byteAt Buffer 0xA)]⟩,
         ⟨0xB, Field.ManufacturingDate,
           [Tok.time (mktime
             (BuildDate (byteAt Buffer 0xD <<< 16 ||| byteAt Buffer 0xC <<< 8 ||| byteAt Buffer 0xB)))]⟩] ++
        rest) ∧
    (mktime (BuildDate
        (byteAt Buffer 0xD <<< 16 ||| byteAt Buffer 0xC <<< 8 ||| byteAt Buffer 0xB)) = -1 →
      (EEPROM_Board mktime Buffer PCIe).res = Res.stop (Status.returned (-1)) ∧
      (EEPROM_Board mktime Buffer PCIe).out =
        [⟨0x8, Field.Version, [Tok.hex (byteAt Buffer 0x8)]⟩,
         ⟨0x9, Field.AreaLength, [Tok.hex (byteAt Buffer 0x9)]⟩,
         ⟨0xA, Field.LanguageCode, [Tok.hex (byteAt Buffer 0xA)]⟩]) := by
  constructor
  · intro htime
    unfold EEPROM_Board
    simp only [Dec.bind_eq, Dec.bind_res, Dec.bind_out, print_res, print_out, ret_res, ret_out,
      rd_out, Dec.pure_res, Dec.pure_out,
      rd_res Buffer 8 (by omega), rd_res Buffer 9 (by omega), rd_res Buffer 10 (by omega),
      rd_res Buffer 11 (by omega), rd_res Buffer 12 (by omega), rd_res Buffer 13 (by omega),
      htime, if_false, List.nil_append]
    exact ⟨_, rfl⟩
  · intro htime
    unfold EEPROM_Board
    simp only [Dec.bind_eq, Dec.bind_res, Dec.bind_out, print_res, print_out, ret_res, ret_out,
      rd_out, Dec.pure_res, Dec.pure_out,
      rd_res Buffer 8 (by omega), rd_res Buffer 9 (by omega), rd_res Buffer 10 (by omega),
      rd_res Buffer 11 (by omega), rd_res Buffer 12 (by omega), rd_res Buffer 13 (by omega),
      htime, if_true, List.nil_append]
    exact ⟨trivial, rfl⟩


/-- C24: the broken-down time handed to `mktime` is 1996-01-01 00:00:00 (`tm_year` 96,
`tm_mon` 0, `tm_mday` 1, the other members 0) with
`M = Buffer[0x0B] + 256 * Buffer[0x0C] + 65536 * Buffer[0x0D]` in `tm_min`, the bytes being
unsigned; the `Manufacturing Date` line, the fourth line printed, is the time `mktime`
returns for it, and when `mktime` fails the call returns -1 after three lines.  For the
`mktime` of a zone without offset this time is `60 * M` seconds after the time of
1996-01-01 00:00:00, which is 820454400 seconds after 1970-01-01 00:00:00. -/
theorem EEPROM_Board_manufacturing_date (mktime : tm → Int) (Buffer : List Nat) (PCIe : Int)
    (hlen : 0xD < Buffer.length)
    (hB : byteAt Buffer 0xB < 256) (hC : byteAt Buffer 0xC < 256) :
    BuildDate (byteAt Buffer 0xB + 256 * byteAt Buffer 0xC + 65536 * byteAt Buffer 0xD) =
      ⟨0, ((byteAt Buffer 0xB + 256 * byteAt Buffer 0xC + 65536 * byteAt Buffer 0xD : Nat) : Int),
        0, 1, 0, 96, 0⟩ ∧
    (mktime (BuildDate (byteAt Buffer 0xB + 256 * byteAt Buffer 0xC + 65536 * byteAt Buffer 0xD))
        ≠ -1 →
      (finish (EEPROM_Board mktime Buffer PCIe)).out.take 4 =
        [⟨0x8, Field.Version, [Tok.hex (byteAt Buffer 0x8)]⟩,
         ⟨0x9, Field.AreaLength, [Tok.hex (byteAt Buffer 0x9)]⟩,
         ⟨0xA, Field.LanguageCode, [Tok.hex (byteAt Buffer 0xA)]⟩,
         ⟨0xB, Field.ManufacturingDate,
           [Tok.time (mktime (BuildDate
             (byteAt Buffer 0xB + 256 * byteAt Buffer 0xC + 65536 * byteAt Buffer 0xD)))]⟩]) ∧
    (mktime (BuildDate (byteAt Buffer 0xB + 256 * byteAt Buffer 0xC + 65536 * byteAt Buffer 0xD))
        = -1 →
      (finish (EEPROM_Board mktime Buffer PCIe)).status = Status.returned (-1) ∧
      (finish (EEPROM_Board mktime Buffer PCIe)).out =
        [⟨0x8, Field.Version, [Tok.hex (byteAt Buffer 0x8)]⟩,
         ⟨0x9, Field.AreaLength, [Tok.hex (byteAt Buffer 0x9)]⟩,
         ⟨0xA, Field.LanguageCode, [Tok.hex (byteAt Buffer 0xA)]⟩]) ∧
    utcMktime (BuildDate
        (byteAt Buffer 0xB + 256 * byteAt Buffer 0xC + 65536 * byteAt Buffer 0xD)) =
      utcMktime ⟨0, 0, 0, 1, 0, 96, 0⟩ +
        60 * ((byteAt Buffer 0xB + 256 * byteAt Buffer 0xC + 65536 * byteAt Buffer 0xD : Nat) :
          Int) ∧
    utcMktime ⟨0, 0, 0, 1, 0, 96, 0⟩ = 820454400 ∧
    utcMktime ⟨0, 0, 0, 1, 0, 70, 0⟩ = 0 := by
  have hM := date_minutes (byteAt Buffer 0xB) (byteAt Buffer 0xC) (byteAt Buffer 0xD) hB hC
  obtain ⟨h1, h2⟩ := EEPROM_Board_date_line mktime Buffer PCIe hlen
  rw [hM] at h1 h2
  refine ⟨rfl, ?_, ?_, ?_, by decide, by decide⟩
  · intro htime
    obtain ⟨rest, hout⟩ := h1 htime
    rw [finish_out, hout]
    rfl
  · intro htime
    obtain ⟨hres, hout⟩ := h2 htime
    exact ⟨finish_status_stop _ _ hres, by rw [finish_out, hout]⟩
  · unfold utcMktime BuildDate
    simp only
    ring

/-- C24 at a concrete input: the bytes `0x0B .. 0x0D` are `00 00 00`, and the date line
carries 820454400, that is 1996-01-01T00:00:00Z. -/
theorem EEPROM_Board_manufacturing_date_witness :
    (bytesAt imageBoard 0xB 3 = [0, 0, 0]) ∧
    (finish (EEPROM_Board utcMktime imageBoard 1)).out.take 4 =
      [⟨0x8, Field.Version, [Tok.hex 1]⟩,
       ⟨0x9, Field.AreaLength, [Tok.hex 5]⟩,
       ⟨0xA, Field.LanguageCode, [Tok.hex 0]⟩,
       ⟨0xB, Field.ManufacturingDate, [Tok.time 820454400]⟩] := by
  have h := (EEPROM_Board_manufacturing_date utcMktime imageBoard 1 (by decide) (by decide)
    (by decide)).2.1 (by decide)
  refine ⟨by decide, ?_⟩
  rw [h]
  decide

/-! ## SPD of the DIMM -/

theorem and_low_nibble (x : Nat) : 0xf &&& x = x % 16 := by
  rw [Nat.and_comm]
  have : (0xf : Nat) = 2 ^ 4 - 1 := by norm_num
  rw [this, Nat.and_pow_two_sub_one_eq_mod]

theorem and_top_bit (x : Nat) (h : x < 256) : 0x80 &&& x ≠ 0 ↔ 128 ≤ x := by
  rw [Nat.and_comm]
  have : (0x80 : Nat) = 2 ^ 7 := by norm_num
  rw [this, Nat.and_two_pow, Nat.testBit_to_div_mod]
  by_cases hx : 128 ≤ x
  · have h2 : x / 128 % 2 = 1 := by omega
    simp [h2, hx]
  · have h2 : x / 128 % 2 = 0 := by omega
    simp [h2, hx]

theorem DIMM_spd_run (bus : Bus) (Spd : i2c_info) (hlen : Spd.Read_len = 16)
    (hr : bus.Ret 0 = 0) :
    runOps (DIMM_spd bus true Spd) =
      ⟨0, [Event.i2c_read Spd.Bus_addr 16 (OutByte.lit Spd.Reg_addr),
        Event.printText Report.DDR4_SDRAM
          (text (if bytesRead bus 0 16 2 = 0xc then "Yes" else "No")),
        (if 0xf &&& bytesRead bus 0 16 4 > 1 then
          Event.print Report.Size_Gb ((1 <<< ((0xf &&& bytesRead bus 0 16 4) - 2) : Nat) : ℚ)
         else
          Event.printText Report.Size_Mb
            (text (if 0xf &&& bytesRead bus 0 16 4 ≠ 0 then "512" else "0"))),
        Event.printText Report.TempSensor
          (text (if 0x80 &&& bytesRead bus 0 16 14 ≠ 0 then "Yes" else "No"))]⟩ := by
  have hb : (fun j => if j < 16 then bus.In 0 j % 256 else 0) = bytesRead bus 0 16 := by
    funext j
    rfl
  by_cases hs : 0xf &&& bytesRead bus 0 16 4 > 1 <;>
    simp [runOps, DIMM_spd, DDRi2c_read, hlen, hr, pure, bind, emit, I2C_READ, hb, hs]

/-- C25: when the 16-byte read of the SPD succeeds, `DIMM_spd` prints `Yes` for DDR4
exactly when byte 2 is `0x0C`; with `c` the low four bits of byte 4, it prints the size
`0` (Mb) for `c = 0`, `512` (Mb) for `c = 1` and `2 ^ (c - 2)` (Gb) for `c` from 2 to 15;
and it prints `Yes` for the temperature sensor exactly when the top bit of byte 14 is
set. -/
theorem DIMM_spd_report (bus : Bus) (Spd : i2c_info) (hlen : Spd.Read_len = 16)
    (hr : bus.Ret 0 = 0) :
    runOps (DIMM_spd bus true Spd) =
      ⟨0, [Event.i2c_read Spd.Bus_addr 16 (OutByte.lit Spd.Reg_addr),
        Event.printText Report.DDR4_SDRAM
          (text (if bus.In 0 2 % 256 = 0x0C then "Yes" else "No")),
        (if bus.In 0 4 % 256 % 16 = 0 then Event.printText Report.Size_Mb (text "0")
         else if bus.In 0 4 % 256 % 16 = 1 then Event.printText Report.Size_Mb (text "512")
         else Event.print Report.Size_Gb ((2 : ℚ) ^ (bus.In 0 4 % 256 % 16 - 2))),
        Event.printText Report.TempSensor
          (text (if 128 ≤ bus.In 0 14 % 256 then "Yes" else "No"))]⟩ := by
  rw [DIMM_spd_run bus Spd hlen hr]
  have e2 : bytesRead bus 0 16 2 = bus.In 0 2 % 256 := rfl
  have e4 : bytesRead bus 0 16 4 = bus.In 0 4 % 256 := rfl
  have e14 : bytesRead bus 0 16 14 = bus.In 0 14 % 256 := rfl
  rw [e2, e4, e14, and_low_nibble]
  have ht : (0x80 &&& bus.In 0 14 % 256 ≠ 0) = (128 ≤ bus.In 0 14 % 256) :=
    propext (and_top_bit _ (Nat.mod_lt _ (by omega)))
  simp only [ht]
  generalize bus.In 0 4 % 256 % 16 = c
  by_cases h0 : c = 0
  · subst h0
    simp
  · by_cases h1 : c = 1
    · subst h1
      simp
    · have hc : c > 1 := by omega
      simp [hc, h0, h1, Nat.shiftLeft_eq]

/-- C25 at a concrete input: a DDR4 module (byte 2 `0x0C`) with size code 5 in the low
nibble of byte 4 (`0x85`) and the top bit of byte 14 set. -/
theorem DIMM_spd_report_witness :
    runOps (DIMM_spd
      (busOf [0x23, 0x11, 0x0C, 0x03, 0x85, 0, 0, 0, 0, 0, 0, 0, 0, 0, 0x80, 0]) true
      ⟨0x50, 0, 16⟩) =
      ⟨0, [Event.i2c_read 0x50 16 (OutByte.lit 0),
        Event.printText Report.DDR4_SDRAM (text "Yes"),
        Event.print Report.Size_Gb 8,
        Event.printText Report.TempSensor (text "Yes")]⟩ := by
  rw [DIMM_spd_report _ _ rfl rfl]
  norm_num [busOf]

/-! ## The MAC-ID record -/

theorem MultiRecord_loop_at_pass (Buffer : List Nat) (o : Nat) (ho : o < Buffer.length) :
    ∀ (k fuel s : Nat), Buffer.length < s + fuel → passFrom Buffer k s = some o →
      ∃ rest, (MultiRecord_loop Buffer fuel s).out =
          outFrom Buffer k s ++ (MultiRecord_body Buffer o).out ++ rest ∧
        ∀ st, (MultiRecord_body Buffer o).res = Res.stop st →
          (MultiRecord_loop Buffer fuel s).res = Res.stop st ∧ rest = [] := by
  intro k
  induction k with
  | zero =>
    intro fuel s hf hp
    have hs : s = o := by
      unfold passFrom at hp
      exact Option.some.inj hp
    subst hs
    rcases fuel with _ | fuel
    · omega
    · unfold MultiRecord_loop outFrom
      simp only [Dec.bind_eq, Dec.bind_res, Dec.bind_out, List.nil_append]
      cases hres : (MultiRecord_body Buffer s).res with
      | ok a => exact ⟨_, rfl, fun st hc => by cases hc⟩
      | stop st0 =>
        refine ⟨[], by simp, fun st hc => ?_⟩
        exact ⟨by rw [Res.stop.inj hc], rfl⟩
  | succ k ih =>
    intro fuel s hf hp
    unfold passFrom at hp
    cases hres : (MultiRecord_body Buffer s).res with
    | stop st =>
      rw [hres] at hp
      cases hp
    | ok a =>
      obtain ⟨o2, last⟩ := a
      rw [hres] at hp
      by_cases hl : last = 0
      · subst hl
        simp only [if_true] at hp
        obtain ⟨hlt, hge⟩ := MultiRecord_body_progress Buffer s o2 hres
        rcases fuel with _ | fuel
        · omega
        · obtain ⟨rest, iho, ihr⟩ := ih fuel o2 (by omega) hp
          refine ⟨rest, ?_, ?_⟩
          · unfold MultiRecord_loop outFrom
            simp only [Dec.bind_eq, Dec.bind_out, hres, if_true, iho, List.append_assoc]
          · intro st hst
            obtain ⟨h1, h2⟩ := ihr st hst
            refine ⟨?_, h2⟩
            unfold MultiRecord_loop
            simp only [Dec.bind_eq, Dec.bind_res, hres, if_true, h1]
      · simp only [hl, if_false] at hp
        cases hp

theorem MultiRecord_body_mac_one (Buffer : List Nat) (o : Nat) (ht : byteAt Buffer o = 0xD2)
    (hv : byteAt Buffer (o + 8) = 0x11) (hlen : o + 14 < Buffer.length) :
    (MultiRecord_body Buffer o).out =
      [⟨o, Field.RecordType_Mac_ID, [Tok.hex 0xD2]⟩,
       ⟨o + 1, Field.RecordFormat, [Tok.hex (byteAt Buffer (o + 1))]⟩,
       ⟨o + 2, Field.Length, [Tok.hex (byteAt Buffer (o + 2))]⟩,
       ⟨o + 3, Field.RecordChecksum, [Tok.hex (byteAt Buffer (o + 3))]⟩,
       ⟨o + 4, Field.HeaderChecksum, [Tok.hex (byteAt Buffer (o + 4))]⟩,
       ⟨o + 5, Field.Xilinx_IANA_ID, (bytesAt Buffer (o + 5) 3).map Tok.hex⟩,
       ⟨o + 8, Field.VersionNumber_SC_Mac_ID, [Tok.hex 0x11]⟩,
       ⟨o + 9, Field.Mac_ID_0, (bytesAt Buffer (o + 9) 6).map Tok.hex⟩] := by
  unfold MultiRecord_body MultiRecord_type MultiRecord_header MultiRecord_payload
    MultiRecord_next bytesAt
  by_cases hl : byteAt Buffer (o + 1) &&& 0x80 = 0 <;>
    simp [ht, hv, hl, Dec.bind_eq, Dec.bind_res, Dec.bind_out, print_res, print_out, rd_out,
      rdRange_out, Dec.pure_res, Dec.pure_out,
      rd_res Buffer o (by omega), rd_res Buffer (o + 1) (by omega),
      rd_res Buffer (o + 2) (by omega), rd_res Buffer (o + 3) (by omega),
      rd_res Buffer (o + 4) (by omega), rd_res Buffer (o + 8) (by omega),
      rdRange_res Buffer 3 (o + 5) (by omega), rdRange_res Buffer 6 (o + 9) (by omega)]

theorem MultiRecord_body_mac_two (Buffer : List Nat) (o : Nat) (ht : byteAt Buffer o = 0xD2)
    (hv : byteAt Buffer (o + 8) = 0x31) (hlen : o + 20 < Buffer.length) :
    (MultiRecord_body Buffer o).out =
      [⟨o, Field.RecordType_Mac_ID, [Tok.hex 0xD2]⟩,
       ⟨o + 1, Field.RecordFormat, [Tok.hex (byteAt Buffer (o + 1))]⟩,
       ⟨o + 2, Field.Length, [Tok.hex (byteAt Buffer (o + 2))]⟩,
       ⟨o + 3, Field.RecordChecksum, [Tok.hex (byteAt Buffer (o + 3))]⟩,
       ⟨o + 4, Field.HeaderChecksum, [Tok.hex (byteAt Buffer (o + 4))]⟩,
       ⟨o + 5, Field.Xilinx_IANA_ID, (bytesAt Buffer (o + 5) 3).map Tok.hex⟩,
       ⟨o + 8, Field.VersionNumber_Versal_Mac_ID, [Tok.hex 0x31]⟩,
       ⟨o + 9, Field.Mac_ID_0, (bytesAt Buffer (o + 9) 6).map Tok.hex⟩,
       ⟨o + 15, Field.Mac_ID_1, (bytesAt Buffer (o + 15) 6).map Tok.hex⟩] := by
  unfold MultiRecord_body MultiRecord_type MultiRecord_header MultiRecord_payload
    MultiRecord_next bytesAt
  by_cases hl : byteAt Buffer (o + 1) &&& 0x80 = 0 <;>
    simp [ht, hv, hl, Dec.bind_eq, Dec.bind_res, Dec.bind_out, print_res, print_out, rd_out,
      rdRange_out, Dec.pure_res, Dec.pure_out,
      rd_res Buffer o (by omega), rd_res Buffer (o + 1) (by omega),
      rd_res Buffer (o + 2) (by omega), rd_res Buffer (o + 3) (by omega),
      rd_res Buffer (o + 4) (by omega), rd_res Buffer (o + 8) (by omega),
      rdRange_res Buffer 3 (o + 5) (by omega), rdRange_res Buffer 6 (o + 9) (by omega),
      rdRange_res Buffer 6 (o + 15) (by omega)]

theorem MultiRecord_body_mac_other (Buffer : List Nat) (o : Nat) (ht : byteAt Buffer o = 0xD2)
    (h11 : byteAt Buffer (o + 8) ≠ 0x11) (h31 : byteAt Buffer (o + 8) ≠ 0x31)
    (hlen : o + 8 < Buffer.length) :
    (MultiRecord_body Buffer o).res = Res.stop (Status.returned (-1)) ∧
    (MultiRecord_body Buffer o).out =
      [⟨o, Field.RecordType_Mac_ID, [Tok.hex 0xD2]⟩,
       ⟨o + 1, Field.RecordFormat, [Tok.hex (byteAt Buffer (o + 1))]⟩,
       ⟨o + 2, Field.Length, [Tok.hex (byteAt Buffer (o + 2))]⟩,
       ⟨o + 3, Field.RecordChecksum, [Tok.hex (byteAt Buffer (o + 3))]⟩,
       ⟨o + 4, Field.HeaderChecksum, [Tok.hex (byteAt Buffer (o + 4))]⟩,
       ⟨o + 5, Field.Xilinx_IANA_ID, (bytesAt Buffer (o + 5) 3).map Tok.hex⟩] := by
  unfold MultiRecord_body MultiRecord_type MultiRecord_header MultiRecord_payload
    MultiRecord_next bytesAt
  simp [ht, h11, h31, Dec.bind_eq, Dec.bind_res, Dec.bind_out, print_res, print_out, rd_out,
      rdRange_out, Dec.pure_res, Dec.pure_out, ret_res, ret_out,
      rd_res Buffer o (by omega), rd_res Buffer (o + 1) (by omega),
      rd_res Buffer (o + 2) (by omega), rd_res Buffer (o + 3) (by omega),
      rd_res Buffer (o + 4) (by omega), rd_res Buffer (o + 8) (by omega),
      rdRange_res Buffer 3 (o + 5) (by omega)]


theorem MultiRecord_loop_fuel (Buffer : List Nat) :
    ∀ (f1 f2 s : Nat), Buffer.length < s + f1 → Buffer.length < s + f2 → 0 < f1 → 0 < f2 →
      (MultiRecord_loop Buffer f1 s).out = (MultiRecord_loop Buffer f2 s).out ∧
      (MultiRecord_loop Buffer f1 s).res = (MultiRecord_loop Buffer f2 s).res := by
  intro f1
  induction f1 with
  | zero => intro f2 s _ _ h; omega
  | succ a ih =>
    intro f2 s h1 h2 _ hf2
    rcases f2 with _ | b
    · omega
    · unfold MultiRecord_loop
      simp only [Dec.bind_eq, Dec.bind_out, Dec.bind_res]
      cases hres : (MultiRecord_body Buffer s).res with
      | stop st => exact ⟨rfl, rfl⟩
      | ok x =>
        obtain ⟨o2, last⟩ := x
        by_cases hl : last = 0
        · subst hl
          obtain ⟨hlt, hge⟩ := MultiRecord_body_progress Buffer s o2 hres
          obtain ⟨io, ir⟩ := ih b o2 (by omega) (by omega) (by omega) (by omega)
          simp only [if_true, io, ir, and_self]
        · simp only [hl, if_false, and_self]

theorem MultiRecord_loop_from_pass (Buffer : List Nat) (o : Nat) (ho : o < Buffer.length) :
    ∀ (k fuel s : Nat), Buffer.length < s + fuel → passFrom Buffer k s = some o →
      (MultiRecord_loop Buffer fuel s).out =
        outFrom Buffer k s ++ (MultiRecord_loop Buffer (Buffer.length + 1) o).out ∧
      (MultiRecord_loop Buffer fuel s).res =
        (MultiRecord_loop Buffer (Buffer.length + 1) o).res := by
  intro k
  induction k with
  | zero =>
    intro fuel s hf hp
    have hs : s = o := by
      unfold passFrom at hp
      exact Option.some.inj hp
    subst hs
    obtain ⟨h1, h2⟩ := MultiRecord_loop_fuel Buffer fuel (Buffer.length + 1) s hf (by omega)
      (by omega) (by omega)
    exact ⟨by rw [h1]; rfl, h2⟩
  | succ k ih =>
    intro fuel s hf hp
    unfold passFrom at hp
    cases hres : (MultiRecord_body Buffer s).res with
    | stop st =>
      rw [hres] at hp
      cases hp
    | ok a =>
      obtain ⟨o2, last⟩ := a
      rw [hres] at hp
      by_cases hl : last = 0
      · subst hl
        simp only [if_true] at hp
        obtain ⟨hlt, hge⟩ := MultiRecord_body_progress Buffer s o2 hres
        rcases fuel with _ | fuel
        · omega
        · obtain ⟨iho, ihr⟩ := ih fuel o2 (by omega) hp
          constructor
          · conv_lhs => unfold MultiRecord_loop
            unfold outFrom
            simp only [Dec.bind_eq, Dec.bind_out, hres, if_true, iho, List.append_assoc]
          · conv_lhs => unfold MultiRecord_loop
            simp only [Dec.bind_eq, Dec.bind_res, hres, if_true, ihr]
      · simp only [hl, if_false] at hp
        cases hp

/-- One pass of the loop at an entry inside the buffer: the lines of the entry, then, when
the entry is not flagged as the last one, what the loop does from the next entry on. -/
theorem MultiRecord_loop_step (Buffer : List Nat) (o o2 last : Nat)
    (hres : (MultiRecord_body Buffer o).res = Res.ok (o2, last)) :
    (MultiRecord_loop Buffer (Buffer.length + 1) o).out =
      (MultiRecord_body Buffer o).out ++
        (if last = 0 then (MultiRecord_loop Buffer (Buffer.length + 1) o2).out else []) ∧
    (MultiRecord_loop Buffer (Buffer.length + 1) o).res =
      if last = 0 then (MultiRecord_loop Buffer (Buffer.length + 1) o2).res else Res.ok () := by
  constructor
  · conv_lhs => unfold MultiRecord_loop
    simp only [Dec.bind_eq, Dec.bind_out, hres]
    by_cases hl : last = 0
    · subst hl
      obtain ⟨hlt, hge⟩ := MultiRecord_body_progress Buffer o o2 hres
      obtain ⟨h1, _⟩ := MultiRecord_loop_fuel Buffer Buffer.length (Buffer.length + 1) o2
        (by omega) (by omega) (by omega) (by omega)
      simp only [if_true, h1]
    · simp only [hl, if_false]
      rfl
  · conv_lhs => unfold MultiRecord_loop
    simp only [Dec.bind_eq, Dec.bind_res, hres]
    by_cases hl : last = 0
    · subst hl
      obtain ⟨hlt, hge⟩ := MultiRecord_body_progress Buffer o o2 hres
      obtain ⟨_, h2⟩ := MultiRecord_loop_fuel Buffer Buffer.length (Buffer.length + 1) o2
        (by omega) (by omega) (by omega) (by omega)
      simp only [if_true, h2]
    · simp only [hl, if_false]
      rfl

theorem MultiRecord_body_mac_res (Buffer : List Nat) (o : Nat)
    (ht : byteAt Buffer o = 0xD2)
    (hv : byteAt Buffer (o + 8) = 0x11 ∧ o + 14 < Buffer.length ∨
      byteAt Buffer (o + 8) = 0x31 ∧ o + 20 < Buffer.length) :
    (MultiRecord_body Buffer o).res =
      Res.ok (if byteAt Buffer (o + 1) &&& 0x80 = 0 then o + (5 + byteAt Buffer (o + 2)) else o,
        byteAt Buffer (o + 1) &&& 0x80) := by
  unfold MultiRecord_body MultiRecord_type MultiRecord_header MultiRecord_payload
    MultiRecord_next
  rcases hv with ⟨hv, hlen⟩ | ⟨hv, hlen⟩
  · by_cases hl : byteAt Buffer (o + 1) &&& 0x80 = 0 <;>
      simp [ht, hv, hl, Dec.bind_eq, Dec.bind_res, Dec.bind_out, print_res, print_out, rd_out,
        rdRange_out, Dec.pure_res, Dec.pure_out,
        rd_res Buffer o (by omega), rd_res Buffer (o + 1) (by omega),
        rd_res Buffer (o + 2) (by omega), rd_res Buffer (o + 3) (by omega),
        rd_res Buffer (o + 4) (by omega), rd_res Buffer (o + 8) (by omega),
        rdRange_res Buffer 3 (o + 5) (by omega), rdRange_res Buffer 6 (o + 9) (by omega)]
  · by_cases hl : byteAt Buffer (o + 1) &&& 0x80 = 0 <;>
      simp [ht, hv, hl, Dec.bind_eq, Dec.bind_res, Dec.bind_out, print_res, print_out, rd_out,
        rdRange_out, Dec.pure_res, Dec.pure_out,
        rd_res Buffer o (by omega), rd_res Buffer (o + 1) (by omega),
        rd_res Buffer (o + 2) (by omega), rd_res Buffer (o + 3) (by omega),
        rd_res Buffer (o + 4) (by omega), rd_res Buffer (o + 8) (by omega),
        rdRange_res Buffer 3 (o + 5) (by omega), rdRange_res Buffer 6 (o + 9) (by omega),
        rdRange_res Buffer 6 (o + 15) (by omega)]

/-- The walk that reaches a MAC-ID entry with the version `0x11` or `0x31` at offset `o`
as its pass number `k`: the lines of the earlier passes, the lines of the entry, then the
walk after the entry. -/
theorem MultiRecord_walk_mac (Buffer : List Nat) (k o : Nat)
    (h5 : 5 < Buffer.length) (hoff : byteAt Buffer 5 * 8 < Buffer.length)
    (hreach : passFrom Buffer k (startOffset Buffer) = some o)
    (ht : byteAt Buffer o = 0xD2)
    (hv : byteAt Buffer (o + 8) = 0x11 ∧ o + 14 < Buffer.length ∨
      byteAt Buffer (o + 8) = 0x31 ∧ o + 20 < Buffer.length) :
    (finish (EEPROM_MultiRecord Buffer)).out =
      outFrom Buffer k (startOffset Buffer) ++ (MultiRecord_body Buffer o).out ++
        (walkAfter Buffer o).out ∧
    (finish (EEPROM_MultiRecord Buffer)).status = (finish (walkAfter Buffer o)).status := by
  obtain ⟨hres, hout, _⟩ := EEPROM_MultiRecord_unfold Buffer h5 hoff
  have ho : o < Buffer.length := by rcases hv with ⟨_, h⟩ | ⟨_, h⟩ <;> omega
  obtain ⟨hlo, hlr⟩ := MultiRecord_loop_from_pass Buffer o ho k (Buffer.length + 1)
    (startOffset Buffer) (by omega) hreach
  obtain ⟨hso, hsr⟩ := MultiRecord_loop_step Buffer o _ _ (MultiRecord_body_mac_res Buffer o ht hv)
  have hfin : ∀ d1 d2 : Dec Unit, d1.res = d2.res → (finish d1).status = (finish d2).status := by
    intro d1 d2 h
    unfold finish
    rw [h]
    cases d2.res <;> rfl
  unfold walkAfter
  by_cases hl : byteAt Buffer (o + 1) &&& 0x80 = 0
  · simp only [hl, if_true] at hso hsr ⊢
    exact ⟨by rw [finish_out, hout, hlo, hso, List.append_assoc],
      hfin _ _ (by rw [hres, hlr, hsr])⟩
  · simp only [hl, if_false] at hso hsr ⊢
    exact ⟨by rw [finish_out, hout, hlo, hso, List.append_assoc]; rfl,
      hfin _ _ (by rw [hres, hlr, hsr]; rfl)⟩

/-- C26: when the walk of the multirecord area reaches, as its pass number `k`, an entry
of type `0xD2` at offset `o`, the output of the call is the lines of the earlier passes,
the lines of the entry, and what the walk prints after the entry, nothing else.  With the
version byte `0x11` at `o + 8` the lines of the entry are its six header lines, the version
line and one MAC address, the bytes `o + 9 .. o + 14`; with the version byte `0x31` they
are the header lines, the version line and two MAC addresses, the bytes `o + 9 .. o + 14`
and `o + 15 .. o + 20`; in both cases the walk goes on after the entry and the call ends
as the walk after the entry does (without a return value when the entry is the last one).
With any other version byte `EEPROM_MultiRecord` returns -1 and the output ends with the
header lines of the entry, without a MAC address. -/
theorem EEPROM_MultiRecord_mac_id (Buffer : List Nat) (k o : Nat)
    (h5 : 5 < Buffer.length) (hoff : byteAt Buffer 5 * 8 < Buffer.length)
    (hreach : passFrom Buffer k (startOffset Buffer) = some o)
    (ht : byteAt Buffer o = 0xD2) :
    (byteAt Buffer (o + 8) = 0x11 → o + 14 < Buffer.length →
      (finish (EEPROM_MultiRecord Buffer)).out =
        outFrom Buffer k (startOffset Buffer) ++
        [⟨o, Field.RecordType_Mac_ID, [Tok.hex 0xD2]⟩,
         ⟨o + 1, Field.RecordFormat, [Tok.hex (byteAt Buffer (o + 1))]⟩,
         ⟨o + 2, Field.Length, [Tok.hex (byteAt Buffer (o + 2))]⟩,
         ⟨o + 3, Field.RecordChecksum, [Tok.hex (byteAt Buffer (o + 3))]⟩,
         ⟨o + 4, Field.HeaderChecksum, [Tok.hex (byteAt Buffer (o + 4))]⟩,
         ⟨o + 5, Field.Xilinx_IANA_ID, (bytesAt Buffer (o + 5) 3).map Tok.hex⟩,
         ⟨o + 8, Field.VersionNumber_SC_Mac_ID, [Tok.hex 0x11]⟩,
         ⟨o + 9, Field.Mac_ID_0, (bytesAt Buffer (o + 9) 6).map Tok.hex⟩] ++
        (walkAfter Buffer o).out ∧
      (finish (EEPROM_MultiRecord Buffer)).status = (finish (walkAfter Buffer o)).status ∧
      (byteAt Buffer (o + 1) &&& 0x80 ≠ 0 →
        (walkAfter Buffer o).out = [] ∧
        (finish (EEPROM_MultiRecord Buffer)).status = Status.noReturn)) ∧
    (byteAt Buffer (o + 8) = 0x31 → o + 20 < Buffer.length →
      (finish (EEPROM_MultiRecord Buffer)).out =
        outFrom Buffer k (startOffset Buffer) ++
        [⟨o, Field.RecordType_Mac_ID, [Tok.hex 0xD2]⟩,
         ⟨o + 1, Field.RecordFormat, [Tok.hex (byteAt Buffer (o + 1))]⟩,
         ⟨o + 2, Field.Length, [Tok.hex (byteAt Buffer (o + 2))]⟩,
         ⟨o + 3, Field.RecordChecksum, [Tok.hex (byteAt Buffer (o + 3))]⟩,
         ⟨o + 4, Field.HeaderChecksum, [Tok.hex (byteAt Buffer (o + 4))]⟩,
         ⟨o + 5, Field.Xilinx_IANA_ID, (bytesAt Buffer (o + 5) 3).map Tok.hex⟩,
         ⟨o + 8, Field.VersionNumber_Versal_Mac_ID, [Tok.hex 0x31]⟩,
         ⟨o + 9, Field.Mac_ID_0, (bytesAt Buffer (o + 9) 6).map Tok.hex⟩,
         ⟨o + 15, Field.Mac_ID_1, (bytesAt Buffer (o + 15) 6).map Tok.hex⟩] ++
        (walkAfter Buffer o).out ∧
      (finish (EEPROM_MultiRecord Buffer)).status = (finish (walkAfter Buffer o)).status ∧
      (byteAt Buffer (o + 1) &&& 0x80 ≠ 0 →
        (walkAfter Buffer o).out = [] ∧
        (finish (EEPROM_MultiRecord Buffer)).status = Status.noReturn)) ∧
    (byteAt Buffer (o + 8) ≠ 0x11 → byteAt Buffer (o + 8) ≠ 0x31 → o + 8 < Buffer.length →
      (finish (EEPROM_MultiRecord Buffer)).status = Status.returned (-1) ∧
      (finish (EEPROM_MultiRecord Buffer)).out =
        outFrom Buffer k (startOffset Buffer) ++
        [⟨o, Field.RecordType_Mac_ID, [Tok.hex 0xD2]⟩,
         ⟨o + 1, Field.RecordFormat, [Tok.hex (byteAt Buffer (o + 1))]⟩,
         ⟨o + 2, Field.Length, [Tok.hex (byteAt Buffer (o + 2))]⟩,
         ⟨o + 3, Field.RecordChecksum, [Tok.hex (byteAt Buffer (o + 3))]⟩,
         ⟨o + 4, Field.HeaderChecksum, [Tok.hex (byteAt Buffer (o + 4))]⟩,
         ⟨o + 5, Field.Xilinx_IANA_ID, (bytesAt Buffer (o + 5) 3).map Tok.hex⟩]) := by
  have hlast : byteAt Buffer (o + 1) &&& 0x80 ≠ 0 →
      (walkAfter Buffer o).out = [] ∧ (finish (walkAfter Buffer o)).status = Status.noReturn := by
    intro hl
    unfold walkAfter
    rw [if_neg hl]
    exact ⟨rfl, rfl⟩
  refine ⟨?_, ?_, ?_⟩
  · intro hv hlen
    obtain ⟨hout, hst⟩ := MultiRecord_walk_mac Buffer k o h5 hoff hreach ht (Or.inl ⟨hv, hlen⟩)
    rw [MultiRecord_body_mac_one Buffer o ht hv hlen] at hout
    exact ⟨hout, hst, fun hl => ⟨(hlast hl).1, hst.trans (hlast hl).2⟩⟩
  · intro hv hlen
    obtain ⟨hout, hst⟩ := MultiRecord_walk_mac Buffer k o h5 hoff hreach ht (Or.inr ⟨hv, hlen⟩)
    rw [MultiRecord_body_mac_two Buffer o ht hv hlen] at hout
    exact ⟨hout, hst, fun hl => ⟨(hlast hl).1, hst.trans (hlast hl).2⟩⟩
  · intro h11 h31 hlen
    obtain ⟨hres, hout, _⟩ := EEPROM_MultiRecord_unfold Buffer h5 hoff
    obtain ⟨rest, hlo, hstop⟩ := MultiRecord_loop_at_pass Buffer o (by omega) k
      (Buffer.length + 1) (startOffset Buffer) (by omega) hreach
    obtain ⟨hbr, hbo⟩ := MultiRecord_body_mac_other Buffer o ht h11 h31 hlen
    obtain ⟨hlr, hrest⟩ := hstop _ hbr
    refine ⟨finish_status_stop _ _ (by rw [hres, hlr]), ?_⟩
    rw [finish_out, hout, hlo, hbo, hrest, List.append_nil]

/-- C26 at a concrete input: the second entry of the image, at offset 34, is a MAC-ID
record with the version byte `0x11` and the address `01:02:03:04:05:06`, flagged as the
last record: the output ends with its `Mac ID 0` line and holds no `Mac ID 1` line. -/
theorem EEPROM_MultiRecord_mac_id_witness :
    passFrom imageTwoRecords 1 (startOffset imageTwoRecords) = some 34 ∧
    (finish (EEPROM_MultiRecord imageTwoRecords)).out.getLast? =
      some ⟨43, Field.Mac_ID_0,
        [Tok.hex 1, Tok.hex 2, Tok.hex 3, Tok.hex 4, Tok.hex 5, Tok.hex 6]⟩ ∧
    (∀ l ∈ (finish (EEPROM_MultiRecord imageTwoRecords)).out, l.field ≠ Field.Mac_ID_1) ∧
    (finish (EEPROM_MultiRecord imageTwoRecords)).status = Status.noReturn := by
  have hreach : passFrom imageTwoRecords 1 (startOffset imageTwoRecords) = some 34 := by
    decide
  obtain ⟨hout, _, hl⟩ := (EEPROM_MultiRecord_mac_id imageTwoRecords 1 34 (by decide)
    (by decide) hreach (by decide)).1 (by decide) (by decide)
  obtain ⟨hw, hst⟩ := hl (by decide)
  have hb : bytesAt imageTwoRecords (34 + 9) 6 = [1, 2, 3, 4, 5, 6] := by decide
  rw [hw, hb, List.append_nil] at hout
  refine ⟨hreach, ?_, by decide, hst⟩
  rw [hout, List.getLast?_append]
  rfl

/-! ## The voltage commands -/

theorem Voltage_Ops_get_all (ITEMS_MAX : Nat) (bus : Bus) (fopenOk : Bool)
    (Voltages : List Voltage_entry) (Entry : Voltage_entry) (T_Flag : Int)
    (Target_Arg : String) (V_Flag : Int) (strtof Voltage0 : ℚ)
    (hT : T_Flag ≠ 0) (hV : V_Flag ≠ 0)
    (hfind : Voltages.find? (fun V => decide (V.Name = Target_Arg)) = some Entry)
    (hopen : bus.openOk = true) (hok : ∀ k, bus.Ret k = 0) :
    runOps (Voltage_Ops ITEMS_MAX bus fopenOk Voltages Voltage_Cmd.GETVOLTAGE T_Flag Target_Arg
      V_Flag "all" strtof Voltage0) =
      ⟨-1, [Event.opened] ++ getSequence Entry.Regulator ++ [Event.closed, Event.opened] ++
        prologue Entry.Regulator ++ [Event.closed]⟩ := by
  by_cases hp : Entry.Regulator.Page_Select = -1 <;>
    by_cases hn : Entry.Regulator.Part_Name = "IR38164" <;>
    simp [runOps, Voltage_Ops, Access_Regulator, hT, hV, hfind, hopen, hok, hp, hn, pure, bind,
      emit, I2C_WRITE, I2C_READ, sent, List.range_succ, Function.update, getSequence, prologue]

theorem Voltage_Ops_get_plain (ITEMS_MAX : Nat) (bus : Bus) (fopenOk : Bool)
    (Voltages : List Voltage_entry) (Entry : Voltage_entry) (T_Flag : Int)
    (Target_Arg Value_Arg : String) (strtof Voltage0 : ℚ)
    (hT : T_Flag ≠ 0)
    (hfind : Voltages.find? (fun V => decide (V.Name = Target_Arg)) = some Entry)
    (hopen : bus.openOk = true) (hok : ∀ k, bus.Ret k = 0) :
    runOps (Voltage_Ops ITEMS_MAX bus fopenOk Voltages Voltage_Cmd.GETVOLTAGE T_Flag Target_Arg
      0 Value_Arg strtof Voltage0) =
      ⟨0, [Event.opened] ++ getSequence Entry.Regulator ++ [Event.closed]⟩ := by
  by_cases hp : Entry.Regulator.Page_Select = -1 <;>
    by_cases hn : Entry.Regulator.Part_Name = "IR38164" <;>
    simp [runOps, Voltage_Ops, Access_Regulator, hT, hfind, hopen, hok, hp, hn, pure, bind,
      emit, I2C_WRITE, I2C_READ, sent, List.range_succ, Function.update, getSequence, prologue]

/-- C27, the code against the claim: for a found target, an open bus and every
transaction succeeding, `getvoltage` with the value `all` returns -1: after the read
(`Access = 0`) has succeeded the command calls `Access_Regulator` with `Access = 2`, which
opens the bus again, goes through the page select and the `PMBUS_VOUT_MODE` read, and
ends at the `default` label of the `switch` with -1.  Without a value the same command
returns 0. -/
theorem Voltage_Ops_getvoltage_all_fails (ITEMS_MAX : Nat) (bus : Bus) (fopenOk : Bool)
    (Voltages : List Voltage_entry) (Entry : Voltage_entry) (T_Flag : Int)
    (Target_Arg : String) (V_Flag : Int) (strtof Voltage0 : ℚ)
    (hT : T_Flag ≠ 0) (hV : V_Flag ≠ 0)
    (hfind : Voltages.find? (fun V => decide (V.Name = Target_Arg)) = some Entry)
    (hopen : bus.openOk = true) (hok : ∀ k, bus.Ret k = 0) :
    (runOps (Voltage_Ops ITEMS_MAX bus fopenOk Voltages Voltage_Cmd.GETVOLTAGE T_Flag Target_Arg
      V_Flag "all" strtof Voltage0)).Ret = -1 ∧
    (runOps (Voltage_Ops ITEMS_MAX bus fopenOk Voltages Voltage_Cmd.GETVOLTAGE T_Flag Target_Arg
      V_Flag "all" strtof Voltage0)).trace =
      [Event.opened] ++ getSequence Entry.Regulator ++ [Event.closed, Event.opened] ++
        prologue Entry.Regulator ++ [Event.closed] ∧
    (∀ Voltage Access, Access ≠ 0 → Access ≠ 1 →
      (runRegulator ITEMS_MAX bus Entry.Regulator Voltage Access).Ret = -1) ∧
    (runOps (Voltage_Ops ITEMS_MAX bus fopenOk Voltages Voltage_Cmd.GETVOLTAGE T_Flag Target_Arg
      0 "all" strtof Voltage0)).Ret = 0 := by
  rw [Voltage_Ops_get_all ITEMS_MAX bus fopenOk Voltages Entry T_Flag Target_Arg V_Flag strtof
    Voltage0 hT hV hfind hopen hok,
    Voltage_Ops_get_plain ITEMS_MAX bus fopenOk Voltages Entry T_Flag Target_Arg "all" strtof
    Voltage0 hT hfind hopen hok]
  refine ⟨rfl, rfl, ?_, rfl⟩
  intro Voltage Access h0 h1
  exact (run_other_ok ITEMS_MAX bus Entry.Regulator Voltage Access h0 h1 hopen
    (fun k _ => hok k)).2.1

/-- C27 at a concrete input: `getvoltage VCCINT all` on a bus where everything
succeeds. -/
theorem Voltage_Ops_getvoltage_all_fails_witness :
    runOps (Voltage_Ops 4 quietBus true voltageTable Voltage_Cmd.GETVOLTAGE 1 "VCCINT" 1 "all"
      0 0) =
      ⟨-1, [Event.opened,
        Event.i2c_read 32 1 OutByte.PMBUS_VOUT_MODE,
        Event.i2c_read 32 2 OutByte.PMBUS_READ_VOUT,
        Event.closed,
        Event.opened,
        Event.i2c_read 32 1 OutByte.PMBUS_VOUT_MODE,
        Event.closed]⟩ := by
  have h := Voltage_Ops_getvoltage_all_fails 4 quietBus true voltageTable
    ⟨"VCCINT", 1, plainRegulator⟩ 1 "VCCINT" 1 0 0 (by decide) (by decide) rfl rfl
    (fun _ => rfl)
  have e : runOps (Voltage_Ops 4 quietBus true voltageTable Voltage_Cmd.GETVOLTAGE 1 "VCCINT" 1
      "all" 0 0) =
      ⟨(runOps (Voltage_Ops 4 quietBus true voltageTable Voltage_Cmd.GETVOLTAGE 1 "VCCINT" 1
        "all" 0 0)).Ret,
       (runOps (Voltage_Ops 4 quietBus true voltageTable Voltage_Cmd.GETVOLTAGE 1 "VCCINT" 1
        "all" 0 0)).trace⟩ := rfl
  rw [e, h.1, h.2.1]
  have hs : ¬ ("IR35215" = "IR38164") := by decide
  simp [getSequence, prologue, plainRegulator, hs]

/-! ## The walk of `FMC_Vadj_Range` -/

theorem Vadj_loop_other_type (In_Buffer : List Nat) (fuel o : Nat) (ho : o < In_Buffer.length)
    (ht : byteAt In_Buffer o ≠ 0x2) :
    (Vadj_loop In_Buffer (fuel + 1) o).res = Res.ok (o, 0) := by
  unfold Vadj_loop
  simp only [Dec.bind_eq, Dec.bind_res, rd_res In_Buffer o ho, ht, if_false, Dec.pure_res]

theorem Vadj_loop_last (In_Buffer : List Nat) (fuel o : Nat) (ho : o + 1 < In_Buffer.length)
    (ht : byteAt In_Buffer o = 0x2) (hl : byteAt In_Buffer (o + 1) &&& 0x80 = 0x80) :
    (Vadj_loop In_Buffer (fuel + 1) o).res = Res.ok (o, 0) := by
  unfold Vadj_loop
  simp only [Dec.bind_eq, Dec.bind_res, rd_res In_Buffer o (by omega),
    rd_res In_Buffer (o + 1) ho, ht, hl, if_true, ne_eq, not_true_eq_false, if_false,
    Dec.pure_res]

theorem Vadj_loop_found (In_Buffer : List Nat) (fuel o : Nat) (ho : o + 5 < In_Buffer.length)
    (ht : byteAt In_Buffer o = 0x2) (hl : byteAt In_Buffer (o + 1) &&& 0x80 = 0)
    (hlt : o < 0xFF) (hn : byteAt In_Buffer (o + 5) = 0) :
    (Vadj_loop In_Buffer (fuel + 1) o).res = Res.ok (o, 1) := by
  unfold Vadj_loop
  simp [Dec.bind_eq, Dec.bind_res, rd_res In_Buffer o (by omega),
    rd_res In_Buffer (o + 1) (by omega), rd_res In_Buffer (o + 5) ho, ht, hl, hlt, hn,
    Dec.pure_res]

theorem Vadj_loop_next (In_Buffer : List Nat) (fuel o : Nat) (ho : o + 5 < In_Buffer.length)
    (hp : passedOver In_Buffer o = true) :
    (Vadj_loop In_Buffer (fuel + 1) o).res =
      (Vadj_loop In_Buffer fuel (o + (5 + byteAt In_Buffer (o + 2)))).res := by
  unfold passedOver at hp
  simp only [Bool.and_eq_true, decide_eq_true_eq] at hp
  obtain ⟨⟨⟨ht, hl⟩, hlt⟩, hn⟩ := hp
  conv_lhs => unfold Vadj_loop
  simp [Dec.bind_eq, Dec.bind_res, rd_res In_Buffer o (by omega),
    rd_res In_Buffer (o + 1) (by omega), rd_res In_Buffer (o + 5) ho,
    rd_res In_Buffer (o + 2) (by omega), ht, hl, hlt, hn, Dec.pure_res]

theorem entryOffset_ge (In_Buffer : List Nat) (i : Nat) :
    ∀ o, o + 5 * i ≤ entryOffset In_Buffer i o := by
  induction i with
  | zero => intro o; exact Nat.le_refl _
  | succ i ih =>
    intro o
    have := ih (o + (5 + byteAt In_Buffer (o + 2)))
    show o + 5 * (i + 1) ≤ entryOffset In_Buffer i (o + (5 + byteAt In_Buffer (o + 2)))
    omega

theorem Vadj_loop_reach (In_Buffer : List Nat) (i : Nat) :
    ∀ fuel o, i ≤ fuel → entryOffset In_Buffer i o < In_Buffer.length →
      (∀ j, j < i → passedOver In_Buffer (entryOffset In_Buffer j o) = true) →
      (Vadj_loop In_Buffer fuel o).res =
        (Vadj_loop In_Buffer (fuel - i) (entryOffset In_Buffer i o)).res := by
  induction i with
  | zero => intro fuel o _ _ _; rfl
  | succ i ih =>
    intro fuel o hf hlen hp
    rcases fuel with _ | fuel
    · omega
    · have h0 := hp 0 (by omega)
      have hge := entryOffset_ge In_Buffer i (o + (5 + byteAt In_Buffer (o + 2)))
      have hlen2 : entryOffset In_Buffer i (o + (5 + byteAt In_Buffer (o + 2))) <
          In_Buffer.length := hlen
      rw [Vadj_loop_next In_Buffer fuel o (by omega) h0,
        ih fuel (o + (5 + byteAt In_Buffer (o + 2))) (by omega) hlen2
          (fun j hj => hp (j + 1) (by omega))]
      have e : fuel + 1 - (i + 1) = fuel - i := by omega
      rw [e]
      rfl

theorem fuel_bound (In_Buffer : List Nat) (i o : Nat)
    (hp : ∀ j, j < i → passedOver In_Buffer (entryOffset In_Buffer j o) = true) : i < 256 := by
  by_contra hc
  have h := hp 255 (by omega)
  unfold passedOver at h
  simp only [Bool.and_eq_true, decide_eq_true_eq] at h
  have := entryOffset_ge In_Buffer 255 o
  omega


theorem le_bytes (b8 b9 : Nat) (h8 : b8 < 256) : b9 <<< 8 ||| b8 = b8 + 256 * b9 := by
  rw [Nat.shiftLeft_eq, Nat.mul_comm, Nat.add_comm]
  exact (Nat.mul_add_lt_is_or (i := 8) (by simpa using h8) b9).symm

theorem Vadj_walk_loop (In_Buffer : List Nat) (i : Nat)
    (hlen : entryOffset In_Buffer i (byteAt In_Buffer 5 * 8) < In_Buffer.length)
    (hp : ∀ j, j < i →
      passedOver In_Buffer (entryOffset In_Buffer j (byteAt In_Buffer 5 * 8)) = true) :
    ∃ fuel, (Vadj_loop In_Buffer 256 (byteAt In_Buffer 5 * 8)).res =
      (Vadj_loop In_Buffer (fuel + 1) (entryOffset In_Buffer i (byteAt In_Buffer 5 * 8))).res := by
  have hi := fuel_bound In_Buffer i _ hp
  refine ⟨255 - i, ?_⟩
  rw [Vadj_loop_reach In_Buffer i 256 _ (by omega) hlen hp]
  have e : 256 - i = 255 - i + 1 := by omega
  rw [e]

theorem Vadj_walk_found (In_Buffer : List Nat) (i : Nat) (h5 : 5 < In_Buffer.length)
    (hp : ∀ j, j < i →
      passedOver In_Buffer (entryOffset In_Buffer j (byteAt In_Buffer 5 * 8)) = true)
    (hlen : entryOffset In_Buffer i (byteAt In_Buffer 5 * 8) + 11 < In_Buffer.length)
    (ht : byteAt In_Buffer (entryOffset In_Buffer i (byteAt In_Buffer 5 * 8)) = 0x2)
    (hl : byteAt In_Buffer (entryOffset In_Buffer i (byteAt In_Buffer 5 * 8) + 1) &&& 0x80 = 0)
    (hlt : entryOffset In_Buffer i (byteAt In_Buffer 5 * 8) < 0xFF)
    (hn : byteAt In_Buffer (entryOffset In_Buffer i (byteAt In_Buffer 5 * 8) + 5) = 0)
    (hb : ∀ k, byteAt In_Buffer k < 256) :
    (Vadj_walk In_Buffer).res =
      Res.ok (centivolts In_Buffer (entryOffset In_Buffer i (byteAt In_Buffer 5 * 8) + 8),
        centivolts In_Buffer (entryOffset In_Buffer i (byteAt In_Buffer 5 * 8) + 10)) := by
  obtain ⟨fuel, hloop⟩ := Vadj_walk_loop In_Buffer i (by omega) hp
  rw [Vadj_loop_found In_Buffer fuel _ (by omega) ht hl hlt hn] at hloop
  generalize entryOffset In_Buffer i (byteAt In_Buffer 5 * 8) = o at *
  unfold Vadj_walk centivolts
  simp only [Dec.bind_eq, Dec.bind_res, rd_res In_Buffer 5 h5, hloop, if_true, Dec.pure_res,
    rd_res In_Buffer (o + 8) (by omega), rd_res In_Buffer (o + 9) (by omega),
    rd_res In_Buffer (o + 10) (by omega), rd_res In_Buffer (o + 11) (by omega),
    le_bytes _ _ (hb _)]

theorem Vadj_walk_not_found (In_Buffer : List Nat) (i : Nat) (h5 : 5 < In_Buffer.length)
    (hp : ∀ j, j < i →
      passedOver In_Buffer (entryOffset In_Buffer j (byteAt In_Buffer 5 * 8)) = true)
    (hlen : entryOffset In_Buffer i (byteAt In_Buffer 5 * 8) + 1 < In_Buffer.length)
    (hend : byteAt In_Buffer (entryOffset In_Buffer i (byteAt In_Buffer 5 * 8)) ≠ 0x2 ∨
      byteAt In_Buffer (entryOffset In_Buffer i (byteAt In_Buffer 5 * 8) + 1) &&& 0x80 = 0x80) :
    (Vadj_walk In_Buffer).res = Res.ok (0, 0) := by
  obtain ⟨fuel, hloop⟩ := Vadj_walk_loop In_Buffer i (by omega) hp
  have hstop : (Vadj_loop In_Buffer (fuel + 1)
      (entryOffset In_Buffer i (byteAt In_Buffer 5 * 8))).res =
      Res.ok (entryOffset In_Buffer i (byteAt In_Buffer 5 * 8), 0) := by
    by_cases ht : byteAt In_Buffer (entryOffset In_Buffer i (byteAt In_Buffer 5 * 8)) = 0x2
    · rcases hend with h | h
      · exact absurd ht h
      · exact Vadj_loop_last In_Buffer fuel _ hlen ht h
    · exact Vadj_loop_other_type In_Buffer fuel _ (by omega) ht
  rw [hstop] at hloop
  unfold Vadj_walk
  simp [Dec.bind_eq, Dec.bind_res, rd_res In_Buffer 5 h5, hloop, Dec.pure_res]

theorem fmcImage_length (SYSCMD_MAX : Nat) (bus : Bus) :
    (fmcImage SYSCMD_MAX bus).length = SYSCMD_MAX := by
  simp [fmcImage]

theorem fmcImage_byte (SYSCMD_MAX : Nat) (bus : Bus) (k : Nat) :
    byteAt (fmcImage SYSCMD_MAX bus) k =
      if k < SYSCMD_MAX ∧ k < 0xFF then bus.In 0 k % 256 else 0 := by
  unfold byteAt fmcImage bytesRead
  rw [List.getD_eq_getElem?_getD]
  by_cases h : k < SYSCMD_MAX
  · rw [List.getElem?_eq_getElem (by simpa using h)]
    simp [h]
  · rw [List.getElem?_eq_none (by simpa using h)]
    simp [h]

theorem fmcImage_byte_lt (SYSCMD_MAX : Nat) (bus : Bus) (k : Nat) :
    byteAt (fmcImage SYSCMD_MAX bus) k < 256 := by
  rw [fmcImage_byte]
  split_ifs
  · exact Nat.mod_lt _ (by omega)
  · omega

theorem FMC_Vadj_Range_result (SYSCMD_MAX : Nat) (bus : Bus) (I2C_Address : Nat)
    (Min_Voltage Max_Voltage : ℚ) (hb : bus.openOk = true) (hr : bus.Ret 0 = 0) :
    (FMC_Vadj_Range SYSCMD_MAX bus I2C_Address Min_Voltage Max_Voltage ⟨0, []⟩).1 =
      match (Vadj_walk (fmcImage SYSCMD_MAX bus)).res with
      | Res.ok (Min, Max) =>
        ⟨Status.returned 0, Min, Max, (Vadj_walk (fmcImage SYSCMD_MAX bus)).reads⟩
      | Res.stop s => ⟨s, Min_Voltage, Max_Voltage, (Vadj_walk (fmcImage SYSCMD_MAX bus)).reads⟩ := by
  have hI : (fun j => if j < 255 then bus.In 0 j % 256 else 0) = bytesRead bus 0 0xFF := by
    funext j
    rfl
  unfold fmcImage
  simp only [FMC_Vadj_Range, hb, hr, pure, bind, emit, I2C_READ, sent]
  simp only [Bool.true_eq_false, if_false, ne_eq, not_true_eq_false, hI]
  generalize Vadj_walk _ = w
  rcases w with ⟨res, reads, out⟩
  rcases res with ⟨mn, mx⟩ | s <;> simp [hr]

theorem Vadj_walk_reads (In_Buffer : List Nat) (h5 : 5 < In_Buffer.length) :
    (Vadj_walk In_Buffer).reads.take 2 = [5, byteAt In_Buffer 5 * 8] ∧
    (In_Buffer.length ≤ byteAt In_Buffer 5 * 8 →
      (Vadj_walk In_Buffer).res = Res.stop (Status.fault (byteAt In_Buffer 5 * 8))) := by
  unfold Vadj_walk
  have hl : ∀ o, ∃ rest, (Vadj_loop In_Buffer 256 o).reads = o :: rest := by
    intro o
    unfold Vadj_loop
    simp only [Dec.bind_eq, Dec.bind_reads, rd_reads]
    cases (rd In_Buffer o).res with
    | ok a => exact ⟨_, rfl⟩
    | stop s => exact ⟨_, rfl⟩
  obtain ⟨rest, hrest⟩ := hl (byteAt In_Buffer 5 * 8)
  constructor
  · simp only [Dec.bind_eq, Dec.bind_reads, rd_reads, rd_res In_Buffer 5 h5, hrest]
    cases (Vadj_loop In_Buffer 256 (byteAt In_Buffer 5 * 8)).res with
    | ok a => rfl
    | stop s => rfl
  · intro hout
    have hf : (Vadj_loop In_Buffer 256 (byteAt In_Buffer 5 * 8)).res =
        Res.stop (Status.fault (byteAt In_Buffer 5 * 8)) := by
      unfold Vadj_loop
      simp only [Dec.bind_eq, Dec.bind_res, rd_res_fault In_Buffer _ hout]
    simp only [Dec.bind_eq, Dec.bind_res, rd_res In_Buffer 5 h5, hf]


/-- C28, the code against the claim: with the bus open and the read succeeding, let the
walk pass over `i` DC Load records (type `0x02`, Format top bit clear, offset below `0xFF`,
Output Number other than 0) and reach a DC Load record at offset `o`.  If that record has
Output Number 0, its Format top bit clear and `o < 0xFF`, the call returns 0 with the
little-endian words at `o + 8` and `o + 10` divided by 100.  If its Format top bit is set
(it is the last record of the chain), the call returns 0 with both voltages 0 whatever its
Output Number is: a Vadj record that is the last record of the chain is not found. -/
theorem FMC_Vadj_Range_misses_last_record (SYSCMD_MAX : Nat) (bus : Bus) (I2C_Address : Nat)
    (Min_Voltage Max_Voltage : ℚ) (i : Nat)
    (hopen : bus.openOk = true) (hret : bus.Ret 0 = 0) (h5 : 5 < SYSCMD_MAX)
    (hp : ∀ j, j < i → passedOver (fmcImage SYSCMD_MAX bus)
      (entryOffset (fmcImage SYSCMD_MAX bus) j (byteAt (fmcImage SYSCMD_MAX bus) 5 * 8)) = true)
    (ht : byteAt (fmcImage SYSCMD_MAX bus)
      (entryOffset (fmcImage SYSCMD_MAX bus) i (byteAt (fmcImage SYSCMD_MAX bus) 5 * 8)) = 0x02)
    (hlen : entryOffset (fmcImage SYSCMD_MAX bus) i (byteAt (fmcImage SYSCMD_MAX bus) 5 * 8) + 11 <
      SYSCMD_MAX) :
    (byteAt (fmcImage SYSCMD_MAX bus)
        (entryOffset (fmcImage SYSCMD_MAX bus) i (byteAt (fmcImage SYSCMD_MAX bus) 5 * 8) + 5) = 0 →
      byteAt (fmcImage SYSCMD_MAX bus)
        (entryOffset (fmcImage SYSCMD_MAX bus) i (byteAt (fmcImage SYSCMD_MAX bus) 5 * 8) + 1) &&&
          0x80 = 0 →
      entryOffset (fmcImage SYSCMD_MAX bus) i (byteAt (fmcImage SYSCMD_MAX bus) 5 * 8) < 0xFF →
      (FMC_Vadj_Range SYSCMD_MAX bus I2C_Address Min_Voltage Max_Voltage ⟨0, []⟩).1.status =
        Status.returned 0 ∧
      (FMC_Vadj_Range SYSCMD_MAX bus I2C_Address Min_Voltage Max_Voltage ⟨0, []⟩).1.Min_Voltage =
        centivolts (fmcImage SYSCMD_MAX bus)
          (entryOffset (fmcImage SYSCMD_MAX bus) i (byteAt (fmcImage SYSCMD_MAX bus) 5 * 8) + 8) ∧
      (FMC_Vadj_Range SYSCMD_MAX bus I2C_Address Min_Voltage Max_Voltage ⟨0, []⟩).1.Max_Voltage =
        centivolts (fmcImage SYSCMD_MAX bus)
          (entryOffset (fmcImage SYSCMD_MAX bus) i (byteAt (fmcImage SYSCMD_MAX bus) 5 * 8) + 10)) ∧
    (byteAt (fmcImage SYSCMD_MAX bus)
        (entryOffset (fmcImage SYSCMD_MAX bus) i (byteAt (fmcImage SYSCMD_MAX bus) 5 * 8) + 1) &&&
          0x80 = 0x80 →
      (FMC_Vadj_Range SYSCMD_MAX bus I2C_Address Min_Voltage Max_Voltage ⟨0, []⟩).1.status =
        Status.returned 0 ∧
      (FMC_Vadj_Range SYSCMD_MAX bus I2C_Address Min_Voltage Max_Voltage ⟨0, []⟩).1.Min_Voltage =
        0 ∧
      (FMC_Vadj_Range SYSCMD_MAX bus I2C_Address Min_Voltage Max_Voltage ⟨0, []⟩).1.Max_Voltage =
        0) := by
  have hL := fmcImage_length SYSCMD_MAX bus
  rw [FMC_Vadj_Range_result SYSCMD_MAX bus I2C_Address Min_Voltage Max_Voltage hopen hret]
  constructor
  · intro hn hl hlt
    rw [Vadj_walk_found (fmcImage SYSCMD_MAX bus) i (by omega) hp (by omega) ht hl hlt hn
      (fmcImage_byte_lt SYSCMD_MAX bus)]
    exact ⟨rfl, rfl, rfl⟩
  · intro hl
    rw [Vadj_walk_not_found (fmcImage SYSCMD_MAX bus) i (by omega) hp (by omega) (Or.inr hl)]
    exact ⟨rfl, rfl, rfl⟩

/-- C28 at a concrete input: the multirecord area is one DC Load record with Output
Number 0, minimum `0x0078` and maximum `0x00B4`, flagged as the last record; the call
returns 0 V for both instead of 1.20 V and 1.80 V. -/
theorem FMC_Vadj_Range_misses_last_record_witness :
    byteAt (fmcImage 256 (busOf fmcLastVadj)) (16 + 5) = 0 ∧
    centivolts (fmcImage 256 (busOf fmcLastVadj)) (16 + 8) = 6 / 5 ∧
    centivolts (fmcImage 256 (busOf fmcLastVadj)) (16 + 10) = 9 / 5 ∧
    (FMC_Vadj_Range 256 (busOf fmcLastVadj) 0x50 7 7 ⟨0, []⟩).1.status = Status.returned 0 ∧
    (FMC_Vadj_Range 256 (busOf fmcLastVadj) 0x50 7 7 ⟨0, []⟩).1.Min_Voltage = 0 ∧
    (FMC_Vadj_Range 256 (busOf fmcLastVadj) 0x50 7 7 ⟨0, []⟩).1.Max_Voltage = 0 := by
  have h := (FMC_Vadj_Range_misses_last_record 256 (busOf fmcLastVadj) 0x50 7 7 0 rfl rfl
    (by decide) (fun j hj => absurd hj (Nat.not_lt_zero j)) (by decide) (by decide)).2
    (by decide)
  have h24 : byteAt (fmcImage 256 (busOf fmcLastVadj)) (16 + 8) = 0x78 := by decide
  have h25 : byteAt (fmcImage 256 (busOf fmcLastVadj)) (16 + 8 + 1) = 0 := by decide
  have h26 : byteAt (fmcImage 256 (busOf fmcLastVadj)) (16 + 10) = 0xB4 := by decide
  have h27 : byteAt (fmcImage 256 (busOf fmcLastVadj)) (16 + 10 + 1) = 0 := by decide
  refine ⟨by decide, ?_, ?_, h⟩
  · unfold centivolts
    rw [h24, h25]
    norm_num
  · unfold centivolts
    rw [h26, h27]
    norm_num

/-- C29, the code against the claim: with the bus open and the read succeeding, the
second index read is `In_Buffer[5] * 8`, whatever it is: it is not compared with `0xFF`
before `In_Buffer[Offset]` is read, so that for `In_Buffer[5] >= 0x20` the index is 256 or
more, and when it is not below `SYSCMD_MAX` the read is outside the array. -/
theorem FMC_Vadj_Range_reads_past_data (SYSCMD_MAX : Nat) (bus : Bus) (I2C_Address : Nat)
    (Min_Voltage Max_Voltage : ℚ)
    (hopen : bus.openOk = true) (hret : bus.Ret 0 = 0) (h5 : 5 < SYSCMD_MAX) :
    (FMC_Vadj_Range SYSCMD_MAX bus I2C_Address Min_Voltage Max_Voltage ⟨0, []⟩).1.reads.take 2 =
      [5, bus.In 0 5 % 256 * 8] ∧
    (0x20 ≤ bus.In 0 5 % 256 → 0xFF < bus.In 0 5 % 256 * 8) ∧
    (SYSCMD_MAX ≤ bus.In 0 5 % 256 * 8 →
      (FMC_Vadj_Range SYSCMD_MAX bus I2C_Address Min_Voltage Max_Voltage ⟨0, []⟩).1.status =
        Status.fault (bus.In 0 5 % 256 * 8)) := by
  have hL := fmcImage_length SYSCMD_MAX bus
  have hb5 : byteAt (fmcImage SYSCMD_MAX bus) 5 = bus.In 0 5 % 256 := by
    rw [fmcImage_byte, if_pos ⟨h5, by omega⟩]
  obtain ⟨hreads, hfault⟩ := Vadj_walk_reads (fmcImage SYSCMD_MAX bus) (by omega)
  rw [hb5] at hreads hfault
  rw [FMC_Vadj_Range_result SYSCMD_MAX bus I2C_Address Min_Voltage Max_Voltage hopen hret]
  refine ⟨?_, fun h => by omega, ?_⟩
  · cases hres : (Vadj_walk (fmcImage SYSCMD_MAX bus)).res with
    | ok a => exact hreads
    | stop s => exact hreads
  · intro hout
    rw [hfault (by omega)]

/-- C29 at concrete inputs: with `In_Buffer[5] = 0x20` the byte at index 256 is read, which
is outside an array of 256 bytes; with a Vadj record at `0xF8` the voltage bytes are read
at the indices 256 to 259, which no byte of the EEPROM has reached. -/
theorem FMC_Vadj_Range_reads_past_data_witness :
    (FMC_Vadj_Range 256 (busOf fmcFarOffset) 0x50 7 7 ⟨0, []⟩).1.reads.take 2 = [5, 256] ∧
    (FMC_Vadj_Range 256 (busOf fmcFarOffset) 0x50 7 7 ⟨0, []⟩).1.status = Status.fault 256 ∧
    (FMC_Vadj_Range 300 (busOf fmcEdgeRecord) 0x50 7 7 ⟨0, []⟩).1.reads =
      [5, 248, 249, 253, 256, 257, 258, 259] ∧
    (FMC_Vadj_Range 300 (busOf fmcEdgeRecord) 0x50 7 7 ⟨0, []⟩).1.status =
      Status.returned 0 := by
  have h := FMC_Vadj_Range_reads_past_data 256 (busOf fmcFarOffset) 0x50 7 7 rfl rfl
    (by decide)
  exact ⟨h.1, h.2.2 (by decide), by decide, by decide⟩

/-! ## A regulator without supported voltages -/

theorem Supported_scan_empty (SV : Nat → ℚ) (v : ℚ) (n : Nat) (h : SV 0 = -1) :
    Supported_scan SV v n 0 = false := by
  cases n with
  | zero => rfl
  | succ n => simp [Supported_scan, h]

theorem Access_Regulator_rejected (ITEMS_MAX : Nat) (bus : Bus) (Regulator : Voltage_t)
    (Voltage : ℚ) (s : RegState)
    (h : Supported_scan Regulator.Supported_Volt Voltage ITEMS_MAX 0 = false) :
    Access_Regulator ITEMS_MAX bus Regulator Voltage 1 s = ((-1, FloatVal.finite Voltage), s) := by
  simp [Access_Regulator, h, pure, bind]

theorem Voltage_Ops_set_rejected (ITEMS_MAX : Nat) (bus : Bus) (fopenOk : Bool)
    (Voltages : List Voltage_entry) (Entry : Voltage_entry) (CmdId : Voltage_Cmd) (T_Flag : Int)
    (Target_Arg : String) (V_Flag : Int) (Value_Arg : String) (strtof Voltage0 : ℚ)
    (hcmd : CmdId = Voltage_Cmd.SETVOLTAGE ∨ CmdId = Voltage_Cmd.SETBOOTVOLTAGE ∨
      CmdId = Voltage_Cmd.RESTOREVOLTAGE)
    (hfind : Voltages.find? (fun V => decide (V.Name = Target_Arg)) = some Entry)
    (hempty : Entry.Regulator.Supported_Volt 0 = -1) :
    runOps (Voltage_Ops ITEMS_MAX bus fopenOk Voltages CmdId T_Flag Target_Arg V_Flag Value_Arg
      strtof Voltage0) = ⟨-1, []⟩ := by
  have h1 := Supported_scan_empty Entry.Regulator.Supported_Volt strtof ITEMS_MAX hempty
  have h2 := Supported_scan_empty Entry.Regulator.Supported_Volt Entry.Typical_Volt ITEMS_MAX
    hempty
  by_cases hT : T_Flag = 0 <;> by_cases hV : V_Flag = 0 <;>
    rcases hcmd with hc | hc | hc <;> subst hc <;>
    simp [runOps, Voltage_Ops, hT, hV, hfind, pure, bind, Access_Regulator_rejected, h1, h2]

/-- C30: a regulator whose list of supported voltages is empty (`Supported_Volt[0]` is the
terminator -1) refuses every voltage change: `Access_Regulator` with `Access = 1` returns
-1 for every target voltage without opening the bus or issuing a transaction, and so the
commands `setvoltage`, `setbootvoltage` and `restorevoltage` on that regulator return -1
without a transaction and without touching the file of boot voltages. -/
theorem Access_Regulator_empty_list_refuses (ITEMS_MAX : Nat) (bus : Bus) (fopenOk : Bool)
    (Voltages : List Voltage_entry) (Entry : Voltage_entry) (T_Flag : Int)
    (Target_Arg : String) (V_Flag : Int) (Value_Arg : String) (strtof Voltage0 : ℚ)
    (hfind : Voltages.find? (fun V => decide (V.Name = Target_Arg)) = some Entry)
    (hempty : Entry.Regulator.Supported_Volt 0 = -1) :
    (∀ Voltage, (runRegulator ITEMS_MAX bus Entry.Regulator Voltage 1).Ret = -1 ∧
      (runRegulator ITEMS_MAX bus Entry.Regulator Voltage 1).trace = [] ∧
      (runRegulator ITEMS_MAX bus Entry.Regulator Voltage 1).Voltage = Voltage) ∧
    runOps (Voltage_Ops ITEMS_MAX bus fopenOk Voltages Voltage_Cmd.SETVOLTAGE T_Flag Target_Arg
      V_Flag Value_Arg strtof Voltage0) = ⟨-1, []⟩ ∧
    runOps (Voltage_Ops ITEMS_MAX bus fopenOk Voltages Voltage_Cmd.SETBOOTVOLTAGE T_Flag
      Target_Arg V_Flag Value_Arg strtof Voltage0) = ⟨-1, []⟩ ∧
    runOps (Voltage_Ops ITEMS_MAX bus fopenOk Voltages Voltage_Cmd.RESTOREVOLTAGE T_Flag
      Target_Arg V_Flag Value_Arg strtof Voltage0) = ⟨-1, []⟩ := by
  refine ⟨?_, ?_, ?_, ?_⟩
  · intro Voltage
    have h := Supported_scan_empty Entry.Regulator.Supported_Volt Voltage ITEMS_MAX hempty
    simp [runRegulator, Access_Regulator_rejected, h]
  · exact Voltage_Ops_set_rejected ITEMS_MAX bus fopenOk Voltages Entry _ T_Flag Target_Arg
      V_Flag Value_Arg strtof Voltage0 (Or.inl rfl) hfind hempty
  · exact Voltage_Ops_set_rejected ITEMS_MAX bus fopenOk Voltages Entry _ T_Flag Target_Arg
      V_Flag Value_Arg strtof Voltage0 (Or.inr (Or.inl rfl)) hfind hempty
  · exact Voltage_Ops_set_rejected ITEMS_MAX bus fopenOk Voltages Entry _ T_Flag Target_Arg
      V_Flag Value_Arg strtof Voltage0 (Or.inr (Or.inr rfl)) hfind hempty

/-- C30 at a concrete input: the regulator `VADJ` of the table has no supported voltage;
on a bus where everything would succeed, `setvoltage VADJ 1.0` returns -1 with an empty
trace. -/
theorem Access_Regulator_empty_list_refuses_witness :
    runOps (Voltage_Ops 4 quietBus true voltageTable Voltage_Cmd.SETVOLTAGE 1 "VADJ" 1 "1.0" 1
      0) = ⟨-1, []⟩ ∧
    (runRegulator 4 quietBus ⟨33, "IR38164", -1, fun _ => -1⟩ 1 1).trace = [] :=
  have h := Access_Regulator_empty_list_refuses 4 quietBus true voltageTable
    ⟨"VADJ", 1, ⟨33, "IR38164", -1, fun _ => -1⟩⟩ 1 "VADJ" 1 "1.0" 1 0 rfl rfl
  ⟨h.2.1, (h.1 1).2.1⟩

end SystemController
